import Mathlib

/-!
Connect-4 engine (`c4.c`): shallow embedding and verified properties.

The C program keeps one global game: the static description of the board
(`size_x`, `size_y`, `num_to_connect`, `win_places`, `map`, `drop_order`,
`magic_win_number`) and a stack of `Game_state` snapshots addressed by `depth`.
Here the globals are the fields of the structure `Game`; every C function that
works on `current_state` becomes a function on `Game`, built from a function on
one `Game_state`.

Conventions of the embedding
* board sizes, columns, rows, line ids, players and cell contents are `Nat`;
* the C `int` values that hold scores and search values are `Int`, and every
  arithmetic result stored in such an `int` is normalised by `wrap32`
  (32-bit two's complement wrap-around);
* the count of the shift `1 << num_to_connect` is taken modulo 32, as the shift
  instruction of the machine takes it (`1 << 32` is `1`, `1 << 33` is `2`), and
  `1 << 31` is `INT_MIN`;
* a C array is a `List`, read with `rd`/`rd2` and written with `wr`/`wr2`;
* `printf` output and the poll callback (a side-effect-only observer, `NULL` by
  default) are not part of the model.
-/

namespace C4

/-! ## Constants and macros -/

/-- Modelled from the spec: the header `c4.h` is not part of the sources; `C4_NONE`
is the cell / winner value that is neither player 0 nor player 1. -/
def C4_NONE : Nat := 2

/-- Modelled from the spec: the header `c4.h` is not part of the sources;
`C4_MAX_LEVEL` is the implementation-defined maximum search depth. -/
def C4_MAX_LEVEL : Nat := 20

/-- The constant `INT_MAX` of a 32-bit `int`. -/
def INT_MAX : Int := 2147483647

/-- The value a 32-bit `int` holds after an arithmetic result `z`
(two's complement wrap-around). -/
def wrap32 (z : Int) : Int := Int.bmod z 4294967296

/-- The macro `other(x)`, `(x) ^ 1`. -/
def other (x : Nat) : Nat := x ^^^ 1

/-- The macro `real_player(x)`, `(x) & 1`, on a two's complement `int`. -/
def real_player (x : Int) : Nat := (x % 2).toNat

/-! ## Arrays -/

/-- Read `a[i]`. -/
def rd {α : Type} (d : α) (a : List α) (i : Nat) : α := a.getD i d

/-- Write `a[i] = v`. -/
def wr {α : Type} (a : List α) (i : Nat) (v : α) : List α := a.set i v

/-- Read `a[x][y]`. -/
def rd2 {α : Type} (d : α) (a : List (List α)) (x y : Nat) : α := (a.getD x []).getD y d

/-- Write `a[x][y] = v`. -/
def wr2 {α : Type} (a : List (List α)) (x y : Nat) (v : α) : List (List α) :=
  a.set x ((a.getD x []).set y v)

/-! ## The state of a game -/

/-- The C struct `Game_state`. -/
structure Game_state where
  /-- The cell `board[x][y]` of column `x` and row `y` is `0`, `1` or `C4_NONE`. -/
  board : List (List Nat)
  /-- The arrays `score_array[0]` and `score_array[1]`. -/
  score_array : List (List Int)
  /-- The values `score[0]` and `score[1]`. -/
  score : List Int
  /-- Either `0`, `1` or `C4_NONE`. -/
  winner : Nat
  /-- The number of pieces on the board. -/
  num_of_pieces : Nat
  deriving DecidableEq, Repr, Inhabited

/-- The static global variables of `c4.c`. -/
structure Game where
  size_x : Nat
  size_y : Nat
  total_size : Nat
  num_to_connect : Nat
  win_places : Nat
  /-- The list `map[x][y]` of line ids through a cell (the `-1` terminator is left out). -/
  map : List (List (List Nat))
  magic_win_number : Int
  game_in_progress : Bool
  move_in_progress : Bool
  /-- The allocated slots of `state_stack`; its length is `states_allocated`. -/
  state_stack : List Game_state
  depth : Nat
  drop_order : List Nat
  deriving DecidableEq, Repr, Inhabited

/-- The pointer `current_state`, always `&state_stack[depth]`. -/
def current_state (g : Game) : Game_state := rd default g.state_stack g.depth

/-- Store `s` in the slot `current_state` points to. -/
def set_current (g : Game) (s : Game_state) : Game :=
  { g with state_stack := wr g.state_stack g.depth s }

/-! ## Scoring -/

/-- The local variables of `update_score` that its loop changes, with the state. -/
structure Score_loop where
  this_difference : Int
  other_difference : Int
  state : Game_state
  deriving DecidableEq, Repr

/-- One pass through the body of the loop of `update_score`, for line id `win_index`. -/
def update_score_body (magic_win_number : Int) (player : Nat) (l : Score_loop)
    (win_index : Nat) : Score_loop :=
  let sa := l.state.score_array
  let this_difference := wrap32 (l.this_difference + rd2 0 sa player win_index)
  let other_difference := wrap32 (l.other_difference + rd2 0 sa (other player) win_index)
  let sa1 := wr2 sa player win_index (wrap32 (2 * rd2 0 sa player win_index))
  let sa2 := wr2 sa1 (other player) win_index 0
  let winner :=
    if rd2 0 sa2 player win_index = magic_win_number then
      if l.state.winner = C4_NONE then player else l.state.winner
    else l.state.winner
  { this_difference := this_difference, other_difference := other_difference,
    state := { l.state with score_array := sa2, winner := winner } }

/-- The function `update_score(player, x, y)` on the state `s`. -/
def update_score_on (g : Game) (s : Game_state) (player x y : Nat) : Game_state :=
  let l := (rd2 [] g.map x y).foldl (update_score_body g.magic_win_number player)
    { this_difference := 0, other_difference := 0, state := s }
  let score1 := wr l.state.score player (wrap32 (rd 0 l.state.score player + l.this_difference))
  let score2 := wr score1 (other player)
    (wrap32 (rd 0 score1 (other player) - l.other_difference))
  { l.state with score := score2 }

/-- The loop `while (board[column][y] != C4_NONE && ++y < size_y);` of `drop_piece`,
started at row `y`; `fuel` bounds the number of passes. -/
def drop_row (col : List Nat) (size_y : Nat) : Nat → Nat → Nat
  | 0, y => y
  | fuel + 1, y =>
    if rd C4_NONE col y ≠ C4_NONE then
      if y + 1 < size_y then drop_row col size_y fuel (y + 1) else y + 1
    else y

/-- The function `drop_piece(player, column)` on the state `s`: the returned row
(or `-1`) and the new state. -/
def drop_piece_on (g : Game) (s : Game_state) (player column : Nat) : Int × Game_state :=
  let y := drop_row (rd [] s.board column) g.size_y g.size_y 0
  if y = g.size_y then (-1, s)
  else
    let s1 := { s with board := wr2 s.board column y player,
                       num_of_pieces := s.num_of_pieces + 1 }
    ((y : Int), update_score_on g s1 player column y)

/-- The function `drop_piece(player, column)`, acting on the current state. -/
def drop_piece (g : Game) (player column : Nat) : Int × Game :=
  let r := drop_piece_on g (current_state g) player column
  (r.1, set_current g r.2)

/-- The function `update_score(player, x, y)`, acting on the current state. -/
def update_score (g : Game) (player x y : Nat) : Game :=
  set_current g (update_score_on g (current_state g) player x y)

/-! ## The state stack -/

/-- The function `push_state()`: the current state is copied into the next slot,
which is allocated on first use, and becomes the current state. -/
def push_state (g : Game) : Game :=
  let old_state := rd default g.state_stack g.depth
  let depth := g.depth + 1
  let new_state : Game_state :=
    { board := old_state.board, score_array := old_state.score_array,
      score := old_state.score, winner := old_state.winner,
      num_of_pieces := old_state.num_of_pieces }
  { g with
    depth := depth
    state_stack :=
      if depth = g.state_stack.length then g.state_stack ++ [new_state]
      else wr g.state_stack depth new_state }

/-- The macro `pop_state()`. -/
def pop_state (g : Game) : Game := { g with depth := g.depth - 1 }

/-! ## Setting up a game -/

/-- The function `num_of_win_places(x, y, n)`, with the exact value of its
expressions. `c4_new_game` is defined only when this value is an `int`. -/
def num_of_win_places (x y n : Int) : Int :=
  if x < n ∧ y < n then 0
  else if x < n then x * ((y - n) + 1)
  else if y < n then y * ((x - n) + 1)
  else 4 * x * y - 3 * x * n - 3 * y * n + 3 * x + 3 * y - 4 * n + 2 * n * n + 2

/-- The function `num_of_win_places(x, y, n)` as the machine computes it: the result of
every operation is an `int`. -/
def num_of_win_places_int (x y n : Int) : Int :=
  if x < n ∧ y < n then 0
  else if x < n then wrap32 (x * wrap32 (wrap32 (y - n) + 1))
  else if y < n then wrap32 (y * wrap32 (wrap32 (x - n) + 1))
  else
    wrap32 (wrap32 (wrap32 (wrap32 (wrap32 (wrap32 (wrap32 (wrap32 (wrap32 (4 * x) * y) -
      wrap32 (wrap32 (3 * x) * n)) - wrap32 (wrap32 (3 * y) * n)) + wrap32 (3 * x)) +
      wrap32 (3 * y)) - wrap32 (4 * n)) + wrap32 (wrap32 (2 * n) * n)) + 2)

/-- The cells `map[j + k][i]`, `k < num`, of the horizontal line started at column `j`
of row `i`. -/
def horizontal_line (num i j : Nat) : List (Nat × Nat) :=
  (List.range num).map fun k => (j + k, i)

/-- The cells `map[i][j + k]`, `k < num`, of the vertical line started at row `j` of
column `i`. -/
def vertical_line (num i j : Nat) : List (Nat × Nat) :=
  (List.range num).map fun k => (i, j + k)

/-- The cells `map[j + k][i + k]`, `k < num`, of a forward diagonal. -/
def forward_line (num i j : Nat) : List (Nat × Nat) :=
  (List.range num).map fun k => (j + k, i + k)

/-- The cells `map[j - k][i + k]`, `k < num`, of a backward diagonal. -/
def backward_line (num i j : Nat) : List (Nat × Nat) :=
  (List.range num).map fun k => (j - k, i + k)

/-- The lines in the order in which the four passes of `c4_new_game` number them:
the loop `for (j = 0; j < size - num + 1; j++)` runs `size + 1 - num` times, and
the loop `for (j = size_x - 1; j >= num - 1; j--)` visits `size_x - 1 - t`. -/
def win_lines (size_x size_y num : Nat) : List (List (Nat × Nat)) :=
  ((List.range size_y).flatMap fun i =>
      (List.range (size_x + 1 - num)).map fun j => horizontal_line num i j) ++
  ((List.range size_x).flatMap fun i =>
      (List.range (size_y + 1 - num)).map fun j => vertical_line num i j) ++
  ((List.range (size_y + 1 - num)).flatMap fun i =>
      (List.range (size_x + 1 - num)).map fun j => forward_line num i j) ++
  ((List.range (size_y + 1 - num)).flatMap fun i =>
      (List.range (size_x + 1 - num)).map fun t => backward_line num i (size_x - 1 - t))

/-- The statements `win_indices[x++] = win_index; win_indices[x] = -1;` for the cell
`c`: the id is appended to the list of the cell. -/
def map_add (map : List (List (List Nat))) (win_index : Nat) (c : Nat × Nat) :
    List (List (List Nat)) :=
  wr2 map c.1 c.2 (rd2 [] map c.1 c.2 ++ [win_index])

/-- The body of the loops that fill the map: the cells of one line get the id
`win_index`, which is then incremented. -/
def map_add_line (st : List (List (List Nat)) × Nat) (line : List (Nat × Nat)) :
    List (List (List Nat)) × Nat :=
  (line.foldl (fun m c => map_add m st.2 c) st.1, st.2 + 1)

/-- The map built by `c4_new_game`, with the final value of `win_index`. -/
def build_map (size_x size_y num : Nat) : List (List (List Nat)) × Nat :=
  (win_lines size_x size_y num).foldl map_add_line
    (List.replicate size_x (List.replicate size_y []), 0)

/-- The loop of `c4_new_game` that fills `drop_order`, from `i` on, `column` being
the C variable of that name. -/
def build_drop_order : Nat → Nat → Int → List Nat
  | 0, _, _ => []
  | fuel + 1, i, column =>
    column.toNat :: build_drop_order fuel (i + 1) (column + (if i % 2 = 1 then (i : Int) else -(i : Int)))

/-- The globals before any game is set up. -/
def no_game : Game :=
  { size_x := 0, size_y := 0, total_size := 0, num_to_connect := 0, win_places := 0,
    map := [], magic_win_number := 0, game_in_progress := false,
    move_in_progress := false, state_stack := [], depth := 0, drop_order := [] }

/-- The body of `c4_new_game(width, height, num)` after its assertions. The value of
`1 << num_to_connect` is the one the compiled program computes: the count of the shift
is taken modulo 32, and the result is an `int`. -/
def setup_game (width height num : Nat) : Game :=
  let win_places := (num_of_win_places width height num).toNat
  { size_x := width
    size_y := height
    total_size := width * height
    num_to_connect := num
    win_places := win_places
    map := (build_map width height num).1
    magic_win_number := wrap32 (2 ^ (num % 32))
    game_in_progress := true
    move_in_progress := false
    state_stack :=
      [{ board := List.replicate width (List.replicate height C4_NONE)
         score_array := [List.replicate win_places 1, List.replicate win_places 1]
         score := [(win_places : Int), (win_places : Int)]
         winner := C4_NONE
         num_of_pieces := 0 }]
    depth := 0
    drop_order := build_drop_order width 1 (((width : Int) - 1) / 2) }

/-- The function `c4_new_game(width, height, num)`, called with the globals `g`. A
failed assertion gives no result; neither does a board so large that `total_size`
or `win_places` is not an `int` (the sizes handed to `emalloc` are then
meaningless). -/
def c4_new_game (g : Game) (width height num : Int) : Option Game :=
  if g.game_in_progress then none
  else if width ≥ 1 ∧ height ≥ 1 ∧ num ≥ 1 then
    if width * height ≤ INT_MAX ∧ num_of_win_places width height num ≤ INT_MAX then
      some (setup_game width.toNat height.toNat num.toNat)
    else none
  else none

/-- The function `c4_end_game()`: the map and all slots are released. -/
def c4_end_game (g : Game) : Option Game :=
  if g.game_in_progress ∧ ¬ g.move_in_progress then
    some { g with map := [], state_stack := [], drop_order := [], game_in_progress := false }
  else none

/-! ## Moves -/

/-- The function `c4_make_move(player, column, row)`: the returned flag, the content
of `*row` afterwards (`none` stands for a `NULL` pointer) and the globals; a failed
assertion gives no result. -/
def c4_make_move (g : Game) (player column : Int) (row : Option Int) :
    Option (Bool × Option Int × Game) :=
  if g.game_in_progress ∧ ¬ g.move_in_progress then
    if column ≥ g.size_x ∨ column < 0 then some (false, row, g)
    else
      let r := drop_piece g (real_player player) column.toNat
      some (decide (r.1 ≥ 0), (if r.1 ≥ 0 then row.map (fun _ => r.1) else row), r.2)
  else none

/-- The macro `goodness_of(player)`. -/
def goodness_of (g : Game) (player : Nat) : Int :=
  wrap32 (rd 0 (current_state g).score player - rd 0 (current_state g).score (other player))

/-- The loop of `evaluate` over the indices `i` of `drop_order` still to visit, with
the local variables `best` and `maxab`; `ev` is the recursive call
`evaluate(other(player), level, _, _)`. The result is the final `best`. -/
def evaluate_loop (ev : Game → Int → Int → Option (Int × Game)) (player : Nat) (beta : Int) :
    List Nat → Int → Int → Game → Option (Int × Game)
  | [], best, _, g => some (best, g)
  | i :: rest, best, maxab, g =>
    if rd2 C4_NONE (current_state g).board (rd 0 g.drop_order i) (g.size_y - 1) ≠ C4_NONE then
      evaluate_loop ev player beta rest best maxab g
    else
      let g1 := push_state g
      let g2 := (drop_piece g1 (other player) (rd 0 g1.drop_order i)).2
      match ev g2 (wrap32 (-beta)) (wrap32 (-maxab)) with
      | none => none
      | some (goodness, g3) =>
        let best1 := if goodness > best then goodness else best
        let maxab1 := if goodness > best then (if best1 > maxab then best1 else maxab) else maxab
        let g4 := pop_state g3
        if best1 > beta then some (best1, g4)
        else evaluate_loop ev player beta rest best1 maxab1 g4

/-- The function `evaluate(player, level, alpha, beta)`; `fuel` bounds the nesting of
the recursive calls, and `none` is returned when it is used up. -/
def evaluate : Nat → Game → Nat → Nat → Int → Int → Option (Int × Game)
  | 0, _, _, _, _, _ => none
  | fuel + 1, g, player, level, alpha, beta =>
    if (current_state g).winner = player then some (INT_MAX - (g.depth : Int), g)
    else if (current_state g).winner = other player then some (-(INT_MAX - (g.depth : Int)), g)
    else if (current_state g).num_of_pieces = g.total_size then some (0, g)
    else if level = g.depth then some (goodness_of g player, g)
    else
      match evaluate_loop (fun g1 a b => evaluate fuel g1 (other player) level a b)
          player beta (List.range g.size_x) (-INT_MAX) alpha g with
      | none => none
      | some (best, g1) => some (wrap32 (-best), g1)

/-- The local variables of `c4_auto_move` that its loop changes; `rand_calls` counts
the calls of `rand()` made so far. -/
structure Auto_loop where
  best_column : Int
  goodness : Int
  best_worst : Int
  num_of_equal : Nat
  rand_calls : Nat
  game : Game
  deriving DecidableEq, Repr, Inhabited

/-- The loop of `c4_auto_move` over the indices `i` of `drop_order` still to visit;
the `k`-th call of `rand()` returns `rand k`. -/
def auto_move_loop (rand : Nat → Nat) (real_player level : Nat) :
    List Nat → Auto_loop → Option Auto_loop
  | [], l => some l
  | i :: rest, l =>
    let g1 := push_state l.game
    let current_column := rd 0 g1.drop_order i
    let r := drop_piece g1 real_player current_column
    if r.1 < 0 then
      auto_move_loop rand real_player level rest { l with game := pop_state r.2 }
    else if (current_state r.2).winner = real_player then
      some { l with best_column := current_column, game := pop_state r.2 }
    else
      match evaluate level r.2 real_player level (-INT_MAX) (wrap32 (-l.best_worst)) with
      | none => none
      | some (goodness, g3) =>
        if goodness > l.best_worst then
          auto_move_loop rand real_player level rest
            { l with goodness := goodness, best_worst := goodness,
                     best_column := current_column, num_of_equal := 1, game := pop_state g3 }
        else if goodness = l.best_worst then
          auto_move_loop rand real_player level rest
            { l with goodness := goodness, num_of_equal := l.num_of_equal + 1,
                     rand_calls := l.rand_calls + 1,
                     best_column :=
                       if (rand l.rand_calls >>> 4) % (l.num_of_equal + 1) = 0
                       then current_column else l.best_column,
                     game := pop_state g3 }
        else
          auto_move_loop rand real_player level rest
            { l with goodness := goodness, game := pop_state g3 }

/-- The result of `c4_auto_move`: the returned flag, the contents of `*column` and
`*row` afterwards, and the globals. -/
structure Auto_result where
  moved : Bool
  column : Int
  row : Option Int
  game : Game
  deriving DecidableEq, Repr, Inhabited

/-- The function `c4_auto_move(player, level, column, row)`. The pointer `column`
is taken to be valid (the function prints `*column`), its content before the call
being `column`; `row` is `none` for a `NULL` pointer. No result is given when an
assertion fails or when the column `3` of the second opening move does not exist
(`board[3]` is then outside the board). -/
def c4_auto_move (g : Game) (rand : Nat → Nat) (player level column : Int)
    (row : Option Int) : Option Auto_result :=
  if g.game_in_progress ∧ ¬ g.move_in_progress ∧ level ≥ 1 ∧ level ≤ C4_MAX_LEVEL then
    let real_player := real_player player
    if (current_state g).num_of_pieces < 1 ∧ g.size_x = 7 ∧ g.size_y = 6 ∧
        g.num_to_connect = 4 ∧
        ((current_state g).num_of_pieces = 0 ∨
          rd2 C4_NONE (current_state g).board 3 0 ≠ C4_NONE) then
      some { moved := true, column := 2,
             row := row.map (fun _ => ((current_state g).num_of_pieces : Int)),
             game := (drop_piece g real_player 2).2 }
    else if (current_state g).num_of_pieces = 1 then
      if 3 < g.size_x then
        some { moved := true, column := 3,
               row := row.map (fun _ => ((current_state g).num_of_pieces : Int)),
               game := (drop_piece g real_player 3).2 }
      else none
    else
      match auto_move_loop rand real_player level.toNat (List.range g.size_x)
          { best_column := -1, goodness := 0, best_worst := -INT_MAX, num_of_equal := 0,
            rand_calls := 0, game := { g with move_in_progress := true } } with
      | none => none
      | some l =>
        let g1 := { l.game with move_in_progress := false }
        if l.best_column ≥ 0 then
          let r := drop_piece g1 real_player l.best_column.toNat
          some { moved := true, column := l.best_column, row := row.map (fun _ => r.1),
                 game := r.2 }
        else some { moved := false, column := column, row := row, game := g1 }
  else none

/-- The function `c4_is_winner(player)`. -/
def c4_is_winner (g : Game) (player : Int) : Option Bool :=
  if g.game_in_progress then some (decide ((current_state g).winner = real_player player))
  else none

/-- The function `c4_is_tie()`. -/
def c4_is_tie (g : Game) : Option Bool :=
  if g.game_in_progress then
    some (decide ((current_state g).num_of_pieces = g.total_size ∧
      (current_state g).winner = C4_NONE))
  else none

/-- The function `c4_score_of_player(player)`. -/
def c4_score_of_player (g : Game) (player : Int) : Option Int :=
  if g.game_in_progress then some (rd 0 (current_state g).score (real_player player))
  else none


/-! ## Notions used in the statements -/

/-- The slot `state_stack[depth]` is allocated. -/
def Stack_ok (g : Game) : Prop := g.depth < g.state_stack.length

instance (g : Game) : Decidable (Stack_ok g) := by unfold Stack_ok; infer_instance

/-- The board of `s` has `size_x` columns of `size_y` cells each. -/
def Board_ok (g : Game) (s : Game_state) : Prop :=
  s.board.length = g.size_x ∧ ∀ x, x < g.size_x → (rd [] s.board x).length = g.size_y

instance (g : Game) (s : Game_state) : Decidable (Board_ok g s) := by
  unfold Board_ok; infer_instance

/-- No cell of the column is empty. -/
def column_full (g : Game) (s : Game_state) (column : Nat) : Prop :=
  ∀ y, y < g.size_y → rd2 C4_NONE s.board column y ≠ C4_NONE

instance (g : Game) (s : Game_state) (column : Nat) : Decidable (column_full g s column) := by
  unfold column_full; infer_instance

/-- The 5x1 game with runs of 2 after `c4_make_move(0, 0, NULL)`: player 0 owns the
cell `(0, 0)`. -/
def game_5x1_own : Game := (drop_piece (setup_game 5 1 2) 0 0).2

/-- The 5x1 game with runs of 2 after `c4_make_move(1, 0, NULL)`: player 1 owns the
cell `(0, 0)`. -/
def game_5x1_opp : Game := (drop_piece (setup_game 5 1 2) 1 0).2

/-- The sum of an `int` array as a C loop `sum += a[i]` computes it. -/
def int_sum (a : List Int) : Int := a.foldl (fun sum v => wrap32 (sum + v)) 0

/-- The arrays of the state have the sizes `c4_new_game` and `push_state` allocate:
two scores and two arrays of `win_places` entries. -/
def Arrays_ok (g : Game) (s : Game_state) : Prop :=
  s.score.length = 2 ∧ s.score_array.length = 2 ∧
  ∀ p, p < 2 → (rd [] s.score_array p).length = g.win_places

instance (g : Game) (s : Game_state) : Decidable (Arrays_ok g s) := by
  unfold Arrays_ok; infer_instance

/-- Each score is the sum of the player's `score_array`, as an `int`. -/
def Score_ok (s : Game_state) : Prop :=
  ∀ p, p < 2 → rd 0 s.score p = wrap32 (rd [] s.score_array p).sum

instance (s : Game_state) : Decidable (Score_ok s) := by
  unfold Score_ok; infer_instance

/-- The ids of the lines of `lines` that contain the cell `c`, in increasing order. -/
def lines_through (lines : List (List (Nat × Nat))) (c : Nat × Nat) : List Nat :=
  (List.range lines.length).filter fun i => decide (c ∈ rd [] lines i)

/-- The array `a` has `w` rows of `h` entries each (for the board and the map: `w`
columns of `h` cells). -/
def Dims {α : Type} (w h : Nat) (a : List (List α)) : Prop :=
  a.length = w ∧ ∀ x, x < w → (rd [] a x).length = h

/-- The number of cells of `cells` that hold the value `p`. -/
def owned (board : List (List Nat)) (p : Nat) (cells : List (Nat × Nat)) : Nat :=
  cells.countP fun c => decide (rd2 C4_NONE board c.1 c.2 = p)

/-- Some cell of `cells` holds the value `p`. -/
def touched (board : List (List Nat)) (p : Nat) (cells : List (Nat × Nat)) : Bool :=
  cells.any fun c => decide (rd2 C4_NONE board c.1 c.2 = p)

/-- The progress of player `p` on a line: `0` once the opponent holds a cell of it,
else `1` doubled once for each cell `p` holds (as an `int`). -/
def progress (board : List (List Nat)) (p : Nat) (cells : List (Nat × Nat)) : Int :=
  if touched board (other p) cells then 0 else wrap32 (2 ^ owned board p cells)

/-- The states that successive placements produce from the initial state of a
`w` x `h` game with runs of `n`. -/
inductive Played (w h n : Nat) : Game_state → Prop
  | start : Played w h n (current_state (setup_game w h n))
  | drop (s : Game_state) (p c : Nat) : Played w h n s → p < 2 → c < w →
      Played w h n (drop_piece_on (setup_game w h n) s p c).2

/-- What holds of every state of a `w` x `h` game with runs of `n`. -/
structure Inv (w h n : Nat) (s : Game_state) : Prop where
  board : Dims w h s.board
  cells : ∀ x y, rd2 C4_NONE s.board x y ≤ 2
  arrays : s.score.length = 2 ∧ s.score_array.length = 2 ∧
    ∀ p, p < 2 → (rd [] s.score_array p).length = (win_lines w h n).length
  score : Score_ok s
  progress : ∀ p, p < 2 → ∀ L, L < (win_lines w h n).length →
    rd2 0 s.score_array p L = progress s.board p (rd [] (win_lines w h n) L)
  winner_le : s.winner ≤ 2
  winner_some : n ≤ 31 → ∀ p, p < 2 → s.winner = p →
    ∃ L, L < (win_lines w h n).length ∧ rd2 0 s.score_array p L = wrap32 (2 ^ n)
  winner_none : n ≤ 31 → s.winner = C4_NONE →
    ∀ p, p < 2 → ∀ L, L < (win_lines w h n).length →
      rd2 0 s.score_array p L ≠ wrap32 (2 ^ n)
  winner_lines : s.winner ≠ C4_NONE → 0 < (win_lines w h n).length

/-- The static description of the game: the globals without the stack, `depth` and
`move_in_progress`. -/
def statics (g : Game) : Game :=
  { g with state_stack := [], depth := 0, move_in_progress := false }

/-- The globals `g1` continue `g`: same static description and flags, same `depth`,
no slot released, and every slot up to `depth` untouched. -/
def Frame (g g1 : Game) : Prop :=
  statics g1 = statics g ∧ g1.move_in_progress = g.move_in_progress ∧ g1.depth = g.depth ∧
  g.state_stack.length ≤ g1.state_stack.length ∧
  ∀ i, i ≤ g.depth → rd default g1.state_stack i = rd default g.state_stack i

/-- The globals that sequences of calls of `c4_new_game`, `c4_make_move` and
`c4_auto_move` (successful or failed) produce. -/
inductive Reachable : Game → Prop
  | new_game (g0 g : Game) (width height num : Int) :
      c4_new_game g0 width height num = some g → Reachable g
  | make_move (g : Game) (player column : Int) (row : Option Int)
      (r : Bool × Option Int × Game) :
      Reachable g → c4_make_move g player column row = some r → Reachable r.2.2
  | auto_move (g : Game) (rand : Nat → Nat) (player level column : Int) (row : Option Int)
      (r : Auto_result) :
      Reachable g → c4_auto_move g rand player level column row = some r → Reachable r.game

/-- The globals of a game and of a search: those of a reachable game; those of
`c4_auto_move` once it has set `move_in_progress = true`; those after `push_state()`
followed by `drop_piece(player, column)` from such globals; and those that continue
such globals with the slots above `depth` changed, as they are after a call of
`evaluate` has returned and `pop_state()` was done. -/
inductive Speculative : Game → Prop
  | real (g : Game) : Reachable g → Speculative g
  | search (g : Game) : Reachable g → Speculative { g with move_in_progress := true }
  | push_drop (g : Game) (player column : Nat) :
      Speculative g → player < 2 → column < g.size_x →
      Speculative (drop_piece (push_state g) player column).2
  | frame (g g1 : Game) : Speculative g → Frame g g1 → Speculative g1

/-- The column that the loop `column += ((i % 2) ? i : -i)` of `c4_new_game` holds at
the start of pass `i` (counted from 1) for a board of width `w`. -/
def drop_column (w i : Nat) : Int :=
  ((w : Int) - 1) / 2 + (if i % 2 = 1 then -(((i : Int) - 1) / 2) else (i : Int) / 2)

/-- The globals `g` belong to a `w` x `h` game with runs of `n`: the static
description is the one `c4_new_game(w, h, n)` set up, the current slot is allocated
and holds a state that placements produce from the initial one. -/
structure Good (g : Game) (w h n : Nat) : Prop where
  hw : 1 ≤ w
  hh : 1 ≤ h
  hn : 1 ≤ n
  hW : (win_lines w h n).length ≤ 2147483647
  hst : statics g = statics (setup_game w h n)
  hstack : Stack_ok g
  hplayed : Played w h n (current_state g)

/-- The cells of the board, column by column. -/
def all_cells (g : Game) : List (Nat × Nat) :=
  List.product (List.range g.size_x) (List.range g.size_y)

/-- The cells of the line with id `L`: the cells whose list `map[x][y]` holds `L`. -/
def line_cells (g : Game) (L : Nat) : List (Nat × Nat) :=
  (all_cells g).filter fun c => decide (L ∈ rd2 [] g.map c.1 c.2)

/-- Following the words of the specification: player `p` owns every cell of some run
of `num_to_connect` contiguous cells of the board, horizontal, vertical, ascending
diagonal or descending diagonal; `(x0, y0)` is the lowest cell of the run. -/
def line_owned (g : Game) (s : Game_state) (p : Nat) : Prop :=
  ∃ x0, x0 < g.size_x ∧ ∃ y0, y0 < g.size_y ∧
    ((x0 + g.num_to_connect ≤ g.size_x ∧
        ∀ k, k < g.num_to_connect → rd2 C4_NONE s.board (x0 + k) y0 = p) ∨
     (y0 + g.num_to_connect ≤ g.size_y ∧
        ∀ k, k < g.num_to_connect → rd2 C4_NONE s.board x0 (y0 + k) = p) ∨
     (x0 + g.num_to_connect ≤ g.size_x ∧ y0 + g.num_to_connect ≤ g.size_y ∧
        ∀ k, k < g.num_to_connect → rd2 C4_NONE s.board (x0 + k) (y0 + k) = p) ∨
     (g.num_to_connect ≤ x0 + 1 ∧ y0 + g.num_to_connect ≤ g.size_y ∧
        ∀ k, k < g.num_to_connect → rd2 C4_NONE s.board (x0 - k) (y0 + k) = p))

instance (g : Game) (s : Game_state) (p : Nat) : Decidable (line_owned g s p) := by
  unfold line_owned; infer_instance

/-- The 2x1 game with runs of 1 after `c4_make_move(0, 0, NULL)`. -/
def game_2x1_first : Game := (drop_piece (setup_game 2 1 1) 0 0).2

/-- The 2x1 game with runs of 1 after `c4_make_move(0, 0, NULL)` and
`c4_make_move(1, 1, NULL)`. -/
def game_2x1_both : Game := (drop_piece game_2x1_first 1 1).2

/-- The 7x6 game with runs of 4 after player 0 moved in the columns 0, 1, 2 and 3. -/
def game_7x6_row : Game :=
  (drop_piece (drop_piece (drop_piece (drop_piece (setup_game 7 6 4) 0 0).2 0 1).2 0 2).2 0 3).2

/-! ## Further notions used in the statements -/

/-- The number of occupied cells of the board. -/
def occupied (g : Game) (s : Game_state) : Nat :=
  (all_cells g).countP fun c => decide (rd2 C4_NONE s.board c.1 c.2 ≠ C4_NONE)

/-- Every cell of the board is occupied. -/
def board_full (g : Game) (s : Game_state) : Prop :=
  ∀ x, x < g.size_x → ∀ y, y < g.size_y → rd2 C4_NONE s.board x y ≠ C4_NONE

instance (g : Game) (s : Game_state) : Decidable (board_full g s) := by
  unfold board_full; infer_instance

/-- What placements keep true of the board of a `w` x `h` game: a piece rests on
the bottom row or on another piece, and `num_of_pieces` counts the occupied cells. -/
structure Fill (w h : Nat) (s : Game_state) : Prop where
  gravity : ∀ x y, rd2 C4_NONE s.board x y ≠ C4_NONE →
    ∀ y1, y1 < y → rd2 C4_NONE s.board x y1 ≠ C4_NONE
  inside : ∀ x y, rd2 C4_NONE s.board x y ≠ C4_NONE → x < w ∧ y < h
  count : s.num_of_pieces =
    (List.product (List.range w) (List.range h)).countP
      fun c => decide (rd2 C4_NONE s.board c.1 c.2 ≠ C4_NONE)

/-- No score of the game can leave the range of an `int`: `win_places` lines of at
most `2 ^ num_to_connect` each. -/
def Small (g : Game) : Prop := g.win_places * 2 ^ g.num_to_connect ≤ 2147483647

instance (g : Game) : Decidable (Small g) := by unfold Small; infer_instance

/-- The globals after the placements `moves`, each a pair of a player and a column,
made one after the other by `drop_piece`. -/
def play (g : Game) (moves : List (Nat × Nat)) : Game :=
  moves.foldl (fun g1 m => (drop_piece g1 m.1 m.2).2) g

/-- The 1x1 game with runs of 1 after the move of player 0. -/
def game_1x1_full : Game := play (setup_game 1 1 1) [(0, 0)]


/-- Following the words of the specification: the four directions of a line, as
steps `(dx, dy)`: horizontal, vertical, ascending diagonal, descending diagonal. -/
def directions : List (Int × Int) := [(1, 0), (0, 1), (1, 1), (-1, 1)]

/-- Following the words of the specification: cell number `k` of the run that starts in
`(x0, y0)` and advances by `d = (dx, dy)`, which is `(x0 + k*dx, y0 + k*dy)`. -/
def run_cell (x0 y0 : Nat) (d : Int × Int) (k : Nat) : Int × Int :=
  ((x0 : Int) + (k : Int) * d.1, (y0 : Int) + (k : Int) * d.2)

/-- Following the words of the specification: all `num_to_connect` cells of the run
from `(x0, y0)` in direction `d` are inside the board. -/
def run_inside (g : Game) (x0 y0 : Nat) (d : Int × Int) : Prop :=
  ∀ k, k < g.num_to_connect →
    0 ≤ (run_cell x0 y0 d k).1 ∧ (run_cell x0 y0 d k).1 < (g.size_x : Int) ∧
    0 ≤ (run_cell x0 y0 d k).2 ∧ (run_cell x0 y0 d k).2 < (g.size_y : Int)

instance (g : Game) (x0 y0 : Nat) (d : Int × Int) : Decidable (run_inside g x0 y0 d) := by
  unfold run_inside; infer_instance

/-- Following the words of the specification: `cells` holds exactly the cells of the run
of `num_to_connect` cells from `(x0, y0)` in direction `d`. -/
def cells_of_run (g : Game) (cells : List (Nat × Nat)) (x0 y0 : Nat) (d : Int × Int) : Prop :=
  ∀ c : Nat × Nat, c ∈ cells ↔
    ∃ k, k < g.num_to_connect ∧ run_cell x0 y0 d k = ((c.1 : Int), (c.2 : Int))

/-- Following the words of the specification: `cells` is an in-board run of
`num_to_connect` contiguous cells in one of the four directions. -/
def is_run (g : Game) (cells : List (Nat × Nat)) : Prop :=
  ∃ x0 y0 d, d ∈ directions ∧ run_inside g x0 y0 d ∧ cells_of_run g cells x0 y0 d

/-! ## The winning line -/

/-- The loop `while (score_array[winner][win_pos] != magic_win_number) win_pos++` of
`c4_win_coords`, with the entries from index `win_pos` on; `none` stands for the loop
running past the end of the array. -/
def find_win_pos (magic : Int) : List Int → Nat → Option Nat
  | [], _ => none
  | v :: rest, win_pos =>
    if v ≠ magic then find_win_pos magic rest (win_pos + 1) else some win_pos

/-- The cells in the order of the first scan of `c4_win_coords`: `j` from `0` to
`size_y - 1`, and for each `j`, `i` from `0` to `size_x - 1`. -/
def scan_up (g : Game) : List (Nat × Nat) :=
  (List.range g.size_y).flatMap fun j => (List.range g.size_x).map fun i => (i, j)

/-- The cells in the order of the second scan of `c4_win_coords`: `j` from
`size_y - 1` down to `0`, and for each `j`, `i` from `size_x - 1` down to `0`. -/
def scan_down (g : Game) : List (Nat × Nat) :=
  (List.range g.size_y).reverse.flatMap fun j =>
    (List.range g.size_x).reverse.map fun i => (i, j)

/-- The function `c4_win_coords(&x1, &y1, &x2, &y2)`. The result is
`((x1, y1), (x2, y2))`, where an end is `none` if its scan assigns nothing. The call
is `none` when an assertion fails or the first loop leaves `score_array`. -/
def c4_win_coords (g : Game) : Option (Option (Nat × Nat) × Option (Nat × Nat)) :=
  if g.game_in_progress = false then none
  else
    let winner := (current_state g).winner
    if winner = C4_NONE then none
    else
      match find_win_pos g.magic_win_number (rd [] (current_state g).score_array winner) 0 with
      | none => none
      | some win_pos =>
        some ((scan_up g).find? (fun c => decide (win_pos ∈ rd2 [] g.map c.1 c.2)),
          (scan_down g).find? (fun c => decide (win_pos ∈ rd2 [] g.map c.1 c.2)))

/-- The 2x2 game with runs of 2 after `c4_make_move(0, 1, NULL)`,
`c4_make_move(1, 0, NULL)` and `c4_make_move(0, 0, NULL)`: player 0 holds the
descending diagonal `(1, 0)`, `(0, 1)`. -/
def game_2x2_diagonal : Game := play (setup_game 2 2 2) [(0, 1), (1, 0), (0, 0)]

/-- The 7x6 game with runs of 4 after `c4_make_move(0, 0, NULL)`. -/
def game_7x6_first : Game := (drop_piece (setup_game 7 6 4) 0 0).2

/-- The 4x1 game with runs of 2 after `c4_make_move(0, 3, NULL)`: column 3 is full. -/
def game_4x1_first : Game := (drop_piece (setup_game 4 1 2) 0 3).2

/-! ## The search, following the specification -/

/-- The macro `goodness_of(player)` read on the state `s`. -/
def goodness_on (s : Game_state) (player : Nat) : Int :=
  wrap32 (rd 0 s.score player - rd 0 s.score (other player))

/-- Following the words of the specification: the largest of the values `l`, and
`base` when there is none above it. -/
def max_of (base : Int) (l : List Int) : Int := l.foldl max base

/-- Following the words of the specification: the legal columns of a position, those
that are not full. -/
def legal_columns (g : Game) (s : Game_state) : List Nat :=
  (List.range g.size_x).filter fun c => decide (¬ column_full g s c)

/-- Following the words of the specification: the value, for the player `player` who
moved last, of a position that the search does not expand: a win, a loss or a full
board. -/
def terminal_value (g : Game) (depth : Nat) (s : Game_state) (player : Nat) : Option Int :=
  if s.winner = player then some (INT_MAX - (depth : Int))
  else if s.winner = other player then some (-(INT_MAX - (depth : Int)))
  else if s.num_of_pieces = g.total_size then some 0
  else none

/-- Following the words of the specification: the unpruned depth-limited negamax value
of the position `s`, `depth` plies below the position of the game, for the player
`player` who moved last, looking `remaining` plies further: the opponent answers in
the legal column that is best for the opponent. -/
def negamax (g : Game) : Nat → Nat → Game_state → Nat → Int
  | 0, depth, s, player => (terminal_value g depth s player).getD (goodness_on s player)
  | remaining + 1, depth, s, player =>
    (terminal_value g depth s player).getD
      (-(max_of (-INT_MAX) ((legal_columns g s).map fun c =>
        negamax g remaining (depth + 1) (drop_piece_on g s (other player) c).2
          (other player))))

/-- Following the words of the specification: the score of a legal column for the
mover `player` in a search of `level` plies, which is the negamax value of the position
after `player` drops there. -/
def column_score (g : Game) (level player column : Nat) : Int :=
  negamax g (level - 1) 1 (drop_piece_on g (current_state g) player column).2 player

/-- No opening shortcut of `c4_auto_move` applies. -/
def no_shortcut (g : Game) : Prop :=
  ¬ ((current_state g).num_of_pieces = 0 ∧ g.size_x = 7 ∧ g.size_y = 6 ∧
      g.num_to_connect = 4) ∧
  (current_state g).num_of_pieces ≠ 1

instance (g : Game) : Decidable (no_shortcut g) := by unfold no_shortcut; infer_instance

/-- The contract of a search call `ev` on the games `g2` of a `w` x `h` game with runs
of `n` whose depth is `d`: for a window `a`, `b` of `int`s other than `INT_MIN` the
call returns, it leaves the slots up to `d` as they were, its value `R` is an `int`
other than `INT_MIN`, and `R` bounds the negamax value of the current state for the
player `q` with `remaining` plies to go: from above when `R <= -a`, from below when
`R >= -b`. -/
def Search_ok (w h n remaining d q : Nat)
    (ev : Game → Int → Int → Option (Int × Game)) : Prop :=
  ∀ (g2 : Game) (a b : Int), Good g2 w h n → g2.depth = d →
    -2147483647 ≤ a → a ≤ 2147483647 → -2147483647 ≤ b → b ≤ 2147483647 →
    ∃ R g3, ev g2 a b = some (R, g3) ∧ Frame g2 g3 ∧ -2147483647 ≤ R ∧ R ≤ 2147483647 ∧
      (R ≤ -a → negamax (setup_game w h n) remaining d (current_state g2) q ≤ R) ∧
      (-b ≤ R → R ≤ negamax (setup_game w h n) remaining d (current_state g2) q)

/-- The 1x32 game with runs of 32 after 30 calls `c4_make_move(0, 0, NULL)`. -/
def game_1x32_30 : Game := play (setup_game 1 32 32) (List.replicate 30 (0, 0))


/-! ## Further games used in the statements -/

/-- The 7x6 game with runs of 4 during a search: after `push_state()` and
`drop_piece(0, 3)` from the empty board. -/
def game_7x6_probe : Game := (drop_piece (push_state (setup_game 7 6 4)) 0 3).2

/-- The column that the loop of `c4_auto_move` over the columns decides upon (the
final `best_column`, negative for none): the general search of `c4_auto_move`, entered
whenever no opening shortcut returns before it. -/
def search_column (g : Game) (rand : Nat → Nat) (player level : Int) : Option Int :=
  (auto_move_loop rand (real_player player) level.toNat (List.range g.size_x)
    { best_column := -1, goodness := 0, best_worst := -INT_MAX, num_of_equal := 0,
      rand_calls := 0, game := { g with move_in_progress := true } }).map
    fun l => l.best_column

/-- The 1x31 game with runs of 31 after 30 calls `c4_make_move(0, 0, NULL)`. -/
def game_1x31_30 : Game := play (setup_game 1 31 31) (List.replicate 30 (0, 0))

/-- The 1x32 game with runs of 32 after 32 calls `c4_make_move(0, 0, NULL)`: player 0
owns the whole column. -/
def game_1x32_own : Game := play (setup_game 1 32 32) (List.replicate 32 (0, 0))

/-- The 2x31 game with runs of 31 after 30 calls `c4_make_move(0, 0, NULL)` and 30
calls `c4_make_move(0, 1, NULL)`: player 0 holds 30 cells of each column. -/
def game_2x31_60 : Game :=
  play (setup_game 2 31 31) (List.replicate 30 (0, 0) ++ List.replicate 30 (0, 1))

/-- The 1x33 game with runs of 33 after `c4_make_move(0, 0, NULL)`. -/
def game_1x33_first : Game := play (setup_game 1 33 33) [(0, 0)]

/-- The 1x33 game with runs of 33 after two calls `c4_make_move(0, 0, NULL)`. -/
def game_1x33_two : Game := play (setup_game 1 33 33) [(0, 0), (0, 0)]

/-- The scores met by a search of `remaining` plies from the state `s`, `player` having
moved last, are small: wherever the unpruned search returns `goodness_of`, its value
lies strictly between `-bound` and `bound`. Positions with a winner or a full board
are not expanded. -/
def search_small (g : Game) (bound : Int) : Nat → Game_state → Nat → Bool
  | 0, s, player =>
    (terminal_value g 0 s player).isSome ||
      decide (-bound < goodness_on s player ∧ goodness_on s player < bound)
  | remaining + 1, s, player =>
    (terminal_value g 0 s player).isSome ||
      (legal_columns g s).all fun c =>
        search_small g bound remaining (drop_piece_on g s (other player) c).2 (other player)


/-! ## The rules of `apply_rule` -/

/-- The read `current_state->board[a][b]` of `eval_rule`, whose indices are `int`s:
there is no value when the cell is outside the board. -/
def board_at (g : Game) (a b : Int) : Option Nat :=
  if 0 ≤ a ∧ a < g.size_x ∧ 0 ≤ b ∧ b < g.size_y then
    some (rd2 C4_NONE (current_state g).board a.toNat b.toNat)
  else none

/-- The local variables `score` and `rule` of `eval_rule`. -/
structure Rule_state where
  score : Int
  rule : List Int
  deriving DecidableEq, Repr

/-- A test of the indices `i` and `j`, which reads nothing. -/
def c_test (p : Prop) [Decidable p] : Option Bool := some (decide p)

/-- The test `board[a][b] == v`; it has no value when the read has none. -/
def c_eq (cell : Option Nat) (v : Nat) : Option Bool := cell.map fun x => decide (x = v)

/-- The test `board[a][b] != v`; it has no value when the read has none. -/
def c_ne (cell : Option Nat) (v : Nat) : Option Bool := cell.map fun x => decide (x ≠ v)

/-- The C conjunction `c1 && c2 && ...`, evaluated from the left: the tests after the
first false one are not evaluated. -/
def c_all : List (Option Bool) → Option Bool
  | [] => some true
  | c :: rest =>
    match c with
    | none => none
    | some false => some false
    | some true => c_all rest

/-- The C disjunction `c1 || c2 || ...`, evaluated from the left: the tests after the
first true one are not evaluated. -/
def c_any : List (Option Bool) → Option Bool
  | [] => some false
  | c :: rest =>
    match c with
    | none => none
    | some true => some true
    | some false => c_any rest

/-- The empty statement. -/
def c_skip (st : Rule_state) : Option Rule_state := some st

/-- The statement `score = v;`. -/
def set_score (v : Int) (st : Rule_state) : Option Rule_state := some { st with score := v }

/-- The statement `rule[k] += score;`. -/
def add_rule (k : Nat) (st : Rule_state) : Option Rule_state :=
  some { st with rule := wr st.rule k (wrap32 (rd 0 st.rule k + st.score)) }

/-- The statements of a block `{ s1 s2 ... }`, one after the other. -/
def c_block : List (Rule_state → Option Rule_state) → Rule_state → Option Rule_state
  | [], st => some st
  | s :: rest, st =>
    match s st with
    | none => none
    | some st1 => c_block rest st1

/-- The statement `if (c) t else e`; the branch that is not taken is not run. -/
def c_if (c : Option Bool) (t e : Rule_state → Option Rule_state) (st : Rule_state) :
    Option Rule_state :=
  match c with
  | none => none
  | some true => t st
  | some false => e st

/-- The tests of rule 1 in the body of the loops of `eval_rule` (lines 529 to 570 of
`c4.c`), for the column `i` and the row `j`; they add to `rule[0]`. -/
def eval_rule_1 (B : Int → Int → Option Nat) (i j : Int) :
    Rule_state → Option Rule_state :=
  c_block [
    c_if (c_all [
        c_test (i < 4), c_eq (B i j) 1, c_eq (B (i + 1) j) 1, c_eq (B (i + 2) j) 1,
        c_eq (B (i + 3) j) 1])
      (c_block [set_score 5000000, add_rule 0])
      (c_if (c_all [
          c_test (j < 3), c_eq (B i j) 1, c_eq (B i (j + 1)) 1, c_eq (B i (j + 2)) 1,
          c_eq (B i (j + 3)) 1])
        (c_block [set_score 5000000, add_rule 0])
        (c_if (c_all [
            c_test (i < 4), c_test (j < 3), c_eq (B i j) 1, c_eq (B (i + 1) (j + 1)) 1,
            c_eq (B (i + 2) (j + 2)) 1, c_eq (B (i + 3) (j + 3)) 1])
          (c_block [set_score 5000000, add_rule 0])
          (c_if (c_all [
              c_test (j > 2), c_test (i < 4), c_eq (B i j) 1, c_eq (B (i + 1) (j - 1)) 1,
              c_eq (B (i + 2) (j - 2)) 1, c_eq (B (i + 3) (j - 3)) 1])
            (c_block [set_score 5000000, add_rule 0])
            c_skip)))]

/-- The tests of rule 2 in the body of the loops of `eval_rule` (lines 580 to 788 of
`c4.c`), for the column `i` and the row `j`; they add to `rule[1]`. -/
def eval_rule_2 (B : Int → Int → Option Nat) (i j : Int) :
    Rule_state → Option Rule_state :=
  c_block [
    c_if (c_all [
        c_test (i < 4), c_eq (B i j) 1, c_eq (B (i + 1) j) 0, c_eq (B (i + 2) j) 0,
        c_eq (B (i + 3) j) 0])
      (c_block [
        c_if (c_all [c_test (i < 3), c_eq (B (i + 4) j) 1])
          (c_block [set_score 300000, add_rule 1])
          c_skip,
        set_score 250000, add_rule 1])
      c_skip,
    c_if (c_all [
        c_test (i < 3), c_eq (B i j) 0, c_eq (B (i + 1) j) 0, c_eq (B (i + 2) j) 0,
        c_eq (B (i + 3) j) 1])
      (c_block [
        c_if (c_all [c_test (i > 0), c_eq (B (i - 1) j) 1])
          (c_block [set_score 300000, add_rule 1])
          c_skip,
        set_score 250000, add_rule 1])
      c_skip,
    c_if (c_all [
        c_test (i < 4), c_eq (B i j) 0, c_eq (B (i + 1) j) 0, c_eq (B (i + 2) j) 1,
        c_eq (B (i + 3) j) 0])
      (c_block [set_score 250000, add_rule 1])
      c_skip,
    c_if (c_all [
        c_test (i < 4), c_eq (B i j) 0, c_eq (B (i + 1) j) 1, c_eq (B (i + 2) j) 0,
        c_eq (B (i + 3) j) 0])
      (c_block [set_score 250000, add_rule 1])
      c_skip,
    c_if (c_all [
        c_test (j < 3), c_eq (B i j) 0, c_eq (B i (j + 1)) 0, c_eq (B i (j + 2)) 0,
        c_eq (B i (j + 3)) 1])
      (c_block [
        c_if (c_all [c_test (j > 0), c_eq (B i (j - 1)) 1])
          (c_block [set_score 300000, add_rule 1])
          c_skip,
        set_score 250000, add_rule 1])
      c_skip,
    c_if (c_all [
        c_test (j < 3), c_test (i < 4), c_eq (B i j) 1, c_eq (B (i + 1) (j + 1)) 0,
        c_eq (B (i + 2) (j + 2)) 0, c_eq (B (i + 3) (j + 3)) 0])
      (c_block [
        c_if (c_all [c_test (i < 3), c_test (j < 2), c_eq (B (i + 4) (j + 4)) 1])
          (c_block [set_score 300000, add_rule 1])
          c_skip,
        set_score 250000, add_rule 1])
      c_skip,
    c_if (c_all [
        c_test (j < 3), c_test (i < 4), c_eq (B i j) 0, c_eq (B (i + 1) (j + 1)) 0,
        c_eq (B (i + 2) (j + 2)) 0, c_eq (B (i + 3) (j + 3)) 1])
      (c_block [
        c_if (c_all [c_test (i > 0), c_test (j > 0), c_eq (B (i - 1) (j - 1)) 1])
          (c_block [set_score 300000, add_rule 1])
          c_skip,
        set_score 250000, add_rule 1])
      c_skip,
    c_if (c_all [
        c_test (j < 3), c_test (i < 4), c_eq (B i j) 0, c_eq (B (i + 1) (j + 1)) 0,
        c_eq (B (i + 2) (j + 2)) 1, c_eq (B (i + 3) (j + 3)) 0])
      (c_block [set_score 250000, add_rule 1])
      c_skip,
    c_if (c_all [
        c_test (j < 3), c_test (i < 4), c_eq (B i j) 0, c_eq (B (i + 1) (j + 1)) 1,
        c_eq (B (i + 2) (j + 2)) 0, c_eq (B (i + 3) (j + 3)) 0])
      (c_block [set_score 250000, add_rule 1])
      c_skip,
    c_if (c_all [
        c_test (j > 2), c_test (i < 4), c_eq (B i j) 1, c_eq (B (i + 1) (j - 1)) 0,
        c_eq (B (i + 2) (j - 2)) 0, c_eq (B (i + 3) (j - 3)) 0])
      (c_block [
        c_if (c_all [c_test (i < 3), c_test (j > 3), c_eq (B (i + 4) (j - 4)) 1])
          (c_block [set_score 300000])
          c_skip,
        set_score 250000, add_rule 1])
      c_skip,
    c_if (c_all [
        c_test (j > 2), c_test (i < 4), c_eq (B i j) 0, c_eq (B (i + 1) (j - 1)) 0,
        c_eq (B (i + 2) (j - 2)) 0, c_eq (B (i + 3) (j - 3)) 1])
      (c_block [
        c_if (c_all [c_test (i > 0), c_test (j < 5), c_eq (B (i - 1) (j + 1)) 1])
          (c_block [set_score 300000, add_rule 1])
          c_skip,
        set_score 250000, add_rule 1])
      c_skip,
    c_if (c_all [
        c_test (j > 2), c_test (i < 4), c_eq (B i j) 0, c_eq (B (i + 1) (j - 1)) 0,
        c_eq (B (i + 2) (j - 2)) 1, c_eq (B (i + 3) (j - 3)) 0])
      (c_block [set_score 250000, add_rule 1])
      c_skip,
    c_if (c_all [
        c_test (j > 2), c_test (i < 4), c_eq (B i j) 0, c_eq (B (i + 1) (j - 1)) 1,
        c_eq (B (i + 2) (j - 2)) 0, c_eq (B (i + 3) (j - 3)) 0])
      (c_block [set_score 250000, add_rule 1])
      c_skip]

/-- The tests of rule 3 in the body of the loops of `eval_rule` (lines 792 to 1287 of
`c4.c`), for the column `i` and the row `j`; they add to `rule[2]`. -/
def eval_rule_3 (B : Int → Int → Option Nat) (i j : Int) :
    Rule_state → Option Rule_state :=
  c_block [
    c_if (c_all [
        c_test (i < 4), c_test (i > 0), c_eq (B i j) 1, c_eq (B (i + 1) j) 1,
        c_eq (B (i + 2) j) 1, c_eq (B (i - 1) j) C4_NONE, c_eq (B (i + 3) j) C4_NONE])
      (c_block [
        c_if (c_all [
            c_test (j > 0), c_ne (B (i - 1) (j - 1)) C4_NONE, c_ne (B (i + 3) (j - 1)) C4_NONE])
          (c_block [set_score 10000, add_rule 2])
          (c_if (c_test (j = 0)) (c_block [set_score 10000, add_rule 2]) c_skip)])
      c_skip,
    c_if (c_all [
        c_test (j > 0), c_test (i < 3), c_eq (B i j) C4_NONE, c_eq (B (i + 1) j) 1,
        c_eq (B (i + 2) j) 1, c_eq (B (i + 3) j) 1, c_eq (B (i + 4) j) C4_NONE])
      (c_block [
        c_if (c_all [c_eq (B i (j - 1)) C4_NONE, c_ne (B (i + 4) (j - 1)) C4_NONE])
          (c_block [set_score 1000, add_rule 2])
          (c_if (c_all [c_ne (B i (j - 1)) C4_NONE, c_eq (B (i + 4) j) C4_NONE])
            (c_block [set_score 1000, add_rule 2])
            c_skip)])
      c_skip,
    c_if (c_all [
        c_test (j > 0), c_test (i < 3), c_eq (B i j) C4_NONE, c_eq (B (i + 1) j) 1,
        c_eq (B (i + 2) j) 1, c_eq (B (i + 3) j) 1, c_eq (B (i + 4) j) C4_NONE])
      (c_block [
        c_if (c_all [c_eq (B i (j - 1)) C4_NONE, c_eq (B (i + 4) (j - 1)) C4_NONE])
          (c_block [set_score 2000, add_rule 2])
          c_skip])
      c_skip,
    c_if (c_all [
        c_test (i < 3), c_eq (B i j) C4_NONE, c_eq (B (i + 1) j) 1, c_eq (B (i + 2) j) 1,
        c_eq (B (i + 3) j) 1, c_eq (B (i + 4) j) 0])
      (c_block [
        c_if (c_all [c_test (j > 0), c_eq (B i (j - 1)) C4_NONE])
          (c_block [set_score 1000, add_rule 2])
          (c_if (c_all [c_test (j > 0), c_ne (B i (j - 1)) C4_NONE])
            (c_block [set_score 300, add_rule 2])
            (c_if (c_test (j = 0)) (c_block [set_score 300, add_rule 2]) c_skip))])
      c_skip,
    c_if (c_all [
        c_test (i = 3), c_eq (B i j) C4_NONE, c_eq (B (i + 1) j) 1, c_eq (B (i + 2) j) 1,
        c_eq (B (i + 3) j) 1])
      (c_block [
        c_if (c_all [c_test (j > 0), c_eq (B i (j - 1)) C4_NONE])
          (c_block [set_score 1000, add_rule 2])
          (c_if (c_all [c_test (j > 0), c_ne (B i (j - 1)) C4_NONE])
            (c_block [set_score 300, add_rule 2])
            (c_if (c_test (j = 0)) (c_block [set_score 300, add_rule 2]) c_skip))])
      c_skip,
    c_if (c_all [
        c_test (i < 3), c_eq (B i j) 0, c_eq (B (i + 1) j) 1, c_eq (B (i + 2) j) 1,
        c_eq (B (i + 3) j) 1, c_eq (B (i + 4) j) C4_NONE])
      (c_block [
        c_if (c_all [c_test (j > 0), c_eq (B (i + 4) (j - 1)) C4_NONE])
          (c_block [set_score 1000, add_rule 2])
          (c_if (c_all [c_test (j > 0), c_ne (B (i + 4) (j - 1)) C4_NONE])
            (c_block [set_score 300, add_rule 2])
            (c_if (c_test (j = 0)) (c_block [set_score 300, add_rule 2]) c_skip))])
      c_skip,
    c_if (c_all [
        c_test (i = 0), c_test (i < 3), c_eq (B i j) 1, c_eq (B (i + 1) j) 1,
        c_eq (B (i + 2) j) 1, c_eq (B (i + 3) j) C4_NONE])
      (c_block [
        c_if (c_all [c_test (j > 0), c_eq (B (i + 3) (j - 1)) C4_NONE])
          (c_block [set_score 1000, add_rule 2])
          (c_if (c_all [c_test (j > 0), c_ne (B (i + 3) (j - 1)) C4_NONE])
            (c_block [set_score 300, add_rule 2])
            (c_if (c_test (j = 0)) (c_block [set_score 300, add_rule 2]) c_skip))])
      c_skip,
    c_if (c_all [
        c_test (i > 1), c_test (i < 5), c_test (j < 4), c_eq (B i j) 1,
        c_eq (B (i - 1) (j - 1)) 1, c_eq (B (i + 1) (j + 1)) 1, c_eq (B (i - 2) (j - 2)) C4_NONE,
        c_eq (B (i + 2) (j + 2)) C4_NONE])
      (c_block [
        c_if (c_all [
            c_test (j > 2), c_ne (B (i - 2) (j - 3)) C4_NONE, c_ne (B (i + 2) (j + 1)) C4_NONE])
          (c_block [set_score 10000, add_rule 2])
          c_skip,
        c_if (c_all [c_test (j = 2), c_ne (B (i + 2) (j + 1)) C4_NONE])
          (c_block [set_score 10000, add_rule 2])
          c_skip])
      c_skip,
    c_if (c_all [
        c_test (i < 3), c_test (j < 2), c_eq (B i j) C4_NONE, c_eq (B (i + 1) (j + 1)) 1,
        c_eq (B (i + 2) (j + 2)) 1, c_eq (B (i + 3) (j + 3)) 1, c_eq (B (i + 4) (j + 4)) C4_NONE])
      (c_block [
        c_if (c_all [
            c_test (j > 0), c_eq (B i (j - 1)) C4_NONE, c_ne (B (i + 4) (j + 3)) C4_NONE])
          (c_block [set_score 1000, add_rule 2])
          (c_if (c_all [
              c_test (j > 0), c_ne (B i (j - 1)) C4_NONE, c_eq (B (i + 4) (j + 3)) C4_NONE])
            (c_block [set_score 1000, add_rule 2])
            (c_if (c_all [c_test (j = 0), c_eq (B (i + 4) (j + 3)) C4_NONE])
              (c_block [set_score 1000, add_rule 2])
              c_skip))])
      c_skip,
    c_if (c_all [
        c_test (j > 0), c_test (i < 3), c_test (j < 2), c_eq (B i j) C4_NONE,
        c_eq (B (i + 1) (j + 1)) 1, c_eq (B (i + 2) (j + 2)) 1, c_eq (B (i + 3) (j + 3)) 1,
        c_eq (B (i + 4) (j + 4)) C4_NONE])
      (c_block [
        c_if (c_all [c_eq (B i (j - 1)) C4_NONE, c_eq (B (i + 4) (j + 3)) C4_NONE])
          (c_block [set_score 2000, add_rule 2])
          c_skip])
      c_skip,
    c_if (c_all [
        c_test (j > 0), c_test (i < 3), c_test (j < 2), c_eq (B i j) C4_NONE,
        c_eq (B (i + 1) (j + 1)) 1, c_eq (B (i + 2) (j + 2)) 1, c_eq (B (i + 3) (j + 3)) 1,
        c_eq (B (i + 4) (j + 4)) 0])
      (c_block [
        c_if (c_eq (B i (j - 1)) C4_NONE) (c_block [set_score 1000, add_rule 2]) c_skip,
        c_if (c_ne (B i (j - 1)) C4_NONE) (c_block [set_score 300, add_rule 2]) c_skip])
      c_skip,
    c_if (c_all [
        c_test (j > 0), c_test (i = 3), c_test (j < 3), c_eq (B i j) C4_NONE,
        c_eq (B (i + 1) (j + 1)) 1, c_eq (B (i + 2) (j + 2)) 1, c_eq (B (i + 3) (j + 3)) 1])
      (c_block [
        c_if (c_eq (B i (j - 1)) C4_NONE) (c_block [set_score 1000, add_rule 2]) c_skip,
        c_if (c_ne (B i (j - 1)) C4_NONE) (c_block [set_score 300, add_rule 2]) c_skip])
      c_skip,
    c_if (c_all [
        c_test (i < 3), c_test (j < 2), c_eq (B i j) 0, c_eq (B (i + 1) (j + 1)) 1,
        c_eq (B (i + 2) (j + 2)) 1, c_eq (B (i + 3) (j + 3)) 1, c_eq (B (i + 4) (j + 4)) C4_NONE])
      (c_block [
        c_if (c_eq (B (i + 4) (j + 3)) C4_NONE) (c_block [set_score 1000, add_rule 2]) c_skip,
        c_if (c_ne (B (i + 4) (j + 3)) C4_NONE) (c_block [set_score 300, add_rule 2]) c_skip])
      c_skip,
    c_if (c_all [
        c_test (i = 0), c_test (j < 4), c_eq (B i j) 1, c_eq (B (i + 1) (j + 1)) 1,
        c_eq (B (i + 2) (j + 2)) 1, c_eq (B (i + 3) (j + 3)) C4_NONE])
      (c_block [
        c_if (c_eq (B (i + 3) (j + 2)) C4_NONE) (c_block [set_score 1000, add_rule 2]) c_skip,
        c_if (c_ne (B (i + 3) (j + 2)) C4_NONE) (c_block [set_score 300, add_rule 2]) c_skip])
      c_skip,
    c_if (c_all [
        c_test (i > 1), c_test (i < 5), c_test (j < 4), c_eq (B (i - 1) (j + 1)) 1,
        c_eq (B i j) 1, c_eq (B (i + 1) (j - 1)) 1, c_eq (B (i + 2) (j - 2)) C4_NONE,
        c_eq (B (i - 2) (j + 2)) C4_NONE])
      (c_block [
        c_if (c_all [
            c_test (j > 2), c_ne (B (i + 2) (j - 3)) C4_NONE, c_ne (B (i - 2) (j + 1)) C4_NONE])
          (c_block [set_score 10000, add_rule 2])
          c_skip,
        c_if (c_all [c_test (j = 2), c_ne (B (i - 2) (j + 1)) C4_NONE])
          (c_block [set_score 10000, add_rule 2])
          c_skip])
      c_skip,
    c_if (c_all [
        c_test (j > 3), c_test (i < 3), c_eq (B i j) C4_NONE, c_eq (B (i + 1) (j - 1)) 1,
        c_eq (B (i + 2) (j - 2)) 1, c_eq (B (i + 3) (j - 3)) 1, c_eq (B (i + 4) (j - 4)) C4_NONE])
      (c_block [
        c_if (c_all [
            c_test (j > 5), c_eq (B i (j - 1)) C4_NONE, c_ne (B (i + 4) (j - 5)) C4_NONE])
          (c_block [set_score 1000, add_rule 2])
          (c_if (c_all [
              c_test (j > 5), c_ne (B i (j - 1)) C4_NONE, c_eq (B (i + 4) (j - 5)) C4_NONE])
            (c_block [set_score 1000, add_rule 2])
            (c_if (c_all [c_test (j = 5), c_eq (B i (j - 1)) C4_NONE])
              (c_block [set_score 1000, add_rule 2])
              c_skip))])
      c_skip,
    c_if (c_all [
        c_test (j > 4), c_test (i < 3), c_eq (B i j) C4_NONE, c_eq (B (i + 1) (j - 1)) 1,
        c_eq (B (i + 2) (j - 2)) 1, c_eq (B (i + 3) (j - 3)) 1, c_eq (B (i + 4) (j - 4)) C4_NONE])
      (c_block [
        c_if (c_all [c_eq (B i (j - 1)) C4_NONE, c_eq (B (i + 4) (j - 5)) C4_NONE])
          (c_block [set_score 2000, add_rule 2])
          c_skip])
      c_skip,
    c_if (c_all [
        c_test (j > 3), c_test (i < 3), c_eq (B i j) C4_NONE, c_eq (B (i + 1) (j - 1)) 1,
        c_eq (B (i + 2) (j - 2)) 1, c_eq (B (i + 3) (j - 3)) 1, c_eq (B (i + 4) (j - 4)) 0])
      (c_block [c_if (c_eq (B i (j - 1)) C4_NONE) (c_block [set_score 1000, add_rule 2]) c_skip])
      c_skip,
    c_if (c_all [
        c_test (i = 3), c_test (j > 2), c_eq (B i j) C4_NONE, c_eq (B (i + 1) (j - 1)) 1,
        c_eq (B (i + 2) (j - 2)) 1, c_eq (B (i + 3) (j - 3)) 1])
      (c_block [c_if (c_eq (B i (j - 1)) C4_NONE) (c_block [set_score 1000, add_rule 2]) c_skip])
      c_skip,
    c_if (c_all [
        c_test (j > 4), c_test (i < 3), c_eq (B i j) 0, c_eq (B (i + 1) (j - 1)) 1,
        c_eq (B (i + 2) (j - 2)) 1, c_eq (B (i + 3) (j - 3)) 1, c_eq (B (i + 4) (j - 4)) C4_NONE])
      (c_block [
        c_if (c_eq (B (i + 4) (j - 5)) C4_NONE) (c_block [set_score 1000, add_rule 2]) c_skip])
      c_skip,
    c_if (c_all [
        c_test (j > 3), c_test (i = 0), c_eq (B i j) 1, c_eq (B (i + 1) (j - 1)) 1,
        c_eq (B (i + 2) (j - 2)) 1, c_eq (B (i + 3) (j - 3)) C4_NONE])
      (c_block [
        c_if (c_eq (B (i + 3) (j - 4)) C4_NONE) (c_block [set_score 1000, add_rule 2]) c_skip])
      c_skip,
    c_if (c_all [
        c_test (j > 3), c_test (i < 3), c_eq (B i j) C4_NONE, c_eq (B (i + 1) (j - 1)) 1,
        c_eq (B (i + 2) (j - 2)) 1, c_eq (B (i + 3) (j - 3)) 1, c_eq (B (i + 4) (j - 4)) 0])
      (c_block [c_if (c_ne (B i (j - 1)) C4_NONE) (c_block [set_score 300, add_rule 2]) c_skip])
      c_skip,
    c_if (c_all [
        c_test (j > 2), c_test (i = 3), c_eq (B i j) C4_NONE, c_eq (B (i + 1) (j - 1)) 1,
        c_eq (B (i + 2) (j - 2)) 1, c_eq (B (i + 3) (j - 3)) 1])
      (c_block [c_if (c_ne (B i (j - 1)) C4_NONE) (c_block [set_score 300, add_rule 2]) c_skip])
      c_skip,
    c_if (c_all [
        c_test (j > 3), c_test (i < 3), c_eq (B i j) 0, c_eq (B (i + 1) (j - 1)) 1,
        c_eq (B (i + 2) (j - 2)) 1, c_eq (B (i + 3) (j - 3)) 1, c_eq (B (i + 4) (j - 4)) C4_NONE])
      (c_block [
        c_if (c_all [c_test (j > 4), c_ne (B (i + 4) (j - 5)) C4_NONE])
          (c_block [set_score 300, add_rule 2])
          c_skip,
        c_if (c_test (j = 4)) (c_block [set_score 300, add_rule 2]) c_skip])
      c_skip,
    c_if (c_all [
        c_test (j > 2), c_test (i = 0), c_eq (B i j) 1, c_eq (B (i + 1) (j - 1)) 1,
        c_eq (B (i + 2) (j - 2)) 1, c_eq (B (i + 3) (j - 3)) C4_NONE])
      (c_block [
        c_if (c_all [c_test (j > 3), c_ne (B (i + 3) (j - 4)) C4_NONE])
          (c_block [set_score 300, add_rule 2])
          c_skip,
        c_if (c_test (j = 3)) (c_block [set_score 300, add_rule 2]) c_skip])
      c_skip,
    c_if (c_all [
        c_test (i < 3), c_eq (B i j) 0, c_eq (B (i + 1) j) 1, c_eq (B (i + 2) j) 1,
        c_eq (B (i + 3) j) 1, c_eq (B (i + 4) j) 0])
      (c_block [set_score (-200), add_rule 2])
      c_skip,
    c_if (c_all [
        c_test (i = 0), c_eq (B i j) 1, c_eq (B (i + 1) j) 1, c_eq (B (i + 2) j) 1,
        c_eq (B (i + 3) j) 0])
      (c_block [set_score (-200), add_rule 2])
      c_skip,
    c_if (c_all [
        c_test (i = 3), c_eq (B i j) 0, c_eq (B (i + 1) j) 1, c_eq (B (i + 2) j) 1,
        c_eq (B (i + 3) j) 1])
      (c_block [set_score (-200), add_rule 2])
      c_skip,
    c_if (c_all [
        c_test (i < 3), c_test (j < 2), c_eq (B i j) 0, c_eq (B (i + 1) (j + 1)) 1,
        c_eq (B (i + 2) (j + 2)) 1, c_eq (B (i + 3) (j + 3)) 1, c_eq (B (i + 4) (j + 4)) 0])
      (c_block [set_score (-200), add_rule 2])
      c_skip,
    c_if (c_all [
        c_test (i = 0), c_test (j < 3), c_eq (B i j) 1, c_eq (B (i + 1) (j + 1)) 1,
        c_eq (B (i + 2) (j + 2)) 1, c_eq (B (i + 3) (j + 3)) 0])
      (c_block [set_score (-200), add_rule 2])
      c_skip,
    c_if (c_all [
        c_test (i = 3), c_test (j < 3), c_eq (B i j) 0, c_eq (B (i + 1) (j + 1)) 1,
        c_eq (B (i + 2) (j + 2)) 1, c_eq (B (i + 3) (j + 3)) 1])
      (c_block [set_score (-200), add_rule 2])
      c_skip,
    c_if (c_all [
        c_test (i < 3), c_test (j > 3), c_eq (B i j) 0, c_eq (B (i + 1) (j - 1)) 1,
        c_eq (B (i + 2) (j - 2)) 1, c_eq (B (i + 3) (j - 3)) 1, c_eq (B (i + 4) (j - 4)) 0])
      (c_block [set_score (-200), add_rule 2])
      c_skip,
    c_if (c_all [
        c_test (i = 0), c_test (j > 2), c_eq (B i j) 1, c_eq (B (i + 1) (j - 1)) 1,
        c_eq (B (i + 2) (j - 2)) 1, c_eq (B (i + 3) (j - 3)) 0])
      (c_block [set_score (-200), add_rule 2])
      c_skip,
    c_if (c_all [
        c_test (i = 3), c_test (j > 2), c_eq (B i j) 0, c_eq (B (i + 1) (j - 1)) 1,
        c_eq (B (i + 2) (j - 2)) 1, c_eq (B (i + 3) (j - 3)) 1])
      (c_block [set_score (-200), add_rule 2])
      c_skip]

/-- The tests of rule 4 in the body of the loops of `eval_rule` (lines 1293 to 1498 of
`c4.c`), for the column `i` and the row `j`; they add to `rule[3]`. -/
def eval_rule_4 (B : Int → Int → Option Nat) (i j : Int) :
    Rule_state → Option Rule_state :=
  c_block [
    c_if (c_all [
        c_test (i > 0), c_test (i < 4), c_eq (B i j) 0, c_eq (B (i + 1) j) 0,
        c_eq (B (i + 2) j) 1, c_eq (B (i - 1) j) C4_NONE, c_eq (B (i + 3) j) C4_NONE])
      (c_block [
        c_if (c_all [
            c_test (j > 0), c_ne (B (i - 1) (j - 1)) C4_NONE, c_ne (B (i + 3) (j - 1)) C4_NONE])
          (c_block [set_score 5000, add_rule 3])
          (c_if (c_all [
              c_test (j > 0), c_eq (B (i - 1) (j - 1)) C4_NONE, c_ne (B (i + 3) (j - 1)) C4_NONE])
            (c_block [set_score 150, add_rule 3])
            (c_if (c_all [
                c_test (j > 0), c_ne (B (i - 1) (j - 1)) C4_NONE,
                c_eq (B (i + 3) (j - 1)) C4_NONE])
              (c_block [set_score 150, add_rule 3])
              (c_if (c_test (j = 0)) (c_block [set_score 5000, add_rule 3]) c_skip)))])
      c_skip,
    c_if (c_all [
        c_test (i > 0), c_test (i < 4), c_eq (B i j) 1, c_eq (B (i + 1) j) 0,
        c_eq (B (i + 2) j) 0, c_eq (B (i - 1) j) C4_NONE, c_eq (B (i + 3) j) C4_NONE])
      (c_block [
        c_if (c_all [
            c_test (j > 0), c_ne (B (i - 1) (j - 1)) C4_NONE, c_ne (B (i + 3) (j - 1)) C4_NONE])
          (c_block [set_score 5000, add_rule 3])
          (c_if (c_all [
              c_test (j > 0), c_eq (B (i - 1) (j - 1)) C4_NONE, c_ne (B (i + 3) (j - 1)) C4_NONE])
            (c_block [set_score 150, add_rule 3])
            (c_if (c_all [
                c_test (j > 0), c_ne (B (i - 1) (j - 1)) C4_NONE,
                c_eq (B (i + 3) (j - 1)) C4_NONE])
              (c_block [set_score 150, add_rule 3])
              (c_if (c_test (j = 0)) (c_block [set_score 5000, add_rule 3]) c_skip)))])
      c_skip,
    c_if (c_all [
        c_test (i > 0), c_test (i < 4), c_eq (B i j) 0, c_eq (B (i + 1) j) 1,
        c_eq (B (i + 2) j) 0, c_eq (B (i - 1) j) C4_NONE, c_eq (B (i + 3) j) C4_NONE])
      (c_block [
        c_if (c_all [
            c_test (j > 0), c_ne (B (i - 1) (j - 1)) C4_NONE, c_ne (B (i + 3) (j - 1)) C4_NONE])
          (c_block [set_score 5000, add_rule 3])
          (c_if (c_all [
              c_test (j > 0),
              c_any [c_ne (B (i - 1) (j - 1)) C4_NONE, c_ne (B (i + 3) (j - 1)) C4_NONE]])
            (c_block [set_score 150, add_rule 3])
            (c_if (c_test (j = 0)) (c_block [set_score 5000, add_rule 3]) c_skip))])
      c_skip,
    c_if (c_all [
        c_test (j < 4), c_test (i > 1), c_test (i < 5), c_eq (B i j) 0,
        c_eq (B (i - 1) (j - 1)) 0, c_eq (B (i + 1) (j + 1)) 1, c_eq (B (i - 2) (j - 2)) C4_NONE,
        c_eq (B (i + 2) (j + 2)) C4_NONE])
      (c_block [
        c_if (c_all [
            c_test (j > 2), c_ne (B (i - 2) (j - 3)) C4_NONE, c_ne (B (i + 2) (j + 1)) C4_NONE])
          (c_block [set_score 5000])
          (c_if (c_all [
              c_test (j > 2),
              c_any [c_ne (B (i - 2) (j - 3)) C4_NONE, c_ne (B (i + 2) (j + 1)) C4_NONE]])
            (c_block [set_score 150, add_rule 3])
            (c_if (c_all [c_test (j = 2), c_ne (B (i + 2) (j + 1)) C4_NONE])
              (c_block [set_score 5000, add_rule 3])
              (c_if (c_all [c_test (j = 2), c_eq (B (i + 2) (j + 1)) C4_NONE])
                (c_block [set_score 150, add_rule 3])
                c_skip)))])
      c_skip,
    c_if (c_all [
        c_test (j < 4), c_test (i > 1), c_test (i < 5), c_eq (B i j) 0,
        c_eq (B (i - 1) (j - 1)) 1, c_eq (B (i + 1) (j + 1)) 0, c_eq (B (i - 2) (j - 2)) C4_NONE,
        c_eq (B (i + 2) (j + 2)) C4_NONE])
      (c_block [
        c_if (c_all [
            c_test (j > 2), c_ne (B (i - 2) (j - 3)) C4_NONE, c_ne (B (i + 2) (j + 1)) C4_NONE])
          (c_block [set_score 5000, add_rule 3])
          (c_if (c_all [
              c_test (j > 2),
              c_any [c_ne (B (i - 2) (j - 3)) C4_NONE, c_ne (B (i + 2) (j + 1)) C4_NONE]])
            (c_block [set_score 150, add_rule 3])
            (c_if (c_all [c_test (j = 2), c_ne (B (i + 2) (j + 1)) C4_NONE])
              (c_block [set_score 5000, add_rule 3])
              (c_if (c_all [c_test (j = 2), c_eq (B (i + 2) (j + 1)) C4_NONE])
                (c_block [set_score 150, add_rule 3])
                c_skip)))])
      c_skip,
    c_if (c_all [
        c_test (j < 4), c_test (i > 1), c_test (i < 5), c_eq (B i j) 1,
        c_eq (B (i - 1) (j - 1)) 0, c_eq (B (i + 1) (j + 1)) 0, c_eq (B (i - 2) (j - 2)) C4_NONE,
        c_eq (B (i + 2) (j + 2)) C4_NONE])
      (c_block [
        c_if (c_all [
            c_test (j > 2), c_ne (B (i - 2) (j - 3)) C4_NONE, c_ne (B (i + 2) (j + 1)) C4_NONE])
          (c_block [set_score 5000, add_rule 3])
          (c_if (c_all [
              c_test (j > 2),
              c_any [c_ne (B (i - 2) (j - 3)) C4_NONE, c_ne (B (i + 2) (j + 1)) C4_NONE]])
            (c_block [set_score 150, add_rule 3])
            (c_if (c_all [c_test (j = 2), c_ne (B (i + 2) (j + 1)) C4_NONE])
              (c_block [set_score 5000, add_rule 3])
              (c_if (c_all [c_test (j = 2), c_eq (B (i + 2) (j + 1)) C4_NONE])
                (c_block [set_score 150, add_rule 3])
                c_skip)))])
      c_skip,
    c_if (c_all [
        c_test (i > 1), c_test (j < 4), c_test (i < 5), c_eq (B (i - 1) (j + 1)) 0,
        c_eq (B i j) 0, c_eq (B (i + 1) (j - 1)) 1, c_eq (B (i + 2) (j - 2)) C4_NONE,
        c_eq (B (i - 2) (j + 2)) C4_NONE])
      (c_block [
        c_if (c_all [
            c_test (j > 2), c_ne (B (i + 2) (j - 3)) C4_NONE, c_ne (B (i - 2) (j + 1)) C4_NONE])
          (c_block [set_score 5000, add_rule 3])
          (c_if (c_all [
              c_test (j > 2),
              c_any [c_ne (B (i + 2) (j - 3)) C4_NONE, c_ne (B (i - 2) (j + 1)) C4_NONE]])
            (c_block [set_score 150, add_rule 3])
            (c_if (c_all [c_test (j = 2), c_ne (B (i - 2) (j + 1)) C4_NONE])
              (c_block [set_score 5000, add_rule 3])
              (c_if (c_all [c_test (j = 2), c_eq (B (i - 2) (j + 1)) C4_NONE])
                (c_block [set_score 150, add_rule 3])
                c_skip)))])
      c_skip,
    c_if (c_all [
        c_test (i > 1), c_test (j < 4), c_test (i < 5), c_eq (B (i - 1) (j + 1)) 1,
        c_eq (B i j) 0, c_eq (B (i + 1) (j - 1)) 0, c_eq (B (i + 2) (j - 2)) C4_NONE,
        c_eq (B (i - 2) (j + 2)) C4_NONE])
      (c_block [
        c_if (c_all [
            c_test (j > 2), c_ne (B (i + 2) (j - 3)) C4_NONE, c_ne (B (i - 2) (j + 1)) C4_NONE])
          (c_block [set_score 5000, add_rule 3])
          (c_if (c_all [
              c_test (j > 2),
              c_any [c_ne (B (i + 2) (j - 3)) C4_NONE, c_ne (B (i - 2) (j + 1)) C4_NONE]])
            (c_block [set_score 150, add_rule 3])
            (c_if (c_all [c_test (j = 2), c_ne (B (i - 2) (j + 1)) C4_NONE])
              (c_block [set_score 5000, add_rule 3])
              (c_if (c_all [c_test (j = 2), c_eq (B (i - 2) (j + 1)) C4_NONE])
                (c_block [set_score 150, add_rule 3])
                c_skip)))])
      c_skip,
    c_if (c_all [
        c_test (i > 1), c_test (j < 4), c_test (i < 5), c_eq (B (i - 1) (j + 1)) 0,
        c_eq (B i j) 1, c_eq (B (i + 1) (j - 1)) 0, c_eq (B (i + 2) (j - 2)) C4_NONE,
        c_eq (B (i - 2) (j + 2)) C4_NONE])
      (c_block [
        c_if (c_all [
            c_test (j > 2), c_ne (B (i + 2) (j - 3)) C4_NONE, c_ne (B (i - 2) (j + 1)) C4_NONE])
          (c_block [set_score 5000, add_rule 3])
          (c_if (c_all [
              c_test (j > 2),
              c_any [c_ne (B (i + 2) (j - 3)) C4_NONE, c_ne (B (i - 2) (j + 1)) C4_NONE]])
            (c_block [set_score 150, add_rule 3])
            (c_if (c_all [c_test (j = 2), c_ne (B (i - 2) (j + 1)) C4_NONE])
              (c_block [set_score 5000, add_rule 3])
              (c_if (c_all [c_test (j = 2), c_eq (B (i - 2) (j + 1)) C4_NONE])
                (c_block [set_score 150, add_rule 3])
                c_skip)))])
      c_skip]

/-- The tests of rule 5 in the body of the loops of `eval_rule` (lines 1501 to 1610 of
`c4.c`), for the column `i` and the row `j`; they add to `rule[4]`. -/
def eval_rule_5 (B : Int → Int → Option Nat) (i j : Int) :
    Rule_state → Option Rule_state :=
  c_block [
    c_if (c_all [
        c_test (i > 1), c_test (j > 1), c_eq (B i j) 1, c_eq (B (i - 1) j) 1,
        c_eq (B (i - 2) j) 1, c_eq (B (i - 1) (j - 1)) 1, c_eq (B (i - 2) (j - 2)) 1])
      (c_block [
        c_if (c_all [
            c_test (i > 2), c_test (i < 6), c_test (j < 5), c_eq (B (i + 1) (j + 1)) 0,
            c_eq (B (i - 3) j) 0])
          (c_block [set_score (-100), add_rule 4])
          (c_block [set_score 2000, add_rule 4])])
      c_skip,
    c_if (c_all [
        c_test (j > 1), c_test (i < 5), c_eq (B i j) 1, c_eq (B (i + 1) j) 1,
        c_eq (B (i + 2) j) 1, c_eq (B (i + 1) (j - 1)) 1, c_eq (B (i + 2) (j - 2)) 1])
      (c_block [
        c_if (c_all [
            c_test (i > 0), c_test (i < 4), c_test (j < 5), c_eq (B (i - 1) (j + 1)) 0,
            c_eq (B (i + 3) j) 0])
          (c_block [set_score (-100), add_rule 4])
          (c_block [set_score 2000, add_rule 4])])
      c_skip,
    c_if (c_all [
        c_test (i < 5), c_test (j < 4), c_eq (B i j) 1, c_eq (B (i + 1) j) 1,
        c_eq (B (i + 2) j) 1, c_eq (B (i + 1) (j + 1)) 1, c_eq (B (i + 2) (j + 2)) 1])
      (c_block [
        c_if (c_all [
            c_test (i > 0), c_test (i < 4), c_test (j < 3), c_eq (B (i - 1) j) 0,
            c_eq (B (i + 3) (j + 3)) 0])
          (c_block [set_score (-100), add_rule 4])
          (c_block [set_score 2000, add_rule 4])])
      c_skip,
    c_if (c_all [
        c_test (i > 1), c_test (j < 5), c_eq (B i j) 1, c_eq (B (i - 1) j) 1,
        c_eq (B (i - 2) j) 1, c_eq (B (i - 1) (j + 1)) 1, c_eq (B (i - 2) (j + 2)) 1])
      (c_block [
        c_if (c_all [
            c_test (i < 6), c_test (i > 2), c_test (j < 3), c_eq (B (i + 1) j) 0,
            c_eq (B (i - 3) (j + 3)) 0])
          (c_block [set_score (-100), add_rule 4])
          (c_block [set_score 2000, add_rule 4])])
      c_skip,
    c_if (c_all [
        c_test (i > 1), c_test (j > 1), c_eq (B i j) 1, c_eq (B (i - 1) j) 0,
        c_eq (B (i - 2) j) 0, c_eq (B (i - 1) (j - 1)) 0, c_eq (B (i - 2) (j - 2)) 0])
      (c_block [
        c_if (c_all [
            c_test (i > 2), c_test (i < 6), c_test (j < 5), c_eq (B (i + 1) (j + 1)) 0,
            c_eq (B (i - 3) j) 0])
          (c_block [set_score (-100), add_rule 4])
          (c_block [set_score 2000, add_rule 4])])
      c_skip,
    c_if (c_all [
        c_test (j > 1), c_test (i < 5), c_eq (B i j) 1, c_eq (B (i + 1) j) 0,
        c_eq (B (i + 2) j) 0, c_eq (B (i + 1) (j - 1)) 0, c_eq (B (i + 2) (j - 2)) 0])
      (c_block [
        c_if (c_all [
            c_test (i > 0), c_test (i < 4), c_test (j < 5), c_eq (B (i - 1) (j + 1)) 0,
            c_eq (B (i + 3) j) 0])
          (c_block [set_score (-100), add_rule 4])
          (c_block [set_score 2000, add_rule 4])])
      c_skip,
    c_if (c_all [
        c_test (i < 5), c_test (j < 4), c_eq (B i j) 1, c_eq (B (i + 1) j) 0,
        c_eq (B (i + 2) j) 0, c_eq (B (i + 1) (j + 1)) 0, c_eq (B (i + 2) (j + 2)) 0])
      (c_block [
        c_if (c_all [
            c_test (i > 0), c_test (i < 4), c_test (j < 3), c_eq (B (i - 1) j) 0,
            c_eq (B (i + 3) (j + 3)) 0])
          (c_block [set_score (-100), add_rule 4])
          (c_block [set_score 2000, add_rule 4])])
      c_skip,
    c_if (c_all [
        c_test (i > 1), c_test (j < 4), c_eq (B i j) 1, c_eq (B (i - 1) j) 0,
        c_eq (B (i - 2) j) 0, c_eq (B (i - 1) (j + 1)) 0, c_eq (B (i - 2) (j + 2)) 0])
      (c_block [
        c_if (c_all [
            c_test (i < 6), c_test (i > 2), c_test (j < 3), c_eq (B (i + 1) j) 0,
            c_eq (B (i - 3) (j + 3)) 0])
          (c_block [set_score (-100), add_rule 4])
          (c_block [set_score 2000, add_rule 4])])
      c_skip]

/-- The tests of rule 6 in the body of the loops of `eval_rule` (lines 1613 to 1672 of
`c4.c`), for the column `i` and the row `j`; they add to `rule[5]`. -/
def eval_rule_6 (B : Int → Int → Option Nat) (i j : Int) :
    Rule_state → Option Rule_state :=
  c_block [
    c_if (c_all [
        c_test (j < 5), c_test (i > 2), c_eq (B (i - 3) (j + 1)) 0, c_eq (B (i - 2) (j + 1)) 0,
        c_eq (B (i - 1) (j + 1)) 0, c_eq (B i j) 1, c_eq (B i (j + 1)) C4_NONE])
      (c_block [set_score (-10000), add_rule 5])
      c_skip,
    c_if (c_all [
        c_test (i < 4), c_test (j < 5), c_eq (B (i + 1) (j + 1)) 0, c_eq (B (i + 2) (j + 1)) 0,
        c_eq (B (i + 3) (j + 1)) 0, c_eq (B i j) 1, c_eq (B i (j + 1)) C4_NONE])
      (c_block [set_score (-10000), add_rule 5])
      c_skip,
    c_if (c_all [
        c_test (j < 5), c_test (i > 0), c_test (i < 5), c_eq (B (i - 1) (j + 1)) 0,
        c_eq (B i j) 1, c_eq (B (i + 1) (j + 1)) 0, c_eq (B (i + 2) (j + 1)) 0,
        c_eq (B i (j + 1)) C4_NONE])
      (c_block [set_score (-10000), add_rule 5])
      c_skip,
    c_if (c_all [
        c_test (j < 5), c_test (i > 1), c_test (i < 6), c_eq (B (i - 2) (j + 1)) 0,
        c_eq (B (i - 1) (j + 1)) 0, c_eq (B i j) 1, c_eq (B (i + 1) (j + 1)) 0,
        c_eq (B i (j + 1)) C4_NONE])
      (c_block [set_score (-10000), add_rule 5])
      c_skip,
    c_if (c_all [
        c_test (j < 2), c_test (i > 2), c_eq (B (i - 3) (j + 4)) 0, c_eq (B (i - 2) (j + 3)) 0,
        c_eq (B (i - 1) (j + 2)) 0, c_eq (B i j) 1, c_eq (B i (j + 1)) C4_NONE])
      (c_block [set_score (-10000), add_rule 5])
      c_skip,
    c_if (c_all [
        c_test (j > 1), c_test (i < 4), c_eq (B (i + 1) j) 0, c_eq (B (i + 2) (j - 1)) 0,
        c_eq (B (i + 3) (j - 2)) 0, c_eq (B i j) 1, c_eq (B i (j + 1)) C4_NONE])
      (c_block [set_score (-10000), add_rule 5])
      c_skip,
    c_if (c_all [
        c_test (j > 0), c_test (i > 0), c_test (j < 4), c_test (i < 5),
        c_eq (B (i - 1) (j + 2)) 0, c_eq (B i j) 1, c_eq (B (i + 1) j) 0,
        c_eq (B (i + 2) (j - 1)) 0, c_eq (B i (j + 1)) C4_NONE])
      (c_block [set_score (-10000), add_rule 5])
      c_skip,
    c_if (c_all [
        c_test (i > 1), c_test (j < 3), c_test (i < 6), c_eq (B (i - 2) (j + 3)) 0,
        c_eq (B (i - 1) (j + 2)) 0, c_eq (B i j) 1, c_eq (B (i + 1) j) 0,
        c_eq (B i (j + 1)) C4_NONE])
      (c_block [set_score (-10000), add_rule 5])
      c_skip,
    c_if (c_all [
        c_test (j < 2), c_test (i < 4), c_eq (B (i + 1) (j + 2)) 0, c_eq (B (i + 2) (j + 3)) 0,
        c_eq (B (i + 3) (j + 4)) 0, c_eq (B i j) 1, c_eq (B i (j + 1)) C4_NONE])
      (c_block [set_score (-10000), add_rule 5])
      c_skip,
    c_if (c_all [
        c_test (j < 5), c_test (j > 1), c_test (i > 2), c_eq (B (i - 3) (j - 2)) 0,
        c_eq (B (i - 2) (j - 1)) 0, c_eq (B (i - 1) j) 0, c_eq (B i j) 1,
        c_eq (B i (j + 1)) C4_NONE])
      (c_block [set_score (-10000), add_rule 5])
      c_skip,
    c_if (c_all [
        c_test (i > 0), c_test (j < 3), c_test (i < 5), c_eq (B (i - 1) j) 0, c_eq (B i j) 1,
        c_eq (B (i + 1) (j + 2)) 0, c_eq (B (i + 2) (j + 3)) 0, c_eq (B i (j + 1)) C4_NONE])
      (c_block [set_score (-10000), add_rule 5])
      c_skip,
    c_if (c_all [
        c_test (j > 0), c_test (i > 1), c_test (j < 4), c_test (i < 6),
        c_eq (B (i - 2) (j - 1)) 0, c_eq (B (i - 1) j) 0, c_eq (B i j) 1,
        c_eq (B (i + 1) (j + 2)) 0, c_eq (B i (j + 1)) C4_NONE])
      (c_block [set_score (-10000), add_rule 5])
      c_skip]

/-- The tests of rule 7 in the body of the loops of `eval_rule` (lines 1740 to 1930 of
`c4.c`), for the column `i` and the row `j`; they add to `rule[6]`. -/
def eval_rule_7 (B : Int → Int → Option Nat) (i j : Int) :
    Rule_state → Option Rule_state :=
  c_block [
    c_if (c_all [
        c_test (i < 4), c_test (i > 2), c_eq (B i j) 1, c_eq (B (i - 2) j) 1,
        c_eq (B (i + 2) j) 1, c_eq (B (i - 3) j) 1, c_eq (B (i + 3) j) 1,
        c_eq (B (i - 1) j) C4_NONE, c_eq (B (i + 1) j) C4_NONE])
      (c_block [
        c_if (c_all [
            c_test (j > 0), c_ne (B (i - 1) (j - 1)) C4_NONE, c_ne (B (i + 1) (j - 1)) C4_NONE])
          (c_block [set_score 10000, add_rule 6])
          (c_if (c_test (j = 0))
            (c_block [set_score 10000, add_rule 6])
            (c_if (c_all [
                c_test (j > 0), c_eq (B (i - 1) (j - 1)) C4_NONE,
                c_eq (B (i + 1) (j - 1)) C4_NONE])
              (c_block [set_score 1000, add_rule 6])
              (c_if (c_all [
                  c_test (j > 0),
                  c_any [c_ne (B (i - 1) (j - 1)) C4_NONE, c_ne (B (i + 1) (j - 1)) C4_NONE]])
                (c_block [set_score 500, add_rule 6])
                c_skip)))])
      c_skip,
    c_if (c_all [
        c_test (i < 5), c_test (i > 1), c_eq (B i j) 1, c_eq (B (i - 2) j) 1,
        c_eq (B (i + 2) j) 1, c_eq (B (i - 1) j) C4_NONE, c_eq (B (i + 1) j) C4_NONE])
      (c_block [
        c_if (c_all [
            c_test (j > 0), c_ne (B (i - 1) (j - 1)) C4_NONE, c_ne (B (i + 1) (j - 1)) C4_NONE])
          (c_block [set_score 200, add_rule 6])
          c_skip,
        c_if (c_test (j = 0))
          (c_block [set_score 200, add_rule 6])
          (c_if (c_all [
              c_test (j > 0), c_eq (B (i - 1) (j - 1)) C4_NONE, c_eq (B (i + 1) (j - 1)) C4_NONE])
            (c_block [set_score 150, add_rule 6])
            (c_if (c_all [
                c_test (j > 0),
                c_any [c_ne (B (i - 1) (j - 1)) C4_NONE, c_ne (B (i + 1) (j - 1)) C4_NONE]])
              (c_block [set_score 100, add_rule 6])
              c_skip))])
      c_skip,
    c_if (c_all [
        c_test (i < 5), c_test (i > 1), c_test (j < 4), c_test (j > 1), c_eq (B i j) 1,
        c_eq (B (i - 2) (j - 2)) 1, c_eq (B (i + 2) (j + 2)) 1, c_eq (B (i - 1) (j - 1)) C4_NONE,
        c_eq (B (i + 1) (j + 1)) C4_NONE])
      (c_block [
        c_if (c_all [c_ne (B (i - 1) (j - 2)) C4_NONE, c_ne (B (i + 1) j) C4_NONE])
          (c_block [set_score 200, add_rule 6])
          (c_if (c_all [c_eq (B (i - 1) (j - 2)) C4_NONE, c_eq (B (i + 1) j) C4_NONE])
            (c_block [set_score 150, add_rule 6])
            (c_if (c_any [c_ne (B (i - 1) (j - 2)) C4_NONE, c_ne (B (i + 1) j) C4_NONE])
              (c_block [set_score 100, add_rule 6])
              c_skip))])
      c_skip,
    c_if (c_all [
        c_test (i < 5), c_test (i > 1), c_test (j < 4), c_test (j > 1), c_eq (B i j) 1,
        c_eq (B (i - 2) (j + 2)) 1, c_eq (B (i + 2) (j - 2)) 1, c_eq (B (i - 1) (j + 1)) C4_NONE,
        c_eq (B (i + 1) (j - 1)) C4_NONE])
      (c_block [
        c_if (c_all [c_ne (B (i - 1) j) C4_NONE, c_ne (B (i + 1) (j - 2)) C4_NONE])
          (c_block [set_score 200, add_rule 6])
          (c_if (c_all [c_eq (B (i - 1) j) C4_NONE, c_eq (B (i + 1) (j - 2)) C4_NONE])
            (c_block [set_score 150, add_rule 6])
            (c_if (c_any [c_ne (B (i - 1) j) C4_NONE, c_ne (B (i + 1) (j - 2)) C4_NONE])
              (c_block [set_score 100, add_rule 6])
              c_skip))])
      c_skip,
    c_if (c_all [
        c_test (i > 0), c_test (i < 4), c_eq (B i j) 1, c_eq (B (i + 2) j) 1,
        c_eq (B (i - 1) j) C4_NONE, c_eq (B (i + 1) j) C4_NONE, c_eq (B (i + 3) j) C4_NONE])
      (c_block [
        c_if (c_all [c_test (j > 0), c_ne (B (i + 1) (j - 1)) C4_NONE])
          (c_block [set_score 150, add_rule 6])
          (c_if (c_test (j = 0))
            (c_block [set_score 150, add_rule 6])
            (c_block [set_score 200, add_rule 6]))])
      c_skip,
    c_if (c_all [
        c_test (i < 5), c_test (j > 1), c_test (j < 4), c_test (i > 1), c_eq (B i j) C4_NONE,
        c_eq (B (i - 2) (j - 2)) C4_NONE, c_eq (B (i + 2) (j + 2)) C4_NONE,
        c_eq (B (i - 1) (j - 1)) 1, c_eq (B (i + 1) (j + 1)) 1])
      (c_block [
        c_if (c_ne (B i (j - 1)) C4_NONE)
          (c_block [set_score 150, add_rule 6])
          (c_block [set_score 200, add_rule 6])])
      c_skip,
    c_if (c_all [
        c_test (i < 5), c_test (j > 1), c_test (j < 4), c_test (i > 1), c_eq (B i j) C4_NONE,
        c_eq (B (i - 2) (j + 2)) C4_NONE, c_eq (B (i + 2) (j - 2)) C4_NONE,
        c_eq (B (i - 1) (j + 1)) 1, c_eq (B (i + 1) (j - 1)) 1])
      (c_block [
        c_if (c_ne (B i (j - 1)) C4_NONE)
          (c_block [set_score 150, add_rule 6])
          (c_block [set_score 200, add_rule 6])])
      c_skip,
    c_if (c_all [
        c_test (i > 2), c_eq (B i j) 1, c_eq (B (i - 2) j) 1, c_eq (B (i - 3) j) 1,
        c_eq (B (i - 1) j) C4_NONE])
      (c_block [
        c_if (c_all [c_test (j > 0), c_ne (B (i - 1) (j - 1)) C4_NONE])
          (c_block [set_score 300, add_rule 6])
          (c_if (c_test (j = 0))
            (c_block [set_score 300, add_rule 6])
            (c_block [set_score 1000, add_rule 6]))])
      c_skip,
    c_if (c_all [
        c_test (i < 4), c_test (j < 3), c_eq (B i j) 1, c_eq (B (i + 1) (j + 1)) 1,
        c_eq (B (i + 2) (j + 2)) C4_NONE, c_eq (B (i + 3) (j + 3)) 1])
      (c_block [
        c_if (c_ne (B (i + 2) (j + 1)) C4_NONE)
          (c_block [set_score 300, add_rule 6])
          (c_block [set_score 1000, add_rule 6])])
      c_skip,
    c_if (c_all [
        c_test (i < 4), c_test (j > 2), c_eq (B i j) 1, c_eq (B (i + 1) (j - 1)) 1,
        c_eq (B (i + 2) (j - 2)) C4_NONE, c_eq (B (i + 3) (j - 3)) 1])
      (c_block [
        c_if (c_ne (B (i + 2) (j - 3)) C4_NONE)
          (c_block [set_score 300, add_rule 6])
          (c_block [set_score 1000, add_rule 6])])
      c_skip,
    c_if (c_all [
        c_test (i > 3), c_eq (B i j) 1, c_eq (B (i - 2) j) C4_NONE, c_eq (B (i - 3) j) 1,
        c_eq (B (i - 1) j) 1])
      (c_block [
        c_if (c_all [c_test (j > 0), c_ne (B (i - 2) (j - 1)) C4_NONE])
          (c_block [set_score 300, add_rule 6])
          (c_if (c_test (j = 0))
            (c_block [set_score 300, add_rule 6])
            (c_block [set_score 1000, add_rule 6]))])
      c_skip,
    c_if (c_all [
        c_test (i < 4), c_test (j < 3), c_eq (B i j) 1, c_eq (B (i + 1) (j + 1)) C4_NONE,
        c_eq (B (i + 2) (j + 2)) 1, c_eq (B (i + 3) (j + 3)) 1])
      (c_block [
        c_if (c_ne (B (i + 1) j) C4_NONE)
          (c_block [set_score 300, add_rule 6])
          (c_block [set_score 1000, add_rule 6])])
      c_skip,
    c_if (c_all [
        c_test (i < 4), c_test (j > 2), c_eq (B i j) 1, c_eq (B (i + 1) (j - 1)) C4_NONE,
        c_eq (B (i + 2) (j - 2)) 1, c_eq (B (i + 3) (j - 3)) 1])
      (c_block [
        c_if (c_ne (B (i + 1) (j - 2)) C4_NONE)
          (c_block [set_score 300, add_rule 6])
          (c_block [set_score 1000, add_rule 6])])
      c_skip]

/-- The tests of rule 8 in the body of the loops of `eval_rule` (lines 1944 to 2234 of
`c4.c`), for the column `i` and the row `j`; they add to `rule[7]`. -/
def eval_rule_8 (B : Int → Int → Option Nat) (i j : Int) :
    Rule_state → Option Rule_state :=
  c_block [
    c_if (c_all [
        c_test (i < 4), c_eq (B i j) 1, c_eq (B (i + 1) j) 1, c_eq (B (i + 3) j) 1,
        c_eq (B (i + 2) j) C4_NONE])
      (c_block [
        c_if (c_all [c_test (j > 0), c_eq (B (i + 2) (j - 1)) C4_NONE])
          (c_block [set_score 1000, add_rule 7])
          (c_if (c_all [c_test (j > 0), c_ne (B (i + 2) (j - 1)) C4_NONE])
            (c_block [set_score 300, add_rule 7])
            (c_if (c_test (j = 0)) (c_block [set_score 300, add_rule 7]) c_skip))])
      c_skip,
    c_if (c_all [
        c_test (i < 4), c_test (j > 2), c_eq (B i j) 1, c_eq (B (i + 1) (j - 1)) 1,
        c_eq (B (i + 3) (j - 3)) 1, c_eq (B (i + 2) (j - 2)) C4_NONE])
      (c_block [
        c_if (c_eq (B (i + 2) (j - 3)) C4_NONE)
          (c_block [set_score 1000, add_rule 7])
          (c_if (c_ne (B (i + 2) (j - 3)) C4_NONE) (c_block [set_score 300, add_rule 7]) c_skip)])
      c_skip,
    c_if (c_all [
        c_test (j < 3), c_test (i < 4), c_eq (B i j) 1, c_eq (B (i + 1) (j + 1)) 1,
        c_eq (B (i + 3) (j + 3)) 1, c_eq (B (i + 2) (j + 2)) C4_NONE])
      (c_block [
        c_if (c_eq (B (i + 2) (j + 1)) C4_NONE)
          (c_block [set_score 1000, add_rule 7])
          (c_if (c_ne (B (i + 2) (j + 1)) C4_NONE) (c_block [set_score 300, add_rule 7]) c_skip)])
      c_skip,
    c_if (c_all [
        c_test (i < 4), c_eq (B i j) 1, c_eq (B (i + 1) j) C4_NONE, c_eq (B (i + 3) j) 1,
        c_eq (B (i + 2) j) 1])
      (c_block [
        c_if (c_all [c_test (j > 0), c_eq (B (i + 1) (j - 1)) C4_NONE])
          (c_block [set_score 1000, add_rule 7])
          (c_if (c_all [c_test (j > 0), c_ne (B (i + 1) (j - 1)) C4_NONE])
            (c_block [set_score 300, add_rule 7])
            (c_if (c_test (j = 0)) (c_block [set_score 300, add_rule 7]) c_skip))])
      c_skip,
    c_if (c_all [
        c_test (i < 4), c_test (j > 2), c_eq (B i j) 1, c_eq (B (i + 1) (j - 1)) C4_NONE,
        c_eq (B (i + 3) (j - 3)) 1, c_eq (B (i + 2) (j - 2)) 1])
      (c_block [
        c_if (c_eq (B (i + 1) (j - 2)) C4_NONE)
          (c_block [set_score 1000, add_rule 7])
          (c_if (c_ne (B (i + 1) (j - 2)) C4_NONE) (c_block [set_score 300, add_rule 7]) c_skip)])
      c_skip,
    c_if (c_all [
        c_test (i < 4), c_test (j < 3), c_eq (B i j) 1, c_eq (B (i + 1) (j + 1)) C4_NONE,
        c_eq (B (i + 3) (j + 3)) 1, c_eq (B (i + 2) (j + 2)) 1])
      (c_block [
        c_if (c_eq (B (i + 1) j) C4_NONE)
          (c_block [set_score 1000, add_rule 7])
          (c_if (c_ne (B (i + 1) j) C4_NONE) (c_block [set_score 300, add_rule 7]) c_skip)])
      c_skip,
    c_if (c_all [
        c_test (i < 5), c_test (i > 0), c_eq (B i j) 1, c_eq (B (i + 1) j) 1,
        c_eq (B (i - 1) j) C4_NONE, c_eq (B (i + 2) j) C4_NONE])
      (c_block [
        c_if (c_all [
            c_test (j > 0), c_eq (B (i - 1) (j - 1)) C4_NONE, c_eq (B (i + 2) (j - 1)) C4_NONE])
          (c_block [set_score 150, add_rule 7])
          (c_if (c_all [
              c_test (j > 0),
              c_any [
                c_all [c_eq (B (i - 1) (j - 1)) C4_NONE, c_ne (B (i + 2) (j - 1)) C4_NONE],
                c_all [c_ne (B (i - 1) (j - 1)) C4_NONE, c_eq (B (i + 2) j) C4_NONE]]])
            (c_block [set_score 100, add_rule 7])
            (c_if (c_all [
                c_test (j > 0), c_ne (B (i - 1) (j - 1)) C4_NONE,
                c_ne (B (i + 2) (j - 1)) C4_NONE])
              (c_block [set_score 50, add_rule 7])
              (c_if (c_test (j = 0)) (c_block [set_score 50, add_rule 7]) c_skip)))])
      c_skip,
    c_if (c_all [
        c_test (i < 5), c_test (i > 0), c_test (j < 5), c_test (j > 1), c_eq (B i j) 1,
        c_eq (B (i + 1) (j - 1)) 1, c_eq (B (i - 1) (j + 1)) C4_NONE,
        c_eq (B (i + 2) (j - 2)) C4_NONE])
      (c_block [
        c_if (c_all [
            c_test (j > 2), c_eq (B (i - 1) j) C4_NONE, c_eq (B (i + 2) (j - 3)) C4_NONE])
          (c_block [set_score 150, add_rule 7])
          (c_if (c_all [
              c_test (j > 2),
              c_any [
                c_all [c_eq (B (i - 1) j) C4_NONE, c_ne (B (i + 2) (j - 3)) C4_NONE],
                c_all [c_ne (B (i - 1) j) C4_NONE, c_eq (B (i + 2) (j - 3)) C4_NONE]]])
            (c_block [set_score 100, add_rule 7])
            (c_if (c_all [c_test (j = 2), c_eq (B (i - 1) j) C4_NONE])
              (c_block [set_score 100, add_rule 7])
              (c_if (c_all [
                  c_test (j > 2), c_ne (B (i - 1) j) C4_NONE, c_ne (B (i + 2) (j - 3)) C4_NONE])
                (c_block [set_score 50, add_rule 7])
                (c_if (c_all [c_test (j = 2), c_ne (B (i - 1) j) C4_NONE])
                  (c_block [set_score 50, add_rule 7])
                  c_skip))))])
      c_skip,
    c_if (c_all [
        c_test (i > 0), c_test (i < 5), c_test (j < 4), c_test (j > 0), c_eq (B i j) 1,
        c_eq (B (i + 1) (j + 1)) 1, c_eq (B (i - 1) (j - 1)) C4_NONE,
        c_eq (B (i + 2) (j + 2)) C4_NONE])
      (c_block [
        c_if (c_all [
            c_test (j > 1), c_eq (B (i - 1) (j - 2)) C4_NONE, c_eq (B (i + 2) (j + 1)) C4_NONE])
          (c_block [set_score 150, add_rule 7])
          (c_if (c_all [
              c_test (j > 1),
              c_any [
                c_all [c_eq (B (i - 1) (j - 2)) C4_NONE, c_ne (B (i + 2) (j + 1)) C4_NONE],
                c_all [c_ne (B (i - 1) (j - 2)) C4_NONE, c_eq (B (i + 2) (j + 1)) C4_NONE]]])
            (c_block [set_score 100, add_rule 7])
            (c_if (c_all [c_test (j = 1), c_eq (B (i + 2) (j + 1)) C4_NONE])
              (c_block [set_score 100, add_rule 7])
              (c_if (c_all [
                  c_test (j > 1), c_ne (B (i - 1) (j - 2)) C4_NONE,
                  c_ne (B (i + 2) (j + 1)) C4_NONE])
                (c_block [set_score 50, add_rule 7])
                (c_if (c_all [c_test (j = 1), c_ne (B (i + 2) (j + 1)) C4_NONE])
                  (c_block [set_score 50, add_rule 7])
                  c_skip))))])
      c_skip,
    c_if (c_all [
        c_test (i < 5), c_test (i > 0), c_eq (B i j) 1, c_eq (B (i + 1) j) 1,
        c_any [c_eq (B (i - 1) j) 0, c_eq (B (i + 2) j) 0]])
      (c_block [
        c_if (c_all [c_eq (B (i - 1) j) 0, c_eq (B (i + 2) j) 0])
          (c_block [set_score 5, add_rule 7])
          (c_block [set_score 10, add_rule 7])])
      c_skip,
    c_if (c_all [c_test (i = 0), c_eq (B i j) 1, c_eq (B (i + 1) j) 1])
      (c_block [
        c_if (c_eq (B (i + 2) j) 0)
          (c_block [set_score 5, add_rule 7])
          (c_block [set_score 10, add_rule 7])])
      c_skip,
    c_if (c_all [c_test (i = 5), c_eq (B i j) 1, c_eq (B (i + 1) j) 1])
      (c_block [
        c_if (c_eq (B (i - 1) j) 0)
          (c_block [set_score 5, add_rule 7])
          (c_block [set_score 10, add_rule 7])])
      c_skip,
    c_if (c_all [
        c_test (i > 0), c_test (j > 1), c_test (i < 5), c_test (j < 5), c_eq (B i j) 1,
        c_eq (B (i + 1) (j - 1)) 1,
        c_any [c_eq (B (i - 1) (j + 1)) 0, c_eq (B (i + 2) (j - 2)) 0]])
      (c_block [
        c_if (c_all [c_eq (B (i - 1) (j + 1)) 0, c_eq (B (i + 2) (j - 2)) 0])
          (c_block [set_score 5, add_rule 7])
          (c_block [set_score 10, add_rule 7])])
      c_skip,
    c_if (c_all [c_test (i = 0), c_eq (B i j) 1, c_eq (B (i + 1) (j - 1)) 1])
      (c_block [
        c_if (c_all [c_test (j > 1), c_eq (B (i + 2) (j - 2)) 0])
          (c_block [set_score 5, add_rule 7])
          (c_block [set_score 10, add_rule 7])])
      c_skip,
    c_if (c_all [c_test (i = 5), c_eq (B i j) 1, c_eq (B (i + 1) (j - 1)) 1])
      (c_block [
        c_if (c_all [c_test (j < 5), c_eq (B (i - 1) (j + 1)) 0])
          (c_block [set_score 5, add_rule 7])
          (c_block [set_score 10, add_rule 7])])
      c_skip,
    c_if (c_all [
        c_test (i > 0), c_test (j > 0), c_test (i < 5), c_test (j < 4), c_eq (B i j) 1,
        c_eq (B (i + 1) (j + 1)) 1,
        c_any [c_eq (B (i - 1) (j - 1)) 0, c_eq (B (i + 2) (j + 2)) 0]])
      (c_block [
        c_if (c_all [c_eq (B (i - 1) (j - 1)) 0, c_eq (B (i + 2) (j + 2)) 0])
          (c_block [set_score 5, add_rule 7])
          (c_block [set_score 10, add_rule 7])])
      c_skip,
    c_if (c_all [c_test (i = 0), c_test (j < 5), c_eq (B i j) 1, c_eq (B (i + 1) (j + 1)) 1])
      (c_block [
        c_if (c_all [c_test (j < 4), c_eq (B (i + 2) (j + 2)) 0])
          (c_block [set_score 5, add_rule 7])
          (c_block [set_score 10, add_rule 7])])
      c_skip,
    c_if (c_all [c_test (i = 5), c_test (j < 5), c_eq (B i j) 1, c_eq (B (i + 1) (j + 1)) 1])
      (c_block [
        c_if (c_all [c_test (j > 0), c_eq (B (i - 1) (j - 1)) 0])
          (c_block [set_score 5, add_rule 7])
          (c_block [set_score 10, add_rule 7])])
      c_skip,
    c_if (c_all [
        c_test (j > 0), c_test (j < 5), c_eq (B i j) 1, c_eq (B i (j - 1)) 1,
        c_eq (B i (j + 1)) C4_NONE])
      (c_block [set_score 10, add_rule 7])
      c_skip]
/-- The body of the loops `for (i = 0; i <= 6; i++) for (j = 0; j <= 5; j++)` of
`eval_rule`. -/
def eval_rule_cell (B : Int → Int → Option Nat) (i j : Int) :
    Rule_state → Option Rule_state :=
  c_block [eval_rule_1 B i j, eval_rule_2 B i j, eval_rule_3 B i j, eval_rule_4 B i j,
    eval_rule_5 B i j, eval_rule_6 B i j, eval_rule_7 B i j, eval_rule_8 B i j]

/-- The function `eval_rule(nthCol)`, `B a b` being the read of `board[a][b]`: the
returned `total` and the content of `nthCol` afterwards; no result when a read has no
value. -/
def eval_rule_on (B : Int → Int → Option Nat) : Option (Int × List Int) :=
  match c_block ((List.range 7).flatMap fun i => (List.range 6).map fun j =>
      eval_rule_cell B (i : Int) (j : Int)) { score := 0, rule := List.replicate 8 0 } with
  | none => none
  | some st =>
    some ((List.range 8).foldl (fun total l => wrap32 (total + rd 0 st.rule l)) 0,
      (List.range 8).map fun l => if rd 0 st.rule l ≠ 0 then (l : Int) + 1 else 0)

/-- The function `eval_rule(nthCol)` on the current state. -/
def eval_rule (g : Game) : Option (Int × List Int) := eval_rule_on (board_at g)

/-- The result of `apply_rule`: the contents of `*column` and `*row` afterwards, the
globals of the game, and the arrays `ruleflag` and `ruleOfCol`. -/
structure Rule_result where
  column : Int
  row : Option Int
  game : Game
  ruleflag : List Int
  ruleOfCol : List (List Int)
  deriving DecidableEq, Repr

/-- The loop `for (i = 0; i < 7; i++)` of `apply_rule` that tries each column, over the
columns `i` still to visit; `ev` is the call `eval_rule(ruleOfCol[i])`. No result is
given when the column `i` does not exist (`board[i]` is then outside the board) or
when `ev` gives none. -/
def rule_loop (ev : Game → Option (Int × List Int)) (real_player : Nat) :
    List Nat → List Int → List (List Int) → Game → Option (List Int × List (List Int) × Game)
  | [], ruleflag, ruleOfCol, g => some (ruleflag, ruleOfCol, g)
  | i :: rest, ruleflag, ruleOfCol, g =>
    if i < g.size_x then
      let g1 := push_state g
      let r := drop_piece g1 real_player i
      if r.1 = -1 then
        rule_loop ev real_player rest (wr ruleflag i (-300000)) ruleOfCol (pop_state r.2)
      else
        match ev r.2 with
        | none => none
        | some (total, nthCol) =>
          rule_loop ev real_player rest (wr ruleflag i (wrap32 (rd 0 ruleflag i + total)))
            (wr ruleOfCol i nthCol) (pop_state r.2)
    else none

/-- The loop of `apply_rule` that looks for the greatest `ruleflag[i]`, over the
columns `i` still to visit, with the local variables `max` and `max_col`. -/
def rule_max (ruleflag : List Int) : List Nat → Int × Int → Int × Int
  | [], m => m
  | i :: rest, m =>
    if m.1 < rd 0 ruleflag i then rule_max ruleflag rest (rd 0 ruleflag i, (i : Int))
    else rule_max ruleflag rest m

/-- The function `apply_rule(player, column, row)`, `ev` being its calls of
`eval_rule` and `ruleOfCol` the content of that array before the call. The pointer
`column` is taken to be valid (the function prints `*column`) and is always written;
`row` is `none` for a `NULL` pointer. The two loops that fill `ruleflag` give `5, 6, 7, 8, 7, 6, 5`. No
result is given when an assertion fails or when the column that is played does not
exist. -/
def apply_rule_with (ev : Game → Option (Int × List Int)) (g : Game)
    (ruleOfCol : List (List Int)) (player : Int) (row : Option Int) : Option Rule_result :=
  if g.game_in_progress ∧ ¬ g.move_in_progress then
    let real_player := real_player player
    let ruleflag : List Int := [5, 6, 7, 8, 7, 6, 5]
    if (current_state g).num_of_pieces < 1 then
      if 2 < g.size_x then
        some { column := 2,
               row := row.map (fun _ => ((current_state g).num_of_pieces : Int)),
               game := (drop_piece g real_player 2).2,
               ruleflag := ruleflag, ruleOfCol := ruleOfCol }
      else none
    else if (current_state g).num_of_pieces < 4 then
      if 3 < g.size_x then
        some { column := 3,
               row := row.map (fun _ => ((current_state g).num_of_pieces : Int)),
               game := (drop_piece g real_player 3).2,
               ruleflag := ruleflag, ruleOfCol := ruleOfCol }
      else none
    else
      match rule_loop ev real_player (List.range 7) ruleflag ruleOfCol g with
      | none => none
      | some (ruleflag1, ruleOfCol1, g1) =>
        let m := rule_max ruleflag1 (List.range 7) (-300001, -100000)
        if 0 ≤ m.2 ∧ m.2 < g.size_x then
          let r := drop_piece g1 real_player m.2.toNat
          some { column := m.2, row := row.map (fun _ => r.1), game := r.2,
                 ruleflag := ruleflag1, ruleOfCol := ruleOfCol1 }
        else none
  else none

/-- The function `apply_rule(player, column, row)`. -/
def apply_rule (g : Game) (ruleOfCol : List (List Int)) (player : Int)
    (row : Option Int) : Option Rule_result :=
  apply_rule_with eval_rule g ruleOfCol player row

/-- The function `c4_board()`. -/
def c4_board (g : Game) : Option (List (List Nat)) :=
  if g.game_in_progress then some (current_state g).board else none

/-- The globals that sequences of calls of `c4_new_game`, `c4_make_move`,
`c4_auto_move` and `apply_rule` produce, whatever the calls of `eval_rule` return. -/
inductive Reachable_with_rules : Game → Prop
  | new_game (g0 g : Game) (width height num : Int) :
      c4_new_game g0 width height num = some g → Reachable_with_rules g
  | make_move (g : Game) (player column : Int) (row : Option Int)
      (r : Bool × Option Int × Game) :
      Reachable_with_rules g → c4_make_move g player column row = some r →
      Reachable_with_rules r.2.2
  | auto_move (g : Game) (rand : Nat → Nat) (player level column : Int) (row : Option Int)
      (r : Auto_result) :
      Reachable_with_rules g → c4_auto_move g rand player level column row = some r →
      Reachable_with_rules r.game
  | apply_rule (g : Game) (ev : Game → Option (Int × List Int)) (ruleOfCol : List (List Int))
      (player : Int) (row : Option Int) (r : Rule_result) :
      Reachable_with_rules g →
      apply_rule_with ev g ruleOfCol player row = some r →
      Reachable_with_rules r.game

/-- The 7x6 game with runs of 4 after the players moved in column 3 in turn, twice
each, player 0 first. -/
def game_7x6_four : Game := play (setup_game 7 6 4) [(0, 3), (1, 3), (0, 3), (1, 3)]

/-- The globals at the first call of `eval_rule` by `apply_rule(1, ..)` in
`game_7x6_four`: after `push_state()` and `drop_piece(1, 0)`. -/
def game_7x6_try : Game := (drop_piece (push_state game_7x6_four) 1 0).2

/-- The globals at the first call of `evaluate` by `c4_auto_move(0, level, ..)` in
`game_7x6_four`: `move_in_progress` is true, and `push_state()` and `drop_piece(0, 3)`
(column 3 is `drop_order[0]`) were done. -/
def game_7x6_search : Game :=
  (drop_piece (push_state { game_7x6_four with move_in_progress := true }) 0 3).2



/-! ## Arrays: reading after writing -/

theorem rd_wr_same {α : Type} (d : α) (a : List α) (i : Nat) (v : α) (h : i < a.length) :
    rd d (wr a i v) i = v := by
  simp [rd, wr, List.getD_eq_getElem?_getD, List.getElem?_set, h]

theorem rd_wr_ne {α : Type} (d : α) (a : List α) (i j : Nat) (v : α) (h : i ≠ j) :
    rd d (wr a i v) j = rd d a j := by
  simp [rd, wr, List.getD_eq_getElem?_getD, List.getElem?_set, h]

theorem length_wr {α : Type} (a : List α) (i : Nat) (v : α) : (wr a i v).length = a.length := by
  simp [wr]

theorem wr_rd_self {α : Type} (d : α) (a : List α) (i : Nat) : wr a i (rd d a i) = a := by
  apply List.ext_getElem?
  intro j
  by_cases hj : i = j
  · subst hj
    by_cases hi : i < a.length
    · simp [rd, wr, List.getD_eq_getElem?_getD, List.getElem?_set, hi]
    · simp [rd, wr, List.getD_eq_getElem?_getD, List.getElem?_set, hi]
      omega
  · simp [wr, List.getElem?_set, hj]

theorem rd2_wr2_same {α : Type} (d : α) (a : List (List α)) (x y : Nat) (v : α)
    (hx : x < a.length) (hy : y < (rd [] a x).length) : rd2 d (wr2 a x y v) x y = v := by
  simp only [rd] at hy
  simp [rd2, wr2, List.getD_eq_getElem?_getD, List.getElem?_set, hx] at hy ⊢
  simp [hy]

theorem rd2_wr2_ne {α : Type} (d : α) (a : List (List α)) (x y x1 y1 : Nat) (v : α)
    (h : x ≠ x1 ∨ y ≠ y1) : rd2 d (wr2 a x y v) x1 y1 = rd2 d a x1 y1 := by
  by_cases hx : x = x1
  · subst hx
    have hy : y ≠ y1 := by
      rcases h with h | h
      · exact absurd rfl h
      · exact h
    by_cases hl : x < a.length
    · simp [rd2, wr2, List.getD_eq_getElem?_getD, List.getElem?_set, hl, hy]
    · have hn : a[x]? = none := List.getElem?_eq_none (by omega)
      simp [rd2, wr2, List.getD_eq_getElem?_getD, List.getElem?_set, hl, hn]
  · simp [rd2, wr2, List.getD_eq_getElem?_getD, List.getElem?_set, hx]

theorem rd_wr2_ne {α : Type} (a : List (List α)) (x y x1 : Nat) (v : α) (h : x ≠ x1) :
    rd [] (wr2 a x y v) x1 = rd [] a x1 := by
  simp [rd, wr2, List.getD_eq_getElem?_getD, List.getElem?_set, h]

theorem rd_wr2_same {α : Type} (a : List (List α)) (x y : Nat) (v : α) (hx : x < a.length) :
    rd [] (wr2 a x y v) x = wr (rd [] a x) y v := by
  simp [rd, wr, wr2, List.getD_eq_getElem?_getD, List.getElem?_set, hx]

theorem length_wr2 {α : Type} (a : List (List α)) (x y : Nat) (v : α) :
    (wr2 a x y v).length = a.length := by
  simp [wr2]

theorem length_rd_wr2 {α : Type} (a : List (List α)) (x y x1 : Nat) (v : α) :
    (rd [] (wr2 a x y v) x1).length = (rd [] a x1).length := by
  by_cases hx : x = x1
  · subst hx
    by_cases hl : x < a.length
    · rw [rd_wr2_same a x y v hl, length_wr]
    · have hn : a[x]? = none := List.getElem?_eq_none (by omega)
      simp [rd, wr2, List.getD_eq_getElem?_getD, List.getElem?_set, hl, hn]
  · rw [rd_wr2_ne a x y x1 v hx]


/-! ## The current state -/

theorem current_state_set_current (g : Game) (s : Game_state) (h : Stack_ok g) :
    current_state (set_current g s) = s := by
  unfold current_state set_current
  exact rd_wr_same _ _ _ _ h

theorem set_current_current_state (g : Game) : set_current g (current_state g) = g := by
  unfold current_state set_current
  rw [wr_rd_self]

/-! ## The row a piece falls to -/

theorem drop_row_spec (col : List Nat) (size_y : Nat) :
    ∀ (fuel y : Nat), size_y ≤ y + fuel → y < size_y →
      y ≤ drop_row col size_y fuel y ∧ drop_row col size_y fuel y ≤ size_y ∧
      (∀ j, y ≤ j → j < drop_row col size_y fuel y → rd C4_NONE col j ≠ C4_NONE) ∧
      (drop_row col size_y fuel y < size_y →
        rd C4_NONE col (drop_row col size_y fuel y) = C4_NONE) := by
  intro fuel
  induction fuel with
  | zero => intro y h1 h2; omega
  | succ fuel ih =>
    intro y h1 h2
    unfold drop_row
    by_cases hc : rd C4_NONE col y ≠ C4_NONE
    · by_cases hy : y + 1 < size_y
      · rw [if_pos hc, if_pos hy]
        obtain ⟨a, b, c, d⟩ := ih (y + 1) (by omega) hy
        refine ⟨by omega, b, ?_, d⟩
        intro j hj1 hj2
        by_cases hj : j = y
        · subst hj; exact hc
        · exact c j (by omega) hj2
      · rw [if_pos hc, if_neg hy]
        refine ⟨by omega, by omega, ?_, by omega⟩
        intro j hj1 hj2
        have : j = y := by omega
        subst this; exact hc
    · rw [if_neg hc]
      refine ⟨le_refl _, by omega, ?_, ?_⟩
      · intro j hj1 hj2; omega
      · intro _
        exact not_not.mp hc

theorem drop_row_full (g : Game) (s : Game_state) (column : Nat)
    (hfull : column_full g s column) :
    drop_row (rd [] s.board column) g.size_y g.size_y 0 = g.size_y := by
  by_cases h0 : g.size_y = 0
  · rw [h0]; rfl
  · obtain ⟨_, b, _, d⟩ := drop_row_spec (rd [] s.board column) g.size_y g.size_y 0
      (by omega) (by omega)
    by_contra hne
    have hlt : drop_row (rd [] s.board column) g.size_y g.size_y 0 < g.size_y := by omega
    exact hfull _ hlt (d hlt)

theorem drop_row_free (g : Game) (s : Game_state) (column : Nat)
    (hfree : ¬ column_full g s column) :
    drop_row (rd [] s.board column) g.size_y g.size_y 0 < g.size_y ∧
    rd2 C4_NONE s.board column (drop_row (rd [] s.board column) g.size_y g.size_y 0) = C4_NONE ∧
    ∀ j, j < drop_row (rd [] s.board column) g.size_y g.size_y 0 →
      rd2 C4_NONE s.board column j ≠ C4_NONE := by
  unfold column_full at hfree
  push_neg at hfree
  obtain ⟨y, hy, hyn⟩ := hfree
  obtain ⟨_, b, c, d⟩ := drop_row_spec (rd [] s.board column) g.size_y g.size_y 0
    (by omega) (by omega)
  have hlt : drop_row (rd [] s.board column) g.size_y g.size_y 0 < g.size_y := by
    by_contra hge
    have : drop_row (rd [] s.board column) g.size_y g.size_y 0 = g.size_y := by omega
    exact c y (Nat.zero_le _) (by omega) hyn
  exact ⟨hlt, d hlt, fun j hj => c j (Nat.zero_le _) hj⟩

/-! ## What `update_score` leaves alone -/

theorem update_score_body_board (m : Int) (p : Nat) (l : Score_loop) (w : Nat) :
    (update_score_body m p l w).state.board = l.state.board ∧
    (update_score_body m p l w).state.num_of_pieces = l.state.num_of_pieces ∧
    (update_score_body m p l w).state.score = l.state.score := by
  simp [update_score_body]

theorem update_score_loop_board (m : Int) (p : Nat) (ids : List Nat) :
    ∀ l : Score_loop,
    (ids.foldl (update_score_body m p) l).state.board = l.state.board ∧
    (ids.foldl (update_score_body m p) l).state.num_of_pieces = l.state.num_of_pieces ∧
    (ids.foldl (update_score_body m p) l).state.score = l.state.score := by
  induction ids with
  | nil => intro l; simp
  | cons w rest ih =>
    intro l
    rw [List.foldl_cons]
    obtain ⟨a, b, c⟩ := ih (update_score_body m p l w)
    obtain ⟨a1, b1, c1⟩ := update_score_body_board m p l w
    exact ⟨a.trans a1, b.trans b1, c.trans c1⟩

theorem update_score_on_board (g : Game) (s : Game_state) (player x y : Nat) :
    (update_score_on g s player x y).board = s.board ∧
    (update_score_on g s player x y).num_of_pieces = s.num_of_pieces := by
  unfold update_score_on
  obtain ⟨a, b, _⟩ := update_score_loop_board g.magic_win_number player (rd2 [] g.map x y)
    { this_difference := 0, other_difference := 0, state := s }
  exact ⟨a, b⟩

/-! ## Dropping a piece -/

theorem drop_piece_on_full (g : Game) (s : Game_state) (player column : Nat)
    (hfull : column_full g s column) : drop_piece_on g s player column = (-1, s) := by
  unfold drop_piece_on
  simp [drop_row_full g s column hfull]

theorem drop_piece_on_free (g : Game) (s : Game_state) (player column : Nat)
    (hfree : ¬ column_full g s column) :
    drop_piece_on g s player column =
      (((drop_row (rd [] s.board column) g.size_y g.size_y 0 : Nat) : Int),
       update_score_on g
         { s with board := wr2 s.board column
                    (drop_row (rd [] s.board column) g.size_y g.size_y 0) player,
                  num_of_pieces := s.num_of_pieces + 1 }
         player column (drop_row (rd [] s.board column) g.size_y g.size_y 0)) := by
  unfold drop_piece_on
  have h := (drop_row_free g s column hfree).1
  simp [Nat.ne_of_lt h]

theorem drop_piece_on_board (g : Game) (s : Game_state) (player column : Nat)
    (hfree : ¬ column_full g s column) :
    (drop_piece_on g s player column).2.board =
      wr2 s.board column (drop_row (rd [] s.board column) g.size_y g.size_y 0) player ∧
    (drop_piece_on g s player column).2.num_of_pieces = s.num_of_pieces + 1 := by
  rw [drop_piece_on_free g s player column hfree]
  exact update_score_on_board g _ player column _


/-! ## 32-bit arithmetic -/

theorem modEq_of_eq {a b n : Int} (h : a = b) : a ≡ b [ZMOD n] := by
  rw [h]

theorem wrap32_modEq (a : Int) : wrap32 a ≡ a [ZMOD 4294967296] := by
  unfold wrap32 Int.ModEq
  exact Int.bmod_emod

theorem wrap32_congr {a b : Int} (h : a ≡ b [ZMOD 4294967296]) : wrap32 a = wrap32 b := by
  unfold wrap32
  unfold Int.ModEq at h
  have h1 := Int.emod_bmod_congr a 4294967296
  have h2 := Int.emod_bmod_congr b 4294967296
  simp only [Nat.cast_ofNat] at h1 h2
  rw [← h1, ← h2, h]

theorem wrap32_wrap32 (a : Int) : wrap32 (wrap32 a) = wrap32 a :=
  wrap32_congr (wrap32_modEq a)

theorem wrap32_of_range (a : Int) (h1 : -2147483648 ≤ a) (h2 : a < 2147483648) :
    wrap32 a = a := by
  unfold wrap32
  rw [Int.bmod_def]
  simp only [Nat.cast_ofNat]
  split_ifs with h <;> omega

theorem wrap32_range (a : Int) : -2147483648 ≤ wrap32 a ∧ wrap32 a < 2147483648 := by
  unfold wrap32
  have h1 := @Int.le_bmod a 4294967296 (by decide)
  have h2 := @Int.bmod_lt a 4294967296 (by decide)
  simp only [Nat.cast_ofNat] at h1 h2
  omega

theorem wrap32_zero : wrap32 0 = 0 := by decide

theorem int_sum_eq (a : List Int) : int_sum a = wrap32 a.sum := by
  unfold int_sum
  have h : ∀ (l : List Int) (s : Int), wrap32 s = s →
      l.foldl (fun sum v => wrap32 (sum + v)) s = wrap32 (s + l.sum) := by
    intro l
    induction l with
    | nil => intro s hs; simp [hs]
    | cons v l ih =>
      intro s _
      rw [List.foldl_cons, ih _ (wrap32_wrap32 _), List.sum_cons]
      apply wrap32_congr
      have := wrap32_modEq (s + v)
      calc wrap32 (s + v) + l.sum ≡ (s + v) + l.sum [ZMOD 4294967296] := this.add_right _
        _ = s + (v + l.sum) := by ring
  rw [h a 0 wrap32_zero, zero_add]

/-! ## The two players -/

theorem other_lt {p : Nat} (hp : p < 2) : other p < 2 := by
  interval_cases p <;> decide

theorem other_ne {p : Nat} (hp : p < 2) : other p ≠ p := by
  interval_cases p <;> decide

theorem other_other {p : Nat} (hp : p < 2) : other (other p) = p := by
  interval_cases p <;> decide

theorem eq_or_eq_other {p q : Nat} (hp : p < 2) (hq : q < 2) : q = p ∨ q = other p := by
  interval_cases p <;> interval_cases q <;> decide

theorem real_player_lt (x : Int) : real_player x < 2 := by
  unfold real_player
  omega

/-! ## Sums of arrays -/

theorem sum_wr (a : List Int) (i : Nat) (v : Int) :
    (wr a i v).sum = a.sum - rd 0 a i + (if i < a.length then v else 0) := by
  unfold wr rd
  induction a generalizing i with
  | nil => simp
  | cons x a ih =>
    cases i with
    | zero => simp; ring
    | succ i =>
      simp only [List.set_cons_succ, List.sum_cons, List.getD_cons_succ, List.length_cons,
        Nat.add_lt_add_iff_right]
      rw [ih i]
      ring

theorem rd_of_le {α : Type} (d : α) (a : List α) (i : Nat) (h : a.length ≤ i) :
    rd d a i = d := by
  unfold rd
  rw [List.getD_eq_getElem?_getD, List.getElem?_eq_none h]
  rfl

/-! ## `update_score`: the arrays and the sums -/

theorem update_score_body_rows (m : Int) (p : Nat) (l : Score_loop) (w : Nat) (hp : p < 2)
    (h2 : l.state.score_array.length = 2) :
    (update_score_body m p l w).state.score_array.length = 2 ∧
    rd [] (update_score_body m p l w).state.score_array p =
      wr (rd [] l.state.score_array p) w (wrap32 (2 * rd2 0 l.state.score_array p w)) ∧
    rd [] (update_score_body m p l w).state.score_array (other p) =
      wr (rd [] l.state.score_array (other p)) w 0 := by
  have hq := other_lt hp
  have hne := other_ne hp
  simp only [update_score_body]
  refine ⟨by simp [length_wr2, h2], ?_, ?_⟩
  · rw [rd_wr2_ne _ _ _ _ _ hne, rd_wr2_same _ _ _ _ (by omega)]
  · rw [rd_wr2_same _ _ _ _ (by rw [length_wr2]; omega), rd_wr2_ne _ _ _ _ _ hne.symm]

theorem update_score_body_this (m : Int) (p : Nat) (l : Score_loop) (w : Nat) :
    (update_score_body m p l w).this_difference =
      wrap32 (l.this_difference + rd2 0 l.state.score_array p w) ∧
    (update_score_body m p l w).other_difference =
      wrap32 (l.other_difference + rd2 0 l.state.score_array (other p) w) := by
  simp [update_score_body]

theorem rd2_eq_rd {α : Type} (d : α) (a : List (List α)) (x y : Nat) :
    rd2 d a x y = rd d (rd [] a x) y := rfl

theorem update_score_body_sums (m : Int) (p : Nat) (l : Score_loop) (w : Nat) (hp : p < 2)
    (h2 : l.state.score_array.length = 2) :
    (rd [] (update_score_body m p l w).state.score_array p).sum -
        (update_score_body m p l w).this_difference ≡
      (rd [] l.state.score_array p).sum - l.this_difference [ZMOD 4294967296] ∧
    (rd [] (update_score_body m p l w).state.score_array (other p)).sum +
        (update_score_body m p l w).other_difference ≡
      (rd [] l.state.score_array (other p)).sum + l.other_difference [ZMOD 4294967296] := by
  obtain ⟨_, r1, r2⟩ := update_score_body_rows m p l w hp h2
  obtain ⟨d1, d2⟩ := update_score_body_this m p l w
  rw [r1, r2, d1, d2, sum_wr, sum_wr, rd2_eq_rd, rd2_eq_rd]
  constructor
  · by_cases hw : w < (rd [] l.state.score_array p).length
    · rw [if_pos hw]
      have e1 := wrap32_modEq (2 * rd 0 (rd [] l.state.score_array p) w)
      have e2 := wrap32_modEq (l.this_difference + rd 0 (rd [] l.state.score_array p) w)
      have e3 := (((Int.ModEq.refl ((rd [] l.state.score_array p).sum
        - rd 0 (rd [] l.state.score_array p) w)).add e1).sub e2)
      refine e3.trans ?_
      exact modEq_of_eq (by ring)
    · rw [if_neg hw, rd_of_le 0 (rd [] l.state.score_array p) w (by omega)]
      have e2 := wrap32_modEq (l.this_difference + 0)
      have e3 := (Int.ModEq.refl ((rd [] l.state.score_array p).sum - 0 + 0)).sub e2
      refine e3.trans ?_
      exact modEq_of_eq (by ring)
  · by_cases hw : w < (rd [] l.state.score_array (other p)).length
    · rw [if_pos hw]
      have e2 := wrap32_modEq (l.other_difference + rd 0 (rd [] l.state.score_array (other p)) w)
      have e3 := (Int.ModEq.refl ((rd [] l.state.score_array (other p)).sum
        - rd 0 (rd [] l.state.score_array (other p)) w + 0)).add e2
      refine e3.trans ?_
      exact modEq_of_eq (by ring)
    · rw [if_neg hw, rd_of_le 0 (rd [] l.state.score_array (other p)) w (by omega)]
      have e2 := wrap32_modEq (l.other_difference + 0)
      have e3 := (Int.ModEq.refl ((rd [] l.state.score_array (other p)).sum - 0 + 0)).add e2
      refine e3.trans ?_
      exact modEq_of_eq (by ring)

theorem update_score_loop_sums (m : Int) (p : Nat) (hp : p < 2) (ids : List Nat) :
    ∀ l : Score_loop, l.state.score_array.length = 2 →
    (ids.foldl (update_score_body m p) l).state.score_array.length = 2 ∧
    (rd [] (ids.foldl (update_score_body m p) l).state.score_array p).sum -
        (ids.foldl (update_score_body m p) l).this_difference ≡
      (rd [] l.state.score_array p).sum - l.this_difference [ZMOD 4294967296] ∧
    (rd [] (ids.foldl (update_score_body m p) l).state.score_array (other p)).sum +
        (ids.foldl (update_score_body m p) l).other_difference ≡
      (rd [] l.state.score_array (other p)).sum + l.other_difference [ZMOD 4294967296] := by
  induction ids with
  | nil => intro l h2; exact ⟨h2, Int.ModEq.refl _, Int.ModEq.refl _⟩
  | cons w rest ih =>
    intro l h2
    rw [List.foldl_cons]
    obtain ⟨a1, _, _⟩ := update_score_body_rows m p l w hp h2
    obtain ⟨b1, b2⟩ := update_score_body_sums m p l w hp h2
    obtain ⟨c0, c1, c2⟩ := ih (update_score_body m p l w) a1
    exact ⟨c0, c1.trans b1, c2.trans b2⟩

theorem update_score_on_score_ok (g : Game) (s : Game_state) (p x y : Nat) (hp : p < 2)
    (h1 : s.score.length = 2) (h2 : s.score_array.length = 2) (hok : Score_ok s) :
    Score_ok (update_score_on g s p x y) ∧
    (update_score_on g s p x y).score.length = 2 ∧
    (update_score_on g s p x y).score_array.length = 2 := by
  have hq := other_lt hp
  have hne := other_ne hp
  obtain ⟨c0, c1, c2⟩ := update_score_loop_sums g.magic_win_number p hp (rd2 [] g.map x y)
    { this_difference := 0, other_difference := 0, state := s } h2
  obtain ⟨_, _, hsc⟩ := update_score_loop_board g.magic_win_number p (rd2 [] g.map x y)
    { this_difference := 0, other_difference := 0, state := s }
  simp only [sub_zero, add_zero] at c1 c2 hsc
  refine ⟨?_, ?_, ?_⟩
  · intro r hr
    simp only [update_score_on]
    rw [hsc]
    rcases eq_or_eq_other hp hr with e | e
    · subst e
      rw [rd_wr_ne _ _ _ _ _ hne, rd_wr_same _ _ _ _ (by omega), hok r hr]
      apply wrap32_congr
      have e1 := (wrap32_modEq (rd [] s.score_array r).sum).add
        (Int.ModEq.refl ((List.foldl (update_score_body g.magic_win_number r)
          { this_difference := 0, other_difference := 0, state := s }
          (rd2 [] g.map x y)).this_difference))
      refine e1.trans ?_
      have e2 := c1.symm.add (Int.ModEq.refl ((List.foldl (update_score_body g.magic_win_number r)
          { this_difference := 0, other_difference := 0, state := s }
          (rd2 [] g.map x y)).this_difference))
      refine e2.trans ?_
      exact modEq_of_eq (by ring)
    · subst e
      rw [rd_wr_same _ _ _ _ (by rw [length_wr]; omega), rd_wr_ne _ _ _ _ _ hne.symm,
        hok (other p) hq]
      apply wrap32_congr
      have e1 := (wrap32_modEq (rd [] s.score_array (other p)).sum).sub
        (Int.ModEq.refl ((List.foldl (update_score_body g.magic_win_number p)
          { this_difference := 0, other_difference := 0, state := s }
          (rd2 [] g.map x y)).other_difference))
      refine e1.trans ?_
      have e2 := c2.symm.sub (Int.ModEq.refl ((List.foldl (update_score_body g.magic_win_number p)
          { this_difference := 0, other_difference := 0, state := s }
          (rd2 [] g.map x y)).other_difference))
      refine e2.trans ?_
      exact modEq_of_eq (by ring)
  · simp only [update_score_on]
    rw [hsc, length_wr, length_wr, h1]
  · simp only [update_score_on]
    exact c0

/-! ## The lines enumerated by `c4_new_game` -/

theorem mem_win_lines {w h n : Nat} {l : List (Nat × Nat)} (hn : 1 ≤ n)
    (hl : l ∈ win_lines w h n) :
    (∃ i j, i < h ∧ j + n ≤ w ∧ l = horizontal_line n i j) ∨
    (∃ i j, i < w ∧ j + n ≤ h ∧ l = vertical_line n i j) ∨
    (∃ i j, i + n ≤ h ∧ j + n ≤ w ∧ l = forward_line n i j) ∨
    (∃ i j, i + n ≤ h ∧ n ≤ j + 1 ∧ j < w ∧ l = backward_line n i j) := by
  simp only [win_lines, List.mem_append, List.mem_flatMap, List.mem_map, List.mem_range] at hl
  rcases hl with ((h1 | h1) | h1) | h1
  · obtain ⟨i, hi, j, hj, e⟩ := h1
    exact Or.inl ⟨i, j, hi, by omega, e.symm⟩
  · obtain ⟨i, hi, j, hj, e⟩ := h1
    exact Or.inr (Or.inl ⟨i, j, hi, by omega, e.symm⟩)
  · obtain ⟨i, hi, j, hj, e⟩ := h1
    exact Or.inr (Or.inr (Or.inl ⟨i, j, by omega, by omega, e.symm⟩))
  · obtain ⟨i, hi, t, ht, e⟩ := h1
    exact Or.inr (Or.inr (Or.inr ⟨i, w - 1 - t, by omega, by omega, by omega, e.symm⟩))

theorem win_lines_mem_of {w h n : Nat} {l : List (Nat × Nat)}
    (hl : (∃ i j, i < h ∧ j + n ≤ w ∧ l = horizontal_line n i j) ∨
    (∃ i j, i < w ∧ j + n ≤ h ∧ l = vertical_line n i j) ∨
    (∃ i j, i + n ≤ h ∧ j + n ≤ w ∧ l = forward_line n i j) ∨
    (∃ i j, i + n ≤ h ∧ n ≤ j + 1 ∧ j < w ∧ l = backward_line n i j)) :
    l ∈ win_lines w h n := by
  simp only [win_lines, List.mem_append, List.mem_flatMap, List.mem_map, List.mem_range]
  rcases hl with h1 | h1 | h1 | h1
  · obtain ⟨i, j, hi, hj, e⟩ := h1
    exact Or.inl (Or.inl (Or.inl ⟨i, hi, j, by omega, e.symm⟩))
  · obtain ⟨i, j, hi, hj, e⟩ := h1
    exact Or.inl (Or.inl (Or.inr ⟨i, hi, j, by omega, e.symm⟩))
  · obtain ⟨i, j, hi, hj, e⟩ := h1
    exact Or.inl (Or.inr ⟨i, by omega, j, by omega, e.symm⟩)
  · obtain ⟨i, j, hi, hj1, hj2, e⟩ := h1
    refine Or.inr ⟨i, by omega, w - 1 - j, by omega, ?_⟩
    rw [e]
    congr 1
    omega

theorem win_lines_length_eq {w h n : Nat} {l : List (Nat × Nat)} (hn : 1 ≤ n)
    (hl : l ∈ win_lines w h n) :
    l.length = n := by
  rcases mem_win_lines hn hl with ⟨i, j, _, _, e⟩ | ⟨i, j, _, _, e⟩ | ⟨i, j, _, _, e⟩ |
    ⟨i, j, _, _, _, e⟩ <;>
  · rw [e]
    simp [horizontal_line, vertical_line, forward_line, backward_line]

theorem win_lines_nodup {w h n : Nat} {l : List (Nat × Nat)} (hn : 1 ≤ n)
    (hl : l ∈ win_lines w h n) :
    l.Nodup := by
  rcases mem_win_lines hn hl with ⟨i, j, _, _, e⟩ | ⟨i, j, _, _, e⟩ | ⟨i, j, _, _, e⟩ |
    ⟨i, j, _, _, _, e⟩ <;>
  · rw [e]
    simp only [horizontal_line, vertical_line, forward_line, backward_line]
    apply List.Nodup.map _ (List.nodup_range _)
    intro a b hab
    simp only [Prod.mk.injEq] at hab
    omega

theorem win_lines_in_board {w h n : Nat} {l : List (Nat × Nat)} (hn : 1 ≤ n)
    (hl : l ∈ win_lines w h n)
    {c : Nat × Nat} (hc : c ∈ l) : c.1 < w ∧ c.2 < h := by
  rcases mem_win_lines hn hl with ⟨i, j, _, _, e⟩ | ⟨i, j, _, _, e⟩ | ⟨i, j, _, _, e⟩ |
    ⟨i, j, _, _, _, e⟩ <;>
  · rw [e] at hc
    simp only [horizontal_line, vertical_line, forward_line, backward_line, List.mem_map,
      List.mem_range] at hc
    obtain ⟨k, hk, e1⟩ := hc
    rw [← e1]
    simp only
    omega

theorem length_flatMap_range_map {α : Type} (a b : Nat) (f : Nat → Nat → α) :
    ((List.range a).flatMap fun i => (List.range b).map fun j => f i j).length = a * b := by
  induction a with
  | zero => simp
  | succ a ih =>
    rw [List.range_succ, List.flatMap_append, List.length_append, ih]
    simp
    ring

theorem win_lines_length (w h n : Nat) :
    (win_lines w h n).length =
      h * (w + 1 - n) + w * (h + 1 - n) + 2 * ((h + 1 - n) * (w + 1 - n)) := by
  simp only [win_lines, List.length_append, length_flatMap_range_map]
  ring

theorem num_of_win_places_eq (w h n : Nat) :
    num_of_win_places w h n = ((win_lines w h n).length : Int) := by
  rw [win_lines_length]
  unfold num_of_win_places
  by_cases h1 : w < n
  · have e1 : w + 1 - n = 0 := by omega
    by_cases h2 : h < n
    · have e2 : h + 1 - n = 0 := by omega
      rw [if_pos ⟨by exact_mod_cast h1, by exact_mod_cast h2⟩, e1, e2]
      simp
    · rw [if_neg (fun hc => h2 (by exact_mod_cast hc.2)), if_pos (by exact_mod_cast h1), e1]
      have e2 : ((h + 1 - n : Nat) : Int) = (h : Int) - n + 1 := by omega
      push_cast
      rw [e2]
      ring
  · have e1 : ((w + 1 - n : Nat) : Int) = (w : Int) - n + 1 := by omega
    rw [if_neg (fun hc => h1 (by exact_mod_cast hc.1)), if_neg (by exact_mod_cast h1)]
    by_cases h2 : h < n
    · have e2 : h + 1 - n = 0 := by omega
      rw [if_pos (by exact_mod_cast h2), e2]
      push_cast
      rw [e1]
      ring
    · have e2 : ((h + 1 - n : Nat) : Int) = (h : Int) - n + 1 := by omega
      rw [if_neg (by exact_mod_cast h2)]
      push_cast
      rw [e1, e2]
      ring

/-! ## The map built by `c4_new_game` -/

theorem dims_wr2 {α : Type} {w h : Nat} {a : List (List α)} (hd : Dims w h a) (x y : Nat)
    (v : α) : Dims w h (wr2 a x y v) := by
  refine ⟨by rw [length_wr2]; exact hd.1, ?_⟩
  intro x1 hx1
  rw [length_rd_wr2]
  exact hd.2 x1 hx1

theorem dims_replicate {α : Type} (w h : Nat) (v : α) :
    Dims w h (List.replicate w (List.replicate h v)) := by
  refine ⟨by simp, ?_⟩
  intro x hx
  simp [rd, List.getD_eq_getElem?_getD, List.getElem?_replicate, hx]

theorem rd2_replicate {α : Type} (d v : α) (w h x y : Nat) (hx : x < w) (hy : y < h) :
    rd2 d (List.replicate w (List.replicate h v)) x y = v := by
  simp [rd2, List.getD_eq_getElem?_getD, List.getElem?_replicate, hx, hy]

theorem map_add_spec {w h : Nat} {m : List (List (List Nat))} (hd : Dims w h m) (id : Nat)
    (c : Nat × Nat) (hc : c.1 < w ∧ c.2 < h) :
    Dims w h (map_add m id c) ∧
    ∀ x y, rd2 [] (map_add m id c) x y =
      rd2 [] m x y ++ (if (x, y) = c then [id] else []) := by
  unfold map_add
  refine ⟨dims_wr2 hd _ _ _, ?_⟩
  intro x y
  by_cases he : (x, y) = c
  · rw [if_pos he]
    subst he
    apply rd2_wr2_same
    · rw [hd.1]; exact hc.1
    · rw [hd.2 _ hc.1]; exact hc.2
  · rw [if_neg he, List.append_nil]
    apply rd2_wr2_ne
    by_contra hcon
    push_neg at hcon
    apply he
    rw [← hcon.1, ← hcon.2]

theorem map_add_cells_spec {w h : Nat} (id : Nat) (l : List (Nat × Nat)) :
    ∀ (m : List (List (List Nat))), Dims w h m → (∀ c, c ∈ l → c.1 < w ∧ c.2 < h) →
      l.Nodup →
      Dims w h (l.foldl (fun m c => map_add m id c) m) ∧
      ∀ x y, rd2 [] (l.foldl (fun m c => map_add m id c) m) x y =
        rd2 [] m x y ++ (if (x, y) ∈ l then [id] else []) := by
  induction l with
  | nil => intro m hd _ _; exact ⟨hd, by simp⟩
  | cons c l ih =>
    intro m hd hin hnd
    rw [List.foldl_cons]
    obtain ⟨d1, r1⟩ := map_add_spec hd id c (hin c (List.mem_cons_self _ _))
    obtain ⟨d2, r2⟩ := ih (map_add m id c) d1
      (fun c1 hc1 => hin c1 (List.mem_cons_of_mem _ hc1)) (List.nodup_cons.mp hnd).2
    refine ⟨d2, ?_⟩
    intro x y
    rw [r2, r1]
    have hnot := (List.nodup_cons.mp hnd).1
    by_cases he : (x, y) = c
    · have hn : (x, y) ∉ l := by rw [he]; exact hnot
      simp [he, hn, hnot]
    · by_cases hm : (x, y) ∈ l
      · simp [he, hm]
      · simp [he, hm]

theorem lines_through_append (pre : List (List (Nat × Nat))) (l : List (Nat × Nat))
    (c : Nat × Nat) :
    lines_through (pre ++ [l]) c =
      lines_through pre c ++ (if c ∈ l then [pre.length] else []) := by
  unfold lines_through
  rw [List.length_append, List.length_singleton, List.range_succ, List.filter_append]
  congr 1
  · apply List.filter_congr
    intro i hi
    rw [List.mem_range] at hi
    have e := List.getD_append pre [l] [] i hi
    simp only [rd, e]
  · have e := List.getD_append_right pre [l] [] pre.length (le_refl _)
    simp only [rd, List.filter_cons, List.filter_nil, e]
    simp

theorem build_map_spec {w h : Nat} (lines : List (List (Nat × Nat))) :
    (∀ l, l ∈ lines → (∀ c, c ∈ l → c.1 < w ∧ c.2 < h) ∧ l.Nodup) →
    Dims w h (lines.foldl map_add_line (List.replicate w (List.replicate h []), 0)).1 ∧
    (lines.foldl map_add_line (List.replicate w (List.replicate h []), 0)).2 = lines.length ∧
    ∀ x y, x < w → y < h →
      rd2 [] (lines.foldl map_add_line (List.replicate w (List.replicate h []), 0)).1 x y =
        lines_through lines (x, y) := by
  induction lines using List.reverseRecOn with
  | nil =>
    intro _
    refine ⟨dims_replicate w h [], rfl, ?_⟩
    intro x y hx hy
    rw [List.foldl_nil, rd2_replicate _ _ _ _ _ _ hx hy]
    rfl
  | append_singleton pre l ih =>
    intro hall
    obtain ⟨d1, e1, r1⟩ := ih (fun l1 hl1 => hall l1 (List.mem_append_left _ hl1))
    have hl := hall l (List.mem_append_right _ (List.mem_singleton_self l))
    rw [List.foldl_append, List.foldl_cons, List.foldl_nil]
    obtain ⟨d2, r2⟩ := map_add_cells_spec
      (pre.foldl map_add_line (List.replicate w (List.replicate h []), 0)).2 l _ d1 hl.1 hl.2
    refine ⟨d2, ?_, ?_⟩
    · simp only [map_add_line]
      rw [e1]
      simp
    · intro x y hx hy
      simp only [map_add_line]
      rw [r2, r1 x y hx hy, e1, lines_through_append]

theorem setup_game_map (w h n : Nat) (hn : 1 ≤ n) :
    Dims w h (setup_game w h n).map ∧
    ∀ x y, x < w → y < h →
      rd2 [] (setup_game w h n).map x y = lines_through (win_lines w h n) (x, y) := by
  have hs := @build_map_spec w h (win_lines w h n)
    (fun l hl => ⟨fun c hc => win_lines_in_board hn hl hc, win_lines_nodup hn hl⟩)
  exact ⟨hs.1, hs.2.2⟩

theorem setup_game_win_places (w h n : Nat) :
    (setup_game w h n).win_places = (win_lines w h n).length := by
  simp only [setup_game]
  rw [num_of_win_places_eq]
  simp

theorem mem_lines_through {lines : List (List (Nat × Nat))} {c : Nat × Nat} {i : Nat} :
    i ∈ lines_through lines c ↔ i < lines.length ∧ c ∈ rd [] lines i := by
  simp [lines_through]

theorem lines_through_nodup (lines : List (List (Nat × Nat))) (c : Nat × Nat) :
    (lines_through lines c).Nodup :=
  (List.nodup_range _).filter _

/-! ## `update_score`: the entries and the winner -/

theorem update_score_body_entry (m : Int) (p : Nat) (l : Score_loop) (w : Nat) (hp : p < 2)
    (h2 : l.state.score_array.length = 2) (L : Nat)
    (hw : w < (rd [] l.state.score_array p).length)
    (hw1 : w < (rd [] l.state.score_array (other p)).length) :
    rd2 0 (update_score_body m p l w).state.score_array p L =
      (if L = w then wrap32 (2 * rd2 0 l.state.score_array p w)
       else rd2 0 l.state.score_array p L) ∧
    rd2 0 (update_score_body m p l w).state.score_array (other p) L =
      (if L = w then 0 else rd2 0 l.state.score_array (other p) L) ∧
    (rd [] (update_score_body m p l w).state.score_array p).length =
      (rd [] l.state.score_array p).length ∧
    (rd [] (update_score_body m p l w).state.score_array (other p)).length =
      (rd [] l.state.score_array (other p)).length := by
  obtain ⟨_, r1, r2⟩ := update_score_body_rows m p l w hp h2
  simp only [rd2_eq_rd]
  rw [r1, r2, length_wr, length_wr]
  refine ⟨?_, ?_, rfl, rfl⟩
  · by_cases hL : L = w
    · rw [if_pos hL, hL]
      exact rd_wr_same _ _ _ _ hw
    · rw [if_neg hL]
      exact rd_wr_ne _ _ _ _ _ (Ne.symm hL)
  · by_cases hL : L = w
    · rw [if_pos hL, hL]
      exact rd_wr_same _ _ _ _ hw1
    · rw [if_neg hL]
      exact rd_wr_ne _ _ _ _ _ (Ne.symm hL)

theorem update_score_body_winner (m : Int) (p : Nat) (l : Score_loop) (w : Nat) (hp : p < 2)
    (h2 : l.state.score_array.length = 2)
    (hw : w < (rd [] l.state.score_array p).length) :
    (update_score_body m p l w).state.winner =
      if l.state.winner = C4_NONE ∧ wrap32 (2 * rd2 0 l.state.score_array p w) = m then p
      else l.state.winner := by
  have hne := other_ne hp
  have e : rd2 0 (wr2 (wr2 l.state.score_array p w
      (wrap32 (2 * rd2 0 l.state.score_array p w))) (other p) w 0) p w =
      wrap32 (2 * rd2 0 l.state.score_array p w) := by
    rw [rd2_wr2_ne _ _ _ _ _ _ _ (Or.inl hne)]
    exact rd2_wr2_same _ _ _ _ _ (by omega) hw
  simp only [update_score_body, e]
  by_cases h1 : wrap32 (2 * rd2 0 l.state.score_array p w) = m
  · by_cases h3 : l.state.winner = C4_NONE
    · simp [h1, h3]
    · simp [h1, h3]
  · simp [h1]

theorem update_score_loop_entry (m : Int) (p : Nat) (hp : p < 2) (W : Nat) (ids : List Nat) :
    ∀ l : Score_loop, l.state.score_array.length = 2 →
      (rd [] l.state.score_array p).length = W →
      (rd [] l.state.score_array (other p)).length = W →
      ids.Nodup → (∀ w, w ∈ ids → w < W) →
      (∀ L, rd2 0 (ids.foldl (update_score_body m p) l).state.score_array p L =
        (if L ∈ ids then wrap32 (2 * rd2 0 l.state.score_array p L)
         else rd2 0 l.state.score_array p L)) ∧
      (∀ L, rd2 0 (ids.foldl (update_score_body m p) l).state.score_array (other p) L =
        (if L ∈ ids then 0 else rd2 0 l.state.score_array (other p) L)) ∧
      (rd [] (ids.foldl (update_score_body m p) l).state.score_array p).length = W ∧
      (rd [] (ids.foldl (update_score_body m p) l).state.score_array (other p)).length = W ∧
      (ids.foldl (update_score_body m p) l).state.winner =
        (if l.state.winner = C4_NONE ∧
            ∃ w, w ∈ ids ∧ wrap32 (2 * rd2 0 l.state.score_array p w) = m then p
         else l.state.winner) := by
  induction ids with
  | nil =>
    intro l _ h3 h4 _ _
    simp [h3, h4]
  | cons w rest ih =>
    intro l h2 h3 h4 hnd hlt
    rw [List.foldl_cons]
    have hwW : w < W := hlt w (List.mem_cons_self _ _)
    obtain ⟨a1, _, _⟩ := update_score_body_rows m p l w hp h2
    have hb := fun L => update_score_body_entry m p l w hp h2 L (by omega) (by omega)
    have hwin := update_score_body_winner m p l w hp h2 (by omega)
    have hnot : w ∉ rest := (List.nodup_cons.mp hnd).1
    obtain ⟨i1, i2, i3, i4, i5⟩ := ih (update_score_body m p l w) a1
      (by rw [(hb 0).2.2.1]; exact h3) (by rw [(hb 0).2.2.2]; exact h4)
      (List.nodup_cons.mp hnd).2 (fun w1 hw1 => hlt w1 (List.mem_cons_of_mem _ hw1))
    refine ⟨?_, ?_, i3, i4, ?_⟩
    · intro L
      rw [i1 L, (hb L).1]
      by_cases hL : L = w
      · subst hL
        simp [hnot]
      · by_cases hr : L ∈ rest
        · simp [hL, hr]
        · simp [hL, hr]
    · intro L
      rw [i2 L, (hb L).2.1]
      by_cases hL : L = w
      · subst hL
        simp [hnot]
      · by_cases hr : L ∈ rest
        · simp [hL, hr]
        · simp [hL, hr]
    · rw [i5, hwin]
      have hpn : p ≠ C4_NONE := by unfold C4_NONE; omega
      have hrest : ∀ w1, w1 ∈ rest →
          rd2 0 (update_score_body m p l w).state.score_array p w1 =
            rd2 0 l.state.score_array p w1 := by
        intro w1 hw1
        rw [(hb w1).1, if_neg (fun e => hnot (by rw [← e]; exact hw1))]
      have hC : (∃ w1, w1 ∈ rest ∧
          wrap32 (2 * rd2 0 (update_score_body m p l w).state.score_array p w1) = m) ↔
          (∃ w1, w1 ∈ rest ∧ wrap32 (2 * rd2 0 l.state.score_array p w1) = m) := by
        constructor
        · rintro ⟨w1, hw1, hm1⟩
          exact ⟨w1, hw1, by rw [← hrest w1 hw1]; exact hm1⟩
        · rintro ⟨w1, hw1, hm1⟩
          exact ⟨w1, hw1, by rw [hrest w1 hw1]; exact hm1⟩
      have hD : (∃ w1, w1 ∈ w :: rest ∧ wrap32 (2 * rd2 0 l.state.score_array p w1) = m) ↔
          (wrap32 (2 * rd2 0 l.state.score_array p w) = m ∨
           ∃ w1, w1 ∈ rest ∧ wrap32 (2 * rd2 0 l.state.score_array p w1) = m) := by
        constructor
        · rintro ⟨w1, hw1, hm1⟩
          rcases List.mem_cons.mp hw1 with e | e
          · left; rw [← e]; exact hm1
          · right; exact ⟨w1, e, hm1⟩
        · rintro (hm1 | ⟨w1, hw1, hm1⟩)
          · exact ⟨w, List.mem_cons_self _ _, hm1⟩
          · exact ⟨w1, List.mem_cons_of_mem _ hw1, hm1⟩
      simp only [hC, hD]
      by_cases hn : l.state.winner = C4_NONE
      · by_cases hm : wrap32 (2 * rd2 0 l.state.score_array p w) = m
        · simp [hn, hm, hpn]
        · simp [hn, hm]
      · simp [hn]

/-! ## Powers of two in an `int` -/

theorem wrap32_two_mul (a : Int) : wrap32 (2 * wrap32 a) = wrap32 (2 * a) :=
  wrap32_congr ((Int.ModEq.refl 2).mul (wrap32_modEq a))

theorem wrap32_pow_small {k : Nat} (hk : k ≤ 30) : wrap32 (2 ^ k) = 2 ^ k := by
  have h1 : (2 : Int) ^ k ≤ 2 ^ 30 := pow_le_pow_right₀ (by norm_num) hk
  have h2 : (0 : Int) < 2 ^ k := by positivity
  apply wrap32_of_range
  · omega
  · norm_num at h1; omega

theorem wrap32_pow_31 : wrap32 (2 ^ 31) = -2147483648 := by decide

theorem wrap32_pow_ne_zero {k : Nat} (hk : k ≤ 31) : wrap32 (2 ^ k) ≠ 0 := by
  by_cases h : k ≤ 30
  · rw [wrap32_pow_small h]
    positivity
  · have : k = 31 := by omega
    subst this
    rw [wrap32_pow_31]
    decide

theorem wrap32_pow_inj {k n : Nat} (hk : k ≤ 31) (hn : n ≤ 31)
    (h : wrap32 (2 ^ k) = wrap32 (2 ^ n)) : k = n := by
  by_cases h1 : k ≤ 30
  · by_cases h2 : n ≤ 30
    · rw [wrap32_pow_small h1, wrap32_pow_small h2] at h
      have h3 : (2 : Nat) ^ k = 2 ^ n := by exact_mod_cast h
      exact Nat.pow_right_injective (le_refl 2) h3
    · have : n = 31 := by omega
      subst this
      rw [wrap32_pow_small h1, wrap32_pow_31] at h
      have : (0 : Int) < 2 ^ k := by positivity
      omega
  · have : k = 31 := by omega
    subst this
    by_cases h2 : n ≤ 30
    · rw [wrap32_pow_small h2, wrap32_pow_31] at h
      have : (0 : Int) < 2 ^ n := by positivity
      omega
    · omega

/-! ## Cells and lines -/

theorem rd2_wr2 {α : Type} (d : α) {w h : Nat} {a : List (List α)}
    (hd : Dims w h a) (x y : Nat) (v : α) (hx : x < w) (hy : y < h) (c : Nat × Nat) :
    rd2 d (wr2 a x y v) c.1 c.2 = if c = (x, y) then v else rd2 d a c.1 c.2 := by
  by_cases hc : c = (x, y)
  · rw [if_pos hc, hc]
    exact rd2_wr2_same _ _ _ _ _ (by rw [hd.1]; exact hx) (by rw [hd.2 x hx]; exact hy)
  · rw [if_neg hc]
    apply rd2_wr2_ne
    by_contra hcon
    push_neg at hcon
    exact hc (Prod.ext hcon.1.symm hcon.2.symm)

theorem owned_wr2 {w h : Nat} {b : List (List Nat)} (hd : Dims w h b) (x y v q : Nat)
    (hx : x < w) (hy : y < h) (hq : rd2 C4_NONE b x y ≠ q) (l : List (Nat × Nat))
    (hl : l.Nodup) :
    owned (wr2 b x y v) q l = owned b q l + (if (x, y) ∈ l ∧ v = q then 1 else 0) := by
  unfold owned
  induction l with
  | nil => simp
  | cons c l ih =>
    have hnot := (List.nodup_cons.mp hl).1
    rw [List.countP_cons, List.countP_cons, ih (List.nodup_cons.mp hl).2,
      rd2_wr2 C4_NONE hd x y v hx hy c]
    by_cases hc : c = (x, y)
    · have hn : (x, y) ∉ l := by rw [← hc]; exact hnot
      have e : rd2 C4_NONE b c.1 c.2 ≠ q := by rw [hc]; exact hq
      by_cases hv : v = q
      · simp [hc, hn, hv, hq]
      · simp [hc, hn, hv, hq]
    · have hc1 : (x, y) ≠ c := fun e => hc e.symm
      by_cases hm : (x, y) ∈ l
      · by_cases hv : v = q
        · simp [hc, hc1, hm, hv]; omega
        · simp [hc, hc1, hm, hv]
      · simp [hc, hc1, hm]

theorem touched_wr2 {w h : Nat} {b : List (List Nat)} (hd : Dims w h b) (x y v q : Nat)
    (hx : x < w) (hy : y < h) (hq : rd2 C4_NONE b x y ≠ q) (l : List (Nat × Nat)) :
    touched (wr2 b x y v) q l = (touched b q l || decide ((x, y) ∈ l ∧ v = q)) := by
  unfold touched
  induction l with
  | nil => simp
  | cons c l ih =>
    rw [List.any_cons, List.any_cons, ih, rd2_wr2 C4_NONE hd x y v hx hy c]
    by_cases hc : c = (x, y)
    · by_cases hv : v = q
      · simp [hc, hv]
      · simp [hc, hv, hq]
    · have hc1 : (x, y) ≠ c := fun e => hc e.symm
      by_cases hm : (x, y) ∈ l
      · by_cases hv : v = q
        · simp [hc, hc1, hm, hv]
        · simp [hc, hc1, hm, hv]
      · simp [hc, hc1, hm]

theorem touched_iff {b : List (List Nat)} {q : Nat} {l : List (Nat × Nat)} :
    touched b q l = true ↔ ∃ c, c ∈ l ∧ rd2 C4_NONE b c.1 c.2 = q := by
  simp [touched]

theorem owned_le (b : List (List Nat)) (q : Nat) (l : List (Nat × Nat)) :
    owned b q l ≤ l.length := List.countP_le_length _

theorem owned_eq_length_iff {b : List (List Nat)} {q : Nat} {l : List (Nat × Nat)} :
    owned b q l = l.length ↔ ∀ c, c ∈ l → rd2 C4_NONE b c.1 c.2 = q := by
  simp [owned, List.countP_eq_length]

theorem progress_eq_magic_iff {b : List (List Nat)} {q n : Nat} {l : List (Nat × Nat)}
    (hq : q < 2) (hn : n ≤ 31) (hl : l.length = n) :
    progress b q l = wrap32 (2 ^ n) ↔ ∀ c, c ∈ l → rd2 C4_NONE b c.1 c.2 = q := by
  unfold progress
  constructor
  · intro h
    by_cases ht : touched b (other q) l = true
    · rw [if_pos ht] at h
      exact absurd h.symm (wrap32_pow_ne_zero hn)
    · rw [if_neg ht] at h
      have hk : owned b q l ≤ 31 := le_trans (owned_le b q l) (by omega)
      have := wrap32_pow_inj hk hn h
      exact owned_eq_length_iff.mp (by omega)
  · intro h
    have ht : ¬ touched b (other q) l = true := by
      rw [touched_iff]
      rintro ⟨c, hc, e⟩
      rw [h c hc] at e
      exact other_ne hq e.symm
    rw [if_neg ht, owned_eq_length_iff.mpr h, hl]

/-! ## The invariant of the states -/

theorem sum_replicate_one (W : Nat) : (List.replicate W (1 : Int)).sum = W := by
  simp

theorem inv_start (w h n : Nat) (h1 : 1 ≤ n) (hW : (win_lines w h n).length ≤ 2147483647) :
    Inv w h n (current_state (setup_game w h n)) := by
  have hwp := setup_game_win_places w h n
  have hcs : current_state (setup_game w h n) =
      { board := List.replicate w (List.replicate h C4_NONE)
        score_array := [List.replicate (win_lines w h n).length 1,
                        List.replicate (win_lines w h n).length 1]
        score := [((win_lines w h n).length : Int), ((win_lines w h n).length : Int)]
        winner := C4_NONE
        num_of_pieces := 0 } := by
    rw [← hwp]
    rfl
  rw [hcs]
  have hcell : ∀ x y, rd2 C4_NONE (List.replicate w (List.replicate h C4_NONE)) x y =
      C4_NONE := by
    intro x y
    simp only [rd2, List.getD_eq_getElem?_getD, List.getElem?_replicate]
    by_cases hx : x < w
    · by_cases hy : y < h
      · simp [hx, hy]
      · simp [hx, hy]
    · simp [hx]
  have hrow : ∀ p, p < 2 → rd [] [List.replicate (win_lines w h n).length (1 : Int),
      List.replicate (win_lines w h n).length 1] p =
      List.replicate (win_lines w h n).length 1 := by
    intro p hp
    interval_cases p <;> rfl
  have hent : ∀ p, p < 2 → ∀ L, L < (win_lines w h n).length →
      rd2 0 [List.replicate (win_lines w h n).length (1 : Int),
        List.replicate (win_lines w h n).length 1] p L = 1 := by
    intro p hp L hL
    rw [rd2_eq_rd, hrow p hp]
    simp [rd, List.getD_eq_getElem?_getD, List.getElem?_replicate, hL]
  refine ⟨dims_replicate w h C4_NONE, ?_, ⟨rfl, rfl, ?_⟩, ?_, ?_, le_refl _, ?_, ?_,
    fun e => absurd rfl e⟩
  · intro x y
    rw [hcell]
    exact le_refl _
  · intro p hp
    simp only [hrow p hp, List.length_replicate]
  · intro p hp
    simp only [hrow p hp, sum_replicate_one]
    rw [wrap32_of_range _ (by omega) (by omega)]
    interval_cases p <;> rfl
  · intro p hp L hL
    rw [hent p hp L hL]
    have ht : ¬ touched (List.replicate w (List.replicate h C4_NONE)) (other p)
        (rd [] (win_lines w h n) L) = true := by
      rw [touched_iff]
      rintro ⟨c, _, e⟩
      rw [hcell] at e
      have := other_lt hp
      unfold C4_NONE at e
      omega
    have ho : owned (List.replicate w (List.replicate h C4_NONE)) p
        (rd [] (win_lines w h n) L) = 0 := by
      unfold owned
      rw [List.countP_eq_zero]
      intro c _
      rw [hcell]
      unfold C4_NONE
      simp
      omega
    unfold progress
    rw [if_neg ht, ho]
    decide
  · intro _ p hp e
    simp only at e
    unfold C4_NONE at e
    omega
  · intro hn _ p hp L hL
    rw [hent p hp L hL]
    by_cases h30 : n ≤ 30
    · rw [wrap32_pow_small h30]
      have : (2 : Int) ^ 1 ≤ 2 ^ n := pow_le_pow_right₀ (by norm_num) h1
      omega
    · have : n = 31 := by omega
      subst this
      rw [wrap32_pow_31]
      decide


theorem update_score_on_spec (g : Game) (s : Game_state) (p x y : Nat) (hp : p < 2) (W : Nat)
    (h2 : s.score_array.length = 2) (hr : ∀ q, q < 2 → (rd [] s.score_array q).length = W)
    (hnd : (rd2 [] g.map x y).Nodup) (hlt : ∀ L, L ∈ rd2 [] g.map x y → L < W) :
    (∀ L, rd2 0 (update_score_on g s p x y).score_array p L =
      (if L ∈ rd2 [] g.map x y then wrap32 (2 * rd2 0 s.score_array p L)
       else rd2 0 s.score_array p L)) ∧
    (∀ L, rd2 0 (update_score_on g s p x y).score_array (other p) L =
      (if L ∈ rd2 [] g.map x y then 0 else rd2 0 s.score_array (other p) L)) ∧
    (∀ q, q < 2 → (rd [] (update_score_on g s p x y).score_array q).length = W) ∧
    (update_score_on g s p x y).winner =
      (if s.winner = C4_NONE ∧
          ∃ L, L ∈ rd2 [] g.map x y ∧ wrap32 (2 * rd2 0 s.score_array p L) = g.magic_win_number
       then p else s.winner) := by
  obtain ⟨i1, i2, i3, i4, i5⟩ := update_score_loop_entry g.magic_win_number p hp W
    (rd2 [] g.map x y) { this_difference := 0, other_difference := 0, state := s } h2
    (hr p hp) (hr (other p) (other_lt hp)) hnd hlt
  refine ⟨i1, i2, ?_, i5⟩
  intro q hq
  rcases eq_or_eq_other hp hq with e | e
  · rw [e]; exact i3
  · rw [e]; exact i4

theorem rd_mem {α : Type} (d : α) (a : List α) (i : Nat) (h : i < a.length) : rd d a i ∈ a := by
  unfold rd
  rw [List.getD_eq_getElem _ _ h]
  exact List.getElem_mem h

theorem inv_drop (w h n : Nat) (h1 : 1 ≤ n) (s : Game_state) (hinv : Inv w h n s)
    (p c : Nat) (hp : p < 2) (hc : c < w) :
    Inv w h n (drop_piece_on (setup_game w h n) s p c).2 := by
  by_cases hfull : column_full (setup_game w h n) s c
  · rw [drop_piece_on_full _ _ _ _ hfull]
    exact hinv
  · obtain ⟨hy, hempty, _⟩ := drop_row_free _ _ _ hfull
    rw [drop_piece_on_free _ _ _ _ hfull]
    have hsy : (setup_game w h n).size_y = h := rfl
    rw [hsy] at hy hempty ⊢
    generalize drop_row (rd [] s.board c) h h 0 = y at hy hempty ⊢
    obtain ⟨_, hmap⟩ := setup_game_map w h n h1
    have hids := hmap c y hc hy
    have hq := other_lt hp
    have hne := other_ne hp
    have hpn : p ≠ C4_NONE := by unfold C4_NONE; omega
    have hqn : other p ≠ C4_NONE := by unfold C4_NONE; omega
    have hmem : ∀ L, L ∈ rd2 [] (setup_game w h n).map c y ↔
        L < (win_lines w h n).length ∧ (c, y) ∈ rd [] (win_lines w h n) L := by
      intro L
      rw [hids]
      exact mem_lines_through
    have hline : ∀ L, L < (win_lines w h n).length →
        (rd [] (win_lines w h n) L).Nodup ∧ (rd [] (win_lines w h n) L).length = n :=
      fun L hL => ⟨win_lines_nodup h1 (rd_mem _ _ _ hL), win_lines_length_eq h1 (rd_mem _ _ _ hL)⟩
    obtain ⟨e1, e2, e3, e4⟩ := update_score_on_spec (setup_game w h n)
      { s with board := wr2 s.board c y p, num_of_pieces := s.num_of_pieces + 1 } p c y hp
      (win_lines w h n).length hinv.arrays.2.1 hinv.arrays.2.2
      (by rw [hids]; exact lines_through_nodup _ _)
      (fun L hL => ((hmem L).mp hL).1)
    obtain ⟨b1, _⟩ := update_score_on_board (setup_game w h n)
      { s with board := wr2 s.board c y p, num_of_pieces := s.num_of_pieces + 1 } p c y
    obtain ⟨s1, s2, s3⟩ := update_score_on_score_ok (setup_game w h n)
      { s with board := wr2 s.board c y p, num_of_pieces := s.num_of_pieces + 1 } p c y hp
      hinv.arrays.1 hinv.arrays.2.1 hinv.score
    simp only at e1 e2 e4 b1
    have hmagic : n ≤ 31 → (setup_game w h n).magic_win_number = wrap32 (2 ^ n) := by
      intro h31
      show wrap32 (2 ^ (n % 32)) = wrap32 (2 ^ n)
      rw [Nat.mod_eq_of_lt (by omega)]
    -- the entries of the new state
    have hprog : ∀ q, q < 2 → ∀ L, L < (win_lines w h n).length →
        rd2 0 (update_score_on (setup_game w h n)
          { s with board := wr2 s.board c y p, num_of_pieces := s.num_of_pieces + 1 }
          p c y).score_array q L =
        progress (wr2 s.board c y p) q (rd [] (win_lines w h n) L) := by
      intro q hq2 L hL
      obtain ⟨hnd, _⟩ := hline L hL
      have ho := fun v (hv : C4_NONE ≠ v) => owned_wr2 hinv.board c y p v hc hy
        (by rw [hempty]; exact hv) (rd [] (win_lines w h n) L) hnd
      have ht := fun v (hv : C4_NONE ≠ v) => touched_wr2 hinv.board c y p v hc hy
        (by rw [hempty]; exact hv) (rd [] (win_lines w h n) L)
      unfold progress
      rcases eq_or_eq_other hp hq2 with e | e
      · subst e
        rw [e1 L, ht (other q) hqn.symm, ho q hpn.symm, hinv.progress q hp L hL]
        unfold progress
        by_cases hin : (c, y) ∈ rd [] (win_lines w h n) L
        · rw [if_pos ((hmem L).mpr ⟨hL, hin⟩)]
          by_cases htt : touched s.board (other q) (rd [] (win_lines w h n) L) = true
          · simp [htt, wrap32_zero]
          · simp only [htt, hin, Bool.false_or, true_and, hne.symm, decide_False,
              Bool.false_eq_true, if_false, if_true]
            rw [wrap32_two_mul, pow_succ]
            congr 1
            ring
        · rw [if_neg (fun hc1 => hin ((hmem L).mp hc1).2)]
          simp [hin]
      · subst e
        rw [e2 L, other_other hp, ht p hpn.symm, ho (other p) hqn.symm,
          hinv.progress (other p) hq L hL]
        unfold progress
        rw [other_other hp]
        by_cases hin : (c, y) ∈ rd [] (win_lines w h n) L
        · rw [if_pos ((hmem L).mpr ⟨hL, hin⟩)]
          simp [hin]
        · rw [if_neg (fun hc1 => hin ((hmem L).mp hc1).2)]
          simp [hin]
    refine ⟨?_, ?_, ⟨s2, s3, e3⟩, s1, ?_, ?_, ?_, ?_, ?_⟩
    · rw [b1]; exact dims_wr2 hinv.board _ _ _
    · intro x1 y1
      rw [b1, rd2_wr2 C4_NONE hinv.board c y p hc hy (x1, y1)]
      by_cases e : (x1, y1) = (c, y)
      · rw [if_pos e]; omega
      · rw [if_neg e]; exact hinv.cells x1 y1
    · intro q hq2 L hL
      rw [b1]
      exact hprog q hq2 L hL
    · rw [e4]
      have := hinv.winner_le
      split_ifs <;> omega
    · intro h31 q hq2 hwin
      rw [e4, hmagic h31] at hwin
      by_cases hnew : s.winner = C4_NONE ∧ ∃ L, L ∈ rd2 [] (setup_game w h n).map c y ∧
          wrap32 (2 * rd2 0 s.score_array p L) = wrap32 (2 ^ n)
      · rw [if_pos hnew] at hwin
        subst hwin
        obtain ⟨_, L, hL, hm⟩ := hnew
        refine ⟨L, ((hmem L).mp hL).1, ?_⟩
        rw [e1 L, if_pos hL]
        exact hm
      · rw [if_neg hnew] at hwin
        obtain ⟨L, hL, hm⟩ := hinv.winner_some h31 q hq2 hwin
        refine ⟨L, hL, ?_⟩
        by_cases hin : L ∈ rd2 [] (setup_game w h n).map c y
        · exfalso
          rw [hinv.progress q hq2 L hL] at hm
          have hall := (progress_eq_magic_iff hq2 h31 (hline L hL).2).mp hm (c, y)
            ((hmem L).mp hin).2
          simp only at hall
          rw [hempty] at hall
          unfold C4_NONE at hall
          omega
        · rcases eq_or_eq_other hp hq2 with e | e
          · subst e
            rw [e1 L, if_neg hin]; exact hm
          · subst e
            rw [e2 L, if_neg hin]; exact hm
    · intro h31 hwin q hq2 L hL
      rw [e4, hmagic h31] at hwin
      by_cases hnew : s.winner = C4_NONE ∧ ∃ L, L ∈ rd2 [] (setup_game w h n).map c y ∧
          wrap32 (2 * rd2 0 s.score_array p L) = wrap32 (2 ^ n)
      · rw [if_pos hnew] at hwin
        exact absurd hwin hpn
      · rw [if_neg hnew] at hwin
        have hold := hinv.winner_none h31 hwin q hq2 L hL
        by_cases hin : L ∈ rd2 [] (setup_game w h n).map c y
        · rcases eq_or_eq_other hp hq2 with e | e
          · subst e
            rw [e1 L, if_pos hin]
            intro hm
            exact hnew ⟨hwin, L, hin, hm⟩
          · subst e
            rw [e2 L, if_pos hin]
            exact (wrap32_pow_ne_zero h31).symm
        · rcases eq_or_eq_other hp hq2 with e | e
          · subst e
            rw [e1 L, if_neg hin]; exact hold
          · subst e
            rw [e2 L, if_neg hin]; exact hold
    · intro hwin
      rw [e4] at hwin
      by_cases hnew : s.winner = C4_NONE ∧ ∃ L, L ∈ rd2 [] (setup_game w h n).map c y ∧
          wrap32 (2 * rd2 0 s.score_array p L) = (setup_game w h n).magic_win_number
      · obtain ⟨_, L, hL, _⟩ := hnew
        exact Nat.lt_of_le_of_lt (Nat.zero_le _) ((hmem L).mp hL).1
      · rw [if_neg hnew] at hwin
        exact hinv.winner_lines hwin

theorem inv_played (w h n : Nat) (h1 : 1 ≤ n) (hW : (win_lines w h n).length ≤ 2147483647)
    (s : Game_state) (hs : Played w h n s) : Inv w h n s := by
  induction hs with
  | start => exact inv_start w h n h1 hW
  | drop s p c _ hp hc ih => exact inv_drop w h n h1 s ih p c hp hc

/-! ## The order of the columns -/

theorem build_drop_order_spec (w : Nat) :
    ∀ (fuel i : Nat) (column : Int), column = drop_column w i →
      (build_drop_order fuel i column).length = fuel ∧
      ∀ k, k < fuel → rd 0 (build_drop_order fuel i column) k = (drop_column w (i + k)).toNat := by
  intro fuel
  induction fuel with
  | zero => intro i column _; exact ⟨rfl, fun k hk => absurd hk (by omega)⟩
  | succ fuel ih =>
    intro i column hcol
    unfold build_drop_order
    have hnext : column + (if i % 2 = 1 then (i : Int) else -(i : Int)) =
        drop_column w (i + 1) := by
      rw [hcol]
      unfold drop_column
      split_ifs <;> push_cast <;> omega
    obtain ⟨l1, r1⟩ := ih (i + 1) _ hnext
    refine ⟨by rw [List.length_cons, l1], ?_⟩
    intro k hk
    cases k with
    | zero => simp [rd, hcol]
    | succ k =>
      have := r1 k (by omega)
      simp only [rd, List.getD_cons_succ] at this ⊢
      rw [this]
      congr 2
      omega

theorem drop_column_range (w i : Nat) (h1 : 1 ≤ i) (h2 : i ≤ w) :
    0 ≤ drop_column w i ∧ drop_column w i < w := by
  unfold drop_column
  split_ifs <;> omega

theorem setup_game_drop_order (w h n : Nat) :
    (setup_game w h n).drop_order.length = w ∧
    ∀ i, i < w → rd 0 (setup_game w h n).drop_order i < w := by
  obtain ⟨l1, r1⟩ := build_drop_order_spec w w 1 (((w : Int) - 1) / 2)
    (by unfold drop_column; simp)
  refine ⟨l1, ?_⟩
  intro i hi
  have e : rd 0 (setup_game w h n).drop_order i = (drop_column w (1 + i)).toNat := r1 i hi
  rw [e]
  have := drop_column_range w (1 + i) (by omega) (by omega)
  omega

/-! ## Frames -/

theorem frame_refl (g : Game) : Frame g g :=
  ⟨rfl, rfl, rfl, le_refl _, fun _ _ => rfl⟩

theorem frame_trans {g g1 g2 : Game} (h1 : Frame g g1) (h2 : Frame g1 g2) : Frame g g2 := by
  obtain ⟨a1, b1, c1, d1, e1⟩ := h1
  obtain ⟨a2, b2, c2, d2, e2⟩ := h2
  refine ⟨a2.trans a1, b2.trans b1, c2.trans c1, le_trans d1 d2, ?_⟩
  intro i hi
  rw [e2 i (by omega), e1 i hi]

theorem push_state_fields (g : Game) :
    statics (push_state g) = statics g ∧
    (push_state g).move_in_progress = g.move_in_progress ∧
    (push_state g).depth = g.depth + 1 ∧
    g.state_stack.length ≤ (push_state g).state_stack.length ∧
    (∀ i, i ≤ g.depth → rd default (push_state g).state_stack i = rd default g.state_stack i) ∧
    (Stack_ok g → Stack_ok (push_state g) ∧ current_state (push_state g) = current_state g) := by
  refine ⟨by simp [statics, push_state], by simp [push_state], by simp [push_state], ?_, ?_, ?_⟩
  · simp only [push_state]
    split_ifs
    · simp
    · simp [wr]
  · intro i hi
    simp only [push_state]
    split_ifs with hl
    · simp only [rd]
      by_cases hlt : i < g.state_stack.length
      · rw [List.getD_append _ _ _ _ hlt]
      · omega
    · exact rd_wr_ne _ _ _ _ _ (by omega)
  · intro hs
    unfold Stack_ok at hs
    unfold Stack_ok current_state
    simp only [push_state]
    split_ifs with hl
    · refine ⟨by simp; omega, ?_⟩
      simp only [rd]
      rw [List.getD_append_right _ _ _ _ (by omega), hl]
      simp
    · refine ⟨by simp [wr]; omega, ?_⟩
      rw [rd_wr_same _ _ _ _ (by omega)]

theorem drop_piece_fields (g : Game) (p c : Nat) :
    statics (drop_piece g p c).2 = statics g ∧
    (drop_piece g p c).2.move_in_progress = g.move_in_progress ∧
    (drop_piece g p c).2.depth = g.depth ∧
    (drop_piece g p c).2.state_stack.length = g.state_stack.length ∧
    (∀ i, i ≠ g.depth →
      rd default (drop_piece g p c).2.state_stack i = rd default g.state_stack i) ∧
    (Stack_ok g → Stack_ok (drop_piece g p c).2 ∧
      current_state (drop_piece g p c).2 = (drop_piece_on g (current_state g) p c).2) := by
  refine ⟨by simp [statics, drop_piece, set_current], by simp [drop_piece, set_current],
    by simp [drop_piece, set_current], by simp [drop_piece, set_current, wr], ?_, ?_⟩
  · intro i hi
    simp only [drop_piece, set_current]
    exact rd_wr_ne _ _ _ _ _ (Ne.symm hi)
  · intro hs
    refine ⟨?_, ?_⟩
    · unfold Stack_ok at hs ⊢
      simp [drop_piece, set_current, wr]
      exact hs
    · simp only [drop_piece]
      exact current_state_set_current g _ hs

theorem frame_push_drop_pop (g g3 : Game) (p c : Nat)
    (h : Frame (drop_piece (push_state g) p c).2 g3) : Frame g (pop_state g3) := by
  obtain ⟨a1, b1, c1, d1, e1, _⟩ := push_state_fields g
  obtain ⟨a2, b2, c2, d2, e2, _⟩ := drop_piece_fields (push_state g) p c
  obtain ⟨a3, b3, c3, d3, e3⟩ := h
  have hst : statics (pop_state g3) = statics g3 := by simp [statics, pop_state]
  refine ⟨?_, ?_, ?_, ?_, ?_⟩
  · rw [hst, a3, a2, a1]
  · simp only [pop_state]; rw [b3, b2, b1]
  · simp only [pop_state]; rw [c3, c2, c1]; omega
  · simp only [pop_state]; omega
  · intro i hi
    simp only [pop_state]
    rw [e3 i (by rw [c2, c1]; omega), e2 i (by rw [c1]; omega), e1 i hi]

theorem evaluate_loop_frame (ev : Game → Int → Int → Option (Int × Game))
    (hev : ∀ g a b r, ev g a b = some r → Frame g r.2) (player : Nat) (beta : Int)
    (cols : List Nat) :
    ∀ (best maxab : Int) (g : Game) (r : Int × Game),
      evaluate_loop ev player beta cols best maxab g = some r → Frame g r.2 := by
  induction cols with
  | nil =>
    intro best maxab g r h
    simp only [evaluate_loop, Option.some.injEq] at h
    rw [← h]
    exact frame_refl g
  | cons i rest ih =>
    intro best maxab g r h
    unfold evaluate_loop at h
    split_ifs at h with hfull
    · exact ih _ _ _ _ h
    · simp only at h
      split at h
      · exact absurd h (by simp)
      · rename_i goodness g3 hev3
        have hf := frame_push_drop_pop g g3 _ _ (hev _ _ _ _ hev3)
        split_ifs at h
        all_goals first
          | (simp only [Option.some.injEq] at h; rw [← h]; exact hf)
          | exact frame_trans hf (ih _ _ _ _ h)

theorem evaluate_frame :
    ∀ (fuel : Nat) (g : Game) (player level : Nat) (alpha beta : Int) (r : Int × Game),
      evaluate fuel g player level alpha beta = some r → Frame g r.2 := by
  intro fuel
  induction fuel with
  | zero =>
    intro g player level alpha beta r h
    simp [evaluate] at h
  | succ fuel ih =>
    intro g player level alpha beta r h
    unfold evaluate at h
    split_ifs at h with h1 h2 h3 h4
    · simp only [Option.some.injEq] at h; rw [← h]; exact frame_refl g
    · simp only [Option.some.injEq] at h; rw [← h]; exact frame_refl g
    · simp only [Option.some.injEq] at h; rw [← h]; exact frame_refl g
    · simp only [Option.some.injEq] at h; rw [← h]; exact frame_refl g
    · split at h
      · exact absurd h (by simp)
      · rename_i best g1 hl
        simp only [Option.some.injEq] at h
        rw [← h]
        exact evaluate_loop_frame _ (fun g a b r hr => ih g _ _ a b r hr) _ _ _ _ _ _ (best, g1) hl

/-! ## `c4_auto_move` leaves the game one placement further, or as it was -/

theorem statics_fields {g g1 : Game} (h : statics g1 = statics g) :
    g1.size_x = g.size_x ∧ g1.size_y = g.size_y ∧ g1.total_size = g.total_size ∧
    g1.num_to_connect = g.num_to_connect ∧ g1.win_places = g.win_places ∧ g1.map = g.map ∧
    g1.magic_win_number = g.magic_win_number ∧ g1.game_in_progress = g.game_in_progress ∧
    g1.drop_order = g.drop_order := by
  have e1 := congrArg Game.size_x h
  have e2 := congrArg Game.size_y h
  have e3 := congrArg Game.total_size h
  have e4 := congrArg Game.num_to_connect h
  have e5 := congrArg Game.win_places h
  have e6 := congrArg Game.map h
  have e7 := congrArg Game.magic_win_number h
  have e8 := congrArg Game.game_in_progress h
  have e9 := congrArg Game.drop_order h
  exact ⟨e1, e2, e3, e4, e5, e6, e7, e8, e9⟩

theorem drop_piece_on_congr {g g1 : Game} (h : statics g1 = statics g) (s : Game_state)
    (p c : Nat) : drop_piece_on g1 s p c = drop_piece_on g s p c := by
  obtain ⟨_, e1, _, _, _, e2, e3, _, _⟩ := statics_fields h
  simp only [drop_piece_on, update_score_on, e1, e2, e3]

theorem auto_move_loop_frame (rand : Nat → Nat) (rp level : Nat) (cols : List Nat) :
    ∀ (l l1 : Auto_loop), auto_move_loop rand rp level cols l = some l1 →
      Frame l.game l1.game ∧
      (l1.best_column = l.best_column ∨
        ∃ i, i ∈ cols ∧ l1.best_column = ((rd 0 l.game.drop_order i : Nat) : Int)) := by
  induction cols with
  | nil =>
    intro l l1 h
    simp only [auto_move_loop, Option.some.injEq] at h
    rw [← h]
    exact ⟨frame_refl _, Or.inl rfl⟩
  | cons i rest ih =>
    intro l l1 h
    have hdo : (push_state l.game).drop_order = l.game.drop_order :=
      (statics_fields (push_state_fields l.game).1).2.2.2.2.2.2.2.2
    have hpop : ∀ g3, Frame (drop_piece (push_state l.game) rp
        (rd 0 (push_state l.game).drop_order i)).2 g3 → Frame l.game (pop_state g3) :=
      fun g3 hf => frame_push_drop_pop l.game g3 _ _ hf
    have hpop0 := hpop _ (frame_refl _)
    have hdo1 : ∀ g3, Frame l.game (pop_state g3) →
        (pop_state g3).drop_order = l.game.drop_order :=
      fun g3 hf => (statics_fields hf.1).2.2.2.2.2.2.2.2
    have hstep : ∀ (l2 : Auto_loop), auto_move_loop rand rp level rest l2 = some l1 →
        Frame l.game l2.game →
        (l2.best_column = l.best_column ∨
          l2.best_column = ((rd 0 l.game.drop_order i : Nat) : Int)) →
        Frame l.game l1.game ∧
        (l1.best_column = l.best_column ∨
          ∃ j, j ∈ i :: rest ∧ l1.best_column = ((rd 0 l.game.drop_order j : Nat) : Int)) := by
      intro l2 hl2 hf hb
      obtain ⟨f2, b2⟩ := ih l2 l1 hl2
      refine ⟨frame_trans hf f2, ?_⟩
      rcases b2 with b2 | ⟨j, hj, b2⟩
      · rcases hb with hb | hb
        · left; rw [b2, hb]
        · right; exact ⟨i, List.mem_cons_self _ _, by rw [b2, hb]⟩
      · right
        refine ⟨j, List.mem_cons_of_mem _ hj, ?_⟩
        rw [b2, (statics_fields hf.1).2.2.2.2.2.2.2.2]
    unfold auto_move_loop at h
    simp only at h
    by_cases hfail : (drop_piece (push_state l.game) rp
        (rd 0 (push_state l.game).drop_order i)).1 < 0
    · rw [if_pos hfail] at h
      exact hstep _ h hpop0 (Or.inl rfl)
    · rw [if_neg hfail] at h
      by_cases hwin : (current_state (drop_piece (push_state l.game) rp
          (rd 0 (push_state l.game).drop_order i)).2).winner = rp
      · rw [if_pos hwin] at h
        simp only [Option.some.injEq] at h
        rw [← h]
        refine ⟨hpop0, Or.inr ⟨i, List.mem_cons_self _ _, ?_⟩⟩
        simp only
        rw [hdo]
      · rw [if_neg hwin] at h
        split at h
        · exact absurd h (by simp)
        · rename_i goodness g3 hev
          have hf := hpop g3 (evaluate_frame _ _ _ _ _ _ _ hev)
          by_cases hgt : goodness > l.best_worst
          · rw [if_pos hgt] at h
            refine hstep _ h hf (Or.inr ?_)
            simp only
            rw [hdo]
          · rw [if_neg hgt] at h
            by_cases heq : goodness = l.best_worst
            · rw [if_pos heq] at h
              refine hstep _ h hf ?_
              simp only
              split_ifs
              · right; rw [hdo]
              · left; rfl
            · rw [if_neg heq] at h
              exact hstep _ h hf (Or.inl rfl)

theorem c4_auto_move_result (g : Game) (rand : Nat → Nat) (player level column : Int)
    (row : Option Int) (r : Auto_result)
    (h : c4_auto_move g rand player level column row = some r)
    (hs : Stack_ok g) (hord : ∀ i, i < g.size_x → rd 0 g.drop_order i < g.size_x) :
    statics r.game = statics g ∧ r.game.depth = g.depth ∧ r.game.move_in_progress = false ∧
    Stack_ok r.game ∧
    ((r.moved = false ∧ current_state r.game = current_state g) ∨
     (r.moved = true ∧ ∃ c, c < g.size_x ∧ r.column = (c : Int) ∧
        current_state r.game = (drop_piece_on g (current_state g) (real_player player) c).2)) := by
  unfold c4_auto_move at h
  split_ifs at h with hpre hfirst hone hx
  · -- the first opening move
    simp only [Option.some.injEq] at h
    rw [← h]
    obtain ⟨a, b, c, d, _, f⟩ := drop_piece_fields g (real_player player) 2
    have hm : g.move_in_progress = false := by
      have := hpre.2.1
      simpa using this
    refine ⟨a, c, by rw [b, hm], (f hs).1, Or.inr ⟨rfl, 2, by omega, rfl, (f hs).2⟩⟩
  · -- the second opening move
    simp only [Option.some.injEq] at h
    rw [← h]
    obtain ⟨a, b, c, d, _, f⟩ := drop_piece_fields g (real_player player) 3
    have hm : g.move_in_progress = false := by
      have := hpre.2.1
      simpa using this
    refine ⟨a, c, by rw [b, hm], (f hs).1, Or.inr ⟨rfl, 3, hx, rfl, (f hs).2⟩⟩
  · -- the search
    simp only at h
    split at h
    · exact absurd h (by simp)
    · rename_i l hl
      obtain ⟨hf, hb⟩ := auto_move_loop_frame _ _ _ _ _ _ hl
      simp only at hb
      obtain ⟨f1, f2, f3, f4, f5⟩ := hf
      have f3 : l.game.depth = g.depth := f3
      have f4 : g.state_stack.length ≤ l.game.state_stack.length := f4
      have f5 : ∀ i, i ≤ g.depth →
          rd default l.game.state_stack i = rd default g.state_stack i := f5
      have hst : statics { l.game with move_in_progress := false } = statics g := by
        have e : statics { l.game with move_in_progress := false } = statics l.game := by
          simp [statics]
        rw [e, f1]
        simp [statics]
      have hso : Stack_ok { l.game with move_in_progress := false } := by
        unfold Stack_ok at hs ⊢
        simp only
        rw [f3]
        simp only at f4
        omega
      have hcs : current_state { l.game with move_in_progress := false } = current_state g := by
        unfold current_state
        simp only
        rw [f3]
        exact f5 g.depth (le_refl _)
      split_ifs at h with hcol
      · simp only [Option.some.injEq] at h
        rw [← h]
        obtain ⟨a, b, c, d, _, f⟩ := drop_piece_fields { l.game with move_in_progress := false }
          (real_player player) l.best_column.toNat
        refine ⟨a.trans hst, by rw [c]; exact f3, by rw [b], (f hso).1, Or.inr ⟨rfl, ?_⟩⟩
        rcases hb with hb | ⟨i, hi, hb⟩
        · rw [hb] at hcol
          omega
        · rw [List.mem_range] at hi
          refine ⟨rd 0 g.drop_order i, hord i hi, hb, ?_⟩
          rw [(f hso).2, hcs, drop_piece_on_congr hst, hb]
          rfl
      · simp only [Option.some.injEq] at h
        rw [← h]
        exact ⟨hst, f3, rfl, hso, Or.inl ⟨rfl, hcs⟩⟩

/-! ## Reachable games -/

theorem good_of_frame_drop {g : Game} {w h n : Nat} (hg : Good g w h n) (g1 : Game)
    (hst : statics g1 = statics g) (hso : Stack_ok g1) (p c : Nat) (hp : p < 2)
    (hc : c < g.size_x)
    (hcs : current_state g1 = (drop_piece_on g (current_state g) p c).2) : Good g1 w h n := by
  refine ⟨hg.hw, hg.hh, hg.hn, hg.hW, hst.trans hg.hst, hso, ?_⟩
  rw [hcs, drop_piece_on_congr hg.hst]
  have hx : g.size_x = w := (statics_fields hg.hst).1
  exact Played.drop _ p c hg.hplayed hp (by omega)

theorem good_order {g : Game} {w h n : Nat} (hg : Good g w h n) :
    ∀ i, i < g.size_x → rd 0 g.drop_order i < g.size_x := by
  obtain ⟨e1, _, _, _, _, _, _, _, e2⟩ := statics_fields hg.hst
  rw [e1, e2]
  exact (setup_game_drop_order w h n).2

theorem reachable_good (g : Game) (hr : Reachable g) :
    ∃ w h n, Good g w h n ∧ g.depth = 0 ∧ g.move_in_progress = false := by
  induction hr with
  | new_game g0 g width height num hnew =>
    unfold c4_new_game at hnew
    split_ifs at hnew with h1 h2 h3
    simp only [Option.some.injEq] at hnew
    refine ⟨width.toNat, height.toNat, num.toNat, ⟨by omega, by omega, by omega, ?_, ?_, ?_, ?_⟩,
      ?_, ?_⟩
    · have e := num_of_win_places_eq width.toNat height.toNat num.toNat
      have ew : ((width.toNat : Nat) : Int) = width := Int.toNat_of_nonneg (by omega)
      have eh : ((height.toNat : Nat) : Int) = height := Int.toNat_of_nonneg (by omega)
      have en : ((num.toNat : Nat) : Int) = num := Int.toNat_of_nonneg (by omega)
      rw [ew, eh, en] at e
      have := h3.2
      rw [e] at this
      unfold INT_MAX at this
      omega
    · rw [← hnew]
    · rw [← hnew]; unfold Stack_ok; simp [setup_game]
    · rw [← hnew]; exact Played.start
    · rw [← hnew]; rfl
    · rw [← hnew]; rfl
  | make_move g player column row r _ hmove ih =>
    obtain ⟨w, h, n, hg, hd, hm⟩ := ih
    unfold c4_make_move at hmove
    split_ifs at hmove with h1 h2
    · simp only [Option.some.injEq] at hmove
      rw [← hmove]
      exact ⟨w, h, n, hg, hd, hm⟩
    · simp only [Option.some.injEq] at hmove
      rw [← hmove]
      obtain ⟨a, b, c, d, _, f⟩ := drop_piece_fields g (real_player player) column.toNat
      refine ⟨w, h, n, ?_, by simp only; rw [c, hd], by simp only; rw [b, hm]⟩
      exact good_of_frame_drop hg _ a (f hg.hstack).1 _ _ (real_player_lt player) (by omega)
        (f hg.hstack).2
  | auto_move g rand player level column row r _ hauto ih =>
    obtain ⟨w, h, n, hg, hd, hm⟩ := ih
    obtain ⟨a, b, c, d, e⟩ := c4_auto_move_result g rand player level column row r hauto
      hg.hstack (good_order hg)
    refine ⟨w, h, n, ?_, by rw [b, hd], c⟩
    rcases e with ⟨_, e⟩ | ⟨_, col, hcol, _, e⟩
    · refine ⟨hg.hw, hg.hh, hg.hn, hg.hW, a.trans hg.hst, d, ?_⟩
      rw [e]
      exact hg.hplayed
    · exact good_of_frame_drop hg _ a d _ _ (real_player_lt player) hcol e

theorem good_of_frame {g g1 : Game} {w h n : Nat} (hg : Good g w h n) (hf : Frame g g1) :
    Good g1 w h n ∧ current_state g1 = current_state g ∧ g1.depth = g.depth := by
  obtain ⟨a, _, c, d, e⟩ := hf
  have hcs : current_state g1 = current_state g := by
    unfold current_state
    rw [c]
    exact e _ (le_refl _)
  refine ⟨⟨hg.hw, hg.hh, hg.hn, hg.hW, a.trans hg.hst, ?_, ?_⟩, hcs, c⟩
  · have := hg.hstack
    unfold Stack_ok at this ⊢
    omega
  · rw [hcs]
    exact hg.hplayed

theorem speculative_good (g : Game) (hs : Speculative g) : ∃ w h n, Good g w h n := by
  induction hs with
  | real g hr =>
    obtain ⟨w, h, n, hg, _⟩ := reachable_good g hr
    exact ⟨w, h, n, hg⟩
  | search g hr =>
    obtain ⟨w, h, n, hg, _⟩ := reachable_good g hr
    exact ⟨w, h, n, hg.hw, hg.hh, hg.hn, hg.hW, hg.hst, hg.hstack, hg.hplayed⟩
  | frame g g1 _ hf ih =>
    obtain ⟨w, h, n, hg⟩ := ih
    exact ⟨w, h, n, (good_of_frame hg hf).1⟩
  | push_drop g player column _ hp hc ih =>
    obtain ⟨w, h, n, hg⟩ := ih
    obtain ⟨a1, _, _, _, _, f1⟩ := push_state_fields g
    obtain ⟨a2, _, _, _, _, f2⟩ := drop_piece_fields (push_state g) player column
    obtain ⟨s1, c1⟩ := f1 hg.hstack
    obtain ⟨s2, c2⟩ := f2 s1
    refine ⟨w, h, n, good_of_frame_drop hg _ (a2.trans a1) s2 player column hp hc ?_⟩
    rw [c2, c1, drop_piece_on_congr a1]

theorem good_inv {g : Game} {w h n : Nat} (hg : Good g w h n) : Inv w h n (current_state g) :=
  inv_played w h n hg.hn hg.hW _ hg.hplayed

/-! ## The lines as the map lists them -/

theorem good_fields {g : Game} {w h n : Nat} (hg : Good g w h n) :
    g.size_x = w ∧ g.size_y = h ∧ g.num_to_connect = n ∧
    g.win_places = (win_lines w h n).length ∧ g.map = (setup_game w h n).map ∧
    g.magic_win_number = wrap32 (2 ^ (n % 32)) := by
  obtain ⟨e1, e2, _, e4, e5, e6, e7, _, _⟩ := statics_fields hg.hst
  exact ⟨e1, e2, e4, e5.trans (setup_game_win_places w h n), e6, e7⟩

theorem line_cells_perm {g : Game} {w h n : Nat} (hg : Good g w h n) (L : Nat)
    (hL : L < (win_lines w h n).length) :
    List.Perm (line_cells g L) (rd [] (win_lines w h n) L) := by
  obtain ⟨e1, e2, _, _, e5, _⟩ := good_fields hg
  have hmemL := rd_mem [] (win_lines w h n) L hL
  rw [List.perm_ext_iff_of_nodup]
  · intro c
    unfold line_cells all_cells
    rw [List.mem_filter, e1, e2, e5]
    simp only [decide_eq_true_eq]
    constructor
    · rintro ⟨hc, hin⟩
      have hc' : c.1 < w ∧ c.2 < h := by
        have := List.mem_product.mp hc
        simpa using this
      rw [(setup_game_map w h n hg.hn).2 c.1 c.2 hc'.1 hc'.2] at hin
      exact (mem_lines_through.mp hin).2
    · intro hc
      have hb := win_lines_in_board hg.hn hmemL hc
      refine ⟨?_, ?_⟩
      · have : (c.1, c.2) ∈ List.product (List.range w) (List.range h) :=
          List.mem_product.mpr ⟨List.mem_range.mpr hb.1, List.mem_range.mpr hb.2⟩
        exact this
      · rw [(setup_game_map w h n hg.hn).2 c.1 c.2 hb.1 hb.2]
        exact mem_lines_through.mpr ⟨hL, hc⟩
  · unfold line_cells all_cells
    exact ((List.nodup_range _).product (List.nodup_range _)).filter _
  · exact win_lines_nodup hg.hn hmemL

theorem touched_perm {b : List (List Nat)} {q : Nat} {l1 l2 : List (Nat × Nat)}
    (hp : List.Perm l1 l2) : touched b q l1 = touched b q l2 := by
  rw [Bool.eq_iff_iff, touched_iff, touched_iff]
  constructor
  · rintro ⟨c, hc, e⟩; exact ⟨c, hp.mem_iff.mp hc, e⟩
  · rintro ⟨c, hc, e⟩; exact ⟨c, hp.mem_iff.mpr hc, e⟩

theorem owned_perm {b : List (List Nat)} {q : Nat} {l1 l2 : List (Nat × Nat)}
    (hp : List.Perm l1 l2) : owned b q l1 = owned b q l2 :=
  hp.countP_eq _

theorem progress_perm {b : List (List Nat)} {q : Nat} {l1 l2 : List (Nat × Nat)}
    (hp : List.Perm l1 l2) : progress b q l1 = progress b q l2 := by
  unfold progress
  rw [touched_perm hp, owned_perm hp]

/-! ## The lines as runs of cells -/

theorem line_owned_iff {g : Game} {w h n : Nat} (hg : Good g w h n) (s : Game_state) (p : Nat) :
    line_owned g s p ↔
      ∃ L, L < (win_lines w h n).length ∧
        ∀ c, c ∈ rd [] (win_lines w h n) L → rd2 C4_NONE s.board c.1 c.2 = p := by
  obtain ⟨e1, e2, e3, _, _, _⟩ := good_fields hg
  have hn := hg.hn
  unfold line_owned
  rw [e1, e2, e3]
  constructor
  · rintro ⟨x0, hx0, y0, hy0, hcase⟩
    have key : ∀ l, l ∈ win_lines w h n →
        (∀ c, c ∈ l → rd2 C4_NONE s.board c.1 c.2 = p) →
        ∃ L, L < (win_lines w h n).length ∧
          ∀ c, c ∈ rd [] (win_lines w h n) L → rd2 C4_NONE s.board c.1 c.2 = p := by
      intro l hl hall
      obtain ⟨L, hL, e⟩ := List.getElem_of_mem hl
      refine ⟨L, hL, ?_⟩
      have : rd [] (win_lines w h n) L = l := by
        unfold rd
        rw [List.getD_eq_getElem _ _ hL, e]
      rw [this]
      exact hall
    rcases hcase with ⟨hb, hall⟩ | ⟨hb, hall⟩ | ⟨hb1, hb2, hall⟩ | ⟨hb1, hb2, hall⟩
    · apply key (horizontal_line n y0 x0)
        (win_lines_mem_of (Or.inl ⟨y0, x0, hy0, hb, rfl⟩))
      intro c hc
      simp only [horizontal_line, List.mem_map, List.mem_range] at hc
      obtain ⟨k, hk, e⟩ := hc
      rw [← e]
      exact hall k hk
    · apply key (vertical_line n x0 y0)
        (win_lines_mem_of (Or.inr (Or.inl ⟨x0, y0, hx0, hb, rfl⟩)))
      intro c hc
      simp only [vertical_line, List.mem_map, List.mem_range] at hc
      obtain ⟨k, hk, e⟩ := hc
      rw [← e]
      exact hall k hk
    · apply key (forward_line n y0 x0)
        (win_lines_mem_of (Or.inr (Or.inr (Or.inl ⟨y0, x0, hb2, hb1, rfl⟩))))
      intro c hc
      simp only [forward_line, List.mem_map, List.mem_range] at hc
      obtain ⟨k, hk, e⟩ := hc
      rw [← e]
      exact hall k hk
    · apply key (backward_line n y0 x0)
        (win_lines_mem_of (Or.inr (Or.inr (Or.inr ⟨y0, x0, hb2, hb1, hx0, rfl⟩))))
      intro c hc
      simp only [backward_line, List.mem_map, List.mem_range] at hc
      obtain ⟨k, hk, e⟩ := hc
      rw [← e]
      exact hall k hk
  · rintro ⟨L, hL, hall⟩
    have hmemL := rd_mem [] (win_lines w h n) L hL
    rcases mem_win_lines hn hmemL with ⟨i, j, hi, hj, e⟩ | ⟨i, j, hi, hj, e⟩ |
      ⟨i, j, hi, hj, e⟩ | ⟨i, j, hi, hj1, hj2, e⟩
    · refine ⟨j, by omega, i, hi, Or.inl ⟨hj, ?_⟩⟩
      intro k hk
      apply hall (j + k, i)
      rw [e]
      simp only [horizontal_line, List.mem_map, List.mem_range]
      exact ⟨k, hk, rfl⟩
    · refine ⟨i, hi, j, by omega, Or.inr (Or.inl ⟨hj, ?_⟩)⟩
      intro k hk
      apply hall (i, j + k)
      rw [e]
      simp only [vertical_line, List.mem_map, List.mem_range]
      exact ⟨k, hk, rfl⟩
    · refine ⟨j, by omega, i, by omega, Or.inr (Or.inr (Or.inl ⟨hj, hi, ?_⟩))⟩
      intro k hk
      apply hall (j + k, i + k)
      rw [e]
      simp only [forward_line, List.mem_map, List.mem_range]
      exact ⟨k, hk, rfl⟩
    · refine ⟨j, hj2, i, by omega, Or.inr (Or.inr (Or.inr ⟨hj1, hi, ?_⟩))⟩
      intro k hk
      apply hall (j - k, i + k)
      rw [e]
      simp only [backward_line, List.mem_map, List.mem_range]
      exact ⟨k, hk, rfl⟩

/-! ## Reachability of the example positions -/

set_option maxRecDepth 100000 in
theorem reachable_setup_7x6 : Reachable (setup_game 7 6 4) :=
  Reachable.new_game no_game (setup_game 7 6 4) 7 6 4 (by decide)

set_option maxRecDepth 100000 in
theorem speculative_7x6_push : Speculative (drop_piece (push_state (setup_game 7 6 4)) 0 3).2 :=
  Speculative.push_drop _ 0 3 (Speculative.real _ reachable_setup_7x6) (by decide) (by decide)

set_option maxRecDepth 100000 in
theorem reachable_7x6_row : Reachable game_7x6_row :=
  Reachable.make_move _ 0 3 none (true, none, game_7x6_row)
    (Reachable.make_move _ 0 2 none
      (true, none, (drop_piece (drop_piece (drop_piece (setup_game 7 6 4) 0 0).2 0 1).2 0 2).2)
      (Reachable.make_move _ 0 1 none
        (true, none, (drop_piece (drop_piece (setup_game 7 6 4) 0 0).2 0 1).2)
        (Reachable.make_move _ 0 0 none (true, none, (drop_piece (setup_game 7 6 4) 0 0).2)
          reachable_setup_7x6 (by decide))
        (by decide))
      (by decide))
    (by decide)


theorem reachable_2x1_both : Reachable game_2x1_both :=
  Reachable.make_move _ 1 1 none (true, none, game_2x1_both)
    (Reachable.make_move _ 0 0 none (true, none, game_2x1_first)
      (Reachable.new_game no_game (setup_game 2 1 1) 2 1 1 (by decide)) (by decide))
    (by decide)

/-! ## Games played move by move -/

theorem good_in_progress {g : Game} {w h n : Nat} (hg : Good g w h n) :
    g.game_in_progress = true :=
  (statics_fields hg.hst).2.2.2.2.2.2.2.1

theorem real_player_of_lt {p : Nat} (hp : p < 2) : real_player (p : Int) = p := by
  unfold real_player
  omega

theorem reachable_drop (g : Game) (hr : Reachable g) (p c : Nat) (hp : p < 2)
    (hc : c < g.size_x) : Reachable (drop_piece g p c).2 := by
  obtain ⟨w, h, n, hg, _, hm⟩ := reachable_good g hr
  have hgp := good_in_progress hg
  have hmove : c4_make_move g (p : Int) (c : Int) none =
      some (decide ((drop_piece g p c).1 ≥ 0), none, (drop_piece g p c).2) := by
    unfold c4_make_move
    rw [if_pos ⟨hgp, by simp [hm]⟩, if_neg (by omega), real_player_of_lt hp, Int.toNat_ofNat]
    simp
  exact Reachable.make_move g p c none _ hr hmove

theorem drop_piece_size_x (g : Game) (p c : Nat) : (drop_piece g p c).2.size_x = g.size_x :=
  (statics_fields (drop_piece_fields g p c).1).1

theorem reachable_play (moves : List (Nat × Nat)) :
    ∀ g, Reachable g → (∀ m, m ∈ moves → m.1 < 2 ∧ m.2 < g.size_x) →
      Reachable (play g moves) := by
  induction moves with
  | nil => intro g hr _; exact hr
  | cons m rest ih =>
    intro g hr hall
    have hm := hall m (List.mem_cons_self _ _)
    unfold play
    rw [List.foldl_cons]
    apply ih _ (reachable_drop g hr m.1 m.2 hm.1 hm.2)
    intro m1 hm1
    rw [drop_piece_size_x]
    exact hall m1 (List.mem_cons_of_mem _ hm1)

set_option maxRecDepth 100000 in
theorem speculative_7x6_search : Speculative game_7x6_search :=
  Speculative.push_drop _ 0 3
    (Speculative.search _ (reachable_play _ _ reachable_setup_7x6 (by decide)))
    (by decide) (by decide)

theorem evaluate_speculative (fuel : Nat) (g : Game) (player level : Nat) (alpha beta : Int)
    (r : Int × Game) (hg : Speculative g)
    (h : evaluate fuel g player level alpha beta = some r) : Speculative r.2 :=
  Speculative.frame g r.2 hg (evaluate_frame fuel g player level alpha beta r h)

/-! ## Scores, progress and the winner in every state -/

/-- C2: when `2 ^ num_to_connect` is an `int` (`num_to_connect <= 30`), in every
reachable or speculative state, for every player `p` and line id `L`: the line has
`num_to_connect` cells, `score_array[p][L]` is `0` if the opponent owns a cell of
the line and `2 ^ k` otherwise, `k` being the number of its cells that `p` owns; so
the entry is `0` or a power of two not above `2 ^ num_to_connect`. -/
theorem progress_is_power_of_two (g : Game) (hg : Speculative g)
    (hn : g.num_to_connect ≤ 30) (p : Nat) (hp : p < 2) (L : Nat) (hL : L < g.win_places) :
    (line_cells g L).length = g.num_to_connect ∧
    rd2 0 (current_state g).score_array p L =
      (if touched (current_state g).board (other p) (line_cells g L) then 0
       else 2 ^ owned (current_state g).board p (line_cells g L)) ∧
    (rd2 0 (current_state g).score_array p L = 0 ∨
      ∃ k, k ≤ g.num_to_connect ∧ rd2 0 (current_state g).score_array p L = 2 ^ k) := by
  obtain ⟨w, h, n, hgood⟩ := speculative_good g hg
  have hinv := good_inv hgood
  obtain ⟨_, _, e3, e4, _, _⟩ := good_fields hgood
  rw [e4] at hL
  rw [e3] at hn ⊢
  have hperm := line_cells_perm hgood L hL
  have hlen : (line_cells g L).length = n := by
    rw [hperm.length_eq]
    exact win_lines_length_eq hgood.hn (rd_mem _ _ _ hL)
  have hk : owned (current_state g).board p (line_cells g L) ≤ n := by
    rw [← hlen]
    exact owned_le _ _ _
  have hval : rd2 0 (current_state g).score_array p L =
      (if touched (current_state g).board (other p) (line_cells g L) then 0
       else 2 ^ owned (current_state g).board p (line_cells g L)) := by
    rw [hinv.progress p hp L hL, ← progress_perm hperm]
    unfold progress
    split_ifs
    · rfl
    · exact wrap32_pow_small (by omega)
  refine ⟨hlen, hval, ?_⟩
  rw [hval]
  split_ifs
  · left; rfl
  · right; exact ⟨_, hk, rfl⟩

set_option maxRecDepth 100000 in
/-- The statement of `progress_is_power_of_two` for player 0 and the line with id 0
(the cells `(0,0)` to `(3,0)`) after player 0 moved in the columns 0, 1, 2 and 3 of
the 7x6 game. -/
theorem progress_is_power_of_two_witness :
    Speculative game_7x6_row ∧ game_7x6_row.num_to_connect ≤ 30 ∧ 0 < 2 ∧
    0 < game_7x6_row.win_places ∧
    (line_cells game_7x6_row 0).length = game_7x6_row.num_to_connect ∧
    rd2 0 (current_state game_7x6_row).score_array 0 0 =
      (if touched (current_state game_7x6_row).board (other 0) (line_cells game_7x6_row 0)
       then 0
       else 2 ^ owned (current_state game_7x6_row).board 0 (line_cells game_7x6_row 0)) ∧
    (rd2 0 (current_state game_7x6_row).score_array 0 0 = 0 ∨
      ∃ k, k ≤ game_7x6_row.num_to_connect ∧
        rd2 0 (current_state game_7x6_row).score_array 0 0 = 2 ^ k) :=
  ⟨Speculative.real _ reachable_7x6_row, by decide, by decide, by decide,
   progress_is_power_of_two _ (Speculative.real _ reachable_7x6_row) (by decide) 0 (by decide)
     0 (by decide)⟩

/-- C3 (the claim fails): in the 2x1 game with runs of 1, after
`c4_make_move(0, 0, NULL)` and `c4_make_move(1, 1, NULL)` player 1 has an entry equal
to `magic_win_number`, but the winner is player 0, who completed a line first. -/
theorem winner_iff_magic_entry_fails :
    c4_new_game no_game 2 1 1 = some (setup_game 2 1 1) ∧
    c4_make_move (setup_game 2 1 1) 0 0 none = some (true, none, game_2x1_first) ∧
    c4_make_move game_2x1_first 1 1 none = some (true, none, game_2x1_both) ∧
    (current_state game_2x1_both).winner = 0 ∧
    ¬ ((current_state game_2x1_both).winner = 1 ↔
      ∃ L, L < game_2x1_both.win_places ∧
        rd2 0 (current_state game_2x1_both).score_array 1 L =
          game_2x1_both.magic_win_number) := by
  decide

/-- C3 (amended): in every state of a game or of a search, when
`num_to_connect <= 31`: if `winner` is the player `p` then some line has
`score_array[p][L] == magic_win_number`, and `winner` is not `C4_NONE` exactly when
some line has `score_array[q][L] == magic_win_number` for some player `q`. For every
`num_to_connect`, `winner` is one of `C4_NONE`, `0`, `1`, so at most one player is the
winner. -/
theorem winner_and_magic_entries (g : Game) (hg : Speculative g) :
    (g.num_to_connect ≤ 31 →
      ∀ p, p < 2 → (current_state g).winner = p →
        ∃ L, L < g.win_places ∧
          rd2 0 (current_state g).score_array p L = g.magic_win_number) ∧
    (g.num_to_connect ≤ 31 →
      ((current_state g).winner ≠ C4_NONE ↔
        ∃ q, q < 2 ∧ ∃ L, L < g.win_places ∧
          rd2 0 (current_state g).score_array q L = g.magic_win_number)) ∧
    ((current_state g).winner = C4_NONE ∨ (current_state g).winner = 0 ∨
      (current_state g).winner = 1) := by
  obtain ⟨w, h, n, hgood⟩ := speculative_good g hg
  have hinv := good_inv hgood
  obtain ⟨_, _, e3, e4, _, e6⟩ := good_fields hgood
  rw [e3, e4, e6]
  have hle := hinv.winner_le
  have hmod : n ≤ 31 → n % 32 = n := fun hn => Nat.mod_eq_of_lt (by omega)
  refine ⟨?_, ?_, ?_⟩
  · intro hn
    rw [hmod hn]
    exact hinv.winner_some hn
  · intro hn
    rw [hmod hn]
    constructor
    · intro hne
      have hlt : (current_state g).winner < 2 := by
        unfold C4_NONE at hne
        omega
      exact ⟨_, hlt, hinv.winner_some hn _ hlt rfl⟩
    · rintro ⟨q, hq, L, hL, hm⟩ hnone
      exact hinv.winner_none hn hnone q hq L hL hm
  · unfold C4_NONE
    omega

/-- The statement of `winner_and_magic_entries` in the 2x1 game with runs of 1 after
both players moved. -/
theorem winner_and_magic_entries_witness :
    Speculative game_2x1_both ∧ game_2x1_both.num_to_connect ≤ 31 ∧
    (current_state game_2x1_both).winner = 0 ∧
    ((game_2x1_both.num_to_connect ≤ 31 →
      ∀ p, p < 2 → (current_state game_2x1_both).winner = p →
        ∃ L, L < game_2x1_both.win_places ∧
          rd2 0 (current_state game_2x1_both).score_array p L =
            game_2x1_both.magic_win_number) ∧
    (game_2x1_both.num_to_connect ≤ 31 →
      ((current_state game_2x1_both).winner ≠ C4_NONE ↔
        ∃ q, q < 2 ∧ ∃ L, L < game_2x1_both.win_places ∧
          rd2 0 (current_state game_2x1_both).score_array q L =
            game_2x1_both.magic_win_number)) ∧
    ((current_state game_2x1_both).winner = C4_NONE ∨
      (current_state game_2x1_both).winner = 0 ∨ (current_state game_2x1_both).winner = 1)) :=
  ⟨Speculative.real _ reachable_2x1_both, by decide, by decide,
   winner_and_magic_entries _ (Speculative.real _ reachable_2x1_both)⟩

set_option maxRecDepth 100000 in
/-- C4 (the claim fails): `c4_new_game(1, 32, 32)` is accepted and `1 << 32` is
computed as 1, a value that no doubled entry takes. After 32 calls
`c4_make_move(0, 0, NULL)` player 0 owns all 32 cells of the only line, yet `winner` is
still `C4_NONE`. -/
theorem owned_line_without_winner :
    c4_new_game no_game 1 32 32 = some (setup_game 1 32 32) ∧
    (setup_game 1 32 32).magic_win_number = 1 ∧
    Reachable game_1x32_own ∧
    (∀ y, y < 32 → rd2 C4_NONE (current_state game_1x32_own).board 0 y = 0) ∧
    line_owned game_1x32_own (current_state game_1x32_own) 0 ∧
    (current_state game_1x32_own).winner = C4_NONE ∧
    ¬ ((current_state game_1x32_own).winner ≠ C4_NONE ↔
      ∃ p, p < 2 ∧ line_owned game_1x32_own (current_state game_1x32_own) p) := by
  have hr : Reachable game_1x32_own := reachable_play _ _
    (Reachable.new_game no_game (setup_game 1 32 32) 1 32 32 (by decide)) (by decide)
  exact ⟨by decide, by decide, hr, by decide, by decide, by decide, by decide⟩

/-- C4 (amended): when `num_to_connect <= 31`, in every state of a game or of a
search `winner` is not `C4_NONE` exactly when some player owns every cell of a run of
`num_to_connect` contiguous cells in one of the four directions, and whenever
`winner == p` player `p` owns every cell of such a run. -/
theorem winner_iff_line_owned (g : Game) (hg : Speculative g) (hn : g.num_to_connect ≤ 31) :
    ((current_state g).winner ≠ C4_NONE ↔
      ∃ p, p < 2 ∧ line_owned g (current_state g) p) ∧
    (∀ p, p < 2 → (current_state g).winner = p → line_owned g (current_state g) p) := by
  obtain ⟨w, h, n, hgood⟩ := speculative_good g hg
  have hinv := good_inv hgood
  obtain ⟨_, _, e3, _, _, _⟩ := good_fields hgood
  rw [e3] at hn
  have hle := hinv.winner_le
  have hlen : ∀ L, L < (win_lines w h n).length → (rd [] (win_lines w h n) L).length = n :=
    fun L hL => win_lines_length_eq hgood.hn (rd_mem _ _ _ hL)
  have hwin : ∀ p, p < 2 → (current_state g).winner = p →
      line_owned g (current_state g) p := by
    intro p hp hw
    obtain ⟨L, hL, hm⟩ := hinv.winner_some hn p hp hw
    rw [hinv.progress p hp L hL] at hm
    rw [line_owned_iff hgood]
    exact ⟨L, hL, (progress_eq_magic_iff hp hn (hlen L hL)).mp hm⟩
  refine ⟨?_, hwin⟩
  constructor
  · intro hne
    have hlt : (current_state g).winner < 2 := by
      unfold C4_NONE at hne
      omega
    exact ⟨_, hlt, hwin _ hlt rfl⟩
  · rintro ⟨p, hp, hown⟩ hnone
    rw [line_owned_iff hgood] at hown
    obtain ⟨L, hL, hall⟩ := hown
    apply hinv.winner_none hn hnone p hp L hL
    rw [hinv.progress p hp L hL]
    exact (progress_eq_magic_iff hp hn (hlen L hL)).mpr hall

set_option maxRecDepth 100000 in
/-- The statement of `winner_iff_line_owned` after player 0 moved in the columns 0, 1,
2 and 3 of the empty 7x6 game with runs of 4, where `c4_is_winner(0)` is true. -/
theorem winner_iff_line_owned_witness :
    Speculative game_7x6_row ∧ game_7x6_row.num_to_connect ≤ 31 ∧
    c4_is_winner game_7x6_row 0 = some true ∧
    (((current_state game_7x6_row).winner ≠ C4_NONE ↔
      ∃ p, p < 2 ∧ line_owned game_7x6_row (current_state game_7x6_row) p) ∧
    (∀ p, p < 2 → (current_state game_7x6_row).winner = p →
      line_owned game_7x6_row (current_state game_7x6_row) p)) :=
  ⟨Speculative.real _ reachable_7x6_row, by decide, by decide,
   winner_iff_line_owned _ (Speculative.real _ reachable_7x6_row) (by decide)⟩


/-! ## Placement: failure, gravity, `c4_make_move` -/

/-- C5: `drop_piece` on a full column returns `-1` and leaves the whole state
unchanged: the globals are the same, so every board cell, both `score_array`
arrays, both scores, `num_of_pieces` and `winner` of the current state keep their
values. -/
theorem drop_piece_full_column (g : Game) (player column : Nat)
    (hfull : column_full g (current_state g) column) :
    (drop_piece g player column).1 = -1 ∧
    (drop_piece g player column).2 = g ∧
    (current_state (drop_piece g player column).2).board = (current_state g).board ∧
    (current_state (drop_piece g player column).2).score_array =
      (current_state g).score_array ∧
    (current_state (drop_piece g player column).2).score = (current_state g).score ∧
    (current_state (drop_piece g player column).2).num_of_pieces =
      (current_state g).num_of_pieces ∧
    (current_state (drop_piece g player column).2).winner = (current_state g).winner := by
  have h : drop_piece g player column = (-1, g) := by
    unfold drop_piece
    rw [drop_piece_on_full g (current_state g) player column hfull]
    simp [set_current_current_state]
  rw [h]
  simp

/-- A 1x1 game whose only cell is taken: the column is full, and a further
`drop_piece` fails without changing anything. -/
theorem drop_piece_full_column_witness :
    column_full (drop_piece (setup_game 1 1 1) 0 0).2
      (current_state (drop_piece (setup_game 1 1 1) 0 0).2) 0 ∧
    (drop_piece (drop_piece (setup_game 1 1 1) 0 0).2 1 0).1 = -1 ∧
    (drop_piece (drop_piece (setup_game 1 1 1) 0 0).2 1 0).2 =
      (drop_piece (setup_game 1 1 1) 0 0).2 :=
  ⟨by decide,
   (drop_piece_full_column (drop_piece (setup_game 1 1 1) 0 0).2 1 0 (by decide)).1,
   (drop_piece_full_column (drop_piece (setup_game 1 1 1) 0 0).2 1 0 (by decide)).2.1⟩

/-- C7: in a column that is not full, `drop_piece(player, C)` returns the smallest
row `r` whose cell was empty, every row below `r` was occupied and keeps its piece,
and the cell `(C, r)` now holds `player`. -/
theorem drop_piece_gravity (g : Game) (player column : Nat) (hs : Stack_ok g)
    (hb : Board_ok g (current_state g)) (hc : column < g.size_x)
    (hfree : ¬ column_full g (current_state g) column) :
    ∃ r : Nat, (drop_piece g player column).1 = (r : Int) ∧ r < g.size_y ∧
      rd2 C4_NONE (current_state g).board column r = C4_NONE ∧
      (∀ y, y < r → rd2 C4_NONE (current_state g).board column y ≠ C4_NONE) ∧
      rd2 C4_NONE (current_state (drop_piece g player column).2).board column r = player ∧
      (∀ y, y < r →
        rd2 C4_NONE (current_state (drop_piece g player column).2).board column y =
          rd2 C4_NONE (current_state g).board column y) := by
  obtain ⟨h1, h2, h3⟩ := drop_row_free g (current_state g) column hfree
  refine ⟨drop_row (rd [] (current_state g).board column) g.size_y g.size_y 0, ?_, h1, h2, h3, ?_, ?_⟩
  · unfold drop_piece
    rw [drop_piece_on_free g (current_state g) player column hfree]
  · unfold drop_piece
    simp only []
    rw [current_state_set_current g _ hs, (drop_piece_on_board g _ player column hfree).1]
    apply rd2_wr2_same
    · rw [hb.1]; exact hc
    · rw [hb.2 column hc]; exact h1
  · intro y hy
    unfold drop_piece
    simp only []
    rw [current_state_set_current g _ hs, (drop_piece_on_board g _ player column hfree).1]
    apply rd2_wr2_ne
    right
    omega

set_option maxRecDepth 100000 in
/-- On the 7x6 board with one piece in column 3, the next piece dropped there lands
in row 1. -/
theorem drop_piece_gravity_witness :
    ∃ r : Nat, (drop_piece (drop_piece (setup_game 7 6 4) 0 3).2 1 3).1 = (r : Int) ∧
      r < (drop_piece (setup_game 7 6 4) 0 3).2.size_y ∧
      rd2 C4_NONE (current_state (drop_piece (setup_game 7 6 4) 0 3).2).board 3 r = C4_NONE ∧
      (∀ y, y < r →
        rd2 C4_NONE (current_state (drop_piece (setup_game 7 6 4) 0 3).2).board 3 y ≠ C4_NONE) ∧
      rd2 C4_NONE
        (current_state (drop_piece (drop_piece (setup_game 7 6 4) 0 3).2 1 3).2).board 3 r = 1 ∧
      (∀ y, y < r →
        rd2 C4_NONE
          (current_state (drop_piece (drop_piece (setup_game 7 6 4) 0 3).2 1 3).2).board 3 y =
        rd2 C4_NONE (current_state (drop_piece (setup_game 7 6 4) 0 3).2).board 3 y) :=
  drop_piece_gravity (drop_piece (setup_game 7 6 4) 0 3).2 1 3 (by decide) (by decide)
    (by decide) (by decide)

/-- C6: in a game in progress `c4_make_move(player, column, row)` returns; it returns
true exactly when `0 <= column < size_x` and the column is not full; then the piece
of `real_player(player)` is put in the lowest empty cell `(column, r)` and `r` is
written to `*row` (when `row` is not `NULL`); when it returns false the globals and
`*row` are unchanged. -/
theorem c4_make_move_spec (g : Game) (player column : Int) (row : Option Int)
    (hg : g.game_in_progress = true) (hm : g.move_in_progress = false) (hs : Stack_ok g) :
    ∃ (ok : Bool) (row1 : Option Int) (g1 : Game),
      c4_make_move g player column row = some (ok, row1, g1) ∧
      (ok = true ↔ (0 ≤ column ∧ column < g.size_x ∧
        ¬ column_full g (current_state g) column.toNat)) ∧
      (ok = true → ∃ r : Nat, row1 = row.map (fun _ => (r : Int)) ∧ r < g.size_y ∧
        rd2 C4_NONE (current_state g).board column.toNat r = C4_NONE ∧
        (∀ y, y < r → rd2 C4_NONE (current_state g).board column.toNat y ≠ C4_NONE) ∧
        (current_state g1).board =
          wr2 (current_state g).board column.toNat r (real_player player)) ∧
      (ok = false → g1 = g ∧ row1 = row) := by
  unfold c4_make_move
  simp only [hg, hm, Bool.not_false, and_self, if_true, Bool.false_eq_true, not_false_eq_true]
  by_cases hcol : column ≥ (g.size_x : Int) ∨ column < 0
  · rw [if_pos hcol]
    refine ⟨false, row, g, rfl, ?_, ?_, ?_⟩
    · constructor
      · intro h; exact absurd h (by simp)
      · rintro ⟨h1, h2, _⟩; omega
    · intro h; exact absurd h (by simp)
    · intro _; exact ⟨rfl, rfl⟩
  · rw [if_neg hcol]
    have hc0 : 0 ≤ column := by omega
    have hc1 : column < (g.size_x : Int) := by omega
    by_cases hfull : column_full g (current_state g) column.toNat
    · obtain ⟨e1, e2, _⟩ := drop_piece_full_column g (real_player player) column.toNat hfull
      refine ⟨false, row, g, ?_, ?_, ?_, ?_⟩
      · simp [e1, e2]
      · constructor
        · intro h; exact absurd h (by simp)
        · rintro ⟨_, _, h3⟩; exact absurd hfull h3
      · intro h; exact absurd h (by simp)
      · intro _; exact ⟨rfl, rfl⟩
    · obtain ⟨h1, h2, h3⟩ := drop_row_free g (current_state g) column.toNat hfull
      have e1 : (drop_piece g (real_player player) column.toNat).1 =
          ((drop_row (rd [] (current_state g).board column.toNat) g.size_y g.size_y 0 : Nat) :
            Int) := by
        unfold drop_piece
        rw [drop_piece_on_free g (current_state g) _ _ hfull]
      have e2 : (current_state (drop_piece g (real_player player) column.toNat).2).board =
          wr2 (current_state g).board column.toNat
            (drop_row (rd [] (current_state g).board column.toNat) g.size_y g.size_y 0)
            (real_player player) := by
        unfold drop_piece
        simp only []
        rw [current_state_set_current g _ hs, (drop_piece_on_board g _ _ _ hfull).1]
      have e3 : (drop_piece g (real_player player) column.toNat).1 ≥ 0 := by
        rw [e1]; exact Int.natCast_nonneg _
      refine ⟨true, row.map (fun _ => (drop_piece g (real_player player) column.toNat).1),
        (drop_piece g (real_player player) column.toNat).2, ?_, ?_, ?_, ?_⟩
      · simp [e3]
      · simp [hc0, hc1, hfull]
      · intro _
        exact ⟨_, by rw [e1], h1, h2, h3, e2⟩
      · intro h; exact absurd h (by simp)

set_option maxRecDepth 100000 in
/-- On the 7x6 board, `c4_make_move(0, 3, row)` answers true, writes row `0` and
occupies the cell `(3, 0)`; the statement is the one of `c4_make_move_spec` at this
call. -/
theorem c4_make_move_spec_witness :
    ∃ (ok : Bool) (row1 : Option Int) (g1 : Game),
      c4_make_move (setup_game 7 6 4) 0 3 (some 9) = some (ok, row1, g1) ∧
      (ok = true ↔ ((0 : Int) ≤ 3 ∧ (3 : Int) < (setup_game 7 6 4).size_x ∧
        ¬ column_full (setup_game 7 6 4) (current_state (setup_game 7 6 4)) (3 : Int).toNat)) ∧
      (ok = true → ∃ r : Nat, row1 = (some (9 : Int)).map (fun _ => (r : Int)) ∧
        r < (setup_game 7 6 4).size_y ∧
        rd2 C4_NONE (current_state (setup_game 7 6 4)).board (3 : Int).toNat r = C4_NONE ∧
        (∀ y, y < r →
          rd2 C4_NONE (current_state (setup_game 7 6 4)).board (3 : Int).toNat y ≠ C4_NONE) ∧
        (current_state g1).board =
          wr2 (current_state (setup_game 7 6 4)).board (3 : Int).toNat r (real_player 0)) ∧
      (ok = false → g1 = setup_game 7 6 4 ∧ row1 = some 9) :=
  c4_make_move_spec (setup_game 7 6 4) 0 3 (some 9) (by decide) (by decide) (by decide)

/-! ## The state stack -/

/-- C8: `push_state()` immediately followed by `pop_state()` leaves `depth` and the
current state (board, both `score_array` arrays, both scores, `winner`,
`num_of_pieces`) as they were, and does not touch the static description of the
game. -/
theorem push_pop_state (g : Game) :
    (pop_state (push_state g)).depth = g.depth ∧
    current_state (pop_state (push_state g)) = current_state g ∧
    (current_state (pop_state (push_state g))).board = (current_state g).board ∧
    (current_state (pop_state (push_state g))).score_array = (current_state g).score_array ∧
    (current_state (pop_state (push_state g))).score = (current_state g).score ∧
    (current_state (pop_state (push_state g))).winner = (current_state g).winner ∧
    (current_state (pop_state (push_state g))).num_of_pieces =
      (current_state g).num_of_pieces := by
  have hd : (pop_state (push_state g)).depth = g.depth := by
    simp [pop_state, push_state]
  have hc : current_state (pop_state (push_state g)) = current_state g := by
    unfold current_state
    rw [hd]
    simp only [pop_state, push_state]
    by_cases hl : g.depth + 1 = g.state_stack.length
    · rw [if_pos hl]
      simp only [rd]
      rw [List.getD_append _ _ _ _ (by omega)]
    · rw [if_neg hl]
      exact rd_wr_ne _ _ _ _ _ (by omega)
  refine ⟨hd, hc, ?_, ?_, ?_, ?_, ?_⟩ <;> rw [hc]


/-! ## The second opening move of `c4_auto_move` -/

theorem c4_auto_move_one_piece (g : Game) (rand : Nat → Nat) (player level column : Int)
    (row : Option Int) (hg : g.game_in_progress = true) (hm : g.move_in_progress = false)
    (hl1 : 1 ≤ level) (hl2 : level ≤ 20) (hn : (current_state g).num_of_pieces = 1)
    (hx : 3 < g.size_x) :
    c4_auto_move g rand player level column row =
      some { moved := true, column := 3, row := row.map (fun _ => (1 : Int)),
             game := (drop_piece g (real_player player) 3).2 } := by
  unfold c4_auto_move
  have hc : g.game_in_progress = true ∧ ¬ g.move_in_progress = true ∧ level ≥ 1 ∧
      level ≤ (C4_MAX_LEVEL : Int) := by
    refine ⟨hg, by simp [hm], hl1, ?_⟩
    simp [C4_MAX_LEVEL]; exact hl2
  rw [if_pos hc, if_neg (fun h => by have := h.1; omega), if_pos hn, if_pos hx, hn]
  rfl

/-- C9 (the code at the failing input): in the 5x1 game with runs of 2, after
`c4_make_move(0, 0, NULL)` exactly one column, column 1, wins at once for player 0;
yet `c4_auto_move(0, level, ..)` plays column 3 at every level 1..20, whatever
`rand()` returns, and player 0 has not won afterwards. -/
theorem c4_auto_move_misses_the_winning_column :
    c4_new_game no_game 5 1 2 = some (setup_game 5 1 2) ∧
    c4_make_move (setup_game 5 1 2) 0 0 none = some (true, none, game_5x1_own) ∧
    (∀ c, c < 5 → ((current_state (drop_piece game_5x1_own 0 c).2).winner = 0 ↔ c = 1)) ∧
    (∀ (rand : Nat → Nat) (level : Fin 20) (column : Int) (row : Option Int),
      c4_auto_move game_5x1_own rand 0 ((level : Nat) + 1) column row =
        some { moved := true, column := 3, row := row.map (fun _ => (1 : Int)),
               game := (drop_piece game_5x1_own 0 3).2 }) ∧
    (current_state (drop_piece game_5x1_own 0 3).2).winner = C4_NONE := by
  refine ⟨by decide, by decide, by decide, ?_, by decide⟩
  intro rand level column row
  have h := c4_auto_move_one_piece game_5x1_own rand 0 ((level : Nat) + 1) column row
    (by decide) (by decide) (by omega) (by omega) (by decide) (by decide)
  exact h

/-- C10 (the code at the failing input): in the 5x1 game with runs of 2, after
`c4_make_move(1, 0, NULL)` player 0 cannot win at once, column 1 is safe (no reply
of player 1 wins after it), yet `c4_auto_move(0, level, ..)` plays column 3 at every
level 2..20, whatever `rand()` returns, and player 1 then wins by playing
column 1. -/
theorem c4_auto_move_allows_an_immediate_loss :
    c4_new_game no_game 5 1 2 = some (setup_game 5 1 2) ∧
    c4_make_move (setup_game 5 1 2) 1 0 none = some (true, none, game_5x1_opp) ∧
    (∀ c, c < 5 → (current_state (drop_piece game_5x1_opp 0 c).2).winner ≠ 0) ∧
    (¬ column_full game_5x1_opp (current_state game_5x1_opp) 1 ∧
      ∀ c, c < 5 →
        (current_state (drop_piece (drop_piece game_5x1_opp 0 1).2 1 c).2).winner ≠ 1) ∧
    (∀ (rand : Nat → Nat) (level : Fin 19) (column : Int) (row : Option Int),
      c4_auto_move game_5x1_opp rand 0 ((level : Nat) + 2) column row =
        some { moved := true, column := 3, row := row.map (fun _ => (1 : Int)),
               game := (drop_piece game_5x1_opp 0 3).2 }) ∧
    (current_state (drop_piece (drop_piece game_5x1_opp 0 3).2 1 1).2).winner = 1 := by
  refine ⟨by decide, by decide, by decide, ⟨by decide, by decide⟩, ?_, by decide⟩
  intro rand level column row
  have h := c4_auto_move_one_piece game_5x1_opp rand 0 ((level : Nat) + 2) column row
    (by decide) (by decide) (by omega) (by omega) (by decide) (by decide)
  exact h

/-! ## Gravity and the number of pieces -/

theorem rd2_of_not_inside {α : Type} (d : α) {w h : Nat} {a : List (List α)}
    (hd : Dims w h a) (x y : Nat) (hxy : ¬ (x < w ∧ y < h)) : rd2 d a x y = d := by
  unfold rd2
  by_cases hx : x < w
  · have hy : ¬ y < h := fun hy => hxy ⟨hx, hy⟩
    have hl := hd.2 x hx
    unfold rd at hl
    rw [List.getD_eq_getElem?_getD, List.getElem?_eq_none (by omega)]
    rfl
  · rw [List.getD_eq_getElem?_getD a, List.getElem?_eq_none (by rw [hd.1]; omega)]
    rfl

theorem countP_wr2 {w h : Nat} {b : List (List Nat)} (hd : Dims w h b) (x y v : Nat)
    (hx : x < w) (hy : y < h) (hold : rd2 C4_NONE b x y = C4_NONE) (hv : v ≠ C4_NONE)
    (l : List (Nat × Nat)) (hl : l.Nodup) :
    l.countP (fun c => decide (rd2 C4_NONE (wr2 b x y v) c.1 c.2 ≠ C4_NONE)) =
      l.countP (fun c => decide (rd2 C4_NONE b c.1 c.2 ≠ C4_NONE)) +
        (if (x, y) ∈ l then 1 else 0) := by
  induction l with
  | nil => simp
  | cons c l ih =>
    have hnot := (List.nodup_cons.mp hl).1
    rw [List.countP_cons, List.countP_cons, ih (List.nodup_cons.mp hl).2,
      rd2_wr2 C4_NONE hd x y v hx hy c]
    by_cases hc : c = (x, y)
    · have hn : (x, y) ∉ l := by rw [← hc]; exact hnot
      have e : rd2 C4_NONE b c.1 c.2 = C4_NONE := by rw [hc]; exact hold
      simp [hc, hn, hv, hold]
    · have hc1 : (x, y) ≠ c := fun e => hc e.symm
      by_cases hm : (x, y) ∈ l
      · simp [hc, hc1, hm]; omega
      · simp [hc, hc1, hm]

theorem fill_start (w h n : Nat) : Fill w h (current_state (setup_game w h n)) := by
  have hb : (current_state (setup_game w h n)).board =
      List.replicate w (List.replicate h C4_NONE) := rfl
  have hn : (current_state (setup_game w h n)).num_of_pieces = 0 := rfl
  have hcell : ∀ x y, rd2 C4_NONE (List.replicate w (List.replicate h C4_NONE)) x y =
      C4_NONE := by
    intro x y
    by_cases hxy : x < w ∧ y < h
    · exact rd2_replicate _ _ _ _ _ _ hxy.1 hxy.2
    · exact rd2_of_not_inside _ (dims_replicate w h C4_NONE) x y hxy
  refine ⟨?_, ?_, ?_⟩
  · intro x y hne
    rw [hb, hcell] at hne
    exact absurd rfl hne
  · intro x y hne
    rw [hb, hcell] at hne
    exact absurd rfl hne
  · rw [hn, hb]
    symm
    rw [List.countP_eq_zero]
    intro c _
    simp [hcell]

theorem fill_drop (w h n : Nat) (s : Game_state) (hinv : Inv w h n s) (hf : Fill w h s)
    (p c : Nat) (hp : p < 2) (hc : c < w) :
    Fill w h (drop_piece_on (setup_game w h n) s p c).2 := by
  by_cases hfull : column_full (setup_game w h n) s c
  · rw [drop_piece_on_full _ _ _ _ hfull]
    exact hf
  · obtain ⟨hy, hempty, hbelow⟩ := drop_row_free _ _ _ hfull
    obtain ⟨b1, b2⟩ := drop_piece_on_board (setup_game w h n) s p c hfull
    have hsy : (setup_game w h n).size_y = h := rfl
    rw [hsy] at hy hempty hbelow b1
    generalize drop_row (rd [] s.board c) h h 0 = y at hy hempty hbelow b1
    have hpn : p ≠ C4_NONE := by unfold C4_NONE; omega
    have hcell : ∀ x1 y1, rd2 C4_NONE (wr2 s.board c y p) x1 y1 =
        if (x1, y1) = (c, y) then p else rd2 C4_NONE s.board x1 y1 :=
      fun x1 y1 => rd2_wr2 C4_NONE hinv.board c y p hc hy (x1, y1)
    have hmono : ∀ x1 y1, rd2 C4_NONE s.board x1 y1 ≠ C4_NONE →
        rd2 C4_NONE (wr2 s.board c y p) x1 y1 ≠ C4_NONE := by
      intro x1 y1 hne
      rw [hcell]
      split_ifs
      · exact hpn
      · exact hne
    refine ⟨?_, ?_, ?_⟩
    · intro x1 y1 hne y2 hy2
      rw [b1] at hne ⊢
      rw [hcell] at hne
      by_cases e : (x1, y1) = (c, y)
      · have e1 : x1 = c := congrArg Prod.fst e
        have e2 : y1 = y := congrArg Prod.snd e
        subst e1; subst e2
        exact hmono _ _ (hbelow y2 hy2)
      · rw [if_neg e] at hne
        exact hmono _ _ (hf.gravity x1 y1 hne y2 hy2)
    · intro x1 y1 hne
      rw [b1, hcell] at hne
      by_cases e : (x1, y1) = (c, y)
      · have e1 : x1 = c := congrArg Prod.fst e
        have e2 : y1 = y := congrArg Prod.snd e
        subst e1; subst e2
        exact ⟨hc, hy⟩
      · rw [if_neg e] at hne
        exact hf.inside x1 y1 hne
    · have hnd : (List.product (List.range w) (List.range h)).Nodup :=
        (List.nodup_range _).product (List.nodup_range _)
      have hm : (c, y) ∈ List.product (List.range w) (List.range h) :=
        List.mem_product.mpr ⟨List.mem_range.mpr hc, List.mem_range.mpr hy⟩
      rw [b2, b1, hf.count, countP_wr2 hinv.board c y p hc hy hempty hpn _ hnd, if_pos hm]

theorem fill_played (w h n : Nat) (h1 : 1 ≤ n) (hW : (win_lines w h n).length ≤ 2147483647)
    (s : Game_state) (hs : Played w h n s) : Fill w h s := by
  induction hs with
  | start => exact fill_start w h n
  | drop s p c hpl hp hc ih =>
    exact fill_drop w h n s (inv_played w h n h1 hW s hpl) ih p c hp hc

theorem good_fill {g : Game} {w h n : Nat} (hg : Good g w h n) : Fill w h (current_state g) :=
  fill_played w h n hg.hn hg.hW _ hg.hplayed

theorem occupied_eq {g : Game} {w h n : Nat} (hg : Good g w h n) :
    (current_state g).num_of_pieces = occupied g (current_state g) := by
  obtain ⟨e1, e2, _⟩ := good_fields hg
  unfold occupied all_cells
  rw [e1, e2]
  exact (good_fill hg).count

theorem board_full_iff_count {g : Game} {w h n : Nat} (hg : Good g w h n) :
    board_full g (current_state g) ↔ (current_state g).num_of_pieces = g.total_size := by
  obtain ⟨e1, e2, _⟩ := good_fields hg
  have e3 : g.total_size = w * h := (statics_fields hg.hst).2.2.1
  rw [(good_fill hg).count, e3]
  have hlen : (List.product (List.range w) (List.range h)).length = w * h :=
    (List.length_product _ _).trans (by rw [List.length_range, List.length_range])
  rw [← hlen, List.countP_eq_length]
  unfold board_full
  rw [e1, e2]
  constructor
  · intro hall c hc
    have := List.mem_product.mp hc
    simp only [List.mem_range] at this
    simpa using hall c.1 this.1 c.2 this.2
  · intro hall x hx y hy
    have hm : (x, y) ∈ List.product (List.range w) (List.range h) :=
      List.mem_product.mpr ⟨List.mem_range.mpr hx, List.mem_range.mpr hy⟩
    simpa using hall (x, y) hm

theorem board_full_iff_columns (g : Game) (s : Game_state) :
    board_full g s ↔ ∀ c, c < g.size_x → column_full g s c := by
  unfold board_full column_full
  rfl

theorem top_cell_iff_full {g : Game} {w h n : Nat} (hg : Good g w h n) (c : Nat) :
    rd2 C4_NONE (current_state g).board c (g.size_y - 1) ≠ C4_NONE ↔
      column_full g (current_state g) c := by
  obtain ⟨_, e2, _⟩ := good_fields hg
  have hh := hg.hh
  unfold column_full
  rw [e2]
  constructor
  · intro htop y hy
    by_cases e : y = h - 1
    · rw [e]; exact htop
    · exact (good_fill hg).gravity c (h - 1) htop y (by omega)
  · intro hall
    exact hall (h - 1) (by omega)


/-! ## A new game -/

theorem c4_new_game_eq (g0 g : Game) (width height num : Int)
    (h : c4_new_game g0 width height num = some g) :
    g0.game_in_progress = false ∧ 1 ≤ width ∧ 1 ≤ height ∧ 1 ≤ num ∧
    width * height ≤ INT_MAX ∧ num_of_win_places width height num ≤ INT_MAX ∧
    g = setup_game width.toNat height.toNat num.toNat := by
  unfold c4_new_game at h
  split_ifs at h with h1 h2 h3
  simp only [Option.some.injEq] at h
  exact ⟨by simpa using h1, h2.1, h2.2.1, h2.2.2, h3.1, h3.2, h.symm⟩

theorem setup_game_good (w h n : Nat) (hw : 1 ≤ w) (hh : 1 ≤ h) (hn : 1 ≤ n)
    (hW : (win_lines w h n).length ≤ 2147483647) : Good (setup_game w h n) w h n :=
  ⟨hw, hh, hn, hW, rfl, by unfold Stack_ok; simp [setup_game], Played.start⟩

theorem c4_new_game_good (g0 g : Game) (width height num : Int)
    (h : c4_new_game g0 width height num = some g) :
    g = setup_game width.toNat height.toNat num.toNat ∧
    Good g width.toNat height.toNat num.toNat := by
  obtain ⟨_, h1, h2, h3, _, h5, h6⟩ := c4_new_game_eq g0 g width height num h
  refine ⟨h6, ?_⟩
  rw [h6]
  apply setup_game_good _ _ _ (by omega) (by omega) (by omega)
  have e := num_of_win_places_eq width.toNat height.toNat num.toNat
  have ew : ((width.toNat : Nat) : Int) = width := Int.toNat_of_nonneg (by omega)
  have eh : ((height.toNat : Nat) : Int) = height := Int.toNat_of_nonneg (by omega)
  have en : ((num.toNat : Nat) : Int) = num := Int.toNat_of_nonneg (by omega)
  rw [ew, eh, en] at e
  rw [e] at h5
  unfold INT_MAX at h5
  omega

theorem wrap32_add_left (a b : Int) : wrap32 (wrap32 a + b) = wrap32 (a + b) :=
  wrap32_congr ((wrap32_modEq a).add_right b)

theorem wrap32_add_right (a b : Int) : wrap32 (a + wrap32 b) = wrap32 (a + b) :=
  wrap32_congr ((wrap32_modEq b).add_left a)

theorem wrap32_sub_left (a b : Int) : wrap32 (wrap32 a - b) = wrap32 (a - b) :=
  wrap32_congr ((wrap32_modEq a).sub_right b)

theorem wrap32_sub_right (a b : Int) : wrap32 (a - wrap32 b) = wrap32 (a - b) :=
  wrap32_congr ((wrap32_modEq b).sub_left a)

theorem wrap32_mul_left (a b : Int) : wrap32 (wrap32 a * b) = wrap32 (a * b) :=
  wrap32_congr ((wrap32_modEq a).mul_right b)

theorem wrap32_mul_right (a b : Int) : wrap32 (a * wrap32 b) = wrap32 (a * b) :=
  wrap32_congr ((wrap32_modEq b).mul_left a)

theorem num_of_win_places_int_eq (x y n : Int) :
    num_of_win_places_int x y n = wrap32 (num_of_win_places x y n) := by
  unfold num_of_win_places_int num_of_win_places
  split_ifs
  · exact wrap32_zero.symm
  · simp only [wrap32_add_left, wrap32_add_right, wrap32_sub_left, wrap32_sub_right,
      wrap32_mul_left, wrap32_mul_right]
  · simp only [wrap32_add_left, wrap32_add_right, wrap32_sub_left, wrap32_sub_right,
      wrap32_mul_left, wrap32_mul_right]
  · simp only [wrap32_add_left, wrap32_add_right, wrap32_sub_left, wrap32_sub_right,
      wrap32_mul_left, wrap32_mul_right]

/-- C17: for `width`, `height` and `num >= 1` that are `int`s, with a number of lines
that is an `int`, the `int` that `num_of_win_places(width, height, num)` computes is
the final value of `win_index` after the four passes of `c4_new_game`, which is
`height*max(0,width-num+1) + width*max(0,height-num+1) +
2*max(0,width-num+1)*max(0,height-num+1)`; it is the value of `win_places`, and
every id stored in the map is below it. -/
theorem num_of_win_places_counts_ids (w h n : Nat) (hn : 1 ≤ n)
    (hfit : (w : Int) ≤ INT_MAX ∧ (h : Int) ≤ INT_MAX ∧ (n : Int) ≤ INT_MAX ∧
      num_of_win_places w h n ≤ INT_MAX) :
    num_of_win_places_int w h n = ((build_map w h n).2 : Int) ∧
    num_of_win_places w h n = ((build_map w h n).2 : Int) ∧
    num_of_win_places_int w h n =
      (h : Int) * max 0 ((w : Int) - n + 1) + (w : Int) * max 0 ((h : Int) - n + 1) +
        2 * max 0 ((w : Int) - n + 1) * max 0 ((h : Int) - n + 1) ∧
    (setup_game w h n).win_places = (build_map w h n).2 ∧
    ∀ x y L, L ∈ rd2 [] (setup_game w h n).map x y → L < (setup_game w h n).win_places := by
  have hs := @build_map_spec w h (win_lines w h n)
    (fun l hl => ⟨fun c hc => win_lines_in_board hn hl hc, win_lines_nodup hn hl⟩)
  have hidx : (build_map w h n).2 = (win_lines w h n).length := hs.2.1
  have hwp := setup_game_win_places w h n
  have hint : num_of_win_places_int w h n = num_of_win_places w h n := by
    rw [num_of_win_places_int_eq]
    have h0 : (0 : Int) ≤ num_of_win_places w h n := by
      rw [num_of_win_places_eq]
      exact Int.natCast_nonneg _
    have h1 := hfit.2.2.2
    unfold INT_MAX at h1
    exact wrap32_of_range _ (by omega) (by omega)
  refine ⟨?_, ?_, ?_, ?_, ?_⟩
  · rw [hint, hidx]; exact num_of_win_places_eq w h n
  · rw [hidx]; exact num_of_win_places_eq w h n
  · rw [hint, num_of_win_places_eq, win_lines_length]
    have e1 : ((w + 1 - n : Nat) : Int) = max 0 ((w : Int) - n + 1) := by omega
    have e2 : ((h + 1 - n : Nat) : Int) = max 0 ((h : Int) - n + 1) := by omega
    push_cast
    rw [e1, e2]
    ring
  · rw [hidx]; exact hwp
  · intro x y L hL
    rw [hwp]
    by_cases hxy : x < w ∧ y < h
    · rw [(setup_game_map w h n hn).2 x y hxy.1 hxy.2] at hL
      exact (mem_lines_through.mp hL).1
    · rw [rd2_of_not_inside [] (setup_game_map w h n hn).1 x y hxy] at hL
      exact absurd hL (List.not_mem_nil _)

set_option maxRecDepth 100000 in
/-- The statement of `num_of_win_places_counts_ids` for the standard 7x6 board with
runs of 4, which has 69 lines. -/
theorem num_of_win_places_counts_ids_witness :
    1 ≤ 4 ∧ (setup_game 7 6 4).win_places = 69 ∧
    (((7 : Nat) : Int) ≤ INT_MAX ∧ ((6 : Nat) : Int) ≤ INT_MAX ∧ ((4 : Nat) : Int) ≤ INT_MAX ∧
      num_of_win_places (7 : Nat) (6 : Nat) (4 : Nat) ≤ INT_MAX) ∧
    (num_of_win_places_int (7 : Nat) (6 : Nat) (4 : Nat) = ((build_map 7 6 4).2 : Int) ∧
    num_of_win_places (7 : Nat) (6 : Nat) (4 : Nat) = ((build_map 7 6 4).2 : Int) ∧
    num_of_win_places_int (7 : Nat) (6 : Nat) (4 : Nat) =
      ((6 : Nat) : Int) * max 0 (((7 : Nat) : Int) - (4 : Nat) + 1) +
        ((7 : Nat) : Int) * max 0 (((6 : Nat) : Int) - (4 : Nat) + 1) +
        2 * max 0 (((7 : Nat) : Int) - (4 : Nat) + 1) * max 0 (((6 : Nat) : Int) - (4 : Nat) + 1) ∧
    (setup_game 7 6 4).win_places = (build_map 7 6 4).2 ∧
    ∀ x y L, L ∈ rd2 [] (setup_game 7 6 4).map x y → L < (setup_game 7 6 4).win_places) :=
  ⟨by decide, by decide, by decide,
   num_of_win_places_counts_ids 7 6 4 (by decide) (by decide)⟩


/-! ## The winner and the owned lines -/

theorem good_winner_line {g : Game} {w h n : Nat} (hg : Good g w h n) (hn : n ≤ 31) :
    ((current_state g).winner ≠ C4_NONE ↔
      ∃ p, p < 2 ∧ line_owned g (current_state g) p) ∧
    (∀ p, p < 2 → (current_state g).winner = p → line_owned g (current_state g) p) := by
  have hinv := good_inv hg
  have hle := hinv.winner_le
  have hlen : ∀ L, L < (win_lines w h n).length → (rd [] (win_lines w h n) L).length = n :=
    fun L hL => win_lines_length_eq hg.hn (rd_mem _ _ _ hL)
  have hwin : ∀ p, p < 2 → (current_state g).winner = p →
      line_owned g (current_state g) p := by
    intro p hp hw
    obtain ⟨L, hL, hm⟩ := hinv.winner_some hn p hp hw
    rw [hinv.progress p hp L hL] at hm
    rw [line_owned_iff hg]
    exact ⟨L, hL, (progress_eq_magic_iff hp hn (hlen L hL)).mp hm⟩
  refine ⟨?_, hwin⟩
  constructor
  · intro hne
    have hlt : (current_state g).winner < 2 := by
      unfold C4_NONE at hne
      omega
    exact ⟨_, hlt, hwin _ hlt rfl⟩
  · rintro ⟨p, hp, hown⟩ hnone
    rw [line_owned_iff hg] at hown
    obtain ⟨L, hL, hall⟩ := hown
    apply hinv.winner_none hn hnone p hp L hL
    rw [hinv.progress p hp L hL]
    exact (progress_eq_magic_iff hp hn (hlen L hL)).mpr hall

/-! ## Boards too small for a line -/

/-- C19: when `size_x < num_to_connect` and `size_y < num_to_connect`, in every
reachable game `win_places` is 0, the line list of every cell is empty, there is no
winner, both scores are 0, and once every cell is occupied `c4_is_tie()` is true. -/
theorem small_board_never_won (g : Game) (hg : Reachable g)
    (hx : g.size_x < g.num_to_connect) (hy : g.size_y < g.num_to_connect) :
    g.win_places = 0 ∧ (∀ x y, rd2 [] g.map x y = []) ∧
    (current_state g).winner = C4_NONE ∧
    c4_is_winner g 0 = some false ∧ c4_is_winner g 1 = some false ∧
    rd 0 (current_state g).score 0 = 0 ∧ rd 0 (current_state g).score 1 = 0 ∧
    c4_score_of_player g 0 = some 0 ∧ c4_score_of_player g 1 = some 0 ∧
    (board_full g (current_state g) → c4_is_tie g = some true) := by
  obtain ⟨w, h, n, hgood, _, _⟩ := reachable_good g hg
  have hinv := good_inv hgood
  have hgp := good_in_progress hgood
  obtain ⟨e1, e2, e3, e4, e5, _⟩ := good_fields hgood
  rw [e1, e3] at hx
  rw [e2, e3] at hy
  have hW : (win_lines w h n).length = 0 := by
    rw [win_lines_length]
    have a : w + 1 - n = 0 := by omega
    have b : h + 1 - n = 0 := by omega
    rw [a, b]
    simp
  have hnil : win_lines w h n = [] := List.length_eq_zero.mp hW
  have hwin : (current_state g).winner = C4_NONE := by
    by_contra hne
    have hlt : (current_state g).winner < 2 := by
      have := hinv.winner_le
      unfold C4_NONE at hne
      omega
    have := hinv.winner_lines hne
    omega
  have hscore : ∀ p, p < 2 → rd 0 (current_state g).score p = 0 := by
    intro p hp
    rw [hinv.score p hp]
    have hlen := hinv.arrays.2.2 p hp
    rw [hW] at hlen
    rw [List.length_eq_zero.mp hlen]
    decide
  have hmap : ∀ x y, rd2 [] g.map x y = [] := by
    intro x y
    rw [e5]
    by_cases hxy : x < w ∧ y < h
    · rw [(setup_game_map w h n hgood.hn).2 x y hxy.1 hxy.2, hnil]
      rfl
    · exact rd2_of_not_inside [] (setup_game_map w h n hgood.hn).1 x y hxy
  have hrp0 : real_player 0 = 0 := by decide
  have hrp1 : real_player 1 = 1 := by decide
  refine ⟨by rw [e4, hW], hmap, hwin, ?_, ?_, hscore 0 (by omega), hscore 1 (by omega),
    ?_, ?_, ?_⟩
  · unfold c4_is_winner
    rw [if_pos hgp, hwin, hrp0]
    rfl
  · unfold c4_is_winner
    rw [if_pos hgp, hwin, hrp1]
    rfl
  · unfold c4_score_of_player
    rw [if_pos hgp, hrp0, hscore 0 (by omega)]
  · unfold c4_score_of_player
    rw [if_pos hgp, hrp1, hscore 1 (by omega)]
  · intro hfull
    unfold c4_is_tie
    rw [if_pos hgp]
    have := (board_full_iff_count hgood).mp hfull
    simp [this, hwin]

/-- The statement of `small_board_never_won` on the full 2x2 board of a game with
runs of 3. -/
theorem small_board_never_won_witness :
    Reachable (play (setup_game 2 2 3) [(0, 0), (1, 0), (0, 1), (1, 1)]) ∧
    board_full (play (setup_game 2 2 3) [(0, 0), (1, 0), (0, 1), (1, 1)])
      (current_state (play (setup_game 2 2 3) [(0, 0), (1, 0), (0, 1), (1, 1)])) ∧
    c4_is_tie (play (setup_game 2 2 3) [(0, 0), (1, 0), (0, 1), (1, 1)]) = some true ∧
    (play (setup_game 2 2 3) [(0, 0), (1, 0), (0, 1), (1, 1)]).win_places = 0 ∧
    (current_state (play (setup_game 2 2 3) [(0, 0), (1, 0), (0, 1), (1, 1)])).winner =
      C4_NONE :=
  ⟨reachable_play _ _ (Reachable.new_game no_game (setup_game 2 2 3) 2 2 3 (by decide))
      (by decide),
   by decide,
   (small_board_never_won _
      (reachable_play _ _ (Reachable.new_game no_game (setup_game 2 2 3) 2 2 3 (by decide))
        (by decide)) (by decide) (by decide)).2.2.2.2.2.2.2.2.2 (by decide),
   (small_board_never_won _
      (reachable_play _ _ (Reachable.new_game no_game (setup_game 2 2 3) 2 2 3 (by decide))
        (by decide)) (by decide) (by decide)).1,
   (small_board_never_won _
      (reachable_play _ _ (Reachable.new_game no_game (setup_game 2 2 3) 2 2 3 (by decide))
        (by decide)) (by decide) (by decide)).2.2.1⟩


/-! ## Ties -/

set_option maxRecDepth 1000000 in
/-- C16 (the claim fails): in the 1x32 game with runs of 32, where `1 << 32` is
computed as 1, after 32 moves of player 0 every cell is occupied and player 0 owns
the whole line, yet `winner` is `C4_NONE` and `c4_is_tie()` is true. -/
theorem full_board_with_line_is_tie :
    Reachable game_1x32_own ∧
    board_full game_1x32_own (current_state game_1x32_own) ∧
    line_owned game_1x32_own (current_state game_1x32_own) 0 ∧
    c4_is_tie game_1x32_own = some true ∧
    ¬ (c4_is_tie game_1x32_own = some true ↔
      (board_full game_1x32_own (current_state game_1x32_own) ∧
        ¬ ∃ p, p < 2 ∧ line_owned game_1x32_own (current_state game_1x32_own) p)) :=
  ⟨reachable_play _ _ (Reachable.new_game no_game (setup_game 1 32 32) 1 32 32 (by decide))
      (by decide),
   by decide, by decide, by decide, by decide⟩

/-- C16 (amended): in every reachable game with `num_to_connect <= 31`, `c4_is_tie()`
is true exactly when every cell is occupied and no player owns a whole line. In
every reachable game, when `c4_is_tie()` is true `c4_is_winner(0)` and
`c4_is_winner(1)` are false, and `c4_is_tie()` is false whenever there is a winner,
also on a full board. -/
theorem c4_is_tie_spec (g : Game) (hg : Reachable g) :
    (g.num_to_connect ≤ 31 →
      (c4_is_tie g = some true ↔
        (board_full g (current_state g) ∧
          ¬ ∃ p, p < 2 ∧ line_owned g (current_state g) p))) ∧
    (c4_is_tie g = some true →
      c4_is_winner g 0 = some false ∧ c4_is_winner g 1 = some false) ∧
    ((current_state g).winner ≠ C4_NONE → c4_is_tie g = some false) := by
  obtain ⟨w, h, n, hgood, _, _⟩ := reachable_good g hg
  have hgp := good_in_progress hgood
  obtain ⟨_, _, e3, _, _, _⟩ := good_fields hgood
  have htie : c4_is_tie g = some (decide ((current_state g).num_of_pieces = g.total_size ∧
      (current_state g).winner = C4_NONE)) := by
    unfold c4_is_tie
    rw [if_pos hgp]
  have hrp0 : real_player 0 = 0 := by decide
  have hrp1 : real_player 1 = 1 := by decide
  refine ⟨?_, ?_, ?_⟩
  · intro hn
    rw [e3] at hn
    obtain ⟨hiff, _⟩ := good_winner_line hgood hn
    rw [htie, board_full_iff_count hgood, ← hiff]
    simp
  · intro ht
    rw [htie] at ht
    simp only [Option.some.injEq, decide_eq_true_eq] at ht
    simp [c4_is_winner, hgp, hrp0, hrp1, ht.2, C4_NONE]
  · intro hne
    rw [htie]
    simp [hne]

/-- The statement of `c4_is_tie_spec` in the 1x1 game with runs of 1 after the move
of player 0: the board is full, player 0 is the winner and `c4_is_tie()` is false. -/
theorem c4_is_tie_spec_witness :
    Reachable game_1x1_full ∧ board_full game_1x1_full (current_state game_1x1_full) ∧
    c4_is_winner game_1x1_full 0 = some true ∧ c4_is_tie game_1x1_full = some false ∧
    ((game_1x1_full.num_to_connect ≤ 31 →
      (c4_is_tie game_1x1_full = some true ↔
        (board_full game_1x1_full (current_state game_1x1_full) ∧
          ¬ ∃ p, p < 2 ∧ line_owned game_1x1_full (current_state game_1x1_full) p))) ∧
    (c4_is_tie game_1x1_full = some true →
      c4_is_winner game_1x1_full 0 = some false ∧ c4_is_winner game_1x1_full 1 = some false) ∧
    ((current_state game_1x1_full).winner ≠ C4_NONE → c4_is_tie game_1x1_full = some false)) :=
  ⟨reachable_play _ _ (Reachable.new_game no_game (setup_game 1 1 1) 1 1 1 (by decide))
      (by decide),
   by decide, by decide, by decide,
   c4_is_tie_spec _
     (reachable_play _ _ (Reachable.new_game no_game (setup_game 1 1 1) 1 1 1 (by decide))
       (by decide))⟩


/-! ## Distinct lines -/

theorem line_set_inj {w h n : Nat} (hn : 2 ≤ n) {l l1 : List (Nat × Nat)}
    (hl : l ∈ win_lines w h n) (hl1 : l1 ∈ win_lines w h n)
    (hset : ∀ c, c ∈ l ↔ c ∈ l1) : l = l1 := by
  have h1 : 1 ≤ n := by omega
  rcases mem_win_lines h1 hl with ⟨i, j, hi, hj, e⟩ | ⟨i, j, hi, hj, e⟩ | ⟨i, j, hi, hj, e⟩ |
    ⟨i, j, hi, hj, hj2, e⟩ <;>
  rcases mem_win_lines h1 hl1 with ⟨i1, j1, hi1, hj1, e1⟩ | ⟨i1, j1, hi1, hj1, e1⟩ |
    ⟨i1, j1, hi1, hj1, e1⟩ | ⟨i1, j1, hi1, hj1, hj3, e1⟩ <;>
  · subst e; subst e1
    simp only [horizontal_line, vertical_line, forward_line, backward_line, List.mem_map,
      List.mem_range] at hset
    obtain ⟨a0, ha0, ea0⟩ := (hset _).mp ⟨0, by omega, rfl⟩
    obtain ⟨a1, ha1, ea1⟩ := (hset _).mp ⟨1, by omega, rfl⟩
    obtain ⟨b0, hb0, eb0⟩ := (hset _).mpr ⟨0, by omega, rfl⟩
    obtain ⟨b1, hb1, eb1⟩ := (hset _).mpr ⟨1, by omega, rfl⟩
    simp only [Prod.mk.injEq] at ea0 ea1 eb0 eb1
    first
      | (exfalso; omega)
      | (have hij : i = i1 ∧ j = j1 := by omega
         rw [hij.1, hij.2])

theorem nodup_flatMap_range_map {α : Type} (a b : Nat) (f : Nat → Nat → α)
    (hinj : ∀ i j i1 j1, i < a → j < b → i1 < a → j1 < b → f i j = f i1 j1 →
      i = i1 ∧ j = j1) :
    ((List.range a).flatMap fun i => (List.range b).map fun j => f i j).Nodup := by
  rw [List.nodup_flatMap]
  constructor
  · intro i hi
    rw [List.mem_range] at hi
    apply (List.nodup_range b).map_on
    intro j hj j1 hj1 e
    rw [List.mem_range] at hj hj1
    exact (hinj i j i j1 hi hj hi hj1 e).2
  · refine List.Pairwise.imp_of_mem ?_ (List.pairwise_lt_range a)
    intro i0 i1 hi0 hi1 hlt x hx hx1
    rw [List.mem_range] at hi0 hi1
    simp only [List.mem_map, List.mem_range] at hx hx1
    obtain ⟨j, hj, e⟩ := hx
    obtain ⟨j1, hj1, e1⟩ := hx1
    have := (hinj i0 j i1 j1 hi0 hj hi1 hj1 (e.trans e1.symm)).1
    omega

theorem win_lines_nodup_list (w h n : Nat) (hn : 2 ≤ n) : (win_lines w h n).Nodup := by
  have h1 : 1 ≤ n := by omega
  have key : ∀ (f g : Nat → Nat → Nat → Nat × Nat) (i j i1 j1 : Nat),
      ((List.range n).map fun k => f i j k) = ((List.range n).map fun k => g i1 j1 k) →
      f i j 0 = g i1 j1 0 ∧ f i j 1 = g i1 j1 1 := by
    intro f g i j i1 j1 e
    rw [List.map_inj_left] at e
    exact ⟨e 0 (List.mem_range.mpr (by omega)), e 1 (List.mem_range.mpr (by omega))⟩
  have hA : ((List.range h).flatMap fun i =>
      (List.range (w + 1 - n)).map fun j => horizontal_line n i j).Nodup := by
    apply nodup_flatMap_range_map
    intro i j i1 j1 _ _ _ _ e
    have := key (fun i j k => (j + k, i)) (fun i j k => (j + k, i)) i j i1 j1 e
    simp only [Prod.mk.injEq] at this
    omega
  have hB : ((List.range w).flatMap fun i =>
      (List.range (h + 1 - n)).map fun j => vertical_line n i j).Nodup := by
    apply nodup_flatMap_range_map
    intro i j i1 j1 _ _ _ _ e
    have := key (fun i j k => (i, j + k)) (fun i j k => (i, j + k)) i j i1 j1 e
    simp only [Prod.mk.injEq] at this
    omega
  have hC : ((List.range (h + 1 - n)).flatMap fun i =>
      (List.range (w + 1 - n)).map fun j => forward_line n i j).Nodup := by
    apply nodup_flatMap_range_map
    intro i j i1 j1 _ _ _ _ e
    have := key (fun i j k => (j + k, i + k)) (fun i j k => (j + k, i + k)) i j i1 j1 e
    simp only [Prod.mk.injEq] at this
    omega
  have hD : ((List.range (h + 1 - n)).flatMap fun i =>
      (List.range (w + 1 - n)).map fun t => backward_line n i (w - 1 - t)).Nodup := by
    apply nodup_flatMap_range_map
    intro i j i1 j1 _ hj _ hj1 e
    have := key (fun i j k => (w - 1 - j - k, i + k)) (fun i j k => (w - 1 - j - k, i + k))
      i j i1 j1 e
    simp only [Prod.mk.injEq] at this
    omega
  have hsplit : ∀ l, l ∈ win_lines w h n → l ∈ win_lines w h n := fun _ hl => hl
  unfold win_lines
  have hdisj : ∀ (X Y : List (List (Nat × Nat))), (∀ l, l ∈ X → l ∈ win_lines w h n) →
      (∀ l, l ∈ Y → l ∈ win_lines w h n) →
      (∀ l, l ∈ X → ∀ l1, l1 ∈ Y → (∀ c, c ∈ l ↔ c ∈ l1) → False) → List.Disjoint X Y := by
    intro X Y _ _ hXY l hlX hlY
    exact hXY l hlX l hlY (fun _ => Iff.rfl)
  rw [List.nodup_append, List.nodup_append, List.nodup_append]
  refine ⟨⟨⟨hA, hB, ?_⟩, hC, ?_⟩, hD, ?_⟩
  · intro l hlA hlB
    simp only [List.mem_flatMap, List.mem_map, List.mem_range] at hlA hlB
    obtain ⟨i, _, j, _, e⟩ := hlA
    obtain ⟨i1, _, j1, _, e1⟩ := hlB
    have := key (fun i j k => (j + k, i)) (fun i j k => (i, j + k)) i j i1 j1 (e.trans e1.symm)
    simp only [Prod.mk.injEq] at this
    omega
  · intro l hlAB hlC
    simp only [List.mem_append, List.mem_flatMap, List.mem_map, List.mem_range] at hlAB hlC
    obtain ⟨i1, _, j1, _, e1⟩ := hlC
    rcases hlAB with ⟨i, _, j, _, e⟩ | ⟨i, _, j, _, e⟩
    · have := key (fun i j k => (j + k, i)) (fun i j k => (j + k, i + k)) i j i1 j1
        (e.trans e1.symm)
      simp only [Prod.mk.injEq] at this
      omega
    · have := key (fun i j k => (i, j + k)) (fun i j k => (j + k, i + k)) i j i1 j1
        (e.trans e1.symm)
      simp only [Prod.mk.injEq] at this
      omega
  · intro l hlABC hlD
    simp only [List.mem_append, List.mem_flatMap, List.mem_map, List.mem_range] at hlABC hlD
    obtain ⟨i1, _, j1, hj1, e1⟩ := hlD
    rcases hlABC with (⟨i, _, j, _, e⟩ | ⟨i, _, j, _, e⟩) | ⟨i, _, j, _, e⟩
    · have := key (fun i j k => (j + k, i)) (fun i j k => (w - 1 - j - k, i + k)) i j i1 j1
        (e.trans e1.symm)
      simp only [Prod.mk.injEq] at this
      omega
    · have := key (fun i j k => (i, j + k)) (fun i j k => (w - 1 - j - k, i + k)) i j i1 j1
        (e.trans e1.symm)
      simp only [Prod.mk.injEq] at this
      omega
    · have := key (fun i j k => (j + k, i + k)) (fun i j k => (w - 1 - j - k, i + k)) i j i1 j1
        (e.trans e1.symm)
      simp only [Prod.mk.injEq] at this
      omega


theorem rd_eq_getElem {α : Type} (d : α) (a : List α) (i : Nat) (h : i < a.length) :
    rd d a i = a.get ⟨i, h⟩ := by
  unfold rd
  rw [List.getD_eq_getElem _ _ h]
  rfl

theorem win_line_is_run {g : Game} {w h n : Nat} (hn : 1 ≤ n) (e1 : g.size_x = w)
    (e2 : g.size_y = h) (e3 : g.num_to_connect = n) {l : List (Nat × Nat)}
    (hl : l ∈ win_lines w h n) : is_run g l := by
  unfold is_run cells_of_run run_inside
  rw [e1, e2, e3]
  rcases mem_win_lines hn hl with ⟨i, j, hi, hj, e⟩ | ⟨i, j, hi, hj, e⟩ | ⟨i, j, hi, hj, e⟩ |
    ⟨i, j, hi, hj, hj2, e⟩
  · refine ⟨j, i, (1, 0), by simp [directions], ?_, ?_⟩
    · intro k hk
      simp only [run_cell]
      omega
    · intro c
      rw [e]
      simp only [horizontal_line, List.mem_map, List.mem_range, run_cell, Prod.ext_iff]
      constructor
      · rintro ⟨k, hk, e4, e5⟩
        exact ⟨k, hk, by omega, by omega⟩
      · rintro ⟨k, hk, e4, e5⟩
        exact ⟨k, hk, by omega, by omega⟩
  · refine ⟨i, j, (0, 1), by simp [directions], ?_, ?_⟩
    · intro k hk
      simp only [run_cell]
      omega
    · intro c
      rw [e]
      simp only [vertical_line, List.mem_map, List.mem_range, run_cell, Prod.ext_iff]
      constructor
      · rintro ⟨k, hk, e4, e5⟩
        exact ⟨k, hk, by omega, by omega⟩
      · rintro ⟨k, hk, e4, e5⟩
        exact ⟨k, hk, by omega, by omega⟩
  · refine ⟨j, i, (1, 1), by simp [directions], ?_, ?_⟩
    · intro k hk
      simp only [run_cell]
      omega
    · intro c
      rw [e]
      simp only [forward_line, List.mem_map, List.mem_range, run_cell, Prod.ext_iff]
      constructor
      · rintro ⟨k, hk, e4, e5⟩
        exact ⟨k, hk, by omega, by omega⟩
      · rintro ⟨k, hk, e4, e5⟩
        exact ⟨k, hk, by omega, by omega⟩
  · refine ⟨j, i, (-1, 1), by simp [directions], ?_, ?_⟩
    · intro k hk
      simp only [run_cell]
      omega
    · intro c
      rw [e]
      simp only [backward_line, List.mem_map, List.mem_range, run_cell, Prod.ext_iff]
      constructor
      · rintro ⟨k, hk, e4, e5⟩
        exact ⟨k, hk, by omega, by omega⟩
      · rintro ⟨k, hk, e4, e5⟩
        exact ⟨k, hk, by omega, by omega⟩

theorem run_is_win_line {g : Game} {w h n : Nat} (hn : 1 ≤ n) (e1 : g.size_x = w)
    (e2 : g.size_y = h) (e3 : g.num_to_connect = n) (x0 y0 : Nat) (d : Int × Int)
    (hd : d ∈ directions) (hin : run_inside g x0 y0 d) :
    ∃ l, l ∈ win_lines w h n ∧ cells_of_run g l x0 y0 d := by
  unfold run_inside at hin
  unfold cells_of_run
  rw [e1, e2, e3] at hin
  rw [e3]
  have h0 := hin 0 (by omega)
  have h1 := hin (n - 1) (by omega)
  simp only [directions, List.mem_cons, List.mem_singleton, List.not_mem_nil, or_false] at hd
  rcases hd with hd | hd | hd | hd <;> subst hd <;> simp only [run_cell] at h0 h1
  · refine ⟨horizontal_line n y0 x0, win_lines_mem_of (Or.inl ⟨y0, x0, by omega, by omega, rfl⟩),
      ?_⟩
    intro c
    simp only [horizontal_line, List.mem_map, List.mem_range, run_cell, Prod.ext_iff]
    constructor
    · rintro ⟨k, hk, e4, e5⟩
      exact ⟨k, hk, by omega, by omega⟩
    · rintro ⟨k, hk, e4, e5⟩
      exact ⟨k, hk, by omega, by omega⟩
  · refine ⟨vertical_line n x0 y0,
      win_lines_mem_of (Or.inr (Or.inl ⟨x0, y0, by omega, by omega, rfl⟩)), ?_⟩
    intro c
    simp only [vertical_line, List.mem_map, List.mem_range, run_cell, Prod.ext_iff]
    constructor
    · rintro ⟨k, hk, e4, e5⟩
      exact ⟨k, hk, by omega, by omega⟩
    · rintro ⟨k, hk, e4, e5⟩
      exact ⟨k, hk, by omega, by omega⟩
  · refine ⟨forward_line n y0 x0,
      win_lines_mem_of (Or.inr (Or.inr (Or.inl ⟨y0, x0, by omega, by omega, rfl⟩))), ?_⟩
    intro c
    simp only [forward_line, List.mem_map, List.mem_range, run_cell, Prod.ext_iff]
    constructor
    · rintro ⟨k, hk, e4, e5⟩
      exact ⟨k, hk, by omega, by omega⟩
    · rintro ⟨k, hk, e4, e5⟩
      exact ⟨k, hk, by omega, by omega⟩
  · refine ⟨backward_line n y0 x0,
      win_lines_mem_of (Or.inr (Or.inr (Or.inr ⟨y0, x0, by omega, by omega, by omega, rfl⟩))),
      ?_⟩
    intro c
    simp only [backward_line, List.mem_map, List.mem_range, run_cell, Prod.ext_iff]
    constructor
    · rintro ⟨k, hk, e4, e5⟩
      exact ⟨k, hk, by omega, by omega⟩
    · rintro ⟨k, hk, e4, e5⟩
      exact ⟨k, hk, by omega, by omega⟩

/-- C18 (the claim fails): for runs of one cell, after `c4_new_game(1, 1, 1)` the ids 0
and 1 are both below `win_places` and denote the same set of cells. -/
theorem distinct_ids_with_the_same_cells :
    ∃ g, c4_new_game no_game 1 1 1 = some g ∧ 0 < g.win_places ∧ 1 < g.win_places ∧
      line_cells g 0 = line_cells g 1 ∧ line_cells g 0 = [(0, 0)] :=
  ⟨setup_game 1 1 1, by decide, by decide, by decide, by decide, by decide⟩

/-- C18 (amended): after `c4_new_game(width, height, n)` the cells whose map list
contains an id `L < win_places` are exactly `n` distinct cells forming an in-board run
`(x0 + k*dx, y0 + k*dy)`, `k < n`, with `(dx, dy)` one of `(1,0)`, `(0,1)`, `(1,1)`,
`(-1,1)`; for `n >= 2` two ids with the same set of cells are equal; and every in-board
run of `n` cells in one of the four directions has an id. -/
theorem lines_are_runs (g0 g : Game) (width height num : Int)
    (h : c4_new_game g0 width height num = some g) :
    (∀ L, L < g.win_places →
      (line_cells g L).Nodup ∧ (line_cells g L).length = g.num_to_connect ∧
      is_run g (line_cells g L)) ∧
    (2 ≤ g.num_to_connect → ∀ L L1, L < g.win_places → L1 < g.win_places →
      (∀ c, c ∈ line_cells g L ↔ c ∈ line_cells g L1) → L = L1) ∧
    (∀ x0 y0 d, d ∈ directions → run_inside g x0 y0 d →
      ∃ L, L < g.win_places ∧ cells_of_run g (line_cells g L) x0 y0 d) := by
  obtain ⟨_, hgood⟩ := c4_new_game_good g0 g width height num h
  obtain ⟨e1, e2, e3, e4, _, _⟩ := good_fields hgood
  have hn := hgood.hn
  rw [e4]
  refine ⟨?_, ?_, ?_⟩
  · intro L hL
    have hperm := line_cells_perm hgood L hL
    have hmem := rd_mem [] _ L hL
    refine ⟨hperm.nodup_iff.mpr (win_lines_nodup hn hmem), ?_, ?_⟩
    · rw [hperm.length_eq, win_lines_length_eq hn hmem, e3]
    · obtain ⟨x0, y0, d, hd, hin, hc⟩ := win_line_is_run hn e1 e2 e3 hmem
      exact ⟨x0, y0, d, hd, hin, fun c => (hperm.mem_iff).trans (hc c)⟩
  · intro h2 L L1 hL hL1 hset
    rw [e3] at h2
    have hp := line_cells_perm hgood L hL
    have hp1 := line_cells_perm hgood L1 hL1
    have heq := line_set_inj h2 (rd_mem [] _ L hL) (rd_mem [] _ L1 hL1)
      (fun c => (hp.mem_iff).symm.trans ((hset c).trans hp1.mem_iff))
    rw [rd_eq_getElem _ _ _ hL, rd_eq_getElem _ _ _ hL1] at heq
    have := (List.Nodup.get_inj_iff (win_lines_nodup_list _ _ _ h2)).mp heq
    exact Fin.mk.inj this
  · intro x0 y0 d hd hin
    obtain ⟨l, hl, hc⟩ := run_is_win_line hn e1 e2 e3 x0 y0 d hd hin
    obtain ⟨L, hL, e⟩ := List.getElem_of_mem hl
    refine ⟨L, hL, ?_⟩
    have hperm := line_cells_perm hgood L hL
    have e5 : rd [] (win_lines width.toNat height.toNat num.toNat) L = l := by
      rw [rd_eq_getElem _ _ _ hL]
      exact e
    rw [e5] at hperm
    exact fun c => (hperm.mem_iff).trans (hc c)

set_option maxRecDepth 100000 in
/-- The statement of `lines_are_runs` on the standard 7x6 board with runs of 4. -/
theorem lines_are_runs_witness :
    c4_new_game no_game 7 6 4 = some (setup_game 7 6 4) ∧
    ((∀ L, L < (setup_game 7 6 4).win_places →
      (line_cells (setup_game 7 6 4) L).Nodup ∧
      (line_cells (setup_game 7 6 4) L).length = (setup_game 7 6 4).num_to_connect ∧
      is_run (setup_game 7 6 4) (line_cells (setup_game 7 6 4) L)) ∧
    (2 ≤ (setup_game 7 6 4).num_to_connect → ∀ L L1, L < (setup_game 7 6 4).win_places →
      L1 < (setup_game 7 6 4).win_places →
      (∀ c, c ∈ line_cells (setup_game 7 6 4) L ↔ c ∈ line_cells (setup_game 7 6 4) L1) →
      L = L1) ∧
    (∀ x0 y0 d, d ∈ directions → run_inside (setup_game 7 6 4) x0 y0 d →
      ∃ L, L < (setup_game 7 6 4).win_places ∧
        cells_of_run (setup_game 7 6 4) (line_cells (setup_game 7 6 4) L) x0 y0 d)) :=
  ⟨by decide, lines_are_runs no_game (setup_game 7 6 4) 7 6 4 (by decide)⟩

/-! ## The coordinates of the winning line -/

theorem rd_cons_succ {α : Type} (d v : α) (l : List α) (k : Nat) :
    rd d (v :: l) (k + 1) = rd d l k := by
  simp [rd]

theorem rd_cons_zero {α : Type} (d v : α) (l : List α) : rd d (v :: l) 0 = v := by
  simp [rd]

theorem find_win_pos_some (m : Int) (l : List Int) (p : Nat)
    (h : ∃ k, k < l.length ∧ rd 0 l k = m) :
    ∃ k, find_win_pos m l p = some (p + k) ∧ k < l.length ∧ rd 0 l k = m ∧
      ∀ k1, k1 < k → rd 0 l k1 ≠ m := by
  induction l generalizing p with
  | nil =>
    obtain ⟨k, hk, _⟩ := h
    simp at hk
  | cons v rest ih =>
    by_cases hv : v = m
    · refine ⟨0, ?_, by simp, by rw [rd_cons_zero]; exact hv, fun k1 hk1 => by omega⟩
      simp [find_win_pos, hv]
    · have h1 : ∃ k, k < rest.length ∧ rd 0 rest k = m := by
        obtain ⟨k, hk, e⟩ := h
        cases k with
        | zero => rw [rd_cons_zero] at e; exact absurd e hv
        | succ k =>
          rw [rd_cons_succ] at e
          exact ⟨k, by simpa using hk, e⟩
      obtain ⟨k, e, hk, hm, hmin⟩ := ih (p + 1) h1
      refine ⟨k + 1, ?_, by simpa using hk, by rw [rd_cons_succ]; exact hm, ?_⟩
      · simp only [find_win_pos]
        rw [if_pos hv, e]
        congr 1
        omega
      · intro k1 hk1
        cases k1 with
        | zero => rw [rd_cons_zero]; exact hv
        | succ k1 => rw [rd_cons_succ]; exact hmin k1 (by omega)

theorem find_first {α : Type} {R : α → α → Prop} {l : List α} (hp : l.Pairwise R)
    (p : α → Bool) (h : ∃ c, c ∈ l ∧ p c = true) :
    ∃ b, l.find? p = some b ∧ b ∈ l ∧ p b = true ∧ ∀ c, c ∈ l → p c = true → c = b ∨ R b c := by
  have hs : (l.find? p).isSome := List.find?_isSome.mpr h
  obtain ⟨b, hb⟩ := Option.isSome_iff_exists.mp hs
  refine ⟨b, hb, List.mem_of_find?_eq_some hb, List.find?_some hb, ?_⟩
  obtain ⟨_, as, bs, e, hno⟩ := List.find?_eq_some.mp hb
  intro c hc hpc
  rw [e] at hc hp
  rw [List.pairwise_append] at hp
  rcases List.mem_append.mp hc with h1 | h1
  · have := hno c h1
    rw [hpc] at this
    simp at this
  · rcases List.mem_cons.mp h1 with h2 | h2
    · exact Or.inl h2
    · exact Or.inr ((List.pairwise_cons.mp hp.2.1).1 c h2)

theorem scan_up_pairwise (g : Game) :
    (scan_up g).Pairwise fun a b => a.2 < b.2 ∨ (a.2 = b.2 ∧ a.1 < b.1) := by
  unfold scan_up
  rw [List.pairwise_flatMap]
  constructor
  · intro j _
    rw [List.pairwise_map]
    exact (List.pairwise_lt_range _).imp fun hlt => Or.inr ⟨rfl, hlt⟩
  · refine (List.pairwise_lt_range _).imp ?_
    intro j j1 hlt x hx y hy
    simp only [List.mem_map, List.mem_range] at hx hy
    obtain ⟨_, _, ex⟩ := hx
    obtain ⟨_, _, ey⟩ := hy
    subst ex; subst ey
    exact Or.inl hlt

theorem scan_down_pairwise (g : Game) :
    (scan_down g).Pairwise fun a b => b.2 < a.2 ∨ (b.2 = a.2 ∧ b.1 < a.1) := by
  unfold scan_down
  rw [List.pairwise_flatMap]
  constructor
  · intro j _
    rw [List.pairwise_map, List.pairwise_reverse]
    exact (List.pairwise_lt_range _).imp fun hlt => Or.inr ⟨rfl, hlt⟩
  · rw [List.pairwise_reverse]
    refine (List.pairwise_lt_range _).imp ?_
    intro j j1 hlt x hx y hy
    simp only [List.mem_map, List.mem_reverse, List.mem_range] at hx hy
    obtain ⟨_, _, ex⟩ := hx
    obtain ⟨_, _, ey⟩ := hy
    subst ex; subst ey
    exact Or.inl hlt

theorem mem_scan_up (g : Game) (c : Nat × Nat) :
    c ∈ scan_up g ↔ c.1 < g.size_x ∧ c.2 < g.size_y := by
  obtain ⟨a, b⟩ := c
  simp only [scan_up, List.mem_flatMap, List.mem_map, List.mem_range, Prod.mk.injEq]
  constructor
  · rintro ⟨j, hj, i, hi, e1, e2⟩
    subst e1; subst e2
    exact ⟨hi, hj⟩
  · rintro ⟨h1, h2⟩
    exact ⟨b, h2, a, h1, rfl, rfl⟩

theorem mem_scan_down (g : Game) (c : Nat × Nat) :
    c ∈ scan_down g ↔ c.1 < g.size_x ∧ c.2 < g.size_y := by
  obtain ⟨a, b⟩ := c
  simp only [scan_down, List.mem_flatMap, List.mem_map, List.mem_reverse, List.mem_range,
    Prod.mk.injEq]
  constructor
  · rintro ⟨j, hj, i, hi, e1, e2⟩
    subst e1; subst e2
    exact ⟨hi, hj⟩
  · rintro ⟨h1, h2⟩
    exact ⟨b, h2, a, h1, rfl, rfl⟩

theorem mem_line_cells (g : Game) (L : Nat) (c : Nat × Nat) :
    c ∈ line_cells g L ↔ (c.1 < g.size_x ∧ c.2 < g.size_y) ∧ L ∈ rd2 [] g.map c.1 c.2 := by
  obtain ⟨a, b⟩ := c
  simp [line_cells, all_cells]

/-- What `c4_win_coords` computes in a game with a winner: the line `L` is the first
whose entry in the winner's `score_array` is `magic_win_number`, and the two ends are
the first and the last cell of `L` by row and then column. -/
theorem win_coords_ends {g : Game} {w h n : Nat} (hg : Good g w h n) (hn : n ≤ 31)
    (hw : (current_state g).winner ≠ C4_NONE) :
    ∃ L c1 c2, c4_win_coords g = some (some c1, some c2) ∧ L < g.win_places ∧
      rd2 0 (current_state g).score_array (current_state g).winner L = g.magic_win_number ∧
      (∀ L1, L1 < L →
        rd2 0 (current_state g).score_array (current_state g).winner L1 ≠
          g.magic_win_number) ∧
      c1 ∈ line_cells g L ∧ c2 ∈ line_cells g L ∧
      (∀ c, c ∈ line_cells g L →
        (c = c1 ∨ c1.2 < c.2 ∨ (c1.2 = c.2 ∧ c1.1 < c.1)) ∧
        (c = c2 ∨ c.2 < c2.2 ∨ (c.2 = c2.2 ∧ c.1 < c2.1))) := by
  have hinv := good_inv hg
  obtain ⟨e1, e2, e3, e4, e5, e6⟩ := good_fields hg
  have hgp := good_in_progress hg
  have hp : (current_state g).winner < 2 := by
    have := hinv.winner_le
    unfold C4_NONE at hw
    omega
  obtain ⟨L0, hL0, hm0⟩ := hinv.winner_some hn _ hp rfl
  have hrow : (rd [] (current_state g).score_array (current_state g).winner).length =
      (win_lines w h n).length := hinv.arrays.2.2 _ hp
  have hrd : ∀ L, rd2 0 (current_state g).score_array (current_state g).winner L =
      rd 0 (rd [] (current_state g).score_array (current_state g).winner) L := fun L => rfl
  obtain ⟨L, hfind, hL, hm, hmin⟩ := find_win_pos_some g.magic_win_number
    (rd [] (current_state g).score_array (current_state g).winner) 0
    ⟨L0, by rw [hrow]; exact hL0, by rw [← hrd, hm0, e6, Nat.mod_eq_of_lt (by omega)]⟩
  rw [Nat.zero_add] at hfind
  rw [hrow] at hL
  have hperm := line_cells_perm hg L hL
  have hne : ∃ c, c ∈ line_cells g L := by
    have hlen : (line_cells g L).length = n := by
      rw [hperm.length_eq, win_lines_length_eq hg.hn (rd_mem [] _ L hL)]
    have hpos : 0 < (line_cells g L).length := by rw [hlen]; exact hg.hn
    exact ⟨_, List.getElem_mem hpos⟩
  obtain ⟨c0, hc0⟩ := hne
  have hc0m := (mem_line_cells g L c0).mp hc0
  obtain ⟨c1, hf1, hc1, hp1, hmin1⟩ := find_first (scan_up_pairwise g)
    (fun c => decide (L ∈ rd2 [] g.map c.1 c.2))
    ⟨c0, (mem_scan_up g c0).mpr hc0m.1, by simpa using hc0m.2⟩
  obtain ⟨c2, hf2, hc2, hp2, hmin2⟩ := find_first (scan_down_pairwise g)
    (fun c => decide (L ∈ rd2 [] g.map c.1 c.2))
    ⟨c0, (mem_scan_down g c0).mpr hc0m.1, by simpa using hc0m.2⟩
  refine ⟨L, c1, c2, ?_, by rw [e4]; exact hL, hm, hmin,
    (mem_line_cells g L c1).mpr ⟨(mem_scan_up g c1).mp hc1, by simpa using hp1⟩,
    (mem_line_cells g L c2).mpr ⟨(mem_scan_down g c2).mp hc2, by simpa using hp2⟩, ?_⟩
  · unfold c4_win_coords
    have hgp1 : ¬ g.game_in_progress = false := by rw [hgp]; simp
    rw [if_neg hgp1]
    simp only
    rw [if_neg hw, hfind]
    simp only
    rw [hf1, hf2]
  · intro c hc
    have hcm := (mem_line_cells g L c).mp hc
    exact ⟨hmin1 c ((mem_scan_up g c).mpr hcm.1) (by simpa using hcm.2),
      hmin2 c ((mem_scan_down g c).mpr hcm.1) (by simpa using hcm.2)⟩

theorem run_ends {g : Game} {cells : List (Nat × Nat)} {x0 y0 : Nat} {d : Int × Int}
    (hn : 1 ≤ g.num_to_connect) (hd : d ∈ directions) (hin : run_inside g x0 y0 d)
    (hrun : cells_of_run g cells x0 y0 d) {c1 c2 : Nat × Nat}
    (h1 : c1 ∈ cells) (h2 : c2 ∈ cells)
    (hends : ∀ c, c ∈ cells →
      (c = c1 ∨ c1.2 < c.2 ∨ (c1.2 = c.2 ∧ c1.1 < c.1)) ∧
      (c = c2 ∨ c.2 < c2.2 ∨ (c.2 = c2.2 ∧ c.1 < c2.1))) :
    ((c1.1 : Int), (c1.2 : Int)) = run_cell x0 y0 d 0 ∧
    ((c2.1 : Int), (c2.2 : Int)) = run_cell x0 y0 d (g.num_to_connect - 1) := by
  obtain ⟨k1, hk1, e1⟩ := (hrun c1).mp h1
  obtain ⟨k2, hk2, e2⟩ := (hrun c2).mp h2
  have hlast := hin (g.num_to_connect - 1) (by omega)
  have hfirst : (x0, y0) ∈ cells := (hrun (x0, y0)).mpr ⟨0, by omega, by simp [run_cell]⟩
  have hlastmem : ((run_cell x0 y0 d (g.num_to_connect - 1)).1.toNat,
      (run_cell x0 y0 d (g.num_to_connect - 1)).2.toNat) ∈ cells := by
    refine (hrun _).mpr ⟨g.num_to_connect - 1, by omega, ?_⟩
    simp only
    rw [Int.toNat_of_nonneg hlast.1, Int.toNat_of_nonneg hlast.2.2.1]
  have ha := (hends _ hfirst).1
  have hb := (hends _ hlastmem).2
  obtain ⟨a1, b1⟩ := c1
  obtain ⟨a2, b2⟩ := c2
  simp only [Prod.ext_iff] at ha hb
  simp only [directions, List.mem_cons, List.mem_singleton, List.not_mem_nil, or_false] at hd
  rcases hd with hd | hd | hd | hd <;> subst hd <;>
    simp only [run_cell, Prod.mk.injEq] at e1 e2 hlast ha hb ⊢ <;> omega

set_option maxRecDepth 1000000 in
/-- C14 (the claim fails): `c4_new_game(1, 33, 33)` is accepted and `1 << 33` is
computed as 2. After `c4_make_move(0, 0, NULL)` the entry of line 0 is 2, so the
winner is player 0 and `c4_win_coords` returns the ends `(0, 0)` and `(0, 32)` of line
0; but the cells of that line are not all owned by player 0: `(0, 1)` is empty. After
a second `c4_make_move(0, 0, NULL)` the winner is still player 0, no entry of
`score_array[0]` equals `magic_win_number`, and the first loop of `c4_win_coords`
leaves the array. -/
theorem win_coords_of_a_line_not_owned :
    c4_new_game no_game 1 33 33 = some (setup_game 1 33 33) ∧
    (setup_game 1 33 33).magic_win_number = 2 ∧
    c4_make_move (setup_game 1 33 33) 0 0 none = some (true, none, game_1x33_first) ∧
    (current_state game_1x33_first).winner = 0 ∧
    c4_win_coords game_1x33_first = some (some (0, 0), some (0, 32)) ∧
    rd2 0 (current_state game_1x33_first).score_array 0 0 =
      game_1x33_first.magic_win_number ∧
    (0, 1) ∈ line_cells game_1x33_first 0 ∧
    rd2 C4_NONE (current_state game_1x33_first).board 0 1 = C4_NONE ∧
    c4_make_move game_1x33_first 0 0 none = some (true, none, game_1x33_two) ∧
    (current_state game_1x33_two).winner = 0 ∧
    game_1x33_two.win_places = 1 ∧
    rd2 0 (current_state game_1x33_two).score_array 0 0 = 4 ∧
    c4_win_coords game_1x33_two = none := by
  decide

/-- C14 (amended): in every reachable game with `num_to_connect <= 31` and a winner
`w`, `c4_win_coords` returns, and it assigns both ends: there is a line `L`, the
lowest id with `score_array[w][L] == magic_win_number`, such that both ends are cells
of `L`, `(x1, y1)` is the cell of `L` with the lowest row and then the lowest column,
`(x2, y2)` is the cell of `L` with the highest row and then the highest column, and
every cell of `L` is owned by `w`. When `num_to_connect <= 30`, `magic_win_number` is
`2^num_to_connect`. -/
theorem c4_win_coords_spec (g : Game) (hg : Reachable g) (hn : g.num_to_connect ≤ 31)
    (hw : (current_state g).winner ≠ C4_NONE) :
    ∃ L c1 c2, c4_win_coords g = some (some c1, some c2) ∧ L < g.win_places ∧
      rd2 0 (current_state g).score_array (current_state g).winner L = g.magic_win_number ∧
      (∀ L1, L1 < L →
        rd2 0 (current_state g).score_array (current_state g).winner L1 ≠
          g.magic_win_number) ∧
      c1 ∈ line_cells g L ∧ c2 ∈ line_cells g L ∧
      (∀ c, c ∈ line_cells g L →
        (c1.2 < c.2 ∨ (c1.2 = c.2 ∧ c1.1 ≤ c.1)) ∧
        (c.2 < c2.2 ∨ (c.2 = c2.2 ∧ c.1 ≤ c2.1))) ∧
      (g.num_to_connect ≤ 30 → g.magic_win_number = 2 ^ g.num_to_connect) ∧
      (∀ c, c ∈ line_cells g L →
        rd2 C4_NONE (current_state g).board c.1 c.2 = (current_state g).winner) := by
  obtain ⟨w, h, n, hgood, _, _⟩ := reachable_good g hg
  obtain ⟨e1, e2, e3, e4, e5, e6⟩ := good_fields hgood
  have h31 : n ≤ 31 := by rw [← e3]; exact hn
  have hmod : n % 32 = n := Nat.mod_eq_of_lt (by omega)
  rw [hmod] at e6
  obtain ⟨L, c1, c2, hres, hL, hm, hmin, hc1, hc2, hends⟩ := win_coords_ends hgood h31 hw
  have hinv := good_inv hgood
  have hp : (current_state g).winner < 2 := by
    have := hinv.winner_le
    unfold C4_NONE at hw
    omega
  refine ⟨L, c1, c2, hres, hL, hm, hmin, hc1, hc2, ?_, ?_, ?_⟩
  · intro c hc
    obtain ⟨ha, hb⟩ := hends c hc
    constructor
    · rcases ha with ha | ha | ha
      · subst ha; exact Or.inr ⟨rfl, le_refl _⟩
      · exact Or.inl ha
      · exact Or.inr ⟨ha.1, le_of_lt ha.2⟩
    · rcases hb with hb | hb | hb
      · subst hb; exact Or.inr ⟨rfl, le_refl _⟩
      · exact Or.inl hb
      · exact Or.inr ⟨hb.1, le_of_lt hb.2⟩
  · intro h30
    rw [e6, wrap32_pow_small (by rw [← e3]; exact h30), e3]
  · intro c hc
    rw [e4] at hL
    have hperm := line_cells_perm hgood L hL
    rw [e6, hinv.progress _ hp L hL] at hm
    exact (progress_eq_magic_iff hp h31 (win_lines_length_eq hgood.hn (rd_mem [] _ L hL))).mp hm
      c (hperm.mem_iff.mp hc)

set_option maxRecDepth 1000000 in
/-- The statement of `c4_win_coords_spec` on the 7x6 board with runs of 4 after
player 0 moved in the columns 0, 1, 2 and 3, where `c4_win_coords` gives `(0, 0)` and
`(3, 0)`. -/
theorem c4_win_coords_spec_witness :
    game_7x6_row.num_to_connect ≤ 31 ∧
    (current_state game_7x6_row).winner ≠ C4_NONE ∧
    c4_win_coords game_7x6_row = some (some (0, 0), some (3, 0)) ∧
    ∃ L c1 c2, c4_win_coords game_7x6_row = some (some c1, some c2) ∧
      L < game_7x6_row.win_places ∧
      rd2 0 (current_state game_7x6_row).score_array (current_state game_7x6_row).winner L =
        game_7x6_row.magic_win_number ∧
      (∀ L1, L1 < L →
        rd2 0 (current_state game_7x6_row).score_array (current_state game_7x6_row).winner L1 ≠
          game_7x6_row.magic_win_number) ∧
      c1 ∈ line_cells game_7x6_row L ∧ c2 ∈ line_cells game_7x6_row L ∧
      (∀ c, c ∈ line_cells game_7x6_row L →
        (c1.2 < c.2 ∨ (c1.2 = c.2 ∧ c1.1 ≤ c.1)) ∧
        (c.2 < c2.2 ∨ (c.2 = c2.2 ∧ c.1 ≤ c2.1))) ∧
      (game_7x6_row.num_to_connect ≤ 30 →
        game_7x6_row.magic_win_number = 2 ^ game_7x6_row.num_to_connect) ∧
      (∀ c, c ∈ line_cells game_7x6_row L →
        rd2 C4_NONE (current_state game_7x6_row).board c.1 c.2 =
          (current_state game_7x6_row).winner) :=
  ⟨by decide, by decide, by decide,
   c4_win_coords_spec game_7x6_row reachable_7x6_row (by decide) (by decide)⟩

/-- C15 (the claim fails): in the 2x2 game with runs of 2, after
`c4_make_move(0, 1, NULL)`, `c4_make_move(1, 0, NULL)` and `c4_make_move(0, 0, NULL)`
player 0 wins with the descending diagonal `(1, 0)`, `(0, 1)`, and `c4_win_coords`
returns `(x1, y1) = (1, 0)` and `(x2, y2) = (0, 1)`, so `x1 > x2`. -/
theorem win_coords_of_a_descending_diagonal :
    c4_new_game no_game 2 2 2 = some (setup_game 2 2 2) ∧
    c4_make_move (setup_game 2 2 2) 0 1 none =
      some (true, none, play (setup_game 2 2 2) [(0, 1)]) ∧
    c4_make_move (play (setup_game 2 2 2) [(0, 1)]) 1 0 none =
      some (true, none, play (setup_game 2 2 2) [(0, 1), (1, 0)]) ∧
    c4_make_move (play (setup_game 2 2 2) [(0, 1), (1, 0)]) 0 0 none =
      some (true, none, game_2x2_diagonal) ∧
    (current_state game_2x2_diagonal).winner = 0 ∧
    c4_win_coords game_2x2_diagonal = some (some (1, 0), some (0, 1)) ∧
    ¬ ∃ c1 c2 : Nat × Nat, c4_win_coords game_2x2_diagonal = some (some c1, some c2) ∧
      c1.1 ≤ c2.1 ∧ c1.2 ≤ c2.2 := by
  refine ⟨by decide, by decide, by decide, by decide, by decide, by decide, ?_⟩
  rintro ⟨c1, c2, h, h1, _⟩
  have e : c4_win_coords game_2x2_diagonal = some (some (1, 0), some (0, 1)) := by decide
  rw [e] at h
  simp only [Option.some.injEq, Prod.mk.injEq] at h
  obtain ⟨⟨ea, _⟩, eb, _⟩ := h
  simp at h1

/-- C15 (amended): in every reachable game with `num_to_connect <= 31` and a winner,
`c4_win_coords` returns, and the ends that it returns are the first and the last cell
of a run `(x0 + k*dx, y0 + k*dy)`, `k < num_to_connect`, that has a line id and lies
inside the board, with `(dx, dy)` one of `(1,0)`, `(0,1)`, `(1,1)`, `(-1,1)`. Hence `y1 <= y2`
always; `x1 <= x2` for a horizontal, vertical or ascending line; and for a descending
diagonal `x1 = x2 + num_to_connect - 1`, so `(x1, y1)` is the lower-right piece and
`(x2, y2)` the upper-left piece. -/
theorem c4_win_coords_order (g : Game) (hg : Reachable g) (hn : g.num_to_connect ≤ 31)
    (hw : (current_state g).winner ≠ C4_NONE) :
    ∃ L c1 c2 x0 y0 d, c4_win_coords g = some (some c1, some c2) ∧ L < g.win_places ∧
      d ∈ directions ∧ run_inside g x0 y0 d ∧ cells_of_run g (line_cells g L) x0 y0 d ∧
      ((c1.1 : Int), (c1.2 : Int)) = run_cell x0 y0 d 0 ∧
      ((c2.1 : Int), (c2.2 : Int)) = run_cell x0 y0 d (g.num_to_connect - 1) ∧
      c1.2 ≤ c2.2 ∧
      (d ≠ (-1, 1) → c1.1 ≤ c2.1) ∧
      (d = (-1, 1) → c1.1 = c2.1 + (g.num_to_connect - 1)) := by
  obtain ⟨w, h, n, hgood, _, _⟩ := reachable_good g hg
  obtain ⟨e1, e2, e3, e4, _, _⟩ := good_fields hgood
  obtain ⟨L, c1, c2, hres, hL, _, _, hc1, hc2, hends⟩ :=
    win_coords_ends hgood (by rw [← e3]; exact hn) hw
  have hL1 := hL
  rw [e4] at hL1
  have hperm := line_cells_perm hgood L hL1
  obtain ⟨x0, y0, d, hd, hin, hrun0⟩ :=
    win_line_is_run hgood.hn e1 e2 e3 (rd_mem [] _ L hL1)
  have hrun : cells_of_run g (line_cells g L) x0 y0 d :=
    fun c => (hperm.mem_iff).trans (hrun0 c)
  have hn1 : 1 ≤ g.num_to_connect := by rw [e3]; exact hgood.hn
  obtain ⟨ha, hb⟩ := run_ends hn1 hd hin hrun hc1 hc2 hends
  refine ⟨L, c1, c2, x0, y0, d, hres, hL, hd, hin, hrun, ha, hb, ?_⟩
  obtain ⟨a1, b1⟩ := c1
  obtain ⟨a2, b2⟩ := c2
  simp only [directions, List.mem_cons, List.mem_singleton, List.not_mem_nil, or_false] at hd
  rcases hd with hd | hd | hd | hd <;> subst hd <;>
    simp only [run_cell, Prod.mk.injEq] at ha hb ⊢ <;>
    refine ⟨by omega, fun hne => ?_, fun heq => ?_⟩ <;>
    first
      | omega
      | (exfalso; exact hne rfl)

set_option maxRecDepth 1000000 in
/-- The statement of `c4_win_coords_order` on the 2x2 board with runs of 2 after
player 0 completed the descending diagonal. -/
theorem c4_win_coords_order_witness :
    game_2x2_diagonal.num_to_connect ≤ 31 ∧
    (current_state game_2x2_diagonal).winner ≠ C4_NONE ∧
    ∃ L c1 c2 x0 y0 d, c4_win_coords game_2x2_diagonal = some (some c1, some c2) ∧
      L < game_2x2_diagonal.win_places ∧
      d ∈ directions ∧ run_inside game_2x2_diagonal x0 y0 d ∧
      cells_of_run game_2x2_diagonal (line_cells game_2x2_diagonal L) x0 y0 d ∧
      ((c1.1 : Int), (c1.2 : Int)) = run_cell x0 y0 d 0 ∧
      ((c2.1 : Int), (c2.2 : Int)) =
        run_cell x0 y0 d (game_2x2_diagonal.num_to_connect - 1) ∧
      c1.2 ≤ c2.2 ∧
      (d ≠ (-1, 1) → c1.1 ≤ c2.1) ∧
      (d = (-1, 1) → c1.1 = c2.1 + (game_2x2_diagonal.num_to_connect - 1)) :=
  ⟨by decide, by decide, c4_win_coords_order game_2x2_diagonal
    (reachable_play _ _ (Reachable.new_game no_game (setup_game 2 2 2) 2 2 2 (by decide))
      (by decide)) (by decide) (by decide)⟩

/-! ## What `c4_auto_move` reports -/

set_option maxRecDepth 1000000 in
/-- C12 (the code at the failing input): in the 7x6 game with runs of 4, after
`c4_make_move(0, 0, NULL)` the call `c4_auto_move(1, level, &column, &row)` returns
true with `*column == 3` and `*row == 1` at every level 1..20, whatever `rand()`
returns; the piece it placed landed in row 0 of column 3, and row 1 of column 3 is
empty. In the 4x1 game with runs of 2, after `c4_make_move(0, 3, NULL)` column 3 is
full, and `c4_auto_move` returns true with `*column == 3` and places no piece. -/
theorem c4_auto_move_reports_a_wrong_row :
    c4_new_game no_game 7 6 4 = some (setup_game 7 6 4) ∧
    c4_make_move (setup_game 7 6 4) 0 0 none = some (true, none, game_7x6_first) ∧
    (∀ (rand : Nat → Nat) (level : Fin 20) (column row : Int),
      c4_auto_move game_7x6_first rand 1 ((level : Nat) + 1) column (some row) =
        some { moved := true, column := 3, row := some 1,
               game := (drop_piece game_7x6_first 1 3).2 }) ∧
    (drop_piece game_7x6_first 1 3).1 = 0 ∧
    rd2 C4_NONE (current_state (drop_piece game_7x6_first 1 3).2).board 3 0 = 1 ∧
    rd2 C4_NONE (current_state (drop_piece game_7x6_first 1 3).2).board 3 1 = C4_NONE ∧
    c4_new_game no_game 4 1 2 = some (setup_game 4 1 2) ∧
    c4_make_move (setup_game 4 1 2) 0 3 none = some (true, none, game_4x1_first) ∧
    column_full game_4x1_first (current_state game_4x1_first) 3 ∧
    (∀ (rand : Nat → Nat) (level : Fin 20) (column row : Int),
      c4_auto_move game_4x1_first rand 1 ((level : Nat) + 1) column (some row) =
        some { moved := true, column := 3, row := some 1,
               game := (drop_piece game_4x1_first 1 3).2 }) ∧
    (drop_piece game_4x1_first 1 3).1 = -1 ∧
    current_state (drop_piece game_4x1_first 1 3).2 = current_state game_4x1_first := by
  refine ⟨by decide, by decide, ?_, by decide, by decide, by decide, by decide, by decide,
    by decide, ?_, by decide, by decide⟩
  · intro rand level column row
    exact c4_auto_move_one_piece game_7x6_first rand 1 ((level : Nat) + 1) column (some row)
      (by decide) (by decide) (by omega) (by omega) (by decide) (by decide)
  · intro rand level column row
    exact c4_auto_move_one_piece game_4x1_first rand 1 ((level : Nat) + 1) column (some row)
      (by decide) (by decide) (by omega) (by omega) (by decide) (by decide)

/-! ## The search -/

theorem max_of_le_iff (b x : Int) (l : List Int) :
    max_of b l ≤ x ↔ b ≤ x ∧ ∀ y, y ∈ l → y ≤ x := by
  unfold max_of
  induction l generalizing b with
  | nil => simp
  | cons a rest ih =>
    rw [List.foldl_cons, ih]
    simp only [List.mem_cons, max_le_iff]
    constructor
    · rintro ⟨⟨h1, h2⟩, h3⟩
      refine ⟨h1, ?_⟩
      rintro y (rfl | hy)
      · exact h2
      · exact h3 y hy
    · rintro ⟨h1, h2⟩
      exact ⟨⟨h1, h2 a (Or.inl rfl)⟩, fun y hy => h2 y (Or.inr hy)⟩

theorem le_max_of_iff (b x : Int) (l : List Int) :
    x ≤ max_of b l ↔ x ≤ b ∨ ∃ y, y ∈ l ∧ x ≤ y := by
  unfold max_of
  induction l generalizing b with
  | nil => simp
  | cons a rest ih =>
    rw [List.foldl_cons, ih]
    simp only [List.mem_cons, le_max_iff]
    constructor
    · rintro ((h1 | h1) | ⟨y, hy, h2⟩)
      · exact Or.inl h1
      · exact Or.inr ⟨a, Or.inl rfl, h1⟩
      · exact Or.inr ⟨y, Or.inr hy, h2⟩
    · rintro (h1 | ⟨y, rfl | hy, h2⟩)
      · exact Or.inl (Or.inl h1)
      · exact Or.inl (Or.inr h2)
      · exact Or.inr ⟨y, hy, h2⟩

theorem legal_columns_congr {g g1 : Game} (h : statics g1 = statics g) (s : Game_state) :
    legal_columns g1 s = legal_columns g s := by
  obtain ⟨e1, e2, _⟩ := statics_fields h
  simp only [legal_columns, column_full, e1, e2]

theorem terminal_value_congr {g g1 : Game} (h : statics g1 = statics g) (d : Nat)
    (s : Game_state) (p : Nat) : terminal_value g1 d s p = terminal_value g d s p := by
  obtain ⟨_, _, e3, _⟩ := statics_fields h
  simp only [terminal_value, e3]

theorem negamax_congr {g g1 : Game} (h : statics g1 = statics g) :
    ∀ (r d : Nat) (s : Game_state) (p : Nat), negamax g1 r d s p = negamax g r d s p := by
  intro r
  induction r with
  | zero =>
    intro d s p
    simp only [negamax, terminal_value_congr h]
  | succ r ih =>
    intro d s p
    simp only [negamax, terminal_value_congr h, legal_columns_congr h, drop_piece_on_congr h, ih]

theorem mem_legal_columns (g : Game) (s : Game_state) (c : Nat) :
    c ∈ legal_columns g s ↔ c < g.size_x ∧ ¬ column_full g s c := by
  simp [legal_columns]

theorem child_good {g : Game} {w h n : Nat} (hg : Good g w h n) (p c : Nat) (hp : p < 2)
    (hc : c < g.size_x) :
    Good (drop_piece (push_state g) p c).2 w h n ∧
    (drop_piece (push_state g) p c).2.depth = g.depth + 1 ∧
    current_state (drop_piece (push_state g) p c).2 =
      (drop_piece_on (setup_game w h n) (current_state g) p c).2 ∧
    (drop_piece (push_state g) p c).1 =
      (drop_piece_on (setup_game w h n) (current_state g) p c).1 := by
  obtain ⟨a1, _, c1, _, _, f1⟩ := push_state_fields g
  obtain ⟨a2, _, c2, _, _, f2⟩ := drop_piece_fields (push_state g) p c
  obtain ⟨s1, cs1⟩ := f1 hg.hstack
  obtain ⟨s2, cs2⟩ := f2 s1
  have hcs : current_state (drop_piece (push_state g) p c).2 =
      (drop_piece_on g (current_state g) p c).2 := by
    rw [cs2, cs1, drop_piece_on_congr a1]
  refine ⟨good_of_frame_drop hg _ (a2.trans a1) s2 p c hp hc hcs, by rw [c2, c1], ?_, ?_⟩
  · rw [hcs, drop_piece_on_congr hg.hst]
  · show (drop_piece_on (push_state g) (current_state (push_state g)) p c).1 = _
    rw [cs1, drop_piece_on_congr (a1.trans hg.hst)]

theorem drop_column_onto (w c : Nat) (hc : c < w) :
    ∃ i, 1 ≤ i ∧ i ≤ w ∧ drop_column w i = (c : Int) := by
  by_cases h : (c : Int) ≤ ((w : Int) - 1) / 2
  · refine ⟨2 * ((((w : Int) - 1) / 2).toNat - c) + 1, by omega, by omega, ?_⟩
    unfold drop_column
    rw [if_pos (by omega)]
    push_cast
    omega
  · refine ⟨2 * (c - (((w : Int) - 1) / 2).toNat), by omega, by omega, ?_⟩
    unfold drop_column
    rw [if_neg (by omega)]
    push_cast
    omega

theorem good_order_onto {g : Game} {w h n : Nat} (hg : Good g w h n) (c : Nat)
    (hc : c < g.size_x) : ∃ i, i < g.size_x ∧ rd 0 g.drop_order i = c := by
  obtain ⟨e1, _, _, _, _, _, _, _, e2⟩ := statics_fields hg.hst
  have ex : (setup_game w h n).size_x = w := rfl
  rw [e1, ex] at hc
  rw [e1, e2, ex]
  obtain ⟨_, r1⟩ := build_drop_order_spec w w 1 (((w : Int) - 1) / 2)
    (by unfold drop_column; simp)
  obtain ⟨i, h1, h2, e⟩ := drop_column_onto w c hc
  refine ⟨i - 1, by omega, ?_⟩
  have e3 : rd 0 (setup_game w h n).drop_order (i - 1) = (drop_column w (1 + (i - 1))).toNat :=
    r1 (i - 1) (by omega)
  rw [e3, show 1 + (i - 1) = i by omega, e]
  simp

theorem sum_bounds (B : Int) (l : List Int) (h : ∀ x, x ∈ l → 0 ≤ x ∧ x ≤ B) :
    0 ≤ l.sum ∧ l.sum ≤ (l.length : Int) * B := by
  induction l with
  | nil => simp
  | cons a rest ih =>
    have ha := h a (List.mem_cons_self _ _)
    have hr := ih (fun x hx => h x (List.mem_cons_of_mem _ hx))
    rw [List.sum_cons, List.length_cons]
    push_cast
    constructor
    · omega
    · nlinarith [hr.2, ha.2]

theorem pow_small_exponent {n : Nat} (h : 2 ^ n ≤ 2147483647) : n ≤ 30 := by
  by_contra hn
  have h1 : 2 ^ 31 ≤ 2 ^ n := Nat.pow_le_pow_right (by norm_num) (by omega)
  norm_num at h1
  omega

theorem score_array_sum_range {g : Game} {w h n : Nat} (hg : Good g w h n) (hs : Small g)
    (p : Nat) (hp : p < 2) :
    0 ≤ (rd [] (current_state g).score_array p).sum ∧
    (rd [] (current_state g).score_array p).sum ≤ 2147483647 := by
  have hinv := good_inv hg
  obtain ⟨_, _, e3, e4, _, _⟩ := good_fields hg
  unfold Small at hs
  rw [e3, e4] at hs
  have hlen := hinv.arrays.2.2 p hp
  have hentries : ∀ x, x ∈ rd [] (current_state g).score_array p →
      0 ≤ x ∧ x ≤ ((2 ^ n : Nat) : Int) := by
    intro x hx
    obtain ⟨L, hL, e⟩ := List.getElem_of_mem hx
    have hL1 : L < (win_lines w h n).length := by rw [← hlen]; exact hL
    have hW : 1 ≤ (win_lines w h n).length := by omega
    have hpow : 2 ^ n ≤ 2147483647 := by
      calc 2 ^ n = 1 * 2 ^ n := by ring
        _ ≤ (win_lines w h n).length * 2 ^ n := Nat.mul_le_mul_right _ hW
        _ ≤ 2147483647 := hs
    have hn30 := pow_small_exponent hpow
    have e1 : x = rd2 0 (current_state g).score_array p L := by
      rw [← e]
      have e2 : rd2 0 (current_state g).score_array p L =
          rd 0 (rd [] (current_state g).score_array p) L := rfl
      rw [e2, rd_eq_getElem _ _ _ hL]
      rfl
    rw [e1, hinv.progress p hp L hL1]
    unfold progress
    split_ifs
    · exact ⟨le_refl _, by positivity⟩
    · have hk : owned (current_state g).board p (rd [] (win_lines w h n) L) ≤ n := by
        have := owned_le (current_state g).board p (rd [] (win_lines w h n) L)
        rw [win_lines_length_eq hg.hn (rd_mem [] _ L hL1)] at this
        exact this
      rw [wrap32_pow_small (by omega)]
      constructor
      · positivity
      · have : 2 ^ owned (current_state g).board p (rd [] (win_lines w h n) L) ≤ 2 ^ n :=
          Nat.pow_le_pow_right (by norm_num) hk
        exact_mod_cast this
  obtain ⟨s1, s2⟩ := sum_bounds _ _ hentries
  rw [hlen] at s2
  have s3 : (((win_lines w h n).length : Nat) : Int) * ((2 ^ n : Nat) : Int) ≤ 2147483647 := by
    exact_mod_cast hs
  exact ⟨s1, by omega⟩

theorem score_range {g : Game} {w h n : Nat} (hg : Good g w h n) (hs : Small g) (p : Nat)
    (hp : p < 2) :
    0 ≤ rd 0 (current_state g).score p ∧ rd 0 (current_state g).score p ≤ 2147483647 := by
  obtain ⟨s1, s2⟩ := score_array_sum_range hg hs p hp
  rw [(good_inv hg).score p hp, wrap32_of_range _ (by omega) (by omega)]
  exact ⟨s1, s2⟩

/-! ## The scores and the sums of the entries -/

set_option maxRecDepth 1000000 in
/-- C1 (the claim fails): `c4_new_game(2, 31, 31)` is accepted and gives two lines,
the two columns. After 30 calls `c4_make_move(0, 0, NULL)` and 30 calls
`c4_make_move(0, 1, NULL)` both entries of `score_array[0]` are `2^30`, their sum is
`2^31`, and `score[0]`, an `int`, is `INT_MIN`. -/
theorem score_differs_from_the_sum :
    c4_new_game no_game 2 31 31 = some (setup_game 2 31 31) ∧
    Reachable game_2x31_60 ∧
    game_2x31_60.win_places = 2 ∧
    rd [] (current_state game_2x31_60).score_array 0 = [1073741824, 1073741824] ∧
    (rd [] (current_state game_2x31_60).score_array 0).sum = 2147483648 ∧
    rd 0 (current_state game_2x31_60).score 0 = -2147483648 ∧
    rd 0 (current_state game_2x31_60).score 0 ≠
      (rd [] (current_state game_2x31_60).score_array 0).sum := by
  have hr : Reachable game_2x31_60 := reachable_play _ _
    (Reachable.new_game no_game (setup_game 2 31 31) 2 31 31 (by decide)) (by decide)
  exact ⟨by decide, hr, by decide, by decide, by decide, by decide, by decide⟩

/-- C1 (amended): in every state of a game or of a search, for each player `p` the
array `score_array[p]` has `win_places` entries and `score[p]` is their sum taken in
`int` arithmetic, that is their sum reduced to 32 bits; it is their mathematical sum
whenever that sum is an `int`, and so whenever
`win_places * 2^num_to_connect <= INT_MAX`. -/
theorem score_is_sum_of_score_array (g : Game) (hg : Speculative g) (p : Nat) (hp : p < 2) :
    (rd [] (current_state g).score_array p).length = g.win_places ∧
    rd 0 (current_state g).score p = int_sum (rd [] (current_state g).score_array p) ∧
    rd 0 (current_state g).score p = wrap32 (rd [] (current_state g).score_array p).sum ∧
    (-2147483648 ≤ (rd [] (current_state g).score_array p).sum →
      (rd [] (current_state g).score_array p).sum < 2147483648 →
      rd 0 (current_state g).score p = (rd [] (current_state g).score_array p).sum) ∧
    (Small g →
      rd 0 (current_state g).score p = (rd [] (current_state g).score_array p).sum) := by
  obtain ⟨w, h, n, hgood⟩ := speculative_good g hg
  have hinv := good_inv hgood
  obtain ⟨_, _, _, e4, _, _⟩ := good_fields hgood
  refine ⟨by rw [e4]; exact hinv.arrays.2.2 p hp, ?_, hinv.score p hp, ?_, ?_⟩
  · rw [int_sum_eq]
    exact hinv.score p hp
  · intro h1 h2
    rw [hinv.score p hp]
    exact wrap32_of_range _ h1 h2
  · intro hs
    obtain ⟨s1, s2⟩ := score_array_sum_range hgood hs p hp
    rw [hinv.score p hp]
    exact wrap32_of_range _ (by omega) (by omega)

set_option maxRecDepth 100000 in
/-- The statement of `score_is_sum_of_score_array` for player 0 at the first call of
`evaluate` by `c4_auto_move(0, level, ..)` on the 7x6 board after four moves in
column 3, where `move_in_progress` is true, the depth is 1 and the score is the sum
of the entries. -/
theorem score_is_sum_of_score_array_witness :
    Speculative game_7x6_search ∧ 0 < 2 ∧ Small game_7x6_search ∧
    game_7x6_search.move_in_progress = true ∧ game_7x6_search.depth = 1 ∧
    rd 0 (current_state game_7x6_search).score 0 =
      (rd [] (current_state game_7x6_search).score_array 0).sum ∧
    ((rd [] (current_state game_7x6_search).score_array 0).length =
      game_7x6_search.win_places ∧
    rd 0 (current_state game_7x6_search).score 0 =
      int_sum (rd [] (current_state game_7x6_search).score_array 0) ∧
    rd 0 (current_state game_7x6_search).score 0 =
      wrap32 (rd [] (current_state game_7x6_search).score_array 0).sum ∧
    (-2147483648 ≤ (rd [] (current_state game_7x6_search).score_array 0).sum →
      (rd [] (current_state game_7x6_search).score_array 0).sum < 2147483648 →
      rd 0 (current_state game_7x6_search).score 0 =
        (rd [] (current_state game_7x6_search).score_array 0).sum) ∧
    (Small game_7x6_search →
      rd 0 (current_state game_7x6_search).score 0 =
        (rd [] (current_state game_7x6_search).score_array 0).sum)) :=
  ⟨speculative_7x6_search, by decide, by decide, by decide, by decide,
   (score_is_sum_of_score_array _ speculative_7x6_search 0 (by decide)).2.2.2.2 (by decide),
   score_is_sum_of_score_array _ speculative_7x6_search 0 (by decide)⟩

theorem goodness_range {g : Game} {w h n : Nat} (hg : Good g w h n) (hs : Small g) (p : Nat)
    (hp : p < 2) :
    goodness_of g p = goodness_on (current_state g) p ∧
    -2147483647 ≤ goodness_of g p ∧ goodness_of g p ≤ 2147483647 := by
  obtain ⟨a1, a2⟩ := score_range hg hs p hp
  obtain ⟨b1, b2⟩ := score_range hg hs (other p) (other_lt hp)
  refine ⟨rfl, ?_⟩
  unfold goodness_of
  rw [wrap32_of_range _ (by omega) (by omega)]
  omega

theorem small_congr {g g1 : Game} (h : statics g1 = statics g) (hs : Small g) : Small g1 := by
  obtain ⟨_, _, _, e4, e5, _⟩ := statics_fields h
  unfold Small at hs ⊢
  rw [e4, e5]
  exact hs

theorem column_full_setup {g : Game} {w h n : Nat} (hg : Good g w h n) (s : Game_state)
    (c : Nat) : column_full g s c ↔ column_full (setup_game w h n) s c := by
  obtain ⟨_, e2, _⟩ := statics_fields hg.hst
  unfold column_full
  rw [e2]

theorem evaluate_loop_spec {w h n rem d : Nat} (player : Nat) (hp : player < 2)
    (ev : Game → Int → Int → Option (Int × Game))
    (hev : Search_ok w h n rem (d + 1) (other player) ev)
    (beta : Int) (hb1 : -2147483647 ≤ beta) (hb2 : beta ≤ 2147483647) (s : Game_state)
    (cols : List Nat) :
    ∀ (best maxab : Int) (g : Game), Good g w h n → g.depth = d → current_state g = s →
      (∀ i, i ∈ cols → i < w) →
      -2147483647 ≤ best → best ≤ maxab → maxab ≤ 2147483647 →
      ∃ R g1, evaluate_loop ev player beta cols best maxab g = some (R, g1) ∧ Frame g g1 ∧
        best ≤ R ∧ R ≤ 2147483647 ∧
        (R ≤ beta → ∀ i, i ∈ cols →
          ¬ column_full (setup_game w h n) s (rd 0 (setup_game w h n).drop_order i) →
          negamax (setup_game w h n) rem (d + 1)
            (drop_piece_on (setup_game w h n) s (other player)
              (rd 0 (setup_game w h n).drop_order i)).2 (other player) ≤ R) ∧
        (R = best ∨ ∃ i, i ∈ cols ∧
          ¬ column_full (setup_game w h n) s (rd 0 (setup_game w h n).drop_order i) ∧
          (maxab ≤ R → R ≤ negamax (setup_game w h n) rem (d + 1)
            (drop_piece_on (setup_game w h n) s (other player)
              (rd 0 (setup_game w h n).drop_order i)).2 (other player))) := by
  induction cols with
  | nil =>
    intro best maxab g hg hd hs hcols h1 h2 h3
    exact ⟨best, g, rfl, frame_refl g, le_refl _, by omega,
      fun _ i hi => absurd hi (List.not_mem_nil _), Or.inl rfl⟩
  | cons i rest ih =>
    intro best maxab g hg hd hs hcols h1 h2 h3
    obtain ⟨e1, _, _, _, _, _, _, _, hdo⟩ := statics_fields hg.hst
    have ex : (setup_game w h n).size_x = w := rfl
    have hi : i < w := hcols i (List.mem_cons_self _ _)
    have hcol : rd 0 g.drop_order i < g.size_x := good_order hg i (by rw [e1, ex]; exact hi)
    have hfull_iff : rd2 C4_NONE (current_state g).board (rd 0 g.drop_order i)
        (g.size_y - 1) ≠ C4_NONE ↔
        column_full (setup_game w h n) s (rd 0 (setup_game w h n).drop_order i) := by
      rw [top_cell_iff_full hg, hs, column_full_setup hg, hdo]
    have hrest : ∀ j, j ∈ rest → j < w := fun j hj => hcols j (List.mem_cons_of_mem _ hj)
    unfold evaluate_loop
    by_cases hfull : rd2 C4_NONE (current_state g).board (rd 0 g.drop_order i)
        (g.size_y - 1) ≠ C4_NONE
    · rw [if_pos hfull]
      obtain ⟨R, g1, hr, hf, hbR, hR, hA, hB⟩ := ih best maxab g hg hd hs hrest h1 h2 h3
      refine ⟨R, g1, hr, hf, hbR, hR, ?_, ?_⟩
      · intro hRb j hj hnf
        rcases List.mem_cons.mp hj with e | hj1
        · rw [e] at hnf
          exact absurd (hfull_iff.mp hfull) hnf
        · exact hA hRb j hj1 hnf
      · rcases hB with hB | ⟨j, hj, hnf, hv⟩
        · exact Or.inl hB
        · exact Or.inr ⟨j, List.mem_cons_of_mem _ hj, hnf, hv⟩
    · rw [if_neg hfull]
      have hnf : ¬ column_full (setup_game w h n) s (rd 0 (setup_game w h n).drop_order i) :=
        fun hc => hfull (hfull_iff.mpr hc)
      have hpdo : (push_state g).drop_order = g.drop_order :=
        (statics_fields (push_state_fields g).1).2.2.2.2.2.2.2.2
      obtain ⟨hg2, hd2, hcs2, _⟩ :=
        child_good hg (other player) (rd 0 g.drop_order i) (other_lt hp) hcol
      have wb : wrap32 (-beta) = -beta := wrap32_of_range _ (by omega) (by omega)
      have wm : wrap32 (-maxab) = -maxab := wrap32_of_range _ (by omega) (by omega)
      obtain ⟨G, g3, hev3, hf3, hG1, hG2, hGa, hGb⟩ := hev _ (-beta) (-maxab) hg2
        (by rw [hd2, hd]) (by omega) (by omega) (by omega) (by omega)
      rw [hcs2, hs, hdo] at hGa hGb
      rw [neg_neg] at hGa hGb
      have hf4 := frame_push_drop_pop g g3 _ _ hf3
      obtain ⟨hg4, hcs4, hd4⟩ := good_of_frame hg hf4
      simp only [hpdo, wb, wm, hev3]
      have hbest1 : ∃ b1, (if G > best then G else best) = b1 ∧ best ≤ b1 ∧ G ≤ b1 ∧
          b1 ≤ 2147483647 ∧ ((b1 = G ∧ best < G) ∨ (b1 = best ∧ G ≤ best)) := by
        by_cases hgt : G > best
        · exact ⟨G, if_pos hgt, by omega, le_refl _, hG2, Or.inl ⟨rfl, hgt⟩⟩
        · exact ⟨best, if_neg hgt, le_refl _, by omega, by omega, Or.inr ⟨rfl, by omega⟩⟩
      obtain ⟨b1, eb1, hb1a, hb1b, hb1c, hb1d⟩ := hbest1
      simp only [eb1]
      have hmax1 : ∃ m1, (if G > best then (if b1 > maxab then b1 else maxab) else maxab) = m1 ∧
          maxab ≤ m1 ∧ b1 ≤ m1 ∧ m1 ≤ 2147483647 ∧ (m1 = maxab ∨ m1 = b1) := by
        by_cases hgt : G > best
        · by_cases hgt2 : b1 > maxab
          · exact ⟨b1, by rw [if_pos hgt, if_pos hgt2], by omega, le_refl _, hb1c, Or.inr rfl⟩
          · exact ⟨maxab, by rw [if_pos hgt, if_neg hgt2], le_refl _, by omega, h3, Or.inl rfl⟩
        · exact ⟨maxab, by rw [if_neg hgt], le_refl _, by omega, h3, Or.inl rfl⟩
      obtain ⟨m1, em1, hm1a, hm1b, hm1c, hm1d⟩ := hmax1
      simp only [em1]
      have hhead : b1 = best ∨ (maxab ≤ b1 → b1 ≤ negamax (setup_game w h n) rem (d + 1)
          (drop_piece_on (setup_game w h n) s (other player)
            (rd 0 (setup_game w h n).drop_order i)).2 (other player)) := by
        rcases hb1d with ⟨e, _⟩ | ⟨e, _⟩
        · right
          intro hm
          rw [e]
          exact hGb (by omega)
        · exact Or.inl e
      by_cases hcut : b1 > beta
      · rw [if_pos hcut]
        refine ⟨b1, pop_state g3, rfl, hf4, hb1a, hb1c, fun hle => absurd hle (by omega), ?_⟩
        rcases hhead with e | hv
        · exact Or.inl e
        · exact Or.inr ⟨i, List.mem_cons_self _ _, hnf, hv⟩
      · rw [if_neg hcut]
        obtain ⟨R, g1, hr, hf, hbR, hR, hA, hB⟩ := ih b1 m1 (pop_state g3) hg4
          (by rw [hd4, hd]) (by rw [hcs4, hs]) hrest (by omega) hm1b hm1c
        refine ⟨R, g1, hr, frame_trans hf4 hf, by omega, hR, ?_, ?_⟩
        · intro hRb j hj hnfj
          rcases List.mem_cons.mp hj with e | hj1
          · rw [e]
            have := hGa (by omega)
            omega
          · exact hA hRb j hj1 hnfj
        · rcases hB with hB | ⟨j, hj, hnfj, hv⟩
          · rcases hhead with e | hv
            · exact Or.inl (by rw [hB, e])
            · exact Or.inr ⟨i, List.mem_cons_self _ _, hnf, fun hm => by
                rw [hB]; exact hv (by omega)⟩
          · exact Or.inr ⟨j, List.mem_cons_of_mem _ hj, hnfj, fun hm => hv (by omega)⟩

theorem setup_small_iff {g : Game} {w h n : Nat} (hg : Good g w h n) :
    Small g ↔ Small (setup_game w h n) :=
  ⟨fun hs => @small_congr g (setup_game w h n) hg.hst.symm hs, fun hs => small_congr hg.hst hs⟩

theorem evaluate_spec (w h n level : Nat) (hlvl : level ≤ 20)
    (hsmall : Small (setup_game w h n)) :
    ∀ (rem fuel d player : Nat), player < 2 → rem < fuel → d + rem = level →
      Search_ok w h n rem d player (fun g a b => evaluate fuel g player level a b) := by
  intro rem
  induction rem with
  | zero =>
    intro fuel d player hp hfuel hd g2 a b hg2 hd2 ha1 ha2 hb1 hb2
    obtain ⟨f, rfl⟩ : ∃ f, fuel = f + 1 := ⟨fuel - 1, by omega⟩
    have hts : g2.total_size = (setup_game w h n).total_size := (statics_fields hg2.hst).2.2.1
    simp only [negamax, terminal_value, ← hts]
    unfold evaluate
    simp only [INT_MAX, hd2]
    by_cases h1 : (current_state g2).winner = player
    · rw [if_pos h1, if_pos h1]
      exact ⟨_, g2, rfl, frame_refl _, by omega, by omega, fun _ => le_refl _, fun _ => le_refl _⟩
    · rw [if_neg h1, if_neg h1]
      by_cases h2 : (current_state g2).winner = other player
      · rw [if_pos h2, if_pos h2]
        exact ⟨_, g2, rfl, frame_refl _, by omega, by omega, fun _ => le_refl _,
          fun _ => le_refl _⟩
      · rw [if_neg h2, if_neg h2]
        by_cases h3 : (current_state g2).num_of_pieces = g2.total_size
        · rw [if_pos h3, if_pos h3]
          exact ⟨_, g2, rfl, frame_refl _, by omega, by omega, fun _ => le_refl _,
            fun _ => le_refl _⟩
        · rw [if_neg h3, if_neg h3, if_pos (by omega)]
          obtain ⟨e, r1, r2⟩ := goodness_range hg2 ((setup_small_iff hg2).mpr hsmall) player hp
          refine ⟨_, g2, rfl, frame_refl _, r1, r2, fun _ => ?_, fun _ => ?_⟩
          · rw [e]; exact le_refl _
          · rw [e]; exact le_refl _
  | succ rem ih =>
    intro fuel d player hp hfuel hd g2 a b hg2 hd2 ha1 ha2 hb1 hb2
    obtain ⟨f, rfl⟩ : ∃ f, fuel = f + 1 := ⟨fuel - 1, by omega⟩
    have hev := ih f (d + 1) (other player) (other_lt hp) (by omega) (by omega)
    obtain ⟨e1, _, hts, _, _, _, _, _, hdo⟩ := statics_fields hg2.hst
    have ex : (setup_game w h n).size_x = w := rfl
    obtain ⟨R, g1, hloop, hf, hbR, hR, hA, hB⟩ := evaluate_loop_spec player hp
      (fun g a b => evaluate f g (other player) level a b) hev b hb1 hb2 (current_state g2)
      (List.range w) (-2147483647) a g2 hg2 hd2 rfl
      (fun i hi => List.mem_range.mp hi) (le_refl _) ha1 ha2
    simp only [negamax, terminal_value, ← hts]
    unfold evaluate
    simp only [INT_MAX, hd2]
    by_cases h1 : (current_state g2).winner = player
    · rw [if_pos h1, if_pos h1]
      exact ⟨_, g2, rfl, frame_refl _, by omega, by omega, fun _ => le_refl _, fun _ => le_refl _⟩
    · rw [if_neg h1, if_neg h1]
      by_cases h2 : (current_state g2).winner = other player
      · rw [if_pos h2, if_pos h2]
        exact ⟨_, g2, rfl, frame_refl _, by omega, by omega, fun _ => le_refl _,
          fun _ => le_refl _⟩
      · rw [if_neg h2, if_neg h2]
        by_cases h3 : (current_state g2).num_of_pieces = g2.total_size
        · rw [if_pos h3, if_pos h3]
          exact ⟨_, g2, rfl, frame_refl _, by omega, by omega, fun _ => le_refl _,
            fun _ => le_refl _⟩
        · rw [if_neg h3, if_neg h3, if_neg (by omega), e1, ex, hloop]
          simp only [Option.getD_none]
          have wR : wrap32 (-R) = -R := wrap32_of_range _ (by omega) (by omega)
          rw [wR]
          refine ⟨-R, g1, rfl, hf, by omega, by omega, ?_, ?_⟩
          · intro hle
            have hRM : R ≤ max_of (-2147483647)
                ((legal_columns (setup_game w h n) (current_state g2)).map fun c =>
                  negamax (setup_game w h n) rem (d + 1)
                    (drop_piece_on (setup_game w h n) (current_state g2) (other player) c).2
                    (other player)) := by
              rw [le_max_of_iff]
              rcases hB with hB | ⟨i, hi, hnf, hv⟩
              · exact Or.inl (by omega)
              · refine Or.inr ⟨_, List.mem_map.mpr ⟨rd 0 (setup_game w h n).drop_order i,
                  (mem_legal_columns _ _ _).mpr
                    ⟨(setup_game_drop_order w h n).2 i (List.mem_range.mp hi), hnf⟩, rfl⟩,
                  hv (by omega)⟩
            omega
          · intro hle
            have hMR : max_of (-2147483647)
                ((legal_columns (setup_game w h n) (current_state g2)).map fun c =>
                  negamax (setup_game w h n) rem (d + 1)
                    (drop_piece_on (setup_game w h n) (current_state g2) (other player) c).2
                    (other player)) ≤ R := by
              rw [max_of_le_iff]
              refine ⟨hbR, ?_⟩
              intro y hy
              obtain ⟨c, hc, rfl⟩ := List.mem_map.mp hy
              obtain ⟨hc1, hc2⟩ := (mem_legal_columns _ _ _).mp hc
              obtain ⟨i, hi, e⟩ := good_order_onto hg2 c (by rw [e1]; exact hc1)
              rw [e1, ex] at hi
              rw [hdo] at e
              have := hA (by omega) i (List.mem_range.mpr hi) (by rw [e]; exact hc2)
              rw [e] at this
              exact this
            omega

theorem auto_move_step {w h n lv : Nat} (rp : Nat) (hrp : rp < 2)
    (hev : Search_ok w h n (lv - 1) 1 rp (fun g a b => evaluate lv g rp lv a b))
    (s : Game_state) (l : Auto_loop) (i : Nat) (hg : Good l.game w h n)
    (hd : l.game.depth = 0) (hs : current_state l.game = s) (hi : i < w)
    (hw1 : -2147483647 ≤ l.best_worst) (hw2 : l.best_worst ≤ 2147483647) :
    ∃ (g1 : Game) (G : Int), Frame l.game g1 ∧ -2147483647 ≤ G ∧ G ≤ 2147483647 ∧
      (column_full (setup_game w h n) s (rd 0 (setup_game w h n).drop_order i) →
        ∀ (rand : Nat → Nat) (rest : List Nat),
          auto_move_loop rand rp lv (i :: rest) l =
            auto_move_loop rand rp lv rest { l with game := g1 }) ∧
      (¬ column_full (setup_game w h n) s (rd 0 (setup_game w h n).drop_order i) →
        (drop_piece_on (setup_game w h n) s rp
          (rd 0 (setup_game w h n).drop_order i)).2.winner = rp →
        ∀ (rand : Nat → Nat) (rest : List Nat),
          auto_move_loop rand rp lv (i :: rest) l =
            some { l with best_column := ((rd 0 (setup_game w h n).drop_order i : Nat) : Int),
                          game := g1 }) ∧
      (¬ column_full (setup_game w h n) s (rd 0 (setup_game w h n).drop_order i) →
        (drop_piece_on (setup_game w h n) s rp
          (rd 0 (setup_game w h n).drop_order i)).2.winner ≠ rp →
        negamax (setup_game w h n) (lv - 1) 1
          (drop_piece_on (setup_game w h n) s rp
            (rd 0 (setup_game w h n).drop_order i)).2 rp ≤ G ∧
        (l.best_worst ≤ G →
          G = negamax (setup_game w h n) (lv - 1) 1
            (drop_piece_on (setup_game w h n) s rp
              (rd 0 (setup_game w h n).drop_order i)).2 rp) ∧
        ∀ (rand : Nat → Nat) (rest : List Nat),
          auto_move_loop rand rp lv (i :: rest) l =
            if G > l.best_worst then
              auto_move_loop rand rp lv rest
                { l with goodness := G, best_worst := G,
                         best_column := ((rd 0 (setup_game w h n).drop_order i : Nat) : Int),
                         num_of_equal := 1, game := g1 }
            else if G = l.best_worst then
              auto_move_loop rand rp lv rest
                { l with goodness := G, num_of_equal := l.num_of_equal + 1,
                         rand_calls := l.rand_calls + 1,
                         best_column :=
                           if (rand l.rand_calls >>> 4) % (l.num_of_equal + 1) = 0
                           then ((rd 0 (setup_game w h n).drop_order i : Nat) : Int)
                           else l.best_column,
                         game := g1 }
            else
              auto_move_loop rand rp lv rest { l with goodness := G, game := g1 }) := by
  obtain ⟨e1, _, _, _, _, _, _, _, hdo⟩ := statics_fields hg.hst
  have ex : (setup_game w h n).size_x = w := rfl
  have hpdo : (push_state l.game).drop_order = (setup_game w h n).drop_order :=
    ((statics_fields (push_state_fields l.game).1).2.2.2.2.2.2.2.2).trans hdo
  have hcol : rd 0 (setup_game w h n).drop_order i < l.game.size_x := by
    rw [e1, ex]
    exact (setup_game_drop_order w h n).2 i hi
  obtain ⟨hg2, hd2, hcs2, hr2⟩ :=
    child_good hg rp (rd 0 (setup_game w h n).drop_order i) hrp hcol
  rw [hs] at hcs2 hr2
  have wb : wrap32 (-l.best_worst) = -l.best_worst := wrap32_of_range _ (by omega) (by omega)
  obtain ⟨G, g3, hev3, hf3, hG1, hG2, hGa, hGb⟩ := hev _ (-2147483647) (-l.best_worst) hg2
    (by rw [hd2, hd]) (by omega) (by omega) (by omega) (by omega)
  rw [hcs2] at hGa hGb
  rw [neg_neg] at hGb
  replace hev3 : evaluate lv (drop_piece (push_state l.game) rp
      (rd 0 (setup_game w h n).drop_order i)).2 rp lv (-2147483647) (-l.best_worst) =
      some (G, g3) := hev3
  have hf4 := frame_push_drop_pop l.game g3 _ _ hf3
  have hf0 := frame_push_drop_pop l.game _ rp (rd 0 (setup_game w h n).drop_order i)
    (frame_refl _)
  by_cases hfull : column_full (setup_game w h n) s (rd 0 (setup_game w h n).drop_order i)
  · refine ⟨_, 0, hf0, by omega, by omega, ?_, fun hnf => absurd hfull hnf,
      fun hnf => absurd hfull hnf⟩
    intro _ rand rest
    rw [auto_move_loop]
    simp only [hpdo]
    rw [if_pos]
    rw [hr2, drop_piece_on_full _ _ _ _ hfull]
    simp
  · have hfree : ¬ (drop_piece (push_state l.game) rp
        (rd 0 (setup_game w h n).drop_order i)).1 < 0 := by
      rw [hr2, drop_piece_on_free _ _ _ _ hfull]
      simp
    by_cases hwin : (drop_piece_on (setup_game w h n) s rp
        (rd 0 (setup_game w h n).drop_order i)).2.winner = rp
    · refine ⟨_, 0, hf0, by omega, by omega, fun hf => absurd hf hfull, ?_,
        fun _ hnw => absurd hwin hnw⟩
      intro _ _ rand rest
      rw [auto_move_loop]
      simp only [hpdo]
      rw [if_neg hfree, if_pos (by rw [hcs2]; exact hwin)]
    · refine ⟨pop_state g3, G, hf4, hG1, hG2, fun hf => absurd hf hfull,
        fun _ hw => absurd hw hwin, ?_⟩
      intro _ _
      refine ⟨hGa (by omega), fun hle => le_antisymm (hGb hle) (hGa (by omega)), ?_⟩
      intro rand rest
      rw [auto_move_loop]
      simp only [hpdo]
      rw [if_neg hfree, if_neg (by rw [hcs2]; exact hwin)]
      simp only [INT_MAX, wb]
      rw [hev3]

theorem auto_move_loop_spec {w h n lv : Nat} (rand : Nat → Nat) (rp : Nat) (hrp : rp < 2)
    (hev : Search_ok w h n (lv - 1) 1 rp (fun g a b => evaluate lv g rp lv a b))
    (s : Game_state) (cols : List Nat) :
    ∀ (l : Auto_loop), Good l.game w h n → l.game.depth = 0 → current_state l.game = s →
      (∀ i, i ∈ cols → i < w) →
      -2147483647 ≤ l.best_worst → l.best_worst ≤ 2147483647 →
      ∃ l1, auto_move_loop rand rp lv cols l = some l1 ∧ Frame l.game l1.game ∧
        (0 ≤ l.best_column → 0 ≤ l1.best_column) ∧
        ((l.best_column < 0 → l.best_worst = -2147483647 ∧ l.num_of_equal = 0) →
          l1.best_column < 0 → ∀ i, i ∈ cols →
            column_full (setup_game w h n) s (rd 0 (setup_game w h n).drop_order i)) ∧
        ((∀ i, i ∈ cols →
            ¬ column_full (setup_game w h n) s (rd 0 (setup_game w h n).drop_order i) →
            (drop_piece_on (setup_game w h n) s rp
              (rd 0 (setup_game w h n).drop_order i)).2.winner ≠ rp) →
          l.best_worst ≤ l1.best_worst ∧ l1.best_worst ≤ 2147483647 ∧
          (∀ i, i ∈ cols →
            ¬ column_full (setup_game w h n) s (rd 0 (setup_game w h n).drop_order i) →
            negamax (setup_game w h n) (lv - 1) 1
              (drop_piece_on (setup_game w h n) s rp
                (rd 0 (setup_game w h n).drop_order i)).2 rp ≤ l1.best_worst) ∧
          ((l1.best_column = l.best_column ∧ l1.best_worst = l.best_worst) ∨
            ∃ i, i ∈ cols ∧
              ¬ column_full (setup_game w h n) s (rd 0 (setup_game w h n).drop_order i) ∧
              l1.best_column = ((rd 0 (setup_game w h n).drop_order i : Nat) : Int) ∧
              negamax (setup_game w h n) (lv - 1) 1
                (drop_piece_on (setup_game w h n) s rp
                  (rd 0 (setup_game w h n).drop_order i)).2 rp = l1.best_worst)) := by
  induction cols with
  | nil =>
    intro l hg hd hs hcols hw1 hw2
    exact ⟨l, rfl, frame_refl _, fun h0 => h0, fun _ _ i hi => absurd hi (List.not_mem_nil _),
      fun _ => ⟨le_refl _, hw2, fun i hi => absurd hi (List.not_mem_nil _), Or.inl ⟨rfl, rfl⟩⟩⟩
  | cons i rest ih =>
    intro l hg hd hs hcols hw1 hw2
    have hi : i < w := hcols i (List.mem_cons_self _ _)
    have hrest : ∀ j, j ∈ rest → j < w := fun j hj => hcols j (List.mem_cons_of_mem _ hj)
    obtain ⟨g1, G, hf, hG1, hG2, hfullc, hwinc, hsearch⟩ :=
      auto_move_step rp hrp hev s l i hg hd hs hi hw1 hw2
    obtain ⟨hg1, hcs1, hd1⟩ := good_of_frame hg hf
    have hcomb : ∀ l2 : Auto_loop, l2.game = g1 →
        (0 ≤ l.best_column → 0 ≤ l2.best_column) →
        (¬ column_full (setup_game w h n) s (rd 0 (setup_game w h n).drop_order i) →
          (l.best_column < 0 → l.best_worst = -2147483647 ∧ l.num_of_equal = 0) →
          0 ≤ l2.best_column) →
        (column_full (setup_game w h n) s (rd 0 (setup_game w h n).drop_order i) →
          l2.best_column = l.best_column ∧ l2.best_worst = l.best_worst ∧
          l2.num_of_equal = l.num_of_equal) →
        -2147483647 ≤ l2.best_worst → l2.best_worst ≤ 2147483647 →
        ((¬ column_full (setup_game w h n) s (rd 0 (setup_game w h n).drop_order i) →
            (drop_piece_on (setup_game w h n) s rp
              (rd 0 (setup_game w h n).drop_order i)).2.winner ≠ rp) →
          l.best_worst ≤ l2.best_worst ∧
          (¬ column_full (setup_game w h n) s (rd 0 (setup_game w h n).drop_order i) →
            negamax (setup_game w h n) (lv - 1) 1
              (drop_piece_on (setup_game w h n) s rp
                (rd 0 (setup_game w h n).drop_order i)).2 rp ≤ l2.best_worst) ∧
          ((l2.best_column = l.best_column ∧ l2.best_worst = l.best_worst) ∨
            (¬ column_full (setup_game w h n) s (rd 0 (setup_game w h n).drop_order i) ∧
              l2.best_column = ((rd 0 (setup_game w h n).drop_order i : Nat) : Int) ∧
              negamax (setup_game w h n) (lv - 1) 1
                (drop_piece_on (setup_game w h n) s rp
                  (rd 0 (setup_game w h n).drop_order i)).2 rp = l2.best_worst))) →
        ∃ l1, auto_move_loop rand rp lv rest l2 = some l1 ∧ Frame l.game l1.game ∧
          (0 ≤ l.best_column → 0 ≤ l1.best_column) ∧
          ((l.best_column < 0 → l.best_worst = -2147483647 ∧ l.num_of_equal = 0) →
            l1.best_column < 0 → ∀ j, j ∈ i :: rest →
              column_full (setup_game w h n) s (rd 0 (setup_game w h n).drop_order j)) ∧
          ((∀ j, j ∈ i :: rest →
              ¬ column_full (setup_game w h n) s (rd 0 (setup_game w h n).drop_order j) →
              (drop_piece_on (setup_game w h n) s rp
                (rd 0 (setup_game w h n).drop_order j)).2.winner ≠ rp) →
            l.best_worst ≤ l1.best_worst ∧ l1.best_worst ≤ 2147483647 ∧
            (∀ j, j ∈ i :: rest →
              ¬ column_full (setup_game w h n) s (rd 0 (setup_game w h n).drop_order j) →
              negamax (setup_game w h n) (lv - 1) 1
                (drop_piece_on (setup_game w h n) s rp
                  (rd 0 (setup_game w h n).drop_order j)).2 rp ≤ l1.best_worst) ∧
            ((l1.best_column = l.best_column ∧ l1.best_worst = l.best_worst) ∨
              ∃ j, j ∈ i :: rest ∧
                ¬ column_full (setup_game w h n) s (rd 0 (setup_game w h n).drop_order j) ∧
                l1.best_column = ((rd 0 (setup_game w h n).drop_order j : Nat) : Int) ∧
                negamax (setup_game w h n) (lv - 1) 1
                  (drop_piece_on (setup_game w h n) s rp
                    (rd 0 (setup_game w h n).drop_order j)).2 rp = l1.best_worst)) := by
      intro l2 hgame hA hB hB1 hC1 hC2 hD
      obtain ⟨l1, hl1, hf1, hP, hQ, hR⟩ := ih l2 (by rw [hgame]; exact hg1)
        (by rw [hgame, hd1, hd]) (by rw [hgame, hcs1, hs]) hrest hC1 hC2
      rw [hgame] at hf1
      refine ⟨l1, hl1, frame_trans hf hf1, fun h0 => hP (hA h0), ?_, ?_⟩
      · intro hq hneg j hj
        by_cases hfull : column_full (setup_game w h n) s
            (rd 0 (setup_game w h n).drop_order i)
        · obtain ⟨b1, b2, b3⟩ := hB1 hfull
          rcases List.mem_cons.mp hj with e | hj1
          · rw [e]; exact hfull
          · exact hQ (by rw [b1, b2, b3]; exact hq) hneg j hj1
        · have := hP (hB hfull hq)
          omega
      · intro hnw
        obtain ⟨d1, d2, d3⟩ := hD (hnw i (List.mem_cons_self _ _))
        obtain ⟨r1, r2, r3, r4⟩ := hR (fun j hj => hnw j (List.mem_cons_of_mem _ hj))
        refine ⟨by omega, r2, ?_, ?_⟩
        · intro j hj hnf
          rcases List.mem_cons.mp hj with e | hj1
          · rw [e] at hnf ⊢
            have := d2 hnf
            omega
          · exact r3 j hj1 hnf
        · rcases r4 with ⟨r4a, r4b⟩ | ⟨j, hj, hnf, r4a, r4b⟩
          · rcases d3 with ⟨d3a, d3b⟩ | ⟨hnf, d3a, d3b⟩
            · exact Or.inl ⟨by rw [r4a, d3a], by rw [r4b, d3b]⟩
            · exact Or.inr ⟨i, List.mem_cons_self _ _, hnf, by rw [r4a, d3a],
                by rw [r4b, d3b]⟩
          · exact Or.inr ⟨j, List.mem_cons_of_mem _ hj, hnf, r4a, r4b⟩
    by_cases hfull : column_full (setup_game w h n) s (rd 0 (setup_game w h n).drop_order i)
    · rw [hfullc hfull rand rest]
      exact hcomb _ rfl (fun h0 => h0) (fun hnf => absurd hfull hnf)
        (fun _ => ⟨rfl, rfl, rfl⟩) hw1 hw2
        (fun _ => ⟨le_refl _, fun hnf => absurd hfull hnf, Or.inl ⟨rfl, rfl⟩⟩)
    · by_cases hwin : (drop_piece_on (setup_game w h n) s rp
          (rd 0 (setup_game w h n).drop_order i)).2.winner = rp
      · rw [hwinc hfull hwin rand rest]
        refine ⟨_, rfl, hf, fun _ => Int.natCast_nonneg _, ?_, ?_⟩
        · intro _ hneg
          have : (0 : Int) ≤ ((rd 0 (setup_game w h n).drop_order i : Nat) : Int) :=
            Int.natCast_nonneg _
          simp only at hneg
          omega
        · intro hnw
          exact absurd hwin (hnw i (List.mem_cons_self _ _) hfull)
      · obtain ⟨hV1, hV2, hloop⟩ := hsearch hfull hwin
        rw [hloop rand rest]
        have hnn : (0 : Int) ≤ ((rd 0 (setup_game w h n).drop_order i : Nat) : Int) :=
          Int.natCast_nonneg _
        by_cases hgt : G > l.best_worst
        · rw [if_pos hgt]
          have hVG := hV2 (by omega)
          exact hcomb _ rfl (fun _ => hnn) (fun _ _ => hnn) (fun hf => absurd hf hfull)
            hG1 hG2
            (fun _ => ⟨by simp only; omega, fun _ => by simp only; omega,
              Or.inr ⟨hfull, rfl, hVG.symm⟩⟩)
        · rw [if_neg hgt]
          by_cases heq : G = l.best_worst
          · rw [if_pos heq]
            have hVG := hV2 (by omega)
            refine hcomb _ rfl ?_ ?_ (fun hf => absurd hf hfull) hw1 hw2 ?_
            · intro h0
              simp only
              split_ifs
              · exact hnn
              · exact h0
            · intro _ hq
              simp only
              by_cases h0 : 0 ≤ l.best_column
              · split_ifs
                · exact hnn
                · exact h0
              · rw [(hq (by omega)).2]
                simp only [Nat.zero_add, Nat.mod_one, if_true]
                exact hnn
            · intro _
              refine ⟨le_refl _, fun _ => by simp only; omega, ?_⟩
              simp only
              split_ifs
              · exact Or.inr ⟨hfull, rfl, by omega⟩
              · exact Or.inl ⟨rfl, trivial⟩
          · rw [if_neg heq]
            refine hcomb _ rfl (fun h0 => h0) ?_ (fun hf => absurd hf hfull) hw1 hw2
              (fun _ => ⟨le_refl _, fun _ => by simp only; omega, Or.inl ⟨rfl, rfl⟩⟩)
            intro _ hq
            simp only
            by_contra h0
            have := (hq (by omega)).1
            omega

theorem auto_move_loop_choice {w h n lv : Nat} (rp : Nat) (hrp : rp < 2)
    (hev : Search_ok w h n (lv - 1) 1 rp (fun g a b => evaluate lv g rp lv a b))
    (s : Game_state) (cols : List Nat) :
    ∀ (l : Auto_loop) (t : Int), Good l.game w h n → l.game.depth = 0 →
      current_state l.game = s → (∀ i, i ∈ cols → i < w) →
      -2147483647 ≤ l.best_worst → l.best_worst ≤ 2147483647 →
      (∀ i, i ∈ cols →
        ¬ column_full (setup_game w h n) s (rd 0 (setup_game w h n).drop_order i) →
        (drop_piece_on (setup_game w h n) s rp
          (rd 0 (setup_game w h n).drop_order i)).2.winner ≠ rp) →
      ((l.best_column = t ∧ 1 ≤ l.num_of_equal ∧ ∀ j, j ∈ cols →
          ¬ column_full (setup_game w h n) s (rd 0 (setup_game w h n).drop_order j) →
          negamax (setup_game w h n) (lv - 1) 1
            (drop_piece_on (setup_game w h n) s rp
              (rd 0 (setup_game w h n).drop_order j)).2 rp ≤ l.best_worst) ∨
        (∃ i0, i0 ∈ cols ∧
          ¬ column_full (setup_game w h n) s (rd 0 (setup_game w h n).drop_order i0) ∧
          t = ((rd 0 (setup_game w h n).drop_order i0 : Nat) : Int) ∧
          l.best_worst ≤ negamax (setup_game w h n) (lv - 1) 1
            (drop_piece_on (setup_game w h n) s rp
              (rd 0 (setup_game w h n).drop_order i0)).2 rp ∧
          ∀ j, j ∈ cols →
            ¬ column_full (setup_game w h n) s (rd 0 (setup_game w h n).drop_order j) →
            negamax (setup_game w h n) (lv - 1) 1
              (drop_piece_on (setup_game w h n) s rp
                (rd 0 (setup_game w h n).drop_order j)).2 rp ≤
            negamax (setup_game w h n) (lv - 1) 1
              (drop_piece_on (setup_game w h n) s rp
                (rd 0 (setup_game w h n).drop_order i0)).2 rp)) →
      ∃ rand : Nat → Nat, ∀ rand2 : Nat → Nat,
        (∀ k, l.rand_calls ≤ k → rand2 k = rand k) →
        ∃ l1, auto_move_loop rand2 rp lv cols l = some l1 ∧ l1.best_column = t ∧
          Frame l.game l1.game := by
  induction cols with
  | nil =>
    intro l t hg hd hs hcols hw1 hw2 hnw hH
    rcases hH with ⟨e, _, _⟩ | ⟨i0, hi0, _⟩
    · exact ⟨fun _ => 0, fun rand2 _ => ⟨l, rfl, e, frame_refl _⟩⟩
    · exact absurd hi0 (List.not_mem_nil _)
  | cons i rest ih =>
    intro l t hg hd hs hcols hw1 hw2 hnw hH
    have hi : i < w := hcols i (List.mem_cons_self _ _)
    have hrest : ∀ j, j ∈ rest → j < w := fun j hj => hcols j (List.mem_cons_of_mem _ hj)
    have hnwrest : ∀ j, j ∈ rest →
        ¬ column_full (setup_game w h n) s (rd 0 (setup_game w h n).drop_order j) →
        (drop_piece_on (setup_game w h n) s rp
          (rd 0 (setup_game w h n).drop_order j)).2.winner ≠ rp :=
      fun j hj => hnw j (List.mem_cons_of_mem _ hj)
    obtain ⟨g1, G, hf, hG1, hG2, hfullc, hwinc, hsearch⟩ :=
      auto_move_step rp hrp hev s l i hg hd hs hi hw1 hw2
    obtain ⟨hg1, hcs1, hd1⟩ := good_of_frame hg hf
    have hnext : ∀ (l2 : Auto_loop) (x : Nat), l2.game = g1 →
        l.rand_calls ≤ l2.rand_calls →
        -2147483647 ≤ l2.best_worst → l2.best_worst ≤ 2147483647 →
        (∀ rand2 : Nat → Nat, (l.rand_calls < l2.rand_calls → rand2 l.rand_calls = x) →
          auto_move_loop rand2 rp lv (i :: rest) l = auto_move_loop rand2 rp lv rest l2) →
        ((l2.best_column = t ∧ 1 ≤ l2.num_of_equal ∧ ∀ j, j ∈ rest →
            ¬ column_full (setup_game w h n) s (rd 0 (setup_game w h n).drop_order j) →
            negamax (setup_game w h n) (lv - 1) 1
              (drop_piece_on (setup_game w h n) s rp
                (rd 0 (setup_game w h n).drop_order j)).2 rp ≤ l2.best_worst) ∨
          (∃ i0, i0 ∈ rest ∧
            ¬ column_full (setup_game w h n) s (rd 0 (setup_game w h n).drop_order i0) ∧
            t = ((rd 0 (setup_game w h n).drop_order i0 : Nat) : Int) ∧
            l2.best_worst ≤ negamax (setup_game w h n) (lv - 1) 1
              (drop_piece_on (setup_game w h n) s rp
                (rd 0 (setup_game w h n).drop_order i0)).2 rp ∧
            ∀ j, j ∈ rest →
              ¬ column_full (setup_game w h n) s (rd 0 (setup_game w h n).drop_order j) →
              negamax (setup_game w h n) (lv - 1) 1
                (drop_piece_on (setup_game w h n) s rp
                  (rd 0 (setup_game w h n).drop_order j)).2 rp ≤
              negamax (setup_game w h n) (lv - 1) 1
                (drop_piece_on (setup_game w h n) s rp
                  (rd 0 (setup_game w h n).drop_order i0)).2 rp)) →
        ∃ rand : Nat → Nat, ∀ rand2 : Nat → Nat,
          (∀ k, l.rand_calls ≤ k → rand2 k = rand k) →
          ∃ l1, auto_move_loop rand2 rp lv (i :: rest) l = some l1 ∧ l1.best_column = t ∧
            Frame l.game l1.game := by
      intro l2 x hgame hcalls hC1 hC2 hstep hH2
      obtain ⟨rand1, hrand1⟩ := ih l2 t (by rw [hgame]; exact hg1) (by rw [hgame, hd1, hd])
        (by rw [hgame, hcs1, hs]) hrest hC1 hC2 hnwrest hH2
      refine ⟨fun k => if k < l2.rand_calls then x else rand1 k, ?_⟩
      intro rand2 hag
      have hx : l.rand_calls < l2.rand_calls → rand2 l.rand_calls = x := by
        intro hlt
        rw [hag _ (le_refl _)]
        simp only [hlt, if_true]
      rw [hstep rand2 hx]
      obtain ⟨l1, e1, e2, e3⟩ := hrand1 rand2 (by
        intro k hk
        rw [hag k (by omega)]
        simp only [show ¬ k < l2.rand_calls by omega, if_false])
      rw [hgame] at e3
      exact ⟨l1, e1, e2, frame_trans hf e3⟩
    have h16 : ∀ m : Nat, 1 ≤ m → (16 >>> 4) % (m + 1) ≠ 0 := by
      intro m hm
      have e : (16 >>> 4 : Nat) = 1 := by decide
      rw [e, Nat.mod_eq_of_lt (by omega)]
      omega
    have h0 : ∀ m : Nat, (0 >>> 4) % (m + 1) = 0 := by
      intro m
      simp
    by_cases hfull : column_full (setup_game w h n) s (rd 0 (setup_game w h n).drop_order i)
    · refine hnext { l with game := g1 } 0 rfl (le_refl _) hw1 hw2
        (fun rand2 _ => hfullc hfull rand2 rest) ?_
      rcases hH with ⟨e, hne, hall⟩ | ⟨i0, hi0, hnf, et, hb, hall⟩
      · exact Or.inl ⟨e, hne, fun j hj => hall j (List.mem_cons_of_mem _ hj)⟩
      · rcases List.mem_cons.mp hi0 with e | hi1
        · rw [e] at hnf
          exact absurd hfull hnf
        · exact Or.inr ⟨i0, hi1, hnf, et, hb, fun j hj => hall j (List.mem_cons_of_mem _ hj)⟩
    · have hwin := hnw i (List.mem_cons_self _ _) hfull
      obtain ⟨hV1, hV2, hloop⟩ := hsearch hfull hwin
      rcases hH with ⟨e, hne, hall⟩ | ⟨i0, hi0, hnf, et, hb, hall⟩
      · -- the target is the best column so far
        have hVi := hall i (List.mem_cons_self _ _) hfull
        have hallrest := fun j hj => hall j (List.mem_cons_of_mem i hj)
        by_cases hgt : G > l.best_worst
        · have := hV2 (by omega)
          omega
        · by_cases heq : G = l.best_worst
          · refine hnext
                { l with goodness := G, num_of_equal := l.num_of_equal + 1,
                         rand_calls := l.rand_calls + 1, best_column := t, game := g1 } 16 rfl
              (by simp) hw1 hw2 ?_ (Or.inl ⟨rfl, by simp, hallrest⟩)
            intro rand2 hx
            rw [hloop rand2 rest, if_neg hgt, if_pos heq, hx (by simp),
              if_neg (h16 _ hne), e]
          · refine hnext { l with goodness := G, game := g1 } 0 rfl (le_refl _) hw1 hw2 ?_
              (Or.inl ⟨e, hne, hallrest⟩)
            intro rand2 _
            rw [hloop rand2 rest, if_neg hgt, if_neg heq]
      · rcases List.mem_cons.mp hi0 with e | hi1
        · -- the target is the column of this pass
          rw [e] at hnf et hb hall
          have hGV := hV2 (by omega)
          have hallrest := fun j hj => hall j (List.mem_cons_of_mem i hj)
          by_cases hgt : G > l.best_worst
          · refine hnext
                { l with goodness := G, best_worst := G, best_column := t,
                         num_of_equal := 1, game := g1 } 0 rfl (le_refl _) hG1 hG2 ?_
              (Or.inl ⟨rfl, le_refl _, fun j hj hnfj => by
                have := hallrest j hj hnfj
                simp only
                omega⟩)
            intro rand2 _
            rw [hloop rand2 rest, if_pos hgt, et]
          · have heq : G = l.best_worst := by omega
            refine hnext
                { l with goodness := G, num_of_equal := l.num_of_equal + 1,
                         rand_calls := l.rand_calls + 1, best_column := t, game := g1 } 0 rfl
              (by simp) hw1 hw2 ?_ (Or.inl ⟨rfl, by simp, fun j hj hnfj => by
                have := hallrest j hj hnfj
                simp only
                omega⟩)
            intro rand2 hx
            rw [hloop rand2 rest, if_neg hgt, if_pos heq, hx (by simp), if_pos (h0 _), et]
        · -- the target comes later
          have hVi := hall i (List.mem_cons_self _ _) hfull
          have hallrest := fun j hj => hall j (List.mem_cons_of_mem i hj)
          by_cases hgt : G > l.best_worst
          · have hGV := hV2 (by omega)
            refine hnext
                { l with goodness := G, best_worst := G,
                         best_column := ((rd 0 (setup_game w h n).drop_order i : Nat) : Int),
                         num_of_equal := 1, game := g1 } 0 rfl (le_refl _) hG1 hG2 ?_
              (Or.inr ⟨i0, hi1, hnf, et, by simp only; omega, hallrest⟩)
            intro rand2 _
            rw [hloop rand2 rest, if_pos hgt]
          · by_cases heq : G = l.best_worst
            · refine hnext
                  { l with goodness := G, num_of_equal := l.num_of_equal + 1,
                           rand_calls := l.rand_calls + 1,
                           best_column := ((rd 0 (setup_game w h n).drop_order i : Nat) : Int),
                           game := g1 } 0 rfl (by simp) hw1 hw2 ?_
                (Or.inr ⟨i0, hi1, hnf, et, hb, hallrest⟩)
              intro rand2 hx
              rw [hloop rand2 rest, if_neg hgt, if_pos heq, hx (by simp), if_pos (h0 _)]
            · refine hnext { l with goodness := G, game := g1 } 0 rfl (le_refl _) hw1 hw2 ?_
                (Or.inr ⟨i0, hi1, hnf, et, hb, hallrest⟩)
              intro rand2 _
              rw [hloop rand2 rest, if_neg hgt, if_neg heq]

theorem good_move_in_progress {g : Game} {w h n : Nat} (hg : Good g w h n) :
    Good { g with move_in_progress := true } w h n :=
  ⟨hg.hw, hg.hh, hg.hn, hg.hW, hg.hst, hg.hstack, hg.hplayed⟩

theorem good_total_size {g : Game} {w h n : Nat} (hg : Good g w h n) :
    g.total_size = w * h := (statics_fields hg.hst).2.2.1

theorem board_full_iff_order {g : Game} {w h n : Nat} (hg : Good g w h n) :
    board_full g (current_state g) ↔
      ∀ i, i ∈ List.range w →
        column_full (setup_game w h n) (current_state g)
          (rd 0 (setup_game w h n).drop_order i) := by
  obtain ⟨e1, _, _, _, _, _, _, _, hdo⟩ := statics_fields hg.hst
  have ex : (setup_game w h n).size_x = w := rfl
  rw [board_full_iff_columns]
  constructor
  · intro hall i hi
    rw [← column_full_setup hg]
    exact hall _ (by rw [e1, ex]; exact (setup_game_drop_order w h n).2 i (List.mem_range.mp hi))
  · intro hall c hc
    obtain ⟨i, hi, e⟩ := good_order_onto hg c hc
    rw [e1, ex] at hi
    rw [hdo] at e
    have := hall i (List.mem_range.mpr hi)
    rw [e, ← column_full_setup hg] at this
    exact this

theorem c4_auto_move_search (g : Game) (rand : Nat → Nat) (player level column : Int)
    (row : Option Int) (hgp : g.game_in_progress = true) (hm : g.move_in_progress = false)
    (hl1 : 1 ≤ level) (hl2 : level ≤ 20) (hns : no_shortcut g) :
    c4_auto_move g rand player level column row =
      match auto_move_loop rand (real_player player) level.toNat (List.range g.size_x)
          { best_column := -1, goodness := 0, best_worst := -INT_MAX, num_of_equal := 0,
            rand_calls := 0, game := { g with move_in_progress := true } } with
      | none => none
      | some l =>
        if l.best_column ≥ 0 then
          some { moved := true, column := l.best_column,
                 row := row.map (fun _ =>
                   (drop_piece { l.game with move_in_progress := false } (real_player player)
                     l.best_column.toNat).1),
                 game := (drop_piece { l.game with move_in_progress := false }
                   (real_player player) l.best_column.toNat).2 }
        else some { moved := false, column := column, row := row,
                    game := { l.game with move_in_progress := false } } := by
  unfold c4_auto_move
  have hc : g.game_in_progress = true ∧ ¬ g.move_in_progress = true ∧ level ≥ 1 ∧
      level ≤ (C4_MAX_LEVEL : Int) := by
    refine ⟨hgp, by simp [hm], hl1, ?_⟩
    simp [C4_MAX_LEVEL]; exact hl2
  obtain ⟨hns1, hns2⟩ := hns
  rw [if_pos hc, if_neg (fun hf => hns1 ⟨by omega, hf.2.1, hf.2.2.1, hf.2.2.2.1⟩), if_neg hns2]
  try rfl

/-! ## When `c4_auto_move` fails -/

theorem column_score_setup {g : Game} {w h n : Nat} (hg : Good g w h n) (lv rp c : Nat) :
    column_score g lv rp c =
      negamax (setup_game w h n) (lv - 1) 1
        (drop_piece_on (setup_game w h n) (current_state g) rp c).2 rp := by
  unfold column_score
  rw [negamax_congr hg.hst, drop_piece_on_congr hg.hst]

/-- C25: in every state and for each player `p` in `{0, 1}`, `goodness_of(p)` is
`score[p] - score[other(p)]` and equals `-goodness_of(other(p))`, both taken in `int`
arithmetic; the two are opposite integers whenever `goodness_of(other(p))` is not
`INT_MIN`. -/
theorem goodness_is_zero_sum (g : Game) (p : Nat) (hp : p < 2) :
    goodness_of g p =
      wrap32 (rd 0 (current_state g).score p - rd 0 (current_state g).score (other p)) ∧
    goodness_of g p = wrap32 (-(goodness_of g (other p))) ∧
    (goodness_of g (other p) ≠ -2147483648 → goodness_of g p = -(goodness_of g (other p))) := by
  have key : goodness_of g p = wrap32 (-(goodness_of g (other p))) := by
    unfold goodness_of
    rw [other_other hp]
    apply wrap32_congr
    have h := (wrap32_modEq (rd 0 (current_state g).score (other p) -
      rd 0 (current_state g).score p)).neg
    refine Int.ModEq.trans ?_ h.symm
    apply modEq_of_eq
    ring
  refine ⟨rfl, key, ?_⟩
  intro hne
  rw [key]
  have hr := wrap32_range (rd 0 (current_state g).score (other (other p)) -
    rd 0 (current_state g).score (other p))
  have hr1 : goodness_of g (other p) = wrap32 (rd 0 (current_state g).score (other p) -
      rd 0 (current_state g).score (other (other p))) := rfl
  have hr2 := wrap32_range (rd 0 (current_state g).score (other p) -
      rd 0 (current_state g).score (other (other p)))
  rw [← hr1] at hr2
  exact wrap32_of_range _ (by omega) (by omega)

set_option maxRecDepth 100000 in
/-- The statement of `goodness_is_zero_sum` for player 0 on the 7x6 board with runs of 4
after player 0 moved in the columns 0, 1, 2 and 3. -/
theorem goodness_is_zero_sum_witness :
    goodness_of game_7x6_row 0 =
      wrap32 (rd 0 (current_state game_7x6_row).score 0 -
        rd 0 (current_state game_7x6_row).score (other 0)) ∧
    goodness_of game_7x6_row 0 = wrap32 (-(goodness_of game_7x6_row (other 0))) ∧
    (goodness_of game_7x6_row (other 0) ≠ -2147483648 →
      goodness_of game_7x6_row 0 = -(goodness_of game_7x6_row (other 0))) :=
  goodness_is_zero_sum game_7x6_row 0 (by decide)

/-- C21: in every state that the game or a search reaches, `evaluate(player, level,
alpha, beta)` called at depth `d` returns at once, with the globals as they are (one
unit of fuel suffices, so no recursive call is made): `INT_MAX - d` when
`winner == player`; `-(INT_MAX - d)` when `winner == other(player)`; `0` when there is
no winner and the board is full; and `goodness_of(player)`, which is
`score[player] - score[other(player)]` as an `int`, when there is no winner, the board
is not full and `level == d`. -/
theorem evaluate_base_cases (g : Game) (hg : Speculative g) (player : Nat) (hp : player < 2)
    (level : Nat) (alpha beta : Int) (fuel : Nat) :
    ((current_state g).winner = player →
      evaluate (fuel + 1) g player level alpha beta = some (INT_MAX - (g.depth : Int), g)) ∧
    ((current_state g).winner = other player →
      evaluate (fuel + 1) g player level alpha beta =
        some (-(INT_MAX - (g.depth : Int)), g)) ∧
    ((current_state g).winner = C4_NONE → board_full g (current_state g) →
      evaluate (fuel + 1) g player level alpha beta = some (0, g)) ∧
    ((current_state g).winner = C4_NONE → ¬ board_full g (current_state g) →
      level = g.depth →
      evaluate (fuel + 1) g player level alpha beta = some (goodness_of g player, g) ∧
      goodness_of g player =
        wrap32 (rd 0 (current_state g).score player -
          rd 0 (current_state g).score (other player)) ∧
      (Small g → goodness_of g player =
        rd 0 (current_state g).score player -
          rd 0 (current_state g).score (other player))) := by
  obtain ⟨w, h, n, hgood⟩ := speculative_good g hg
  have hcount := board_full_iff_count hgood
  have hne : other player ≠ player := other_ne hp
  have hop : other player < 2 := other_lt hp
  have hnone : (current_state g).winner = C4_NONE →
      (current_state g).winner ≠ player ∧ (current_state g).winner ≠ other player := by
    intro hw
    rw [hw]
    unfold C4_NONE
    constructor <;> omega
  refine ⟨?_, ?_, ?_, ?_⟩
  · intro hw
    unfold evaluate
    rw [if_pos hw]
  · intro hw
    unfold evaluate
    rw [if_neg (by rw [hw]; exact hne), if_pos hw]
  · intro hw hfull
    unfold evaluate
    rw [if_neg (hnone hw).1, if_neg (hnone hw).2, if_pos (hcount.mp hfull)]
  · intro hw hnf hl
    refine ⟨?_, rfl, ?_⟩
    · unfold evaluate
      rw [if_neg (hnone hw).1, if_neg (hnone hw).2, if_neg (fun hc => hnf (hcount.mpr hc)),
        if_pos hl]
    · intro hs
      obtain ⟨a1, a2⟩ := score_range hgood hs player hp
      obtain ⟨b1, b2⟩ := score_range hgood hs (other player) hop
      unfold goodness_of
      exact wrap32_of_range _ (by omega) (by omega)

set_option maxRecDepth 100000 in
/-- The statement of `evaluate_base_cases` for player 0 at level 1 at the first call of
`evaluate` by `c4_auto_move(0, 1, ..)` on the 7x6 board after four moves in column 3,
where `move_in_progress` is true, the depth is 1 and `evaluate` returns
`goodness_of(0)`. -/
theorem evaluate_base_cases_witness :
    game_7x6_search.move_in_progress = true ∧ game_7x6_search.depth = 1 ∧
    (current_state game_7x6_search).winner = C4_NONE ∧
    ¬ board_full game_7x6_search (current_state game_7x6_search) ∧
    evaluate 1 game_7x6_search 0 1 (-INT_MAX) INT_MAX =
      some (goodness_of game_7x6_search 0, game_7x6_search) ∧
    (((current_state game_7x6_search).winner = 0 →
      evaluate (0 + 1) game_7x6_search 0 1 (-INT_MAX) INT_MAX =
        some (INT_MAX - (game_7x6_search.depth : Int), game_7x6_search)) ∧
    ((current_state game_7x6_search).winner = other 0 →
      evaluate (0 + 1) game_7x6_search 0 1 (-INT_MAX) INT_MAX =
        some (-(INT_MAX - (game_7x6_search.depth : Int)), game_7x6_search)) ∧
    ((current_state game_7x6_search).winner = C4_NONE →
      board_full game_7x6_search (current_state game_7x6_search) →
      evaluate (0 + 1) game_7x6_search 0 1 (-INT_MAX) INT_MAX = some (0, game_7x6_search)) ∧
    ((current_state game_7x6_search).winner = C4_NONE →
      ¬ board_full game_7x6_search (current_state game_7x6_search) →
      1 = game_7x6_search.depth →
      evaluate (0 + 1) game_7x6_search 0 1 (-INT_MAX) INT_MAX =
        some (goodness_of game_7x6_search 0, game_7x6_search) ∧
      goodness_of game_7x6_search 0 =
        wrap32 (rd 0 (current_state game_7x6_search).score 0 -
          rd 0 (current_state game_7x6_search).score (other 0)) ∧
      (Small game_7x6_search → goodness_of game_7x6_search 0 =
        rd 0 (current_state game_7x6_search).score 0 -
          rd 0 (current_state game_7x6_search).score (other 0)))) :=
  ⟨by decide, by decide, by decide, by decide,
   ((evaluate_base_cases game_7x6_search speculative_7x6_search 0 (by decide) 1
      (-INT_MAX) INT_MAX 0).2.2.2 (by decide) (by decide) (by decide)).1,
   evaluate_base_cases game_7x6_search speculative_7x6_search 0 (by decide) 1
    (-INT_MAX) INT_MAX 0⟩

/-! ## What a search leaves behind -/

/-- C27: whenever `evaluate(player, level, alpha, beta)` returns, `depth`, the static
description and every slot of `state_stack` up to the calling depth are as at the
call, so the current state (board, both `score_array` arrays, scores, winner,
`num_of_pieces`) is as at the call; and whenever the loop of `c4_auto_move` over the
columns ends, `depth` and the slots up to it, slot 0 among them, are as before the
loop. -/
theorem search_restores_the_state :
    (∀ (fuel : Nat) (g : Game) (player level : Nat) (alpha beta : Int) (r : Int × Game),
      evaluate fuel g player level alpha beta = some r →
      r.2.depth = g.depth ∧ current_state r.2 = current_state g ∧
      statics r.2 = statics g ∧
      ∀ i, i ≤ g.depth → rd default r.2.state_stack i = rd default g.state_stack i) ∧
    (∀ (rand : Nat → Nat) (rp level : Nat) (cols : List Nat) (l l1 : Auto_loop),
      auto_move_loop rand rp level cols l = some l1 →
      l1.game.depth = l.game.depth ∧ current_state l1.game = current_state l.game ∧
      statics l1.game = statics l.game ∧
      rd default l1.game.state_stack 0 = rd default l.game.state_stack 0 ∧
      ∀ i, i ≤ l.game.depth →
        rd default l1.game.state_stack i = rd default l.game.state_stack i) := by
  constructor
  · intro fuel g player level alpha beta r h
    obtain ⟨a, _, c, _, e⟩ := evaluate_frame fuel g player level alpha beta r h
    refine ⟨c, ?_, a, e⟩
    unfold current_state
    rw [c]
    exact e _ (le_refl _)
  · intro rand rp level cols l l1 h
    obtain ⟨⟨a, _, c, _, e⟩, _⟩ := auto_move_loop_frame rand rp level cols l l1 h
    refine ⟨c, ?_, a, e 0 (Nat.zero_le _), e⟩
    unfold current_state
    rw [c]
    exact e _ (le_refl _)

set_option maxRecDepth 1000000 in
/-- The statement of `search_restores_the_state` for a call of `evaluate` at level 2
during a search on the 7x6 board, which returns. -/
theorem search_restores_the_state_witness :
    evaluate 2 game_7x6_probe 0 2 (-INT_MAX) INT_MAX =
      some ((evaluate 2 game_7x6_probe 0 2 (-INT_MAX) INT_MAX).getD (0, game_7x6_probe)) ∧
    ((evaluate 2 game_7x6_probe 0 2 (-INT_MAX) INT_MAX).getD (0, game_7x6_probe)).2.depth =
      game_7x6_probe.depth ∧
    current_state
      ((evaluate 2 game_7x6_probe 0 2 (-INT_MAX) INT_MAX).getD (0, game_7x6_probe)).2 =
      current_state game_7x6_probe :=
  ⟨by decide,
   ((search_restores_the_state.1 2 game_7x6_probe 0 2 (-INT_MAX) INT_MAX _ (by decide)).1),
   ((search_restores_the_state.1 2 game_7x6_probe 0 2 (-INT_MAX) INT_MAX _ (by decide)).2.1)⟩

/-! ## Gravity -/

/-- C30: in every state that the game or a search reaches, every column is free of
gaps: below an occupied cell every cell is occupied. Hence the top cell
`board[x][size_y - 1]` is occupied exactly when every cell of column `x` is, which is
exactly when `drop_piece(player, x)` fails, returning `-1`. -/
theorem columns_are_gap_free (g : Game) (hg : Speculative g) :
    (∀ x y, rd2 C4_NONE (current_state g).board x y ≠ C4_NONE →
      ∀ y1, y1 < y → rd2 C4_NONE (current_state g).board x y1 ≠ C4_NONE) ∧
    (∀ x, rd2 C4_NONE (current_state g).board x (g.size_y - 1) ≠ C4_NONE ↔
      column_full g (current_state g) x) ∧
    (∀ x player, rd2 C4_NONE (current_state g).board x (g.size_y - 1) ≠ C4_NONE ↔
      (drop_piece g player x).1 < 0) ∧
    (∀ x player, (drop_piece g player x).1 < 0 ↔ (drop_piece g player x).1 = -1) := by
  obtain ⟨w, h, n, hgood⟩ := speculative_good g hg
  have hdrop : ∀ x player, ((drop_piece g player x).1 < 0 ↔
      column_full g (current_state g) x) ∧
      ((drop_piece g player x).1 < 0 ↔ (drop_piece g player x).1 = -1) := by
    intro x player
    have e : (drop_piece g player x).1 = (drop_piece_on g (current_state g) player x).1 := rfl
    rw [e]
    by_cases hfull : column_full g (current_state g) x
    · rw [drop_piece_on_full g _ player x hfull]
      simp [hfull]
    · rw [drop_piece_on_free g _ player x hfull]
      simp only [hfull, iff_false, not_lt]
      constructor
      · exact Int.natCast_nonneg _
      · constructor
        · intro hlt
          have := Int.natCast_nonneg
            (drop_row (rd [] (current_state g).board x) g.size_y g.size_y 0)
          omega
        · intro heq
          have := Int.natCast_nonneg
            (drop_row (rd [] (current_state g).board x) g.size_y g.size_y 0)
          omega
  refine ⟨(good_fill hgood).gravity, fun x => top_cell_iff_full hgood x, ?_, ?_⟩
  · intro x player
    rw [top_cell_iff_full hgood x]
    exact (hdrop x player).1.symm
  · intro x player
    exact (hdrop x player).2

set_option maxRecDepth 100000 in
/-- The statement of `columns_are_gap_free` on the 7x6 board with runs of 4 after
player 0 moved in the columns 0, 1, 2 and 3. -/
theorem columns_are_gap_free_witness :
    (∀ x y, rd2 C4_NONE (current_state game_7x6_row).board x y ≠ C4_NONE →
      ∀ y1, y1 < y → rd2 C4_NONE (current_state game_7x6_row).board x y1 ≠ C4_NONE) ∧
    (∀ x, rd2 C4_NONE (current_state game_7x6_row).board x (game_7x6_row.size_y - 1) ≠
        C4_NONE ↔ column_full game_7x6_row (current_state game_7x6_row) x) ∧
    (∀ x player,
      rd2 C4_NONE (current_state game_7x6_row).board x (game_7x6_row.size_y - 1) ≠ C4_NONE ↔
      (drop_piece game_7x6_row player x).1 < 0) ∧
    (∀ x player, (drop_piece game_7x6_row player x).1 < 0 ↔
      (drop_piece game_7x6_row player x).1 = -1) :=
  columns_are_gap_free game_7x6_row (Speculative.real _ reachable_7x6_row)

/-! ## The order in which the columns are tried -/

theorem setup_game_drop_order_eq (w h n : Nat) :
    (setup_game w h n).drop_order =
      (List.range w).map fun k => (drop_column w (1 + k)).toNat := by
  obtain ⟨l1, r1⟩ := build_drop_order_spec w w 1 (((w : Int) - 1) / 2)
    (by unfold drop_column; simp)
  have hlen : (setup_game w h n).drop_order.length = w := l1
  apply List.ext_getElem
  · rw [hlen, List.length_map, List.length_range]
  · intro k hk1 hk2
    rw [hlen] at hk1
    have e : rd 0 (setup_game w h n).drop_order k = (drop_column w (1 + k)).toNat := r1 k hk1
    rw [rd_eq_getElem _ _ _ (by rw [hlen]; exact hk1)] at e
    rw [List.getElem_map, List.getElem_range]
    exact e

theorem drop_column_closed (w k : Nat) (hk : k < w) :
    (drop_column w (1 + k)).toNat =
      if k % 2 = 1 then (w - 1) / 2 + (k + 1) / 2 else (w - 1) / 2 - k / 2 := by
  unfold drop_column
  split_ifs with h1 h2 h2 <;> omega

/-- C29: after `c4_new_game(width, height, num)` the array `drop_order` is a permutation
of the columns `0 .. size_x - 1`. Its first entry is the center column
`(size_x - 1) / 2`; entry `k` is `(k + 1) / 2` columns right of the center for odd `k`
and `k / 2` columns left of it for even `k`, so the entries alternate right and left of
the center and their distance from the center never decreases. -/
theorem drop_order_is_center_out (g0 g : Game) (width height num : Int)
    (h : c4_new_game g0 width height num = some g) :
    List.Perm g.drop_order (List.range g.size_x) ∧
    rd 0 g.drop_order 0 = (g.size_x - 1) / 2 ∧
    (∀ k, k < g.size_x → k % 2 = 1 →
      rd 0 g.drop_order k = (g.size_x - 1) / 2 + (k + 1) / 2) ∧
    (∀ k, k < g.size_x → k % 2 = 0 →
      rd 0 g.drop_order k + k / 2 = (g.size_x - 1) / 2) ∧
    (∀ k, k + 1 < g.size_x →
      Int.natAbs (((rd 0 g.drop_order k : Nat) : Int) - ((g.size_x - 1) / 2 : Nat)) ≤
        Int.natAbs
          (((rd 0 g.drop_order (k + 1) : Nat) : Int) - ((g.size_x - 1) / 2 : Nat))) := by
  obtain ⟨_, hw, _, _, _, _, e⟩ := c4_new_game_eq g0 g width height num h
  rw [e]
  have ex : (setup_game width.toNat height.toNat num.toNat).size_x = width.toNat := rfl
  rw [ex]
  have hw1 : 1 ≤ width.toNat := by omega
  generalize width.toNat = w at hw1
  generalize height.toNat = hh
  generalize num.toNat = n
  have hrd : ∀ k, k < w → rd 0 (setup_game w hh n).drop_order k =
      if k % 2 = 1 then (w - 1) / 2 + (k + 1) / 2 else (w - 1) / 2 - k / 2 := by
    intro k hk
    have hlen : k < (setup_game w hh n).drop_order.length := by
      rw [(setup_game_drop_order w hh n).1]; exact hk
    rw [rd_eq_getElem _ _ _ hlen]
    show (setup_game w hh n).drop_order[k] = _
    simp only [setup_game_drop_order_eq, List.getElem_map, List.getElem_range]
    exact drop_column_closed w k hk
  refine ⟨?_, ?_, ?_, ?_, ?_⟩
  · rw [setup_game_drop_order_eq]
    rw [List.perm_ext_iff_of_nodup]
    · intro a
      simp only [List.mem_map, List.mem_range]
      constructor
      · rintro ⟨k, hk, rfl⟩
        have := drop_column_range w (1 + k) (by omega) (by omega)
        omega
      · intro ha
        obtain ⟨i, h1, h2, e1⟩ := drop_column_onto w a ha
        exact ⟨i - 1, by omega, by rw [show 1 + (i - 1) = i by omega, e1]; simp⟩
    · apply (List.nodup_range w).map_on
      intro k hk k1 hk1 e1
      rw [List.mem_range] at hk hk1
      rw [drop_column_closed w k hk, drop_column_closed w k1 hk1] at e1
      split_ifs at e1 <;> omega
    · exact List.nodup_range w
  · rw [hrd 0 (by omega)]
    simp
  · intro k hk hodd
    rw [hrd k hk, if_pos hodd]
  · intro k hk heven
    rw [hrd k hk, if_neg (by omega)]
    omega
  · intro k hk
    rw [hrd k (by omega), hrd (k + 1) hk]
    split_ifs with h1 h2 h2 <;> omega

set_option maxRecDepth 100000 in
/-- The statement of `drop_order_is_center_out` on the 7x6 board with runs of 4, where
`drop_order` is 3, 4, 2, 5, 1, 6, 0. -/
theorem drop_order_is_center_out_witness :
    (setup_game 7 6 4).drop_order = [3, 4, 2, 5, 1, 6, 0] ∧
    List.Perm (setup_game 7 6 4).drop_order (List.range (setup_game 7 6 4).size_x) ∧
    rd 0 (setup_game 7 6 4).drop_order 0 = ((setup_game 7 6 4).size_x - 1) / 2 ∧
    (∀ k, k < (setup_game 7 6 4).size_x → k % 2 = 1 →
      rd 0 (setup_game 7 6 4).drop_order k =
        ((setup_game 7 6 4).size_x - 1) / 2 + (k + 1) / 2) ∧
    (∀ k, k < (setup_game 7 6 4).size_x → k % 2 = 0 →
      rd 0 (setup_game 7 6 4).drop_order k + k / 2 = ((setup_game 7 6 4).size_x - 1) / 2) ∧
    (∀ k, k + 1 < (setup_game 7 6 4).size_x →
      Int.natAbs (((rd 0 (setup_game 7 6 4).drop_order k : Nat) : Int) -
          (((setup_game 7 6 4).size_x - 1) / 2 : Nat)) ≤
        Int.natAbs (((rd 0 (setup_game 7 6 4).drop_order (k + 1) : Nat) : Int) -
          (((setup_game 7 6 4).size_x - 1) / 2 : Nat))) :=
  ⟨by decide, drop_order_is_center_out no_game (setup_game 7 6 4) 7 6 4 (by decide)⟩

/-! ## Termination of the search and the slots it uses -/

theorem push_state_length (g : Game) :
    (push_state g).state_stack.length ≤ max g.state_stack.length (g.depth + 2) := by
  simp only [push_state]
  split_ifs with hl
  · rw [List.length_append, List.length_singleton]
    omega
  · rw [length_wr]
    exact le_max_left _ _

theorem child_length (g : Game) (p c : Nat) :
    (drop_piece (push_state g) p c).2.depth = g.depth + 1 ∧
    (drop_piece (push_state g) p c).2.state_stack.length ≤
      max g.state_stack.length (g.depth + 2) := by
  obtain ⟨_, _, c1, _, _, _⟩ := push_state_fields g
  obtain ⟨_, _, c2, d2, _, _⟩ := drop_piece_fields (push_state g) p c
  refine ⟨by rw [c2, c1], ?_⟩
  rw [d2]
  exact push_state_length g

theorem evaluate_loop_total {level d : Nat} (hd : d < level)
    (ev : Game → Int → Int → Option (Int × Game))
    (hev : ∀ (g2 : Game) (a b : Int), g2.depth = d + 1 →
      ∃ R g3, ev g2 a b = some (R, g3) ∧ Frame g2 g3 ∧
        g3.state_stack.length ≤ max g2.state_stack.length (level + 1))
    (player : Nat) (beta : Int) (cols : List Nat) :
    ∀ (best maxab : Int) (g : Game), g.depth = d →
      ∃ R g1, evaluate_loop ev player beta cols best maxab g = some (R, g1) ∧ Frame g g1 ∧
        g1.state_stack.length ≤ max g.state_stack.length (level + 1) := by
  induction cols with
  | nil =>
    intro best maxab g _
    exact ⟨best, g, rfl, frame_refl g, le_max_left _ _⟩
  | cons i rest ih =>
    intro best maxab g hg
    unfold evaluate_loop
    by_cases hfull : rd2 C4_NONE (current_state g).board (rd 0 g.drop_order i)
        (g.size_y - 1) ≠ C4_NONE
    · rw [if_pos hfull]
      exact ih best maxab g hg
    · rw [if_neg hfull]
      obtain ⟨hd2, hl2⟩ := child_length g (other player) (rd 0 (push_state g).drop_order i)
      obtain ⟨G, g3, hev3, hf3, hl3⟩ := hev _ (wrap32 (-beta)) (wrap32 (-maxab))
        (by rw [hd2, hg])
      have hf4 := frame_push_drop_pop g g3 _ _ hf3
      have hl4 : (pop_state g3).state_stack.length ≤ max g.state_stack.length (level + 1) := by
        have e : (pop_state g3).state_stack = g3.state_stack := rfl
        rw [e]
        have h1 := le_max_left g.state_stack.length (level + 1)
        have h2 := le_max_right g.state_stack.length (level + 1)
        have h3 : max (drop_piece (push_state g) (other player)
            (rd 0 (push_state g).drop_order i)).2.state_stack.length (level + 1) ≤
            max g.state_stack.length (level + 1) := by
          apply max_le
          · refine le_trans hl2 (max_le h1 ?_)
            omega
          · exact h2
        exact le_trans hl3 h3
      have hcont : ∀ b m : Int, ∃ R g1,
          evaluate_loop ev player beta rest b m (pop_state g3) = some (R, g1) ∧ Frame g g1 ∧
            g1.state_stack.length ≤ max g.state_stack.length (level + 1) := by
        intro b m
        obtain ⟨R, g1, hr, hf, hl⟩ := ih b m (pop_state g3) (by rw [hf4.2.2.1, hg])
        exact ⟨R, g1, hr, frame_trans hf4 hf, le_trans hl (max_le hl4 (le_max_right _ _))⟩
      simp only [hev3]
      split_ifs <;> first | exact ⟨_, _, rfl, hf4, hl4⟩ | exact hcont _ _

theorem evaluate_total (level : Nat) :
    ∀ (rem fuel : Nat) (g : Game) (player : Nat) (alpha beta : Int), rem < fuel →
      g.depth + rem = level →
      ∃ R g1, evaluate fuel g player level alpha beta = some (R, g1) ∧ Frame g g1 ∧
        g1.state_stack.length ≤ max g.state_stack.length (level + 1) := by
  intro rem
  induction rem with
  | zero =>
    intro fuel g player alpha beta hfuel hd
    obtain ⟨f, rfl⟩ : ∃ f, fuel = f + 1 := ⟨fuel - 1, by omega⟩
    unfold evaluate
    split_ifs with h1 h2 h3 h4
    · exact ⟨_, g, rfl, frame_refl g, le_max_left _ _⟩
    · exact ⟨_, g, rfl, frame_refl g, le_max_left _ _⟩
    · exact ⟨_, g, rfl, frame_refl g, le_max_left _ _⟩
    · exact ⟨_, g, rfl, frame_refl g, le_max_left _ _⟩
    · exact absurd (by omega : level = g.depth) h4
  | succ rem ih =>
    intro fuel g player alpha beta hfuel hd
    obtain ⟨f, rfl⟩ : ∃ f, fuel = f + 1 := ⟨fuel - 1, by omega⟩
    unfold evaluate
    split_ifs with h1 h2 h3 h4
    · exact ⟨_, g, rfl, frame_refl g, le_max_left _ _⟩
    · exact ⟨_, g, rfl, frame_refl g, le_max_left _ _⟩
    · exact ⟨_, g, rfl, frame_refl g, le_max_left _ _⟩
    · exact ⟨_, g, rfl, frame_refl g, le_max_left _ _⟩
    · obtain ⟨R, g1, hloop, hf, hl⟩ := evaluate_loop_total (by omega : g.depth < level)
        (fun g1 a b => evaluate f g1 (other player) level a b)
        (fun g2 a b hd2 => ih f g2 (other player) a b (by omega) (by omega))
        player beta (List.range g.size_x) (-INT_MAX) alpha g rfl
      rw [hloop]
      exact ⟨_, g1, rfl, hf, hl⟩

theorem auto_move_loop_total (rand : Nat → Nat) (rp level : Nat) (hl1 : 1 ≤ level)
    (cols : List Nat) :
    ∀ (l : Auto_loop), l.game.depth = 0 →
      ∃ l1, auto_move_loop rand rp level cols l = some l1 ∧ Frame l.game l1.game ∧
        l1.game.state_stack.length ≤ max l.game.state_stack.length (level + 1) := by
  induction cols with
  | nil =>
    intro l _
    exact ⟨l, rfl, frame_refl _, le_max_left _ _⟩
  | cons i rest ih =>
    intro l hd
    obtain ⟨hd2, hl2⟩ := child_length l.game rp (rd 0 (push_state l.game).drop_order i)
    have hf0 := frame_push_drop_pop l.game _ rp (rd 0 (push_state l.game).drop_order i)
      (frame_refl _)
    have hbound : ∀ g3 : Game,
        g3.state_stack.length ≤ max (drop_piece (push_state l.game) rp
          (rd 0 (push_state l.game).drop_order i)).2.state_stack.length (level + 1) →
        (pop_state g3).state_stack.length ≤ max l.game.state_stack.length (level + 1) := by
      intro g3 h3
      have e : (pop_state g3).state_stack = g3.state_stack := rfl
      rw [e]
      refine le_trans h3 (max_le (le_trans hl2 (max_le (le_max_left _ _) ?_)) (le_max_right _ _))
      have := le_max_right l.game.state_stack.length (level + 1)
      omega
    have hnext : ∀ l2 : Auto_loop, Frame l.game l2.game →
        l2.game.state_stack.length ≤ max l.game.state_stack.length (level + 1) →
        ∃ l1, auto_move_loop rand rp level rest l2 = some l1 ∧ Frame l.game l1.game ∧
          l1.game.state_stack.length ≤ max l.game.state_stack.length (level + 1) := by
      intro l2 hf hlen
      obtain ⟨l1, e1, f1, b1⟩ := ih l2 (by rw [hf.2.2.1, hd])
      exact ⟨l1, e1, frame_trans hf f1, le_trans b1 (max_le hlen (le_max_right _ _))⟩
    unfold auto_move_loop
    simp only
    by_cases hfail : (drop_piece (push_state l.game) rp
        (rd 0 (push_state l.game).drop_order i)).1 < 0
    · rw [if_pos hfail]
      exact hnext _ hf0 (hbound _ (le_max_left _ _))
    · rw [if_neg hfail]
      by_cases hwin : (current_state (drop_piece (push_state l.game) rp
          (rd 0 (push_state l.game).drop_order i)).2).winner = rp
      · rw [if_pos hwin]
        exact ⟨_, rfl, hf0, hbound _ (le_max_left _ _)⟩
      · rw [if_neg hwin]
        obtain ⟨G, g3, hev3, hf3, hl3⟩ := evaluate_total level (level - 1) level
          (drop_piece (push_state l.game) rp (rd 0 (push_state l.game).drop_order i)).2 rp
          (-INT_MAX) (wrap32 (-l.best_worst)) (by omega) (by rw [hd2, hd]; omega)
        rw [hev3]
        have hf4 := frame_push_drop_pop l.game g3 _ _ hf3
        simp only
        by_cases hgt : G > l.best_worst
        · rw [if_pos hgt]
          exact hnext _ hf4 (hbound _ hl3)
        · rw [if_neg hgt]
          by_cases heq : G = l.best_worst
          · rw [if_pos heq]
            exact hnext _ hf4 (hbound _ hl3)
          · rw [if_neg heq]
            exact hnext _ hf4 (hbound _ hl3)

theorem c4_auto_move_total (g : Game) (rand : Nat → Nat) (player level column : Int)
    (row : Option Int) (hgp : g.game_in_progress = true) (hm : g.move_in_progress = false)
    (hd : g.depth = 0) (hl1 : 1 ≤ level) (hl2 : level ≤ 20)
    (hone : (current_state g).num_of_pieces = 1 → 3 < g.size_x) :
    ∃ r, c4_auto_move g rand player level column row = some r ∧
      r.game.state_stack.length ≤ max g.state_stack.length (level.toNat + 1) := by
  have hc : g.game_in_progress = true ∧ ¬ g.move_in_progress = true ∧ level ≥ 1 ∧
      level ≤ (C4_MAX_LEVEL : Int) := by
    refine ⟨hgp, by simp [hm], hl1, ?_⟩
    simp [C4_MAX_LEVEL]; exact hl2
  have hdrop : ∀ c, (drop_piece g (real_player player) c).2.state_stack.length ≤
      max g.state_stack.length (level.toNat + 1) := by
    intro c
    rw [(drop_piece_fields g (real_player player) c).2.2.2.1]
    exact le_max_left _ _
  by_cases hns : no_shortcut g
  · rw [c4_auto_move_search g rand player level column row hgp hm hl1 hl2 hns]
    obtain ⟨l1, hloop, _, hlen⟩ := auto_move_loop_total rand (real_player player) level.toNat
      (by omega) (List.range g.size_x)
      { best_column := -1, goodness := 0, best_worst := -INT_MAX, num_of_equal := 0,
        rand_calls := 0, game := { g with move_in_progress := true } } hd
    rw [hloop]
    simp only
    have hlen1 : l1.game.state_stack.length ≤ max g.state_stack.length (level.toNat + 1) := hlen
    split_ifs
    · refine ⟨_, rfl, ?_⟩
      simp only
      rw [(drop_piece_fields _ (real_player player) l1.best_column.toNat).2.2.2.1]
      exact hlen1
    · exact ⟨_, rfl, hlen1⟩
  · unfold c4_auto_move
    rw [if_pos hc]
    simp only
    split_ifs with h1 h2 h3
    · exact ⟨_, rfl, hdrop 2⟩
    · exact ⟨_, rfl, hdrop 3⟩
    · exact absurd (hone h2) h3
    · exfalso
      apply hns
      exact ⟨fun hf => h1 ⟨by omega, hf.2.1, hf.2.2.1, hf.2.2.2, Or.inl hf.1⟩, h2⟩

theorem c4_auto_move_stack (g : Game) (rand : Nat → Nat) (player level column : Int)
    (row : Option Int) (r : Auto_result) (hd : g.depth = 0)
    (h : c4_auto_move g rand player level column row = some r) :
    1 ≤ level ∧ level ≤ 20 ∧
    r.game.state_stack.length ≤ max g.state_stack.length (level.toNat + 1) := by
  have hpre : g.game_in_progress = true ∧ ¬ g.move_in_progress = true ∧ level ≥ 1 ∧
      level ≤ (C4_MAX_LEVEL : Int) := by
    by_contra hc
    unfold c4_auto_move at h
    rw [if_neg hc] at h
    exact absurd h (by simp)
  have hl2 : level ≤ 20 := by
    have := hpre.2.2.2
    simp [C4_MAX_LEVEL] at this
    exact this
  have hm : g.move_in_progress = false := by
    have := hpre.2.1
    simpa using this
  refine ⟨hpre.2.2.1, hl2, ?_⟩
  by_cases hone : (current_state g).num_of_pieces = 1 → 3 < g.size_x
  · obtain ⟨r1, e1, hlen⟩ := c4_auto_move_total g rand player level column row hpre.1 hm hd
      hpre.2.2.1 hl2 hone
    rw [e1] at h
    simp only [Option.some.injEq] at h
    rw [← h]
    exact hlen
  · exfalso
    have h1 : (current_state g).num_of_pieces = 1 := by
      by_contra hne
      exact hone (fun hf => absurd hf hne)
    have h3 : ¬ 3 < g.size_x := fun hf => hone (fun _ => hf)
    unfold c4_auto_move at h
    rw [if_pos hpre, if_neg (fun hf => by have := hf.1; omega), if_pos h1, if_neg h3] at h
    exact absurd h (by simp)

theorem reachable_stack_bound (g : Game) (hr : Reachable g) :
    g.state_stack.length ≤ C4_MAX_LEVEL + 1 := by
  induction hr with
  | new_game g0 g width height num hnew =>
    obtain ⟨e, _⟩ := c4_new_game_good g0 g width height num hnew
    rw [e]
    simp [setup_game, C4_MAX_LEVEL]
  | make_move g player column row r _ hmove ih =>
    unfold c4_make_move at hmove
    split_ifs at hmove with h1 h2
    · simp only [Option.some.injEq] at hmove
      rw [← hmove]
      exact ih
    · simp only [Option.some.injEq] at hmove
      rw [← hmove]
      simp only
      rw [(drop_piece_fields g (real_player player) column.toNat).2.2.2.1]
      exact ih
  | auto_move g rand player level column row r hg hauto ih =>
    obtain ⟨_, _, _, _, hd, _⟩ := reachable_good g hg
    obtain ⟨h1, h2, h3⟩ := c4_auto_move_stack g rand player level column row r hd hauto
    refine le_trans h3 (max_le ih ?_)
    unfold C4_MAX_LEVEL
    omega

theorem drop_piece_row {g : Game} {w h n : Nat} (hg : Good g w h n) (p c : Nat)
    (hfree : ¬ column_full g (current_state g) c) :
    ∃ y : Nat, (drop_piece g p c).1 = (y : Int) ∧ y < g.size_y ∧
      rd2 C4_NONE (current_state g).board c y = C4_NONE ∧
      (∀ j, j < y → rd2 C4_NONE (current_state g).board c j ≠ C4_NONE) ∧
      (current_state (drop_piece g p c).2).board = wr2 (current_state g).board c y p ∧
      (current_state (drop_piece g p c).2).num_of_pieces =
        (current_state g).num_of_pieces + 1 := by
  obtain ⟨hy, hempty, hbelow⟩ := drop_row_free g (current_state g) c hfree
  obtain ⟨b1, b2⟩ := drop_piece_on_board g (current_state g) p c hfree
  have hcs := ((drop_piece_fields g p c).2.2.2.2.2 hg.hstack).2
  refine ⟨_, ?_, hy, hempty, hbelow, by rw [hcs, b1], by rw [hcs, b2]⟩
  show (drop_piece_on g (current_state g) p c).1 = _
  rw [drop_piece_on_free g _ p c hfree]

theorem drop_piece_cells {g : Game} {w h n : Nat} (hg : Good g w h n) (p c : Nat)
    (x y : Nat)
    (hocc : rd2 C4_NONE (current_state g).board x y ≠ C4_NONE) :
    rd2 C4_NONE (current_state (drop_piece g p c).2).board x y =
      rd2 C4_NONE (current_state g).board x y := by
  by_cases hfull : column_full g (current_state g) c
  · have hcs := ((drop_piece_fields g p c).2.2.2.2.2 hg.hstack).2
    rw [hcs, drop_piece_on_full g _ p c hfull]
  · obtain ⟨y1, _, _, hempty, _, hb, _⟩ := drop_piece_row hg p c hfull
    rw [hb]
    apply rd2_wr2_ne
    by_contra hcon
    push_neg at hcon
    rw [← hcon.1, ← hcon.2] at hocc
    exact hocc hempty

theorem two_occupied {w h : Nat} {s : Game_state} (hf : Fill w h s) (a b : Nat × Nat)
    (hab : a ≠ b) (ha : rd2 C4_NONE s.board a.1 a.2 ≠ C4_NONE)
    (hb : rd2 C4_NONE s.board b.1 b.2 ≠ C4_NONE) : 2 ≤ s.num_of_pieces := by
  rw [hf.count, List.countP_eq_length_filter]
  have hmem : ∀ c : Nat × Nat, rd2 C4_NONE s.board c.1 c.2 ≠ C4_NONE →
      c ∈ (List.product (List.range w) (List.range h)).filter
        fun c => decide (rd2 C4_NONE s.board c.1 c.2 ≠ C4_NONE) := by
    intro c hc
    rw [List.mem_filter]
    refine ⟨?_, by simpa using hc⟩
    obtain ⟨h1, h2⟩ := hf.inside c.1 c.2 hc
    exact List.mem_product.mpr ⟨List.mem_range.mpr h1, List.mem_range.mpr h2⟩
  have hsub : [a, b] ⊆ (List.product (List.range w) (List.range h)).filter
      fun c => decide (rd2 C4_NONE s.board c.1 c.2 ≠ C4_NONE) := by
    intro c hc
    simp only [List.mem_cons, List.mem_singleton, List.not_mem_nil, or_false] at hc
    rcases hc with e | e
    · rw [e]; exact hmem a ha
    · rw [e]; exact hmem b hb
  have hnd : [a, b].Nodup := by simp [hab]
  exact (List.subperm_of_subset hnd hsub).length_le

theorem empty_board {w h : Nat} {s : Game_state} (hf : Fill w h s)
    (h0 : s.num_of_pieces = 0) (x y : Nat) : rd2 C4_NONE s.board x y = C4_NONE := by
  by_contra hne
  obtain ⟨h1, h2⟩ := hf.inside x y hne
  have hc := hf.count
  rw [h0] at hc
  have := (List.countP_eq_zero.mp hc.symm) (x, y)
    (List.mem_product.mpr ⟨List.mem_range.mpr h1, List.mem_range.mpr h2⟩)
  simp at this
  exact hne this

/-- C22: in every reachable 7x6 game with runs of 4, at every level 1..20, for either
player and whatever `rand()` returns: on the empty board `c4_auto_move` returns true
with column 2 after one `drop_piece(player, 2)`, whose piece lands in row 0; with
exactly one piece on the board it returns true with column 3 after one
`drop_piece(player, 3)`, whose piece lands in row 0 or 1 of column 3. The result is
given outright, with no search call in it. -/
theorem opening_moves_on_the_standard_board (g : Game) (hg : Reachable g)
    (h7 : g.size_x = 7 ∧ g.size_y = 6 ∧ g.num_to_connect = 4)
    (rand : Nat → Nat) (player level column : Int) (row : Option Int)
    (hl1 : 1 ≤ level) (hl2 : level ≤ 20) :
    ((current_state g).num_of_pieces = 0 →
      c4_auto_move g rand player level column row =
        some { moved := true, column := 2, row := row.map (fun _ => (0 : Int)),
               game := (drop_piece g (real_player player) 2).2 } ∧
      (drop_piece g (real_player player) 2).1 = 0 ∧
      (current_state (drop_piece g (real_player player) 2).2).board =
        wr2 (current_state g).board 2 0 (real_player player) ∧
      rd2 C4_NONE (current_state (drop_piece g (real_player player) 2).2).board 2 0 =
        real_player player ∧
      (current_state (drop_piece g (real_player player) 2).2).num_of_pieces = 1) ∧
    ((current_state g).num_of_pieces = 1 →
      c4_auto_move g rand player level column row =
        some { moved := true, column := 3, row := row.map (fun _ => (1 : Int)),
               game := (drop_piece g (real_player player) 3).2 } ∧
      ∃ y : Nat, y ≤ 1 ∧ (drop_piece g (real_player player) 3).1 = (y : Int) ∧
        rd2 C4_NONE (current_state g).board 3 y = C4_NONE ∧
        (current_state (drop_piece g (real_player player) 3).2).board =
          wr2 (current_state g).board 3 y (real_player player) ∧
        rd2 C4_NONE (current_state (drop_piece g (real_player player) 3).2).board 3 y =
          real_player player ∧
        (current_state (drop_piece g (real_player player) 3).2).num_of_pieces = 2) := by
  obtain ⟨w, h, n, hgood, hd, hm⟩ := reachable_good g hg
  have hgp := good_in_progress hgood
  have hfill := good_fill hgood
  have hinv := good_inv hgood
  obtain ⟨e1, e2, _⟩ := good_fields hgood
  obtain ⟨h7x, h7y, h7n⟩ := h7
  have hc : g.game_in_progress = true ∧ ¬ g.move_in_progress = true ∧ level ≥ 1 ∧
      level ≤ (C4_MAX_LEVEL : Int) := by
    refine ⟨hgp, by simp [hm], hl1, ?_⟩
    simp [C4_MAX_LEVEL]; exact hl2
  have hdims : Dims w h (current_state g).board := hinv.board
  constructor
  · intro h0
    have hempty := empty_board hfill h0
    have hfree : ¬ column_full g (current_state g) 2 := by
      intro hfull
      exact hfull 0 (by omega) (hempty 2 0)
    obtain ⟨y, ey, hy, _, hbelow, hb, hnum⟩ := drop_piece_row hgood (real_player player) 2 hfree
    have hy0 : y = 0 := by
      by_contra hne
      exact hbelow 0 (by omega) (hempty 2 0)
    subst hy0
    refine ⟨?_, by rw [ey]; rfl, hb, ?_, by rw [hnum, h0]⟩
    · unfold c4_auto_move
      rw [if_pos hc, if_pos ⟨by omega, h7x, h7y, h7n, Or.inl h0⟩, h0]
      rfl
    · rw [hb]
      exact rd2_wr2_same _ _ _ _ _ (by rw [hdims.1]; omega) (by rw [hdims.2 2 (by omega)]; omega)
  · intro h1
    have hx : 3 < g.size_x := by omega
    have hcount : ∀ a b : Nat × Nat, a ≠ b →
        rd2 C4_NONE (current_state g).board a.1 a.2 ≠ C4_NONE →
        rd2 C4_NONE (current_state g).board b.1 b.2 ≠ C4_NONE → False := by
      intro a b hab ha hb
      have := two_occupied hfill a b hab ha hb
      omega
    have hfree : ¬ column_full g (current_state g) 3 := by
      intro hfull
      exact hcount (3, 0) (3, 1) (by simp) (hfull 0 (by omega)) (hfull 1 (by omega))
    obtain ⟨y, ey, hy, hempty, hbelow, hb, hnum⟩ :=
      drop_piece_row hgood (real_player player) 3 hfree
    have hy1 : y ≤ 1 := by
      by_contra hgt
      exact hcount (3, 0) (3, 1) (by simp) (hbelow 0 (by omega)) (hbelow 1 (by omega))
    refine ⟨c4_auto_move_one_piece g rand player level column row hgp hm hl1 hl2 h1 hx,
      y, hy1, ey, hempty, hb, ?_, by rw [hnum, h1]⟩
    rw [hb]
    exact rd2_wr2_same _ _ _ _ _ (by rw [hdims.1]; omega) (by rw [hdims.2 3 (by omega)]; omega)

set_option maxRecDepth 100000 in
/-- The statement of `opening_moves_on_the_standard_board` for player 1 at level 4 after
`c4_make_move(0, 0, NULL)`. -/
theorem opening_moves_on_the_standard_board_witness :
    (game_7x6_first.size_x = 7 ∧ game_7x6_first.size_y = 6 ∧
      game_7x6_first.num_to_connect = 4) ∧
    (((current_state game_7x6_first).num_of_pieces = 0 →
      c4_auto_move game_7x6_first (fun _ => 0) 1 4 0 none =
        some { moved := true, column := 2, row := (none : Option Int).map (fun _ => (0 : Int)),
               game := (drop_piece game_7x6_first (real_player 1) 2).2 } ∧
      (drop_piece game_7x6_first (real_player 1) 2).1 = 0 ∧
      (current_state (drop_piece game_7x6_first (real_player 1) 2).2).board =
        wr2 (current_state game_7x6_first).board 2 0 (real_player 1) ∧
      rd2 C4_NONE (current_state (drop_piece game_7x6_first (real_player 1) 2).2).board 2 0 =
        real_player 1 ∧
      (current_state (drop_piece game_7x6_first (real_player 1) 2).2).num_of_pieces = 1) ∧
    ((current_state game_7x6_first).num_of_pieces = 1 →
      c4_auto_move game_7x6_first (fun _ => 0) 1 4 0 none =
        some { moved := true, column := 3, row := (none : Option Int).map (fun _ => (1 : Int)),
               game := (drop_piece game_7x6_first (real_player 1) 3).2 } ∧
      ∃ y : Nat, y ≤ 1 ∧ (drop_piece game_7x6_first (real_player 1) 3).1 = (y : Int) ∧
        rd2 C4_NONE (current_state game_7x6_first).board 3 y = C4_NONE ∧
        (current_state (drop_piece game_7x6_first (real_player 1) 3).2).board =
          wr2 (current_state game_7x6_first).board 3 y (real_player 1) ∧
        rd2 C4_NONE (current_state (drop_piece game_7x6_first (real_player 1) 3).2).board 3 y =
          real_player 1 ∧
        (current_state (drop_piece game_7x6_first (real_player 1) 3).2).num_of_pieces = 2)) :=
  ⟨by decide,
   opening_moves_on_the_standard_board game_7x6_first
     (Reachable.make_move _ 0 0 none (true, none, game_7x6_first) reachable_setup_7x6
       (by decide))
     (by decide) (fun _ => 0) 1 4 0 none (by decide) (by decide)⟩

/-! ## The progress on a line along a game -/

theorem play_cons (g : Game) (m : Nat × Nat) (rest : List (Nat × Nat)) :
    play g (m :: rest) = play (drop_piece g m.1 m.2).2 rest := by
  unfold play
  rw [List.foldl_cons]

theorem play_statics (moves : List (Nat × Nat)) :
    ∀ g, statics (play g moves) = statics g := by
  induction moves with
  | nil => intro g; rfl
  | cons m rest ih =>
    intro g
    rw [play_cons, ih]
    exact (drop_piece_fields g m.1 m.2).1

theorem play_cells (moves : List (Nat × Nat)) :
    ∀ g, Reachable g → (∀ m, m ∈ moves → m.1 < 2 ∧ m.2 < g.size_x) →
      ∀ x y, rd2 C4_NONE (current_state g).board x y ≠ C4_NONE →
        rd2 C4_NONE (current_state (play g moves)).board x y =
          rd2 C4_NONE (current_state g).board x y := by
  induction moves with
  | nil => intro g _ _ x y _; rfl
  | cons m rest ih =>
    intro g hr hall x y hocc
    have hm := hall m (List.mem_cons_self _ _)
    obtain ⟨w, h, n, hg, _, _⟩ := reachable_good g hr
    have hstep := drop_piece_cells hg m.1 m.2 x y hocc
    rw [play_cons, ih _ (reachable_drop g hr m.1 m.2 hm.1 hm.2)
      (fun m1 hm1 => by rw [drop_piece_size_x]; exact hall m1 (List.mem_cons_of_mem _ hm1))
      x y (by rw [hstep]; exact hocc), hstep]

theorem line_cells_congr {g g1 : Game} (h : statics g1 = statics g) (L : Nat) :
    line_cells g1 L = line_cells g L := by
  obtain ⟨e1, e2, _, _, _, e6, _⟩ := statics_fields h
  simp only [line_cells, all_cells, e1, e2, e6]

theorem entry_eq_progress {g : Game} {w h n : Nat} (hg : Good g w h n) (p : Nat) (hp : p < 2)
    (L : Nat) (hL : L < g.win_places) :
    rd2 0 (current_state g).score_array p L =
      progress (current_state g).board p (line_cells g L) := by
  obtain ⟨_, _, _, e4, _, _⟩ := good_fields hg
  rw [e4] at hL
  rw [(good_inv hg).progress p hp L hL]
  exact (progress_perm (line_cells_perm hg L hL)).symm

set_option maxRecDepth 1000000 in
/-- C24 (the claim fails): in the 1x31 game with runs of 31, after 30 calls
`c4_make_move(0, 0, NULL)` the entry of player 0 for line 0 is `2^30`; after one more
such call it is `1 << 31`, which as an `int` is `INT_MIN`: the entry decreased
although player 1 never placed a piece. -/
theorem progress_decreases_without_the_opponent :
    Reachable game_1x31_30 ∧
    Reachable (play game_1x31_30 [(0, 0)]) ∧
    rd2 0 (current_state game_1x31_30).score_array 0 0 = 1073741824 ∧
    rd2 0 (current_state (play game_1x31_30 [(0, 0)])).score_array 0 0 = -2147483648 ∧
    touched (current_state (play game_1x31_30 [(0, 0)])).board 1
      (line_cells game_1x31_30 0) = false ∧
    ¬ (rd2 0 (current_state game_1x31_30).score_array 0 0 ≤
      rd2 0 (current_state (play game_1x31_30 [(0, 0)])).score_array 0 0) := by
  have hr : Reachable game_1x31_30 := reachable_play _ _
    (Reachable.new_game no_game (setup_game 1 31 31) 1 31 31 (by decide)) (by decide)
  exact ⟨hr, reachable_play _ _ hr (by decide), by decide, by decide, by decide, by decide⟩

/-- C24 (amended): for every reachable game, every line `L`, player `p` and every
further sequence of placements: if the opponent holds a cell of `L`, then
`score_array[p][L]` is 0 and is 0 after the placements; and when
`num_to_connect <= 30`, if the opponent holds no cell of `L` after the placements,
then `score_array[p][L]` after them is at least its value before. -/
theorem progress_is_monotone (g : Game) (hg : Reachable g) (moves : List (Nat × Nat))
    (hmoves : ∀ m, m ∈ moves → m.1 < 2 ∧ m.2 < g.size_x) (p : Nat) (hp : p < 2)
    (L : Nat) (hL : L < g.win_places) :
    (touched (current_state g).board (other p) (line_cells g L) = true →
      rd2 0 (current_state g).score_array p L = 0 ∧
      rd2 0 (current_state (play g moves)).score_array p L = 0) ∧
    (g.num_to_connect ≤ 30 →
      touched (current_state (play g moves)).board (other p) (line_cells g L) = false →
      rd2 0 (current_state g).score_array p L ≤
        rd2 0 (current_state (play g moves)).score_array p L) := by
  obtain ⟨w, h, n, hgood, _, _⟩ := reachable_good g hg
  have hr1 := reachable_play moves g hg hmoves
  obtain ⟨w1, h1, n1, hgood1, _, _⟩ := reachable_good _ hr1
  have hst := play_statics moves g
  have hwp : (play g moves).win_places = g.win_places := (statics_fields hst).2.2.2.2.1
  have hlc := line_cells_congr hst L
  have e0 := entry_eq_progress hgood p hp L hL
  have e1 := entry_eq_progress hgood1 p hp L (by rw [hwp]; exact hL)
  rw [hlc] at e1
  have hcells := play_cells moves g hg hmoves
  have hop : other p < 2 := other_lt hp
  have htouch : touched (current_state g).board (other p) (line_cells g L) = true →
      touched (current_state (play g moves)).board (other p) (line_cells g L) = true := by
    intro ht
    rw [touched_iff] at ht ⊢
    obtain ⟨c, hc, e⟩ := ht
    refine ⟨c, hc, ?_⟩
    rw [hcells c.1 c.2 (by rw [e]; unfold C4_NONE; omega), e]
  constructor
  · intro ht
    rw [e0, e1]
    unfold progress
    rw [if_pos ht, if_pos (htouch ht)]
    exact ⟨rfl, rfl⟩
  · intro hn hnt
    have hnt0 : touched (current_state g).board (other p) (line_cells g L) = false := by
      by_contra hc
      rw [Bool.not_eq_false] at hc
      rw [htouch hc] at hnt
      exact absurd hnt (by simp)
    rw [e0, e1]
    unfold progress
    rw [hnt0, hnt]
    simp only [Bool.false_eq_true, if_false]
    obtain ⟨_, _, e3, e4, _, _⟩ := good_fields hgood
    have hlen : (line_cells g L).length = n := by
      rw [e4] at hL
      rw [(line_cells_perm hgood L hL).length_eq,
        win_lines_length_eq hgood.hn (rd_mem [] _ L hL)]
    have hk0 := owned_le (current_state g).board p (line_cells g L)
    have hk1 := owned_le (current_state (play g moves)).board p (line_cells g L)
    rw [hlen] at hk0 hk1
    rw [e3] at hn
    rw [wrap32_pow_small (by omega), wrap32_pow_small (by omega)]
    have hmono : owned (current_state g).board p (line_cells g L) ≤
        owned (current_state (play g moves)).board p (line_cells g L) := by
      unfold owned
      apply List.countP_mono_left
      intro c _ hc
      simp only [decide_eq_true_eq] at hc ⊢
      rw [hcells c.1 c.2 (by rw [hc]; unfold C4_NONE; omega), hc]
    exact pow_le_pow_right₀ (by norm_num) hmono

set_option maxRecDepth 100000 in
/-- The statement of `progress_is_monotone` for line 0, the cells `(0, 0)` to `(3, 0)`,
on the 7x6 board after `c4_make_move(0, 0, NULL)`. For player 0, a further move of
player 0 in column 1 raises the entry from 2 to 4. For player 1, whose opponent holds
`(0, 0)`, the entry is 0 and stays 0 when player 1 moves in column 1. -/
theorem progress_is_monotone_witness :
    ((∀ m, m ∈ [(0, 1)] → m.1 < 2 ∧ m.2 < game_7x6_first.size_x) ∧
      (0 : Nat) < game_7x6_first.win_places ∧
      line_cells game_7x6_first 0 = [(0, 0), (1, 0), (2, 0), (3, 0)] ∧
      game_7x6_first.num_to_connect ≤ 30 ∧
      touched (current_state (play game_7x6_first [(0, 1)])).board (other 0)
        (line_cells game_7x6_first 0) = false ∧
      rd2 C4_NONE (current_state (play game_7x6_first [(0, 1)])).board 1 0 = 0 ∧
      rd2 0 (current_state game_7x6_first).score_array 0 0 = 2 ∧
      rd2 0 (current_state (play game_7x6_first [(0, 1)])).score_array 0 0 = 4 ∧
      rd2 0 (current_state game_7x6_first).score_array 0 0 ≤
        rd2 0 (current_state (play game_7x6_first [(0, 1)])).score_array 0 0) ∧
    ((∀ m, m ∈ [(1, 1)] → m.1 < 2 ∧ m.2 < game_7x6_first.size_x) ∧
      touched (current_state game_7x6_first).board (other 1)
        (line_cells game_7x6_first 0) = true ∧
      rd2 C4_NONE (current_state (play game_7x6_first [(1, 1)])).board 1 0 = 1 ∧
      rd2 0 (current_state game_7x6_first).score_array 1 0 = 0 ∧
      rd2 0 (current_state (play game_7x6_first [(1, 1)])).score_array 1 0 = 0) :=
  ⟨⟨by decide, by decide, by decide, by decide, by decide, by decide, by decide, by decide,
    (progress_is_monotone game_7x6_first
      (reachable_drop _ reachable_setup_7x6 0 0 (by decide) (by decide)) [(0, 1)] (by decide)
      0 (by decide) 0 (by decide)).2 (by decide) (by decide)⟩,
   ⟨by decide, by decide, by decide,
    (progress_is_monotone game_7x6_first
      (reachable_drop _ reachable_setup_7x6 0 0 (by decide) (by decide)) [(1, 1)] (by decide)
      1 (by decide) 0 (by decide)).1 (by decide)⟩⟩

/-! ## The search takes a winning column -/

theorem child_state (g : Game) (hs : Stack_ok g) (p c : Nat) :
    (drop_piece (push_state g) p c).1 = (drop_piece_on g (current_state g) p c).1 ∧
    current_state (drop_piece (push_state g) p c).2 =
      (drop_piece_on g (current_state g) p c).2 := by
  obtain ⟨a1, _, _, _, _, f1⟩ := push_state_fields g
  obtain ⟨s1, cs1⟩ := f1 hs
  obtain ⟨_, _, _, _, _, f2⟩ := drop_piece_fields (push_state g) p c
  constructor
  · show (drop_piece_on (push_state g) (current_state (push_state g)) p c).1 = _
    rw [cs1, drop_piece_on_congr a1]
  · rw [(f2 s1).2, cs1, drop_piece_on_congr a1]

theorem auto_move_loop_takes_win (rand : Nat → Nat) (rp level : Nat) (hl1 : 1 ≤ level)
    (g : Game) (pre : List Nat) (i : Nat) (rest : List Nat)
    (hpre : ∀ j, j ∈ pre →
      (drop_piece_on g (current_state g) rp (rd 0 g.drop_order j)).1 < 0 ∨
      (drop_piece_on g (current_state g) rp (rd 0 g.drop_order j)).2.winner ≠ rp)
    (hi1 : ¬ (drop_piece_on g (current_state g) rp (rd 0 g.drop_order i)).1 < 0)
    (hi2 : (drop_piece_on g (current_state g) rp (rd 0 g.drop_order i)).2.winner = rp) :
    ∀ (l : Auto_loop), statics l.game = statics g →
      current_state l.game = current_state g → l.game.depth = 0 → Stack_ok l.game →
      ∃ l1, auto_move_loop rand rp level (pre ++ i :: rest) l = some l1 ∧
        l1.best_column = ((rd 0 g.drop_order i : Nat) : Int) := by
  have hstep : ∀ (l : Auto_loop) (j : Nat), statics l.game = statics g →
      current_state l.game = current_state g → Stack_ok l.game →
      (push_state l.game).drop_order = g.drop_order ∧
      (drop_piece (push_state l.game) rp (rd 0 g.drop_order j)).1 =
        (drop_piece_on g (current_state g) rp (rd 0 g.drop_order j)).1 ∧
      current_state (drop_piece (push_state l.game) rp (rd 0 g.drop_order j)).2 =
        (drop_piece_on g (current_state g) rp (rd 0 g.drop_order j)).2 := by
    intro l j hst hcs hso
    obtain ⟨c1, c2⟩ := child_state l.game hso rp (rd 0 g.drop_order j)
    rw [hcs, drop_piece_on_congr hst] at c1 c2
    refine ⟨?_, c1, c2⟩
    rw [(statics_fields (push_state_fields l.game).1).2.2.2.2.2.2.2.2,
      (statics_fields hst).2.2.2.2.2.2.2.2]
  have htied : ∀ (l l2 : Auto_loop), statics l.game = statics g →
      current_state l.game = current_state g → l.game.depth = 0 → Stack_ok l.game →
      Frame l.game l2.game →
      statics l2.game = statics g ∧ current_state l2.game = current_state g ∧
      l2.game.depth = 0 ∧ Stack_ok l2.game := by
    intro l l2 hst hcs hd hso hf
    obtain ⟨a, _, c, d, e⟩ := hf
    refine ⟨a.trans hst, ?_, by rw [c, hd], ?_⟩
    · rw [← hcs]
      unfold current_state
      rw [c]
      exact e _ (le_refl _)
    · unfold Stack_ok at hso ⊢
      omega
  induction pre with
  | nil =>
    intro l hst hcs hd hso
    obtain ⟨e1, e2, e3⟩ := hstep l i hst hcs hso
    rw [List.nil_append]
    unfold auto_move_loop
    simp only [e1]
    rw [if_neg (by rw [e2]; exact hi1), if_pos (by rw [e3]; exact hi2)]
    exact ⟨_, rfl, rfl⟩
  | cons j pre1 ih =>
    intro l hst hcs hd hso
    obtain ⟨e1, e2, e3⟩ := hstep l j hst hcs hso
    have hnext : ∀ l2 : Auto_loop, Frame l.game l2.game →
        ∃ l1, auto_move_loop rand rp level (pre1 ++ i :: rest) l2 = some l1 ∧
          l1.best_column = ((rd 0 g.drop_order i : Nat) : Int) := by
      intro l2 hf
      obtain ⟨t1, t2, t3, t4⟩ := htied l l2 hst hcs hd hso hf
      exact ih (fun k hk => hpre k (List.mem_cons_of_mem _ hk)) l2 t1 t2 t3 t4
    have hf0 := frame_push_drop_pop l.game _ rp (rd 0 g.drop_order j) (frame_refl _)
    rw [List.cons_append]
    unfold auto_move_loop
    simp only [e1]
    by_cases hfail : (drop_piece (push_state l.game) rp (rd 0 g.drop_order j)).1 < 0
    · rw [if_pos hfail]
      exact hnext _ hf0
    · rw [if_neg hfail]
      have hnw : (drop_piece_on g (current_state g) rp (rd 0 g.drop_order j)).2.winner ≠ rp := by
        rcases hpre j (List.mem_cons_self _ _) with h1 | h1
        · rw [e2] at hfail
          exact absurd h1 hfail
        · exact h1
      rw [if_neg (by rw [e3]; exact hnw)]
      obtain ⟨hd2, _⟩ := child_length l.game rp (rd 0 g.drop_order j)
      obtain ⟨G, g3, hev3, hf3, _⟩ := evaluate_total level (level - 1) level
        (drop_piece (push_state l.game) rp (rd 0 g.drop_order j)).2 rp
        (-INT_MAX) (wrap32 (-l.best_worst)) (by omega) (by rw [hd2, hd]; omega)
      rw [hev3]
      have hf4 := frame_push_drop_pop l.game g3 _ _ hf3
      simp only
      by_cases hgt : G > l.best_worst
      · rw [if_pos hgt]
        exact hnext _ hf4
      · rw [if_neg hgt]
        by_cases heq : G = l.best_worst
        · rw [if_pos heq]
          exact hnext _ hf4
        · rw [if_neg heq]
          exact hnext _ hf4

set_option maxRecDepth 100000 in
/-- C23 (the code at the failing input): the 5x1 game with runs of 2 is not the 7x6
game with runs of 4. After `c4_make_move(0, 0, NULL)` one piece is on the board, and
the loop of `c4_auto_move` over the columns, the general search, would decide upon the
winning column 1 for player 0 at every level 1..20, whatever `rand()` returns. Yet
`c4_auto_move(0, level, ..)` returns column 3 without entering that loop. -/
theorem opening_shortcut_on_a_nonstandard_board :
    c4_new_game no_game 5 1 2 = some (setup_game 5 1 2) ∧
    c4_make_move (setup_game 5 1 2) 0 0 none = some (true, none, game_5x1_own) ∧
    (game_5x1_own.size_x, game_5x1_own.size_y, game_5x1_own.num_to_connect) ≠ (7, 6, 4) ∧
    (current_state game_5x1_own).num_of_pieces = 1 ∧
    (current_state (drop_piece game_5x1_own 0 1).2).winner = 0 ∧
    (∀ (rand : Nat → Nat) (level : Fin 20),
      search_column game_5x1_own rand 0 ((level : Nat) + 1) = some 1) ∧
    (∀ (rand : Nat → Nat) (level : Fin 20) (column : Int) (row : Option Int),
      (c4_auto_move game_5x1_own rand 0 ((level : Nat) + 1) column row).map
        (fun r => (r.moved, r.column)) = some (true, 3)) := by
  refine ⟨by decide, by decide, by decide, by decide, by decide, ?_, ?_⟩
  · intro rand level
    obtain ⟨l1, e1, e2⟩ := auto_move_loop_takes_win rand (real_player 0)
      (((level : Nat) + 1 : Int)).toNat (by omega) game_5x1_own [0, 1] 2 [3, 4]
      (by decide) (by decide) (by decide)
      { best_column := -1, goodness := 0, best_worst := -INT_MAX, num_of_equal := 0,
        rand_calls := 0, game := { game_5x1_own with move_in_progress := true } }
      rfl rfl (by decide) (by decide)
    unfold search_column
    have hr : List.range game_5x1_own.size_x = [0, 1] ++ 2 :: [3, 4] := by decide
    rw [hr, e1, Option.map_some', e2]
    decide
  · intro rand level column row
    rw [c4_auto_move_one_piece game_5x1_own rand 0 ((level : Nat) + 1) column row
      (by decide) (by decide) (by omega) (by omega) (by decide) (by decide)]
    rfl

/-! ## The full window -/

theorem evaluate_loop_bounds {w h n rem d : Nat} (player : Nat) (hp : player < 2)
    (bound : Int) (ev : Game → Int → Int → Option (Int × Game))
    (hev : ∀ (g2 : Game) (a b : Int), Good g2 w h n → g2.depth = d + 1 →
      search_small (setup_game w h n) bound rem (current_state g2) (other player) = true →
      -2147483647 ≤ a → a ≤ 2147483647 → -2147483647 ≤ b → b ≤ 2147483647 →
      ∃ R g3, ev g2 a b = some (R, g3) ∧ Frame g2 g3 ∧ -2147483647 ≤ R ∧ R ≤ 2147483647 ∧
        (R ≤ -a → negamax (setup_game w h n) rem (d + 1) (current_state g2) (other player) ≤ R) ∧
        (-b ≤ R → R ≤ negamax (setup_game w h n) rem (d + 1) (current_state g2) (other player)))
    (beta : Int) (hb1 : -2147483647 ≤ beta) (hb2 : beta ≤ 2147483647) (s : Game_state)
    (cols : List Nat) :
    ∀ (best maxab : Int) (g : Game), Good g w h n → g.depth = d → current_state g = s →
      (∀ i, i ∈ cols → i < w) →
      (∀ i, i ∈ cols →
        ¬ column_full (setup_game w h n) s (rd 0 (setup_game w h n).drop_order i) →
        search_small (setup_game w h n) bound rem
          (drop_piece_on (setup_game w h n) s (other player)
            (rd 0 (setup_game w h n).drop_order i)).2 (other player) = true) →
      -2147483647 ≤ best → best ≤ maxab → maxab ≤ 2147483647 →
      ∃ R g1, evaluate_loop ev player beta cols best maxab g = some (R, g1) ∧ Frame g g1 ∧
        best ≤ R ∧ R ≤ 2147483647 ∧
        (R ≤ beta → ∀ i, i ∈ cols →
          ¬ column_full (setup_game w h n) s (rd 0 (setup_game w h n).drop_order i) →
          negamax (setup_game w h n) rem (d + 1)
            (drop_piece_on (setup_game w h n) s (other player)
              (rd 0 (setup_game w h n).drop_order i)).2 (other player) ≤ R) ∧
        (R = best ∨ ∃ i, i ∈ cols ∧
          ¬ column_full (setup_game w h n) s (rd 0 (setup_game w h n).drop_order i) ∧
          (maxab ≤ R → R ≤ negamax (setup_game w h n) rem (d + 1)
            (drop_piece_on (setup_game w h n) s (other player)
              (rd 0 (setup_game w h n).drop_order i)).2 (other player))) := by
  induction cols with
  | nil =>
    intro best maxab g hg hd hs hcols hsm h1 h2 h3
    exact ⟨best, g, rfl, frame_refl g, le_refl _, by omega,
      fun _ i hi => absurd hi (List.not_mem_nil _), Or.inl rfl⟩
  | cons i rest ih =>
    intro best maxab g hg hd hs hcols hsm h1 h2 h3
    obtain ⟨e1, _, _, _, _, _, _, _, hdo⟩ := statics_fields hg.hst
    have ex : (setup_game w h n).size_x = w := rfl
    have hi : i < w := hcols i (List.mem_cons_self _ _)
    have hcol : rd 0 g.drop_order i < g.size_x := good_order hg i (by rw [e1, ex]; exact hi)
    have hfull_iff : rd2 C4_NONE (current_state g).board (rd 0 g.drop_order i)
        (g.size_y - 1) ≠ C4_NONE ↔
        column_full (setup_game w h n) s (rd 0 (setup_game w h n).drop_order i) := by
      rw [top_cell_iff_full hg, hs, column_full_setup hg, hdo]
    have hrest : ∀ j, j ∈ rest → j < w := fun j hj => hcols j (List.mem_cons_of_mem _ hj)
    have hsmrest : ∀ j, j ∈ rest →
        ¬ column_full (setup_game w h n) s (rd 0 (setup_game w h n).drop_order j) →
        search_small (setup_game w h n) bound rem
          (drop_piece_on (setup_game w h n) s (other player)
            (rd 0 (setup_game w h n).drop_order j)).2 (other player) = true :=
      fun j hj => hsm j (List.mem_cons_of_mem _ hj)
    unfold evaluate_loop
    by_cases hfull : rd2 C4_NONE (current_state g).board (rd 0 g.drop_order i)
        (g.size_y - 1) ≠ C4_NONE
    · rw [if_pos hfull]
      obtain ⟨R, g1, hr, hf, hbR, hR, hA, hB⟩ := ih best maxab g hg hd hs hrest hsmrest h1 h2 h3
      refine ⟨R, g1, hr, hf, hbR, hR, ?_, ?_⟩
      · intro hRb j hj hnf
        rcases List.mem_cons.mp hj with e | hj1
        · rw [e] at hnf
          exact absurd (hfull_iff.mp hfull) hnf
        · exact hA hRb j hj1 hnf
      · rcases hB with hB | ⟨j, hj, hnf, hv⟩
        · exact Or.inl hB
        · exact Or.inr ⟨j, List.mem_cons_of_mem _ hj, hnf, hv⟩
    · rw [if_neg hfull]
      have hnf : ¬ column_full (setup_game w h n) s (rd 0 (setup_game w h n).drop_order i) :=
        fun hc => hfull (hfull_iff.mpr hc)
      have hpdo : (push_state g).drop_order = g.drop_order :=
        (statics_fields (push_state_fields g).1).2.2.2.2.2.2.2.2
      obtain ⟨hg2, hd2, hcs2, _⟩ :=
        child_good hg (other player) (rd 0 g.drop_order i) (other_lt hp) hcol
      have wb : wrap32 (-beta) = -beta := wrap32_of_range _ (by omega) (by omega)
      have wm : wrap32 (-maxab) = -maxab := wrap32_of_range _ (by omega) (by omega)
      obtain ⟨G, g3, hev3, hf3, hG1, hG2, hGa, hGb⟩ := hev _ (-beta) (-maxab) hg2
        (by rw [hd2, hd])
        (by rw [hcs2, hs, hdo]; exact hsm i (List.mem_cons_self _ _) hnf)
        (by omega) (by omega) (by omega) (by omega)
      rw [hcs2, hs, hdo] at hGa hGb
      rw [neg_neg] at hGa hGb
      have hf4 := frame_push_drop_pop g g3 _ _ hf3
      obtain ⟨hg4, hcs4, hd4⟩ := good_of_frame hg hf4
      simp only [hpdo, wb, wm, hev3]
      have hbest1 : ∃ b1, (if G > best then G else best) = b1 ∧ best ≤ b1 ∧ G ≤ b1 ∧
          b1 ≤ 2147483647 ∧ ((b1 = G ∧ best < G) ∨ (b1 = best ∧ G ≤ best)) := by
        by_cases hgt : G > best
        · exact ⟨G, if_pos hgt, by omega, le_refl _, hG2, Or.inl ⟨rfl, hgt⟩⟩
        · exact ⟨best, if_neg hgt, le_refl _, by omega, by omega, Or.inr ⟨rfl, by omega⟩⟩
      obtain ⟨b1, eb1, hb1a, hb1b, hb1c, hb1d⟩ := hbest1
      simp only [eb1]
      have hmax1 : ∃ m1, (if G > best then (if b1 > maxab then b1 else maxab) else maxab) = m1 ∧
          maxab ≤ m1 ∧ b1 ≤ m1 ∧ m1 ≤ 2147483647 ∧ (m1 = maxab ∨ m1 = b1) := by
        by_cases hgt : G > best
        · by_cases hgt2 : b1 > maxab
          · exact ⟨b1, by rw [if_pos hgt, if_pos hgt2], by omega, le_refl _, hb1c, Or.inr rfl⟩
          · exact ⟨maxab, by rw [if_pos hgt, if_neg hgt2], le_refl _, by omega, h3, Or.inl rfl⟩
        · exact ⟨maxab, by rw [if_neg hgt], le_refl _, by omega, h3, Or.inl rfl⟩
      obtain ⟨m1, em1, hm1a, hm1b, hm1c, hm1d⟩ := hmax1
      simp only [em1]
      have hhead : b1 = best ∨ (maxab ≤ b1 → b1 ≤ negamax (setup_game w h n) rem (d + 1)
          (drop_piece_on (setup_game w h n) s (other player)
            (rd 0 (setup_game w h n).drop_order i)).2 (other player)) := by
        rcases hb1d with ⟨e, _⟩ | ⟨e, _⟩
        · right
          intro hm
          rw [e]
          exact hGb (by omega)
        · exact Or.inl e
      by_cases hcut : b1 > beta
      · rw [if_pos hcut]
        refine ⟨b1, pop_state g3, rfl, hf4, hb1a, hb1c, fun hle => absurd hle (by omega), ?_⟩
        rcases hhead with e | hv
        · exact Or.inl e
        · exact Or.inr ⟨i, List.mem_cons_self _ _, hnf, hv⟩
      · rw [if_neg hcut]
        obtain ⟨R, g1, hr, hf, hbR, hR, hA, hB⟩ := ih b1 m1 (pop_state g3) hg4
          (by rw [hd4, hd]) (by rw [hcs4, hs]) hrest hsmrest (by omega) hm1b hm1c
        refine ⟨R, g1, hr, frame_trans hf4 hf, by omega, hR, ?_, ?_⟩
        · intro hRb j hj hnfj
          rcases List.mem_cons.mp hj with e | hj1
          · rw [e]
            have := hGa (by omega)
            omega
          · exact hA hRb j hj1 hnfj
        · rcases hB with hB | ⟨j, hj, hnfj, hv⟩
          · rcases hhead with e | hv
            · exact Or.inl (by rw [hB, e])
            · exact Or.inr ⟨i, List.mem_cons_self _ _, hnf, fun hm => by
                rw [hB]; exact hv (by omega)⟩
          · exact Or.inr ⟨j, List.mem_cons_of_mem _ hj, hnfj, fun hm => hv (by omega)⟩

theorem evaluate_bounds (w h n level : Nat) (hlvl : level ≤ 20) (bound : Int)
    (hbound : bound ≤ 2147483648) :
    ∀ (rem fuel d player : Nat), player < 2 → rem < fuel → d + rem = level →
      ∀ (g2 : Game) (a b : Int), Good g2 w h n → g2.depth = d →
        search_small (setup_game w h n) bound rem (current_state g2) player = true →
        -2147483647 ≤ a → a ≤ 2147483647 → -2147483647 ≤ b → b ≤ 2147483647 →
        ∃ R g3, evaluate fuel g2 player level a b = some (R, g3) ∧ Frame g2 g3 ∧
          -2147483647 ≤ R ∧ R ≤ 2147483647 ∧
          (R ≤ -a → negamax (setup_game w h n) rem d (current_state g2) player ≤ R) ∧
          (-b ≤ R → R ≤ negamax (setup_game w h n) rem d (current_state g2) player) := by
  intro rem
  induction rem with
  | zero =>
    intro fuel d player hp hfuel hd g2 a b hg2 hd2 hsm ha1 ha2 hb1 hb2
    obtain ⟨f, rfl⟩ : ∃ f, fuel = f + 1 := ⟨fuel - 1, by omega⟩
    have hts : g2.total_size = (setup_game w h n).total_size := (statics_fields hg2.hst).2.2.1
    simp only [negamax, terminal_value, ← hts]
    unfold evaluate
    simp only [INT_MAX, hd2]
    by_cases h1 : (current_state g2).winner = player
    · rw [if_pos h1, if_pos h1]
      exact ⟨_, g2, rfl, frame_refl _, by omega, by omega, fun _ => le_refl _, fun _ => le_refl _⟩
    · rw [if_neg h1, if_neg h1]
      by_cases h2 : (current_state g2).winner = other player
      · rw [if_pos h2, if_pos h2]
        exact ⟨_, g2, rfl, frame_refl _, by omega, by omega, fun _ => le_refl _,
          fun _ => le_refl _⟩
      · rw [if_neg h2, if_neg h2]
        by_cases h3 : (current_state g2).num_of_pieces = g2.total_size
        · rw [if_pos h3, if_pos h3]
          exact ⟨_, g2, rfl, frame_refl _, by omega, by omega, fun _ => le_refl _,
            fun _ => le_refl _⟩
        · rw [if_neg h3, if_neg h3, if_pos (by omega)]
          have hsm2 := hsm
          simp only [search_small, terminal_value, if_neg h1, if_neg h2, ← hts, if_neg h3,
            Option.isSome_none, Bool.false_or, decide_eq_true_eq] at hsm2
          have e : goodness_of g2 player = goodness_on (current_state g2) player := rfl
          refine ⟨_, g2, rfl, frame_refl _, by rw [e]; omega, by rw [e]; omega,
            fun _ => ?_, fun _ => ?_⟩
          · rw [e]; exact le_refl _
          · rw [e]; exact le_refl _
  | succ rem ih =>
    intro fuel d player hp hfuel hd g2 a b hg2 hd2 hsm ha1 ha2 hb1 hb2
    obtain ⟨f, rfl⟩ : ∃ f, fuel = f + 1 := ⟨fuel - 1, by omega⟩
    have hev := ih f (d + 1) (other player) (other_lt hp) (by omega) (by omega)
    obtain ⟨e1, _, hts, _, _, _, _, _, hdo⟩ := statics_fields hg2.hst
    have ex : (setup_game w h n).size_x = w := rfl
    simp only [negamax, terminal_value, ← hts]
    unfold evaluate
    simp only [INT_MAX, hd2]
    by_cases h1 : (current_state g2).winner = player
    · rw [if_pos h1, if_pos h1]
      exact ⟨_, g2, rfl, frame_refl _, by omega, by omega, fun _ => le_refl _, fun _ => le_refl _⟩
    · rw [if_neg h1, if_neg h1]
      by_cases h2 : (current_state g2).winner = other player
      · rw [if_pos h2, if_pos h2]
        exact ⟨_, g2, rfl, frame_refl _, by omega, by omega, fun _ => le_refl _,
          fun _ => le_refl _⟩
      · rw [if_neg h2, if_neg h2]
        by_cases h3 : (current_state g2).num_of_pieces = g2.total_size
        · rw [if_pos h3, if_pos h3]
          exact ⟨_, g2, rfl, frame_refl _, by omega, by omega, fun _ => le_refl _,
            fun _ => le_refl _⟩
        · have hsm2 := hsm
          simp only [search_small, terminal_value, if_neg h1, if_neg h2, ← hts, if_neg h3,
            Option.isSome_none, Bool.false_or, List.all_eq_true] at hsm2
          obtain ⟨R, g1, hloop, hf, hbR, hR, hA, hB⟩ := evaluate_loop_bounds player hp bound
            (fun g a b => evaluate f g (other player) level a b) hev b hb1 hb2
            (current_state g2) (List.range w) (-2147483647) a g2 hg2 hd2 rfl
            (fun i hi => List.mem_range.mp hi)
            (fun i hi hnf => hsm2 _ ((mem_legal_columns _ _ _).mpr
              ⟨(setup_game_drop_order w h n).2 i (List.mem_range.mp hi), hnf⟩))
            (le_refl _) ha1 ha2
          rw [if_neg h3, if_neg h3, if_neg (by omega), e1, ex, hloop]
          simp only [Option.getD_none]
          have wR : wrap32 (-R) = -R := wrap32_of_range _ (by omega) (by omega)
          rw [wR]
          refine ⟨-R, g1, rfl, hf, by omega, by omega, ?_, ?_⟩
          · intro hle
            have hRM : R ≤ max_of (-2147483647)
                ((legal_columns (setup_game w h n) (current_state g2)).map fun c =>
                  negamax (setup_game w h n) rem (d + 1)
                    (drop_piece_on (setup_game w h n) (current_state g2) (other player) c).2
                    (other player)) := by
              rw [le_max_of_iff]
              rcases hB with hB | ⟨i, hi, hnf, hv⟩
              · exact Or.inl (by omega)
              · refine Or.inr ⟨_, List.mem_map.mpr ⟨rd 0 (setup_game w h n).drop_order i,
                  (mem_legal_columns _ _ _).mpr
                    ⟨(setup_game_drop_order w h n).2 i (List.mem_range.mp hi), hnf⟩, rfl⟩,
                  hv (by omega)⟩
            omega
          · intro hle
            have hMR : max_of (-2147483647)
                ((legal_columns (setup_game w h n) (current_state g2)).map fun c =>
                  negamax (setup_game w h n) rem (d + 1)
                    (drop_piece_on (setup_game w h n) (current_state g2) (other player) c).2
                    (other player)) ≤ R := by
              rw [max_of_le_iff]
              refine ⟨hbR, ?_⟩
              intro y hy
              obtain ⟨c, hc, rfl⟩ := List.mem_map.mp hy
              obtain ⟨hc1, hc2⟩ := (mem_legal_columns _ _ _).mp hc
              obtain ⟨i, hi, e⟩ := good_order_onto hg2 c (by rw [e1]; exact hc1)
              rw [e1, ex] at hi
              rw [hdo] at e
              have := hA (by omega) i (List.mem_range.mpr hi) (by rw [e]; exact hc2)
              rw [e] at this
              exact this
            omega

theorem search_small_congr {g g1 : Game} (h : statics g1 = statics g) (bound : Int) :
    ∀ (r : Nat) (s : Game_state) (p : Nat),
      search_small g1 bound r s p = search_small g bound r s p := by
  intro r
  induction r with
  | zero =>
    intro s p
    simp only [search_small, terminal_value_congr h]
  | succ r ih =>
    intro s p
    simp only [search_small, terminal_value_congr h, legal_columns_congr h,
      drop_piece_on_congr h, ih]

/-- C26: during a search of `level` plies (at most `C4_MAX_LEVEL`), in a state at
stack depth at most `level` whose search tree only meets values of `goodness_of`
strictly between `-(INT_MAX - level)` and `INT_MAX - level`, the call
`evaluate(player, level, -INT_MAX, INT_MAX)` returns, and its value is exactly the
unpruned depth-limited negamax value of the current state: the cutoffs of alpha-beta
do not change the result of the full window. The call leaves the current state, the
depth and the constants of the game as they were. -/
theorem evaluate_full_window_is_negamax (g : Game) (hg : Speculative g)
    (player level : Nat) (hp : player < 2) (hd : g.depth ≤ level)
    (hl : level ≤ C4_MAX_LEVEL)
    (hsmall : search_small g (INT_MAX - (level : Int)) (level - g.depth) (current_state g)
      player = true)
    (fuel : Nat) (hfuel : level - g.depth < fuel) :
    ∃ g1, evaluate fuel g player level (-INT_MAX) INT_MAX =
        some (negamax g (level - g.depth) g.depth (current_state g) player, g1) ∧
      current_state g1 = current_state g ∧ g1.depth = g.depth ∧ statics g1 = statics g := by
  obtain ⟨w, h, n, hgood⟩ := speculative_good g hg
  have hsm : search_small (setup_game w h n) (INT_MAX - (level : Int)) (level - g.depth)
      (current_state g) player = true := by
    rw [← search_small_congr hgood.hst]
    exact hsmall
  obtain ⟨R, g1, hev, hf, _, _, hA, hB⟩ := evaluate_bounds w h n level hl
    (INT_MAX - (level : Int)) (by simp only [INT_MAX]; omega) (level - g.depth) fuel g.depth
    player hp hfuel (by omega) g (-INT_MAX) INT_MAX hgood rfl hsm
    (by simp only [INT_MAX]; omega) (by simp only [INT_MAX]; omega)
    (by simp only [INT_MAX]; omega) (by simp only [INT_MAX]; omega)
  obtain ⟨_, hcs, hdep⟩ := good_of_frame hgood hf
  have hN : negamax g (level - g.depth) g.depth (current_state g) player =
      negamax (setup_game w h n) (level - g.depth) g.depth (current_state g) player :=
    negamax_congr hgood.hst _ _ _ _
  have hR : R = negamax (setup_game w h n) (level - g.depth) g.depth (current_state g)
      player := by
    have h1 := hA (by simp only [INT_MAX]; omega)
    have h2 := hB (by simp only [INT_MAX]; omega)
    omega
  refine ⟨g1, ?_, hcs, hdep, hf.1⟩
  rw [hev, hR, hN]

set_option maxRecDepth 100000 in
/-- The statement of `evaluate_full_window_is_negamax` for player 0 at level 3, at the
first call of `evaluate` by `c4_auto_move(0, 3, ..)` on the 7x6 board after four moves
in column 3, where `move_in_progress` is true and the depth is 1. -/
theorem evaluate_full_window_is_negamax_witness :
    game_7x6_search.move_in_progress = true ∧ game_7x6_search.depth = 1 ∧
    game_7x6_search.depth ≤ 3 ∧
    search_small game_7x6_search (INT_MAX - ((3 : Nat) : Int)) (3 - game_7x6_search.depth)
      (current_state game_7x6_search) 0 = true ∧
    ∃ g1, evaluate 3 game_7x6_search 0 3 (-INT_MAX) INT_MAX =
        some (negamax game_7x6_search (3 - game_7x6_search.depth) game_7x6_search.depth
          (current_state game_7x6_search) 0, g1) ∧
      current_state g1 = current_state game_7x6_search ∧
      g1.depth = game_7x6_search.depth ∧ statics g1 = statics game_7x6_search :=
  ⟨by decide, by decide, by decide, by decide,
    evaluate_full_window_is_negamax game_7x6_search speculative_7x6_search 0 3 (by decide)
      (by decide) (by decide) (by decide) 3 (by decide)⟩

/-! ## The winner is final -/

theorem update_score_body_keeps_winner (m : Int) (p : Nat) (l : Score_loop) (w : Nat)
    (h : l.state.winner ≠ C4_NONE) :
    (update_score_body m p l w).state.winner = l.state.winner := by
  unfold update_score_body
  simp only [if_neg h, ite_self]

theorem update_score_loop_keeps_winner (m : Int) (p : Nat) (ids : List Nat) :
    ∀ l : Score_loop, l.state.winner ≠ C4_NONE →
      (ids.foldl (update_score_body m p) l).state.winner = l.state.winner := by
  induction ids with
  | nil => intro l _; rfl
  | cons w rest ih =>
    intro l h
    rw [List.foldl_cons, ih _ (by rw [update_score_body_keeps_winner m p l w h]; exact h),
      update_score_body_keeps_winner m p l w h]

theorem drop_piece_on_keeps_winner (g : Game) (s : Game_state) (p c : Nat)
    (h : s.winner ≠ C4_NONE) : (drop_piece_on g s p c).2.winner = s.winner := by
  unfold drop_piece_on
  simp only
  split_ifs
  · rfl
  · unfold update_score_on
    simp only
    rw [update_score_loop_keeps_winner _ _ _ _ h]

theorem reachable_drop_keeps_winner (g : Game) (hg : Reachable g) (p c : Nat)
    (h : (current_state g).winner ≠ C4_NONE) :
    (current_state (drop_piece g p c).2).winner = (current_state g).winner := by
  obtain ⟨w, ht, n, hgood, _, _⟩ := reachable_good g hg
  rw [((drop_piece_fields g p c).2.2.2.2.2 hgood.hstack).2]
  exact drop_piece_on_keeps_winner g _ p c h

theorem play_keeps_winner (moves : List (Nat × Nat)) :
    ∀ g, Reachable g → (∀ m, m ∈ moves → m.1 < 2 ∧ m.2 < g.size_x) →
      (current_state g).winner ≠ C4_NONE →
      (current_state (play g moves)).winner = (current_state g).winner := by
  induction moves with
  | nil => intro g _ _ _; rfl
  | cons m rest ih =>
    intro g hr hall h
    have hm := hall m (List.mem_cons_self _ _)
    have h1 := reachable_drop_keeps_winner g hr m.1 m.2 h
    rw [play_cons, ih _ (reachable_drop g hr m.1 m.2 hm.1 hm.2) ?_ (by rw [h1]; exact h), h1]
    intro m1 hm1
    rw [drop_piece_size_x]
    exact hall m1 (List.mem_cons_of_mem _ hm1)

/-- C31: once `winner` is a player `p` it never changes: `drop_piece` by either player
in any column leaves `winner == p`, whatever the state; hence in every reachable game
with `winner == p` the winner is still `p` after every sequence of placements, after
`c4_make_move` and after `c4_auto_move`. -/
theorem winner_never_changes (p : Nat) (hp : p < 2) :
    (∀ (g : Game) (s : Game_state) (q c : Nat), s.winner = p →
      (drop_piece_on g s q c).2.winner = p) ∧
    (∀ g, Reachable g → (current_state g).winner = p →
      (∀ moves : List (Nat × Nat), (∀ m, m ∈ moves → m.1 < 2 ∧ m.2 < g.size_x) →
        (current_state (play g moves)).winner = p) ∧
      (∀ (player column : Int) (row : Option Int) (r : Bool × Option Int × Game),
        c4_make_move g player column row = some r → (current_state r.2.2).winner = p) ∧
      (∀ (rand : Nat → Nat) (player level column : Int) (row : Option Int) (r : Auto_result),
        c4_auto_move g rand player level column row = some r →
        (current_state r.game).winner = p)) := by
  have hne : p ≠ C4_NONE := by unfold C4_NONE; omega
  refine ⟨?_, ?_⟩
  · intro g s q c hs
    rw [drop_piece_on_keeps_winner g s q c (by rw [hs]; exact hne), hs]
  · intro g hg hwin
    have hw : (current_state g).winner ≠ C4_NONE := by rw [hwin]; exact hne
    obtain ⟨w, ht, n, hgood, _, _⟩ := reachable_good g hg
    refine ⟨?_, ?_, ?_⟩
    · intro moves hmoves
      rw [play_keeps_winner moves g hg hmoves hw, hwin]
    · intro player column row r hr
      unfold c4_make_move at hr
      split_ifs at hr with h1 h2
      · cases hr
        exact hwin
      · cases hr
        simp only
        rw [reachable_drop_keeps_winner g hg _ _ hw, hwin]
    · intro rand player level column row r hr
      have hord : ∀ i, i < g.size_x → rd 0 g.drop_order i < g.size_x := by
        obtain ⟨e1, _, _, _, _, _, _, _, hdo⟩ := statics_fields hgood.hst
        intro i hi
        rw [hdo, e1]
        rw [e1] at hi
        exact (setup_game_drop_order w ht n).2 i hi
      obtain ⟨_, _, _, _, hres⟩ := c4_auto_move_result g rand player level column row r hr
        hgood.hstack hord
      rcases hres with ⟨_, hcs⟩ | ⟨_, c, _, _, hcs⟩
      · rw [hcs, hwin]
      · rw [hcs, drop_piece_on_keeps_winner g _ _ c hw, hwin]

/-- The statement of `winner_never_changes` for player 0 in the 2x1 game with runs of
1: player 0 wins with the first piece and is still the winner after player 1 completed
the other line. -/
theorem winner_never_changes_witness :
    0 < 2 ∧ (current_state game_2x1_first).winner = 0 ∧
    (current_state (play game_2x1_first [(1, 1)])).winner = 0 :=
  ⟨by decide, by decide,
    ((winner_never_changes 0 (by decide)).2 game_2x1_first
      (Reachable.make_move _ 0 0 none (true, none, game_2x1_first)
        (Reachable.new_game no_game (setup_game 2 1 1) 2 1 1 (by decide)) (by decide))
      (by decide)).1 [(1, 1)] (by decide)⟩

/-! ## The number of pieces -/

/-- C35: in every state that the game or a search reaches, `num_of_pieces` is the
number of occupied cells of the board; a successful `drop_piece` (one that returns a
row) increases it by exactly 1 and a failed one leaves it as it is; and
`num_of_pieces == size_x * size_y` holds exactly when every cell is occupied. -/
theorem num_of_pieces_counts_the_board (g : Game) (hg : Speculative g) :
    (current_state g).num_of_pieces = occupied g (current_state g) ∧
    (∀ player column : Nat, column < g.size_x → 0 ≤ (drop_piece g player column).1 →
      (current_state (drop_piece g player column).2).num_of_pieces =
        (current_state g).num_of_pieces + 1) ∧
    (∀ player column : Nat, column < g.size_x → (drop_piece g player column).1 < 0 →
      (current_state (drop_piece g player column).2).num_of_pieces =
        (current_state g).num_of_pieces) ∧
    ((current_state g).num_of_pieces = g.size_x * g.size_y ↔
      board_full g (current_state g)) := by
  obtain ⟨w, h, n, hgood⟩ := speculative_good g hg
  obtain ⟨e1, e2, _⟩ := good_fields hgood
  refine ⟨occupied_eq hgood, ?_, ?_, ?_⟩
  · intro player column _ hres
    by_cases hfull : column_full g (current_state g) column
    · exfalso
      have h1 : (drop_piece g player column).1 = -1 := by
        show (drop_piece_on g (current_state g) player column).1 = -1
        rw [drop_piece_on_full g _ player column hfull]
      omega
    · obtain ⟨y, _, _, _, _, _, hnum⟩ := drop_piece_row hgood player column hfull
      exact hnum
  · intro player column _ hres
    by_cases hfull : column_full g (current_state g) column
    · rw [((drop_piece_fields g player column).2.2.2.2.2 hgood.hstack).2,
        drop_piece_on_full g _ player column hfull]
    · exfalso
      obtain ⟨y, hy, _⟩ := drop_piece_row hgood player column hfull
      omega
  · rw [board_full_iff_count hgood, good_total_size hgood, e1, e2]

set_option maxRecDepth 100000 in
/-- The statement of `num_of_pieces_counts_the_board` in the 7x6 game after player 0
moved in the columns 0, 1, 2 and 3: four pieces and four occupied cells. -/
theorem num_of_pieces_counts_the_board_witness :
    (current_state game_7x6_row).num_of_pieces = 4 ∧
    ((current_state game_7x6_row).num_of_pieces =
      occupied game_7x6_row (current_state game_7x6_row) ∧
    (∀ player column : Nat, column < game_7x6_row.size_x →
      0 ≤ (drop_piece game_7x6_row player column).1 →
      (current_state (drop_piece game_7x6_row player column).2).num_of_pieces =
        (current_state game_7x6_row).num_of_pieces + 1) ∧
    (∀ player column : Nat, column < game_7x6_row.size_x →
      (drop_piece game_7x6_row player column).1 < 0 →
      (current_state (drop_piece game_7x6_row player column).2).num_of_pieces =
        (current_state game_7x6_row).num_of_pieces) ∧
    ((current_state game_7x6_row).num_of_pieces =
        game_7x6_row.size_x * game_7x6_row.size_y ↔
      board_full game_7x6_row (current_state game_7x6_row))) :=
  ⟨by decide,
    num_of_pieces_counts_the_board game_7x6_row (Speculative.real _ reachable_7x6_row)⟩

/-! ## What a placement changes -/

theorem drop_piece_success_free {g : Game} (player column : Nat)
    (hres : 0 ≤ (drop_piece g player column).1) :
    ¬ column_full g (current_state g) column := by
  intro hfull
  have h1 : (drop_piece g player column).1 = -1 := by
    show (drop_piece_on g (current_state g) player column).1 = -1
    rw [drop_piece_on_full g _ player column hfull]
  omega

theorem drop_piece_entries {g : Game} {w h n : Nat} (hgood : Good g w h n)
    (player column : Nat) (hp : player < 2) (hc : column < g.size_x)
    (hfree : ¬ column_full g (current_state g) column) :
    ∃ r : Nat, (drop_piece g player column).1 = (r : Int) ∧ r < g.size_y ∧
      rd2 C4_NONE (current_state g).board column r = C4_NONE ∧
      (current_state (drop_piece g player column).2).board =
        wr2 (current_state g).board column r player ∧
      rd2 [] g.map column r = lines_through (win_lines w h n) (column, r) ∧
      (∀ L, rd2 0 (current_state (drop_piece g player column).2).score_array player L =
        (if L ∈ rd2 [] g.map column r
          then wrap32 (2 * rd2 0 (current_state g).score_array player L)
          else rd2 0 (current_state g).score_array player L)) ∧
      (∀ L, rd2 0 (current_state (drop_piece g player column).2).score_array (other player) L =
        (if L ∈ rd2 [] g.map column r then 0
          else rd2 0 (current_state g).score_array (other player) L)) := by
  obtain ⟨e1, e2, _, e4, e5, _⟩ := good_fields hgood
  have hinv := good_inv hgood
  obtain ⟨r, hr, hry, hempty, _, hb, _⟩ := drop_piece_row hgood player column hfree
  have hrd : (drop_row (rd [] (current_state g).board column) g.size_y g.size_y 0 : Nat) = r := by
    have h1 : (drop_piece g player column).1 =
        ((drop_row (rd [] (current_state g).board column) g.size_y g.size_y 0 : Nat) : Int) := by
      show (drop_piece_on g (current_state g) player column).1 = _
      rw [drop_piece_on_free g _ player column hfree]
    omega
  have hcs := ((drop_piece_fields g player column).2.2.2.2.2 hgood.hstack).2
  have hmap : rd2 [] g.map column r = lines_through (win_lines w h n) (column, r) := by
    rw [e5]
    exact (setup_game_map w h n hgood.hn).2 column r (by omega) (by omega)
  obtain ⟨s1, s2, _, _⟩ := update_score_on_spec g
    { current_state g with board := wr2 (current_state g).board column r player,
                           num_of_pieces := (current_state g).num_of_pieces + 1 }
    player column r hp (win_lines w h n).length hinv.arrays.2.1 hinv.arrays.2.2
    (by rw [hmap]; exact lines_through_nodup _ _)
    (by intro L hL; rw [hmap] at hL; exact (mem_lines_through.mp hL).1)
  have hsa : (current_state (drop_piece g player column).2).score_array =
      (update_score_on g
        { current_state g with board := wr2 (current_state g).board column r player,
                               num_of_pieces := (current_state g).num_of_pieces + 1 }
        player column r).score_array := by
    rw [hcs, drop_piece_on_free g _ player column hfree, hrd]
  refine ⟨r, hr, hry, hempty, hb, hmap, ?_, ?_⟩
  · intro L
    rw [hsa]
    exact s1 L
  · intro L
    rw [hsa]
    exact s2 L

/-- C38: in every state that the game or a search reaches, a successful
`drop_piece(player, column)` returns a row `r` such that the cell `(column, r)` was
empty and now holds `player`, every other cell of the board is as before, and the
entries of `score_array` of both players at the line ids that are not listed in
`map[column][r]` are as before; at a listed id the entry of `player` is doubled (as an
`int`) and the entry of the opponent is 0. -/
theorem drop_piece_changes_one_cell (g : Game) (hg : Speculative g) (player column : Nat)
    (hp : player < 2) (hc : column < g.size_x)
    (hres : 0 ≤ (drop_piece g player column).1) :
    ∃ r : Nat, (drop_piece g player column).1 = (r : Int) ∧ r < g.size_y ∧
      rd2 C4_NONE (current_state g).board column r = C4_NONE ∧
      rd2 C4_NONE (current_state (drop_piece g player column).2).board column r = player ∧
      (∀ x y, (x, y) ≠ (column, r) →
        rd2 C4_NONE (current_state (drop_piece g player column).2).board x y =
          rd2 C4_NONE (current_state g).board x y) ∧
      (∀ q L, q < 2 → L ∉ rd2 [] g.map column r →
        rd2 0 (current_state (drop_piece g player column).2).score_array q L =
          rd2 0 (current_state g).score_array q L) ∧
      (∀ L, L ∈ rd2 [] g.map column r →
        rd2 0 (current_state (drop_piece g player column).2).score_array player L =
          wrap32 (2 * rd2 0 (current_state g).score_array player L) ∧
        rd2 0 (current_state (drop_piece g player column).2).score_array (other player) L =
          0) := by
  obtain ⟨w, h, n, hgood⟩ := speculative_good g hg
  have hinv := good_inv hgood
  obtain ⟨e1, e2, _⟩ := good_fields hgood
  obtain ⟨r, hr, hry, hempty, hb, _, s1, s2⟩ := drop_piece_entries hgood player column hp hc
    (drop_piece_success_free player column hres)
  refine ⟨r, hr, hry, hempty, ?_, ?_, ?_, ?_⟩
  · rw [hb]
    exact rd2_wr2_same _ _ _ _ _ (by rw [hinv.board.1]; omega)
      (by rw [hinv.board.2 column (by omega)]; omega)
  · intro x y hxy
    rw [hb]
    apply rd2_wr2_ne
    by_contra hcon
    push_neg at hcon
    exact hxy (by rw [hcon.1, hcon.2])
  · intro q L hq hL
    rcases eq_or_eq_other hp hq with rfl | rfl
    · rw [s1 L, if_neg hL]
    · rw [s2 L, if_neg hL]
  · intro L hL
    exact ⟨by rw [s1 L, if_pos hL], by rw [s2 L, if_pos hL]⟩

set_option maxRecDepth 100000 in
/-- The statement of `drop_piece_changes_one_cell` for player 1 dropping in column 0 of
the 7x6 game after player 0 moved in the columns 0, 1, 2 and 3: the piece lands in
row 1. -/
theorem drop_piece_changes_one_cell_witness :
    (drop_piece game_7x6_row 1 0).1 = 1 ∧
    ∃ r : Nat, (drop_piece game_7x6_row 1 0).1 = (r : Int) ∧ r < game_7x6_row.size_y ∧
      rd2 C4_NONE (current_state game_7x6_row).board 0 r = C4_NONE ∧
      rd2 C4_NONE (current_state (drop_piece game_7x6_row 1 0).2).board 0 r = 1 ∧
      (∀ x y, (x, y) ≠ (0, r) →
        rd2 C4_NONE (current_state (drop_piece game_7x6_row 1 0).2).board x y =
          rd2 C4_NONE (current_state game_7x6_row).board x y) ∧
      (∀ q L, q < 2 → L ∉ rd2 [] game_7x6_row.map 0 r →
        rd2 0 (current_state (drop_piece game_7x6_row 1 0).2).score_array q L =
          rd2 0 (current_state game_7x6_row).score_array q L) ∧
      (∀ L, L ∈ rd2 [] game_7x6_row.map 0 r →
        rd2 0 (current_state (drop_piece game_7x6_row 1 0).2).score_array 1 L =
          wrap32 (2 * rd2 0 (current_state game_7x6_row).score_array 1 L) ∧
        rd2 0 (current_state (drop_piece game_7x6_row 1 0).2).score_array (other 1) L =
          0) :=
  ⟨by decide,
    drop_piece_changes_one_cell game_7x6_row (Speculative.real _ reachable_7x6_row) 1 0
      (by decide) (by decide) (by decide)⟩

/-! ## The magic number and the doubling -/

set_option maxRecDepth 100000 in
/-- C36 (the claim fails): `c4_new_game(1, 31, 31)` and `c4_new_game(1, 32, 32)` are
accepted; `1 << 31` is `INT_MIN` as an `int` and `1 << 32` is computed as 1, so
`magic_win_number` is not `2^runLength`; and in the 1x32 game, after 30 calls
`c4_make_move(0, 0, NULL)` the entry of player 0 for the only line is `2^30`, whose
doubling by the next such call overflows to `INT_MIN` long before `2^32`. -/
theorem magic_win_number_overflows :
    c4_new_game no_game 1 31 31 = some (setup_game 1 31 31) ∧
    (setup_game 1 31 31).magic_win_number = -2147483648 ∧
    (setup_game 1 31 31).magic_win_number ≠ 2 ^ 31 ∧
    c4_new_game no_game 1 32 32 = some (setup_game 1 32 32) ∧
    (setup_game 1 32 32).magic_win_number = 1 ∧
    (setup_game 1 32 32).magic_win_number ≠ 2 ^ 32 ∧
    Reachable game_1x32_30 ∧
    rd2 0 (current_state game_1x32_30).score_array 0 0 = 2 ^ 30 ∧
    rd2 0 (current_state (drop_piece game_1x32_30 0 0).2).score_array 0 0 = -2147483648 ∧
    rd2 0 (current_state (drop_piece game_1x32_30 0 0).2).score_array 0 0 ≠
      2 * rd2 0 (current_state game_1x32_30).score_array 0 0 := by
  have hr : Reachable game_1x32_30 := reachable_play _ _
    (Reachable.new_game no_game (setup_game 1 32 32) 1 32 32 (by decide)) (by decide)
  exact ⟨by decide, by decide, by decide, by decide, by decide, by decide, hr, by decide,
    by decide, by decide⟩

/-- C36 (amended): in every state that the game or a search reaches with
`num_to_connect <= 30`, `magic_win_number` (computed as `1 << num_to_connect`) is
`2 ^ num_to_connect`, and no doubling of `update_score` overflows: when
`drop_piece(player, column)` succeeds with row `r`, for each line id `L` of
`map[column][r]` the entry `score_array[player][L]` before the call is between 0 and
`2 ^ (num_to_connect - 1)`, and the entry after the call is exactly twice that, at most
`2 ^ num_to_connect`. -/
theorem magic_win_number_is_a_power (g : Game) (hg : Speculative g)
    (hn : g.num_to_connect ≤ 30) :
    g.magic_win_number = 2 ^ g.num_to_connect ∧
    (∀ player column : Nat, player < 2 → column < g.size_x →
      0 ≤ (drop_piece g player column).1 →
      ∃ r : Nat, (drop_piece g player column).1 = (r : Int) ∧
        ∀ L, L ∈ rd2 [] g.map column r →
          0 ≤ rd2 0 (current_state g).score_array player L ∧
          2 * rd2 0 (current_state g).score_array player L ≤ 2 ^ g.num_to_connect ∧
          rd2 0 (current_state (drop_piece g player column).2).score_array player L =
            2 * rd2 0 (current_state g).score_array player L) := by
  obtain ⟨w, h, n, hgood⟩ := speculative_good g hg
  obtain ⟨e1, e2, e3, e4, e5, e6⟩ := good_fields hgood
  have hinv := good_inv hgood
  rw [e3] at hn ⊢
  refine ⟨by rw [e6, Nat.mod_eq_of_lt (by omega), wrap32_pow_small hn], ?_⟩
  intro player column hp hc hres
  obtain ⟨r, hr, hry, hempty, _, hmap, s1, _⟩ := drop_piece_entries hgood player column hp hc
    (drop_piece_success_free player column hres)
  refine ⟨r, hr, ?_⟩
  intro L hL
  have hL2 := hL
  rw [hmap] at hL2
  obtain ⟨hLlt, hmem⟩ := mem_lines_through.mp hL2
  have hline : rd [] (win_lines w h n) L ∈ win_lines w h n := by
    rw [rd_eq_getElem _ _ _ hLlt]
    exact List.get_mem _ _ _
  have hlen := win_lines_length_eq hgood.hn hline
  have hown : owned (current_state g).board player (rd [] (win_lines w h n) L) < n := by
    have hle := owned_le (current_state g).board player (rd [] (win_lines w h n) L)
    rw [hlen] at hle
    rcases Nat.lt_or_ge (owned (current_state g).board player (rd [] (win_lines w h n) L)) n
      with hlt | hge
    · exact hlt
    · exfalso
      have heq : owned (current_state g).board player (rd [] (win_lines w h n) L) =
          (rd [] (win_lines w h n) L).length := by omega
      have hall := owned_eq_length_iff.mp heq (column, r) hmem
      simp only at hall
      rw [hempty] at hall
      unfold C4_NONE at hall
      omega
  have hentry := hinv.progress player hp L hLlt
  have hpow : ∀ k : Nat, k < n → (0 : Int) ≤ 2 ^ k ∧ 2 * (2 : Int) ^ k ≤ 2 ^ n := by
    intro k hk
    refine ⟨by positivity, ?_⟩
    have : (2 : Int) ^ (k + 1) ≤ 2 ^ n := pow_le_pow_right₀ (by norm_num) (by omega)
    rw [pow_succ] at this
    omega
  have hn30 : (2 : Int) ^ n ≤ 1073741824 := by
    have : (2 : Int) ^ n ≤ 2 ^ 30 := pow_le_pow_right₀ (by norm_num) hn
    norm_num at this
    exact this
  have hn0 : (0 : Int) < 2 ^ n := by positivity
  have hrange : 0 ≤ rd2 0 (current_state g).score_array player L ∧
      2 * rd2 0 (current_state g).score_array player L ≤ 2 ^ n := by
    rw [hentry]
    unfold progress
    split_ifs
    · omega
    · rw [wrap32_pow_small (by omega)]
      exact hpow _ hown
  refine ⟨hrange.1, hrange.2, ?_⟩
  rw [s1 L, if_pos hL]
  exact wrap32_of_range _ (by omega) (by omega)

set_option maxRecDepth 100000 in
/-- The statement of `magic_win_number_is_a_power` in the 7x6 game with runs of 4 after
player 0 moved in the columns 0, 1, 2 and 3, where `magic_win_number` is 16. -/
theorem magic_win_number_is_a_power_witness :
    game_7x6_row.num_to_connect ≤ 30 ∧ game_7x6_row.magic_win_number = 16 ∧
    (game_7x6_row.magic_win_number = 2 ^ game_7x6_row.num_to_connect ∧
    (∀ player column : Nat, player < 2 → column < game_7x6_row.size_x →
      0 ≤ (drop_piece game_7x6_row player column).1 →
      ∃ r : Nat, (drop_piece game_7x6_row player column).1 = (r : Int) ∧
        ∀ L, L ∈ rd2 [] game_7x6_row.map column r →
          0 ≤ rd2 0 (current_state game_7x6_row).score_array player L ∧
          2 * rd2 0 (current_state game_7x6_row).score_array player L ≤
            2 ^ game_7x6_row.num_to_connect ∧
          rd2 0 (current_state (drop_piece game_7x6_row player column).2).score_array
              player L =
            2 * rd2 0 (current_state game_7x6_row).score_array player L)) :=
  ⟨by decide, by decide,
    magic_win_number_is_a_power game_7x6_row (Speculative.real _ reachable_7x6_row)
      (by decide)⟩

/-! ## The first opening move of `c4_auto_move` -/

set_option maxRecDepth 100000 in
/-- C37 (the claim fails): on the empty 7x6 board with runs of 4 the center column is
column 3, the first entry of `drop_order`; yet for either player, at every level 1..20
and whatever `rand()` returns, `c4_auto_move` returns true with column 2, never with
column 3: the piece is in the cell `(2, 0)` and the center column is still empty. -/
theorem c4_auto_move_opens_beside_the_center :
    c4_new_game no_game 7 6 4 = some (setup_game 7 6 4) ∧
    (current_state (setup_game 7 6 4)).num_of_pieces = 0 ∧
    rd 0 (setup_game 7 6 4).drop_order 0 = 3 ∧
    ((setup_game 7 6 4).size_x - 1) / 2 = 3 ∧
    (∀ (rand : Nat → Nat) (player : Fin 2) (level : Fin 20) (column : Int)
      (row : Option Int),
      c4_auto_move (setup_game 7 6 4) rand (player : Nat) ((level : Nat) + 1) column row =
        some { moved := true, column := 2, row := row.map (fun _ => (0 : Int)),
               game := (drop_piece (setup_game 7 6 4) player 2).2 }) ∧
    (∀ player : Fin 2,
      rd2 C4_NONE (current_state (drop_piece (setup_game 7 6 4) player 2).2).board 2 0 =
        player ∧
      ∀ y, y < 6 →
        rd2 C4_NONE (current_state (drop_piece (setup_game 7 6 4) player 2).2).board 3 y =
          C4_NONE) ∧
    (∀ (rand : Nat → Nat) (player : Fin 2) (level : Fin 20) (column : Int)
      (row : Option Int) (r : Auto_result),
      c4_auto_move (setup_game 7 6 4) rand (player : Nat) ((level : Nat) + 1) column row =
        some r → r.column ≠ 3) := by
  have hmain : ∀ (rand : Nat → Nat) (player : Fin 2) (level : Fin 20) (column : Int)
      (row : Option Int),
      c4_auto_move (setup_game 7 6 4) rand (player : Nat) ((level : Nat) + 1) column row =
        some { moved := true, column := 2, row := row.map (fun _ => (0 : Int)),
               game := (drop_piece (setup_game 7 6 4) player 2).2 } := ?_
  · refine ⟨by decide, by decide, by decide, by decide, hmain, by decide, ?_⟩
    intro rand player level column row r hr
    rw [hmain rand player level column row] at hr
    simp only [Option.some.injEq] at hr
    rw [← hr]
    show (2 : Int) ≠ 3
    decide
  intro rand player level column row
  have hrp : real_player ((player : Nat) : Int) = (player : Nat) := by
    unfold real_player
    have := player.isLt
    omega
  unfold c4_auto_move
  have hc : (setup_game 7 6 4).game_in_progress = true ∧
      ¬ (setup_game 7 6 4).move_in_progress = true ∧ (((level : Nat) + 1 : Nat) : Int) ≥ 1 ∧
      (((level : Nat) + 1 : Nat) : Int) ≤ (C4_MAX_LEVEL : Int) := by
    refine ⟨by decide, by decide, by omega, ?_⟩
    have := level.isLt
    unfold C4_MAX_LEVEL
    omega
  have hc1 : (current_state (setup_game 7 6 4)).num_of_pieces < 1 ∧
      (setup_game 7 6 4).size_x = 7 ∧ (setup_game 7 6 4).size_y = 6 ∧
      (setup_game 7 6 4).num_to_connect = 4 ∧
      ((current_state (setup_game 7 6 4)).num_of_pieces = 0 ∨
        rd2 C4_NONE (current_state (setup_game 7 6 4)).board 3 0 ≠ C4_NONE) :=
    ⟨by decide, rfl, rfl, rfl, Or.inl (by decide)⟩
  push_cast at hc
  rw [if_pos hc, if_pos hc1, hrp]
  rfl

/-- C37 (amended): on the empty 7x6 board with runs of 4, in every reachable game, for
either player, at every level 1..20 and whatever `rand()` returns, `c4_auto_move`
returns true with column 2, the column to the left of the center column
`(7 - 1) / 2 = 3`, which is the first column of `drop_order`: the piece of the mover
lies in the cell `(2, 0)`, every other cell is empty, the center column among them, and
the row reported is 0. -/
theorem c4_auto_move_opens_in_column_2 (g : Game) (hg : Reachable g)
    (h7 : g.size_x = 7 ∧ g.size_y = 6 ∧ g.num_to_connect = 4)
    (h0 : (current_state g).num_of_pieces = 0)
    (rand : Nat → Nat) (player level column : Int) (row : Option Int)
    (hl1 : 1 ≤ level) (hl2 : level ≤ 20) :
    ∃ r, c4_auto_move g rand player level column row = some r ∧
      r.moved = true ∧ r.column = 2 ∧ r.row = row.map (fun _ => (0 : Int)) ∧
      (g.size_x - 1) / 2 = 3 ∧ rd 0 g.drop_order 0 = 3 ∧
      r.column + 1 = (((g.size_x - 1) / 2 : Nat) : Int) ∧
      r.game = (drop_piece g (real_player player) 2).2 ∧
      rd2 C4_NONE (current_state r.game).board 2 0 = real_player player ∧
      (∀ x y, x ≠ 2 ∨ y ≠ 0 → rd2 C4_NONE (current_state r.game).board x y = C4_NONE) ∧
      (∀ y, rd2 C4_NONE (current_state r.game).board 3 y = C4_NONE) ∧
      (current_state r.game).num_of_pieces = 1 := by
  obtain ⟨w, h, n, hgood, hd, hm⟩ := reachable_good g hg
  have hgp := good_in_progress hgood
  have hfill := good_fill hgood
  have hinv := good_inv hgood
  obtain ⟨e1, e2, e3, _⟩ := good_fields hgood
  obtain ⟨h7x, h7y, h7n⟩ := h7
  have hc : g.game_in_progress = true ∧ ¬ g.move_in_progress = true ∧ level ≥ 1 ∧
      level ≤ (C4_MAX_LEVEL : Int) := by
    refine ⟨hgp, by simp [hm], hl1, ?_⟩
    simp [C4_MAX_LEVEL]; exact hl2
  have hdims : Dims w h (current_state g).board := hinv.board
  have hempty := empty_board hfill h0
  have hfree : ¬ column_full g (current_state g) 2 := by
    intro hfull
    exact hfull 0 (by omega) (hempty 2 0)
  obtain ⟨y, ey, hy, _, hbelow, hb, hnum⟩ := drop_piece_row hgood (real_player player) 2 hfree
  have hy0 : y = 0 := by
    by_contra hne
    exact hbelow 0 (by omega) (hempty 2 0)
  subst hy0
  have hdo : rd 0 g.drop_order 0 = 3 := by
    have hst := congrArg Game.drop_order hgood.hst
    have hw : w = 7 := by omega
    have hh : h = 6 := by omega
    have hn : n = 4 := by omega
    subst hw hh hn
    have hst1 : g.drop_order = (setup_game 7 6 4).drop_order := hst
    rw [hst1]
    decide
  have hother : ∀ x y, x ≠ 2 ∨ y ≠ 0 →
      rd2 C4_NONE (current_state (drop_piece g (real_player player) 2).2).board x y =
        C4_NONE := by
    intro x y hxy
    rw [hb, rd2_wr2_ne C4_NONE _ 2 0 x y _ (by omega)]
    exact hempty x y
  refine ⟨{ moved := true, column := 2, row := row.map (fun _ => (0 : Int)),
            game := (drop_piece g (real_player player) 2).2 }, ?_, rfl, rfl, rfl,
    by rw [h7x], hdo, by rw [h7x]; rfl, rfl, ?_, hother, fun y => hother 3 y (by omega),
    by rw [hnum, h0]⟩
  · unfold c4_auto_move
    rw [if_pos hc, if_pos ⟨by omega, h7x, h7y, h7n, Or.inl h0⟩, h0]
    rfl
  · show rd2 C4_NONE (current_state (drop_piece g (real_player player) 2).2).board 2 0 = _
    rw [hb]
    exact rd2_wr2_same _ _ _ _ _ (by rw [hdims.1]; omega) (by rw [hdims.2 2 (by omega)]; omega)

set_option maxRecDepth 100000 in
/-- The statement of `c4_auto_move_opens_in_column_2` for player 0 at level 4 in the new
7x6 game with runs of 4. -/
theorem c4_auto_move_opens_in_column_2_witness :
    ((setup_game 7 6 4).size_x = 7 ∧ (setup_game 7 6 4).size_y = 6 ∧
      (setup_game 7 6 4).num_to_connect = 4) ∧
    (current_state (setup_game 7 6 4)).num_of_pieces = 0 ∧
    ∃ r, c4_auto_move (setup_game 7 6 4) (fun _ => 0) 0 4 0 (some 5) = some r ∧
      r.moved = true ∧ r.column = 2 ∧ r.row = (some (5 : Int)).map (fun _ => (0 : Int)) ∧
      ((setup_game 7 6 4).size_x - 1) / 2 = 3 ∧ rd 0 (setup_game 7 6 4).drop_order 0 = 3 ∧
      r.column + 1 = ((((setup_game 7 6 4).size_x - 1) / 2 : Nat) : Int) ∧
      r.game = (drop_piece (setup_game 7 6 4) (real_player 0) 2).2 ∧
      rd2 C4_NONE (current_state r.game).board 2 0 = real_player 0 ∧
      (∀ x y, x ≠ 2 ∨ y ≠ 0 → rd2 C4_NONE (current_state r.game).board x y = C4_NONE) ∧
      (∀ y, rd2 C4_NONE (current_state r.game).board 3 y = C4_NONE) ∧
      (current_state r.game).num_of_pieces = 1 :=
  ⟨by decide, by decide,
   c4_auto_move_opens_in_column_2 (setup_game 7 6 4) reachable_setup_7x6 (by decide)
     (by decide) (fun _ => 0) 0 4 0 (some 5) (by decide) (by decide)⟩

/-! ## The lists of the map -/

theorem rd_flatMap_range_map {α : Type} (d : α) (a b : Nat) (f : Nat → Nat → α) (L : Nat)
    (hL : L < a * b) :
    rd d ((List.range a).flatMap fun i => (List.range b).map fun j => f i j) L =
      f (L / b) (L % b) := by
  induction a with
  | zero => simp at hL
  | succ a ih =>
    have hb : 0 < b := by
      rcases Nat.eq_zero_or_pos b with h0 | h0
      · rw [h0] at hL; simp at hL
      · exact h0
    rw [List.range_succ, List.flatMap_append]
    have hlen := length_flatMap_range_map a b f
    unfold rd at ih ⊢
    rw [List.getD_eq_getElem?_getD, List.getElem?_append]
    rw [hlen]
    by_cases h1 : L < a * b
    · rw [if_pos h1, ← List.getD_eq_getElem?_getD]
      exact ih h1
    · rw [if_neg h1]
      have h2 : L - a * b < b := by
        have : (a + 1) * b = a * b + b := by ring
        omega
      have hdiv : L / b = a := by
        apply Nat.div_eq_of_lt_le
        · omega
        · have : (a + 1) * b = a * b + b := by ring
          omega
      have hmod : L % b = L - a * b := by
        have := Nat.div_add_mod L b
        rw [hdiv] at this
        have e : b * a = a * b := Nat.mul_comm _ _
        omega
      simp [h2, hdiv, hmod]

theorem flatMap_range_map_eq {α : Type} (a b : Nat) (f : Nat → Nat → α) :
    ((List.range a).flatMap fun i => (List.range b).map fun j => f i j) =
      ((List.range a).flatMap fun i => (List.range b).map fun j => (i, j)).map
        fun ij => f ij.1 ij.2 := by
  rw [List.map_flatMap]
  simp only [List.map_map]
  rfl

theorem countP_flatMap_range_le {α : Type} (a b n : Nat) (f : Nat → Nat → α) (p : α → Bool)
    (g : Nat → Nat × Nat)
    (hg : ∀ i j, i < a → j < b → p (f i j) = true → ∃ k, k < n ∧ (i, j) = g k) :
    ((List.range a).flatMap fun i => (List.range b).map fun j => f i j).countP p ≤ n := by
  rw [flatMap_range_map_eq, List.countP_map, List.countP_eq_length_filter]
  have hnd : (((List.range a).flatMap fun i => (List.range b).map fun j => (i, j)).filter
      (p ∘ fun ij => f ij.1 ij.2)).Nodup :=
    List.Nodup.filter _ (nodup_flatMap_range_map a b (fun i j => (i, j))
      (fun i j i1 j1 _ _ _ _ e => by simpa using e))
  have hsub : (((List.range a).flatMap fun i => (List.range b).map fun j => (i, j)).filter
      (p ∘ fun ij => f ij.1 ij.2)) ⊆ (List.range n).map g := by
    intro ij hij
    rw [List.mem_filter] at hij
    obtain ⟨hmem, hp⟩ := hij
    simp only [List.mem_flatMap, List.mem_map, List.mem_range] at hmem
    obtain ⟨i, hi, j, hj, e⟩ := hmem
    subst e
    obtain ⟨k, hk, e⟩ := hg i j hi hj hp
    exact List.mem_map.mpr ⟨k, List.mem_range.mpr hk, e.symm⟩
  have := (List.subperm_of_subset hnd hsub).length_le
  simpa using this

theorem lines_through_length (lines : List (List (Nat × Nat))) (c : Nat × Nat) :
    (lines_through lines c).length = lines.countP fun l => decide (c ∈ l) := by
  have hl : lines = (List.range lines.length).map (rd [] lines) := by
    apply List.ext_getElem
    · simp
    · intro i h1 h2
      simp [rd, List.getD_eq_getElem?_getD, h1]
  unfold lines_through
  conv_rhs => rw [hl]
  rw [List.countP_map, List.countP_eq_length_filter]
  rfl

theorem lines_through_le (w h n : Nat) (c : Nat × Nat) :
    (lines_through (win_lines w h n) c).length ≤ 4 * n := by
  rw [lines_through_length]
  unfold win_lines
  rw [List.countP_append, List.countP_append, List.countP_append]
  have h1 := countP_flatMap_range_le h (w + 1 - n) n (fun i j => horizontal_line n i j)
    (fun l => decide (c ∈ l)) (fun k => (c.2, c.1 - k)) (by
      intro i j _ _ hp
      simp only [decide_eq_true_eq, horizontal_line, List.mem_map, List.mem_range] at hp
      obtain ⟨k, hk, e⟩ := hp
      refine ⟨k, hk, ?_⟩
      rw [← e]
      simp)
  have h2 := countP_flatMap_range_le w (h + 1 - n) n (fun i j => vertical_line n i j)
    (fun l => decide (c ∈ l)) (fun k => (c.1, c.2 - k)) (by
      intro i j _ _ hp
      simp only [decide_eq_true_eq, vertical_line, List.mem_map, List.mem_range] at hp
      obtain ⟨k, hk, e⟩ := hp
      refine ⟨k, hk, ?_⟩
      rw [← e]
      simp)
  have h3 := countP_flatMap_range_le (h + 1 - n) (w + 1 - n) n
    (fun i j => forward_line n i j)
    (fun l => decide (c ∈ l)) (fun k => (c.2 - k, c.1 - k)) (by
      intro i j _ _ hp
      simp only [decide_eq_true_eq, forward_line, List.mem_map, List.mem_range] at hp
      obtain ⟨k, hk, e⟩ := hp
      refine ⟨k, hk, ?_⟩
      rw [← e]
      simp)
  have h4 := countP_flatMap_range_le (h + 1 - n) (w + 1 - n) n
    (fun i t => backward_line n i (w - 1 - t))
    (fun l => decide (c ∈ l)) (fun k => (c.2 - k, w - 1 - (c.1 + k))) (by
      intro i t _ ht hp
      simp only [decide_eq_true_eq, backward_line, List.mem_map, List.mem_range] at hp
      obtain ⟨k, hk, e⟩ := hp
      refine ⟨k, hk, ?_⟩
      rw [← e]
      simp only [Prod.mk.injEq]
      omega)
  beta_reduce at h1 h2 h3 h4
  omega

theorem rd_append {α : Type} (d : α) (l1 l2 : List α) (L : Nat) :
    rd d (l1 ++ l2) L = if L < l1.length then rd d l1 L else rd d l2 (L - l1.length) := by
  unfold rd
  rw [List.getD_eq_getElem?_getD, List.getElem?_append]
  split_ifs <;> rw [List.getD_eq_getElem?_getD]

theorem lines_through_sorted (lines : List (List (Nat × Nat))) (c : Nat × Nat) :
    List.Pairwise (fun a b => a < b) (lines_through lines c) :=
  List.Pairwise.filter _ (List.pairwise_lt_range _)

theorem new_game_map {g0 g : Game} {width height num : Int}
    (h : c4_new_game g0 width height num = some g) :
    1 ≤ num.toNat ∧ g.size_x = width.toNat ∧ g.size_y = height.toNat ∧
      g.num_to_connect = num.toNat ∧
      g.win_places = (win_lines width.toNat height.toNat num.toNat).length ∧
      ∀ x y, rd2 [] g.map x y =
        if x < width.toNat ∧ y < height.toNat
        then lines_through (win_lines width.toNat height.toNat num.toNat) (x, y) else [] := by
  obtain ⟨e, hgood⟩ := c4_new_game_good g0 g width height num h
  obtain ⟨e1, e2, e3, e4, e5, _⟩ := good_fields hgood
  refine ⟨hgood.hn, e1, e2, e3, e4, ?_⟩
  intro x y
  rw [e5]
  obtain ⟨hd, hm⟩ := setup_game_map width.toNat height.toNat num.toNat hgood.hn
  split_ifs with hxy
  · exact hm x y hxy.1 hxy.2
  · exact rd2_of_not_inside _ hd x y hxy

/-- C33: after `c4_new_game(w, h, n)` the line ids are those of four passes in turn.
With `a = w + 1 - n` and `b = h + 1 - n`: the ids below `h * a` belong to the horizontal
lines, id `L` to the line started at column `L % a` of row `L / a`; the next `w * b`
ids belong to the vertical lines; the next `b * a` ids to the ascending diagonals; the
last `b * a` ids to the descending diagonals, taken from the right. And the list
`map[x][y]` of every cell is strictly increasing, so the loop of `update_score` meets
the ids in ascending order. -/
theorem line_ids_follow_the_passes (g0 g : Game) (w h n : Nat)
    (hnew : c4_new_game g0 (w : Int) (h : Int) (n : Int) = some g) :
    g.size_x = w ∧ g.size_y = h ∧ g.num_to_connect = n ∧
    g.win_places =
      h * (w + 1 - n) + w * (h + 1 - n) + (h + 1 - n) * (w + 1 - n) +
        (h + 1 - n) * (w + 1 - n) ∧
    (∀ (L : Nat) (c : Nat × Nat), L < h * (w + 1 - n) →
      (L ∈ rd2 [] g.map c.1 c.2 ↔
        c ∈ horizontal_line n (L / (w + 1 - n)) (L % (w + 1 - n)))) ∧
    (∀ (L : Nat) (c : Nat × Nat), L < w * (h + 1 - n) →
      (h * (w + 1 - n) + L ∈ rd2 [] g.map c.1 c.2 ↔
        c ∈ vertical_line n (L / (h + 1 - n)) (L % (h + 1 - n)))) ∧
    (∀ (L : Nat) (c : Nat × Nat), L < (h + 1 - n) * (w + 1 - n) →
      (h * (w + 1 - n) + w * (h + 1 - n) + L ∈ rd2 [] g.map c.1 c.2 ↔
        c ∈ forward_line n (L / (w + 1 - n)) (L % (w + 1 - n)))) ∧
    (∀ (L : Nat) (c : Nat × Nat), L < (h + 1 - n) * (w + 1 - n) →
      (h * (w + 1 - n) + w * (h + 1 - n) + (h + 1 - n) * (w + 1 - n) + L ∈
          rd2 [] g.map c.1 c.2 ↔
        c ∈ backward_line n (L / (w + 1 - n)) (w - 1 - L % (w + 1 - n)))) ∧
    (∀ x y, List.Pairwise (fun a b => a < b) (rd2 [] g.map x y)) := by
  obtain ⟨hn, e1, e2, e3, e4, hmap⟩ := new_game_map hnew
  simp only [Int.toNat_ofNat] at hn e1 e2 e3 e4 hmap
  refine ⟨e1, e2, e3, ?_⟩
  rw [e4]
  have hlen := win_lines_length w h n
  have key : ∀ (L : Nat) (c : Nat × Nat) (l : List (Nat × Nat)),
      L < (win_lines w h n).length → rd [] (win_lines w h n) L = l →
      (L ∈ rd2 [] g.map c.1 c.2 ↔ c ∈ l) := by
    intro L c l hL hl
    have hline : rd [] (win_lines w h n) L ∈ win_lines w h n := by
      rw [rd_eq_getElem _ _ _ hL]
      exact List.get_mem _ _ _
    rw [hmap c.1 c.2]
    split_ifs with hc
    · rw [mem_lines_through, hl]
      exact ⟨fun hh => hh.2, fun hh => ⟨hL, hh⟩⟩
    · constructor
      · intro hh
        simp at hh
      · intro hh
        exfalso
        rw [← hl] at hh
        exact hc (win_lines_in_board hn hline hh)
  have l1 := length_flatMap_range_map h (w + 1 - n) (fun i j => horizontal_line n i j)
  have l2 := length_flatMap_range_map w (h + 1 - n) (fun i j => vertical_line n i j)
  have l3 := length_flatMap_range_map (h + 1 - n) (w + 1 - n) (fun i j => forward_line n i j)
  refine ⟨by rw [hlen]; ring, ?_, ?_, ?_, ?_, ?_⟩
  · intro L c hL
    apply key L c _ (by rw [hlen]; omega)
    unfold win_lines
    rw [rd_append, rd_append, rd_append]
    simp only [List.length_append, l1, l2, l3]
    rw [if_pos (by omega), if_pos (by omega), if_pos hL]
    exact rd_flatMap_range_map [] h (w + 1 - n) (fun i j => horizontal_line n i j) L hL
  · intro L c hL
    apply key _ c _ (by rw [hlen]; omega)
    unfold win_lines
    rw [rd_append, rd_append, rd_append]
    simp only [List.length_append, l1, l2, l3]
    rw [if_pos (by omega), if_pos (by omega), if_neg (by omega)]
    rw [show h * (w + 1 - n) + L - h * (w + 1 - n) = L by omega]
    exact rd_flatMap_range_map [] w (h + 1 - n) (fun i j => vertical_line n i j) L hL
  · intro L c hL
    apply key _ c _ (by rw [hlen]; omega)
    unfold win_lines
    rw [rd_append, rd_append]
    simp only [List.length_append, l1, l2, l3]
    rw [if_pos (by omega), if_neg (by omega)]
    rw [show h * (w + 1 - n) + w * (h + 1 - n) + L -
      (h * (w + 1 - n) + w * (h + 1 - n)) = L by omega]
    exact rd_flatMap_range_map [] (h + 1 - n) (w + 1 - n) (fun i j => forward_line n i j) L hL
  · intro L c hL
    apply key _ c _ (by rw [hlen]; omega)
    unfold win_lines
    rw [rd_append]
    simp only [List.length_append, l1, l2, l3]
    rw [if_neg (by omega)]
    rw [show h * (w + 1 - n) + w * (h + 1 - n) + (h + 1 - n) * (w + 1 - n) + L -
      (h * (w + 1 - n) + w * (h + 1 - n) + (h + 1 - n) * (w + 1 - n)) = L by omega]
    exact rd_flatMap_range_map [] (h + 1 - n) (w + 1 - n)
      (fun i t => backward_line n i (w - 1 - t)) L hL
  · intro x y
    rw [hmap x y]
    split_ifs
    · exact lines_through_sorted _ _
    · exact List.Pairwise.nil

set_option maxRecDepth 100000 in
/-- The statement of `line_ids_follow_the_passes` for `c4_new_game(7, 6, 4)`, whose 69
lines are 24 horizontal, 21 vertical, 12 ascending and 12 descending ones. -/
theorem line_ids_follow_the_passes_witness :
    c4_new_game no_game ((7 : Nat) : Int) ((6 : Nat) : Int) ((4 : Nat) : Int) =
      some (setup_game 7 6 4) ∧
    (setup_game 7 6 4).win_places = 69 ∧
    ((setup_game 7 6 4).size_x = 7 ∧ (setup_game 7 6 4).size_y = 6 ∧
    (setup_game 7 6 4).num_to_connect = 4 ∧
    (setup_game 7 6 4).win_places =
      6 * (7 + 1 - 4) + 7 * (6 + 1 - 4) + (6 + 1 - 4) * (7 + 1 - 4) +
        (6 + 1 - 4) * (7 + 1 - 4) ∧
    (∀ (L : Nat) (c : Nat × Nat), L < 6 * (7 + 1 - 4) →
      (L ∈ rd2 [] (setup_game 7 6 4).map c.1 c.2 ↔
        c ∈ horizontal_line 4 (L / (7 + 1 - 4)) (L % (7 + 1 - 4)))) ∧
    (∀ (L : Nat) (c : Nat × Nat), L < 7 * (6 + 1 - 4) →
      (6 * (7 + 1 - 4) + L ∈ rd2 [] (setup_game 7 6 4).map c.1 c.2 ↔
        c ∈ vertical_line 4 (L / (6 + 1 - 4)) (L % (6 + 1 - 4)))) ∧
    (∀ (L : Nat) (c : Nat × Nat), L < (6 + 1 - 4) * (7 + 1 - 4) →
      (6 * (7 + 1 - 4) + 7 * (6 + 1 - 4) + L ∈ rd2 [] (setup_game 7 6 4).map c.1 c.2 ↔
        c ∈ forward_line 4 (L / (7 + 1 - 4)) (L % (7 + 1 - 4)))) ∧
    (∀ (L : Nat) (c : Nat × Nat), L < (6 + 1 - 4) * (7 + 1 - 4) →
      (6 * (7 + 1 - 4) + 7 * (6 + 1 - 4) + (6 + 1 - 4) * (7 + 1 - 4) + L ∈
          rd2 [] (setup_game 7 6 4).map c.1 c.2 ↔
        c ∈ backward_line 4 (L / (7 + 1 - 4)) (7 - 1 - L % (7 + 1 - 4)))) ∧
    (∀ x y, List.Pairwise (fun a b => a < b) (rd2 [] (setup_game 7 6 4).map x y))) :=
  ⟨by decide, by decide,
    line_ids_follow_the_passes no_game (setup_game 7 6 4) 7 6 4 (by decide)⟩

/-! ## The rule-based move -/

theorem rule_loop_frame (ev : Game → Option (Int × List Int)) (rp : Nat) (cols : List Nat) :
    ∀ (ruleflag : List Int) (ruleOfCol : List (List Int)) (g : Game)
      (r : List Int × List (List Int) × Game),
      rule_loop ev rp cols ruleflag ruleOfCol g = some r → Frame g r.2.2 := by
  induction cols with
  | nil =>
    intro ruleflag ruleOfCol g r h
    simp only [rule_loop, Option.some.injEq] at h
    rw [← h]
    exact frame_refl g
  | cons i rest ih =>
    intro ruleflag ruleOfCol g r h
    unfold rule_loop at h
    by_cases hi : i < g.size_x
    · rw [if_pos hi] at h
      simp only at h
      have hf : Frame g (pop_state (drop_piece (push_state g) rp i).2) :=
        frame_push_drop_pop g _ rp i (frame_refl _)
      by_cases hfull : (drop_piece (push_state g) rp i).1 = -1
      · rw [if_pos hfull] at h
        exact frame_trans hf (ih _ _ _ _ h)
      · rw [if_neg hfull] at h
        split at h
        · exact absurd h (by simp)
        · exact frame_trans hf (ih _ _ _ _ h)
    · rw [if_neg hi] at h
      exact absurd h (by simp)

theorem rule_max_column (ruleflag : List Int) (cols : List Nat) :
    ∀ m : Int × Int, (rule_max ruleflag cols m).2 = m.2 ∨
      ∃ i, i ∈ cols ∧ (rule_max ruleflag cols m).2 = (i : Int) := by
  induction cols with
  | nil => intro m; exact Or.inl rfl
  | cons i rest ih =>
    intro m
    unfold rule_max
    split_ifs
    · rcases ih (rd 0 ruleflag i, (i : Int)) with h | ⟨k, hk, h⟩
      · exact Or.inr ⟨i, List.mem_cons_self _ _, h⟩
      · exact Or.inr ⟨k, List.mem_cons_of_mem _ hk, h⟩
    · rcases ih m with h | ⟨k, hk, h⟩
      · exact Or.inl h
      · exact Or.inr ⟨k, List.mem_cons_of_mem _ hk, h⟩

theorem apply_rule_with_result (ev : Game → Option (Int × List Int)) (g : Game)
    (ruleOfCol : List (List Int)) (player : Int) (row : Option Int) (r : Rule_result)
    (h : apply_rule_with ev g ruleOfCol player row = some r) (hs : Stack_ok g) :
    statics r.game = statics g ∧ r.game.depth = g.depth ∧
    r.game.move_in_progress = false ∧ g.move_in_progress = false ∧ Stack_ok r.game ∧
    ∃ c, c < g.size_x ∧ r.column = (c : Int) ∧
      current_state r.game = (drop_piece_on g (current_state g) (real_player player) c).2 ∧
      r.row = row.map (fun _ =>
        if (current_state g).num_of_pieces < 4 then ((current_state g).num_of_pieces : Int)
        else (drop_piece_on g (current_state g) (real_player player) c).1) := by
  unfold apply_rule_with at h
  split_ifs at h with hpre hfirst hx2 hsecond hx3
  · -- no piece on the board
    simp only [Option.some.injEq] at h
    rw [← h]
    obtain ⟨a, b, c, d, _, f⟩ := drop_piece_fields g (real_player player) 2
    have hm : g.move_in_progress = false := by
      have := hpre.2
      simpa using this
    refine ⟨a, c, by rw [b, hm], hm, (f hs).1, 2, hx2, rfl, (f hs).2, ?_⟩
    simp only
    rw [if_pos (by omega)]
  · -- one to three pieces on the board
    simp only [Option.some.injEq] at h
    rw [← h]
    obtain ⟨a, b, c, d, _, f⟩ := drop_piece_fields g (real_player player) 3
    have hm : g.move_in_progress = false := by
      have := hpre.2
      simpa using this
    refine ⟨a, c, by rw [b, hm], hm, (f hs).1, 3, hx3, rfl, (f hs).2, ?_⟩
    simp only
    rw [if_pos hsecond]
  · -- the rules
    simp only at h
    split at h
    · exact absurd h (by simp)
    · rename_i ruleflag1 ruleOfCol1 g1 hl
      have hm : g.move_in_progress = false := by
        have := hpre.2
        simpa using this
      obtain ⟨f1, f2, f3, f4, f5⟩ := rule_loop_frame _ _ _ _ _ _ _ hl
      have f2 : g1.move_in_progress = g.move_in_progress := f2
      have f3 : g1.depth = g.depth := f3
      have f4 : g.state_stack.length ≤ g1.state_stack.length := f4
      have f5 : ∀ i, i ≤ g.depth → rd default g1.state_stack i = rd default g.state_stack i :=
        f5
      have f1 : statics g1 = statics g := f1
      have hso : Stack_ok g1 := by
        unfold Stack_ok at hs ⊢
        rw [f3]
        omega
      have hcs : current_state g1 = current_state g := by
        unfold current_state
        rw [f3]
        exact f5 g.depth (le_refl _)
      split_ifs at h with hcol
      simp only [Option.some.injEq] at h
      rw [← h]
      obtain ⟨a, b, c, d, _, f⟩ := drop_piece_fields g1 (real_player player)
        (rule_max ruleflag1 (List.range 7) (-300001, -100000)).2.toNat
      refine ⟨a.trans f1, by rw [c]; exact f3, by rw [b, f2, hm], hm, (f hso).1,
        (rule_max ruleflag1 (List.range 7) (-300001, -100000)).2.toNat, by omega, ?_, ?_, ?_⟩
      · simp only
        omega
      · rw [(f hso).2, hcs, drop_piece_on_congr f1]
      · simp only
        rw [if_neg hsecond]
        congr 1
        funext _
        show (drop_piece_on g1 (current_state g1) (real_player player) _).1 = _
        rw [hcs, drop_piece_on_congr f1]

theorem reachable_with_rules_good (g : Game) (hr : Reachable_with_rules g) :
    ∃ w h n, Good g w h n ∧ g.depth = 0 ∧ g.move_in_progress = false := by
  induction hr with
  | new_game g0 g width height num hnew =>
    exact reachable_good g (Reachable.new_game g0 g width height num hnew)
  | make_move g player column row r _ hmove ih =>
    obtain ⟨w, h, n, hg, hd, hm⟩ := ih
    unfold c4_make_move at hmove
    split_ifs at hmove with h1 h2
    · simp only [Option.some.injEq] at hmove
      rw [← hmove]
      exact ⟨w, h, n, hg, hd, hm⟩
    · simp only [Option.some.injEq] at hmove
      rw [← hmove]
      obtain ⟨a, b, c, d, _, f⟩ := drop_piece_fields g (real_player player) column.toNat
      refine ⟨w, h, n, ?_, by simp only; rw [c, hd], by simp only; rw [b, hm]⟩
      exact good_of_frame_drop hg _ a (f hg.hstack).1 _ _ (real_player_lt player) (by omega)
        (f hg.hstack).2
  | auto_move g rand player level column row r _ hauto ih =>
    obtain ⟨w, h, n, hg, hd, hm⟩ := ih
    obtain ⟨a, b, c, d, e⟩ := c4_auto_move_result g rand player level column row r hauto
      hg.hstack (good_order hg)
    refine ⟨w, h, n, ?_, by rw [b, hd], c⟩
    rcases e with ⟨_, e⟩ | ⟨_, col, hcol, _, e⟩
    · refine ⟨hg.hw, hg.hh, hg.hn, hg.hW, a.trans hg.hst, d, ?_⟩
      rw [e]
      exact hg.hplayed
    · exact good_of_frame_drop hg _ a d _ _ (real_player_lt player) hcol e
  | apply_rule g ev ruleOfCol player row r _ hrule ih =>
    obtain ⟨w, h, n, hg, hd, hm⟩ := ih
    obtain ⟨a, b, c, _, d, col, hcol, _, e, _⟩ := apply_rule_with_result ev g ruleOfCol player
      row r hrule hg.hstack
    exact ⟨w, h, n, good_of_frame_drop hg _ a d _ _ (real_player_lt player) hcol e,
      by rw [b, hd], c⟩

set_option maxRecDepth 100000 in
theorem reachable_with_rules_7x6 : Reachable_with_rules (drop_piece game_7x6_first 1 3).2 :=
  Reachable_with_rules.apply_rule game_7x6_first eval_rule [] 1 none
    { column := 3, row := none, game := (drop_piece game_7x6_first 1 3).2,
      ruleflag := [5, 6, 7, 8, 7, 6, 5], ruleOfCol := [] }
    (Reachable_with_rules.make_move (setup_game 7 6 4) 0 0 none (true, none, game_7x6_first)
      (Reachable_with_rules.new_game no_game (setup_game 7 6 4) 7 6 4 (by decide))
      (by decide))
    (by decide)

/-- C34: after every call of `c4_new_game`, `c4_make_move`, `c4_auto_move` or
`apply_rule` that returns, in every order and whatever `eval_rule` computes, a game is
in progress, `move_in_progress` is false and `depth` is 0, so `current_state` is slot
0 of the stack, which is what `c4_score_of_player`, `c4_is_winner`, `c4_is_tie` and
`c4_board` read. -/
theorem public_calls_end_at_slot_0 (g : Game) (hg : Reachable_with_rules g) :
    g.game_in_progress = true ∧ g.move_in_progress = false ∧ g.depth = 0 ∧
    current_state g = rd default g.state_stack 0 ∧
    (∀ player : Int, c4_score_of_player g player =
      some (rd 0 (rd default g.state_stack 0).score (real_player player))) ∧
    (∀ player : Int, c4_is_winner g player =
      some (decide ((rd default g.state_stack 0).winner = real_player player))) ∧
    c4_is_tie g =
      some (decide ((rd default g.state_stack 0).num_of_pieces = g.total_size ∧
        (rd default g.state_stack 0).winner = C4_NONE)) ∧
    c4_board g = some (rd default g.state_stack 0).board := by
  obtain ⟨w, h, n, hgood, hd, hm⟩ := reachable_with_rules_good g hg
  have hin : g.game_in_progress = true := (statics_fields hgood.hst).2.2.2.2.2.2.2.1
  have hcs : current_state g = rd default g.state_stack 0 := by
    unfold current_state
    rw [hd]
  refine ⟨hin, hm, hd, hcs, ?_, ?_, ?_, ?_⟩
  · intro player
    unfold c4_score_of_player
    rw [if_pos hin, hcs]
  · intro player
    unfold c4_is_winner
    rw [if_pos hin, hcs]
  · unfold c4_is_tie
    rw [if_pos hin, hcs]
  · unfold c4_board
    rw [if_pos hin, hcs]

set_option maxRecDepth 100000 in
/-- The statement of `public_calls_end_at_slot_0` after `c4_new_game(7, 6, 4)`,
`c4_make_move(0, 0, NULL)` and `apply_rule(1, &column, NULL)`, which plays column 3. -/
theorem public_calls_end_at_slot_0_witness :
    apply_rule game_7x6_first [] 1 none =
      some { column := 3, row := none, game := (drop_piece game_7x6_first 1 3).2,
             ruleflag := [5, 6, 7, 8, 7, 6, 5], ruleOfCol := [] } ∧
    ((drop_piece game_7x6_first 1 3).2.game_in_progress = true ∧
    (drop_piece game_7x6_first 1 3).2.move_in_progress = false ∧
    (drop_piece game_7x6_first 1 3).2.depth = 0 ∧
    current_state (drop_piece game_7x6_first 1 3).2 =
      rd default (drop_piece game_7x6_first 1 3).2.state_stack 0 ∧
    (∀ player : Int, c4_score_of_player (drop_piece game_7x6_first 1 3).2 player =
      some (rd 0 (rd default (drop_piece game_7x6_first 1 3).2.state_stack 0).score
        (real_player player))) ∧
    (∀ player : Int, c4_is_winner (drop_piece game_7x6_first 1 3).2 player =
      some (decide ((rd default (drop_piece game_7x6_first 1 3).2.state_stack 0).winner =
        real_player player))) ∧
    c4_is_tie (drop_piece game_7x6_first 1 3).2 =
      some (decide
        ((rd default (drop_piece game_7x6_first 1 3).2.state_stack 0).num_of_pieces =
          (drop_piece game_7x6_first 1 3).2.total_size ∧
        (rd default (drop_piece game_7x6_first 1 3).2.state_stack 0).winner = C4_NONE)) ∧
    c4_board (drop_piece game_7x6_first 1 3).2 =
      some (rd default (drop_piece game_7x6_first 1 3).2.state_stack 0).board) :=
  ⟨by decide,
    public_calls_end_at_slot_0 (drop_piece game_7x6_first 1 3).2 reachable_with_rules_7x6⟩

set_option maxRecDepth 100000 in
/-- C39 (the code at the failing input): in the 7x6 game with runs of 4, after
`c4_make_move(0, 0, NULL)` one piece is on the board; `apply_rule(1, &column, &row)`
takes the branch for fewer than 4 pieces and ends with `*column == 3` and
`*row == 1`, the number of pieces, while the piece it dropped is in the cell `(3, 0)`
and the cell `(3, 1)` is empty. -/
theorem apply_rule_reports_a_wrong_row :
    c4_new_game no_game 7 6 4 = some (setup_game 7 6 4) ∧
    c4_make_move (setup_game 7 6 4) 0 0 none = some (true, none, game_7x6_first) ∧
    (current_state game_7x6_first).num_of_pieces = 1 ∧
    (∀ (ruleOfCol : List (List Int)) (row : Int),
      apply_rule game_7x6_first ruleOfCol 1 (some row) =
        some { column := 3, row := some 1, game := (drop_piece game_7x6_first 1 3).2,
               ruleflag := [5, 6, 7, 8, 7, 6, 5], ruleOfCol := ruleOfCol }) ∧
    (drop_piece game_7x6_first 1 3).1 = 0 ∧
    rd2 C4_NONE (current_state (drop_piece game_7x6_first 1 3).2).board 3 0 = 1 ∧
    rd2 C4_NONE (current_state (drop_piece game_7x6_first 1 3).2).board 3 1 = C4_NONE :=
  ⟨by decide, by decide, by decide, fun _ _ => rfl, by decide, by decide, by decide⟩

set_option maxRecDepth 100000 in
/-- C40 (the code at the failing input): in the 7x6 game with runs of 4, after the
players moved in column 3 in turn, twice each, `apply_rule(1, ..)` tries column 0
first: after `push_state()` and `drop_piece(1, 0)` the cell `(0, 0)` holds 1 and
`eval_rule` is called. In the first pass of its loops (`i == 0`, `j == 0`) the test
`i == 0 && board[i][j] == 1 && board[i + 1][j - 1] == 1` of line 2172 reads
`board[1][-1]`, which is outside the board: no result. Were the reads outside the
board to yield `C4_NONE`, `eval_rule` would return; as it is, `apply_rule` has no
result. -/
theorem eval_rule_reads_outside_the_board :
    Reachable game_7x6_four ∧
    (game_7x6_four.size_x = 7 ∧ game_7x6_four.size_y = 6 ∧
      (current_state game_7x6_four).num_of_pieces = 4) ∧
    rd2 C4_NONE (current_state game_7x6_try).board 0 0 = 1 ∧
    board_at game_7x6_try 0 0 = some 1 ∧
    board_at game_7x6_try (0 + 1) (0 - 1) = none ∧
    c_all [c_test ((0 : Int) = 0), c_eq (board_at game_7x6_try 0 0) 1,
      c_eq (board_at game_7x6_try (0 + 1) (0 - 1)) 1] = none ∧
    (c_block [eval_rule_1 (board_at game_7x6_try) 0 0, eval_rule_2 (board_at game_7x6_try) 0 0,
      eval_rule_3 (board_at game_7x6_try) 0 0, eval_rule_4 (board_at game_7x6_try) 0 0,
      eval_rule_5 (board_at game_7x6_try) 0 0, eval_rule_6 (board_at game_7x6_try) 0 0,
      eval_rule_7 (board_at game_7x6_try) 0 0]
        { score := 0, rule := List.replicate 8 0 }).isSome = true ∧
    eval_rule_8 (board_at game_7x6_try) 0 0 { score := 0, rule := List.replicate 8 0 } = none ∧
    eval_rule game_7x6_try = none ∧
    (eval_rule_on fun a b => some ((board_at game_7x6_try a b).getD C4_NONE)).isSome = true ∧
    (∀ (ruleOfCol : List (List Int)) (row : Option Int),
      apply_rule game_7x6_four ruleOfCol 1 row = none) := by
  have hr : Reachable game_7x6_four := reachable_play _ _ reachable_setup_7x6 (by decide)
  exact ⟨hr, by decide, by decide, by decide, by decide, by decide, by decide, by decide,
    by decide, by decide, fun _ _ => rfl⟩

end C4
